import Mathlib

/-!
# PanCheck: link parsing, cache TTL, negative store and dispatcher

A shallow embedding of the parts of the PanCheck validation pipeline
(`pkg/validator`, `pkg/cache`, `internal/repository`, `internal/service`)
together with theorems about them.

Conventions of the embedding

* A Go `string` holding text is a `List Char` (the inputs are taken to be valid
  UTF-8, so that the byte-wise trimming of ASCII blanks and the rune-wise
  matching of `regexp` both act on the same sequence of code points).
* A Go `map` that the code ranges over has no iteration order of its own: the
  order used by one `range` loop is an explicit argument of the embedding.
* `regexp.MatchString` is embedded by a derivative matcher over a small
  regular-expression syntax; the nine provider patterns are written in it.
-/

namespace PanCheck

/-! ## internal/model/platform.go -/

/-- Platform: the provider tag of a link (`model.Platform`). -/
inductive Platform
  | PlatformUnknown
  | PlatformQuark
  | PlatformUC
  | PlatformBaidu
  | PlatformTianyi
  | PlatformPan123
  | PlatformPan115
  | PlatformAliyun
  | PlatformXunlei
  | PlatformCMCC
  deriving DecidableEq, Repr

open Platform

/-- AllPlatforms: the nine supported providers (`model.AllPlatforms`). -/
def AllPlatforms : List Platform :=
  [PlatformQuark, PlatformUC, PlatformBaidu, PlatformTianyi, PlatformPan123,
   PlatformPan115, PlatformAliyun, PlatformXunlei, PlatformCMCC]

/-! ## Regular expressions (the fragment of Go `regexp` used by the validator) -/

/-- Regex: regular expressions whose atoms are predicates on one code point. -/
inductive Regex
  | empty : Regex
  | eps : Regex
  | sym : (Char → Bool) → Regex
  | seq : Regex → Regex → Regex
  | alt : Regex → Regex → Regex
  | star : Regex → Regex

namespace Regex

/-- nullable: the expression accepts the empty string. -/
def nullable : Regex → Bool
  | empty => false
  | eps => true
  | sym _ => false
  | seq a b => nullable a && nullable b
  | alt a b => nullable a || nullable b
  | star _ => true

/-- mkSeq: concatenation that absorbs a dead or empty left factor. -/
def mkSeq : Regex → Regex → Regex
  | empty, _ => empty
  | eps, b => b
  | a, b => seq a b

/-- mkAlt: alternation that drops a dead branch. -/
def mkAlt : Regex → Regex → Regex
  | empty, b => b
  | a, empty => a
  | a, b => alt a b

/-- deriv: the Brzozowski derivative by one code point. -/
def deriv : Regex → Char → Regex
  | empty, _ => empty
  | eps, _ => empty
  | sym p, c => if p c then eps else empty
  | seq a b, c =>
      if nullable a then mkAlt (mkSeq (deriv a c) b) (deriv b c) else mkSeq (deriv a c) b
  | alt a b, c => mkAlt (deriv a c) (deriv b c)
  | star a, c => mkSeq (deriv a c) (star a)

/-- derivs: the derivative by a whole string. -/
def derivs (r : Regex) (w : List Char) : Regex := w.foldl deriv r

/-- isEmpty: the expression is literally the dead expression. -/
def isEmpty : Regex → Bool
  | empty => true
  | _ => false

/-- nullableAlong: some proper prefix of the string (the empty one included)
leads to a nullable derivative. -/
def nullableAlong : Regex → List Char → Bool
  | _, [] => false
  | r, c :: w => nullable r || nullableAlong (deriv r c) w

/-- deadAfter: reading the string leads to the dead expression without passing
through a nullable one. -/
def deadAfter (r : Regex) (w : List Char) : Bool :=
  !nullableAlong r w && (derivs r w).isEmpty

/-- allTailsDead: `deadAfter` holds for the string and for each of its
non-empty suffixes. -/
def allTailsDead (r : Regex) : List Char → Bool
  | [] => true
  | c :: w => deadAfter r (c :: w) && allTailsDead r w

/-- matchPrefix: some prefix of the string is in the language (a pattern
anchored with `^`). -/
def matchPrefix : Regex → List Char → Bool
  | r, [] => nullable r
  | r, c :: cs => !isEmpty r && (nullable r || matchPrefix (deriv r c) cs)

/-- MatchString: some substring is in the language (`(*Regexp).MatchString`
of an unanchored pattern). -/
def MatchString : Regex → List Char → Bool
  | r, [] => nullable r
  | r, c :: cs => matchPrefix r (c :: cs) || MatchString r cs

/-- opt: `x?`. -/
def opt (r : Regex) : Regex := alt eps r

/-- plus: `x+`. -/
def plus (r : Regex) : Regex := seq r (star r)

/-- simpleFold: the case orbit of an ASCII code point under Go's
`unicode.SimpleFold`: a letter folds to its other case, `k` also to U+212A
(Kelvin sign) and `s` also to U+017F (long s). -/
def simpleFold (a : Char) : List Char :=
  (if a.isLower then [a, a.toUpper] else if a.isUpper then [a, a.toLower] else [a]) ++
  (if a = 'k' ∨ a = 'K' then [Char.ofNat 0x212A] else []) ++
  (if a = 's' ∨ a = 'S' then [Char.ofNat 0x17F] else [])

/-- lit: one literal code point under the flag `(?i)`. -/
def lit (a : Char) : Regex := sym (fun c => (simpleFold a).contains c)

/-- str: a literal string under the flag `(?i)`. -/
def str : List Char → Regex
  | [] => eps
  | [a] => lit a
  | a :: as => seq (lit a) (str as)

/-- litExact: one literal code point, case-sensitive. -/
def litExact (a : Char) : Regex := sym (fun c => c == a)

/-- alnumFold: the class `[a-zA-Z0-9]` under `(?i)` (the folded class also
holds U+017F and U+212A). -/
def alnumFold (c : Char) : Bool :=
  c.isAlphanum || c == Char.ofNat 0x17F || c == Char.ofNat 0x212A

/-- alts: alternation of a non-empty list of expressions. -/
def alts : List Regex → Regex
  | [] => empty
  | [r] => r
  | r :: rs => alt r (alts rs)

end Regex

open Regex

/-- scheme: the optional prefix `(?:https?://)?` of every provider pattern. -/
def scheme : Regex :=
  opt (seq (str "http".toList) (seq (opt (lit 's')) (str "://".toList)))

/-- hosts: an alternation of literal host names. -/
def hosts (hs : List String) : Regex := alts (hs.map (fun h => str h.toList))

/-- patterns: the map literal of `ParseLink`, key by key. `PlatformUnknown` is
not a key. -/
def patterns : Platform → Option Regex
  | PlatformUnknown => none
  | PlatformQuark =>
      some (seq scheme (seq (hosts ["pan.quark.cn", "quark.cn", "pan.qoark.cn"])
        (seq (str "/s/".toList) (plus (sym alnumFold)))))
  | PlatformUC =>
      some (seq scheme (seq (hosts ["drive.uc.cn", "yun.uc.cn", "uc.cn"])
        (seq (str "/s/".toList) (plus (sym alnumFold)))))
  | PlatformBaidu =>
      some (seq scheme (seq (hosts ["pan.baidu.com"])
        (seq (str "/s/".toList)
          (plus (sym (fun c => alnumFold c || c == '_' || c == '-'))))))
  | PlatformTianyi =>
      some (seq scheme (seq (hosts ["cloud.189.cn", "h5.cloud.189.cn"])
        (seq (lit '/')
          (alts [seq (str "t/".toList) (plus (sym alnumFold)),
                 seq (str "web/share?code=".toList) (plus (sym alnumFold)),
                 seq (str "share.html#/t/".toList) (plus (sym alnumFold))]))))
  | PlatformPan123 =>
      some (seq scheme (seq (hosts ["123pan.com", "123pan.cn", "123684.com",
            "123685.com", "123912.com", "123592.com", "123865.com"])
        (seq (str "/s/".toList) (plus (sym (fun c => alnumFold c || c == '-'))))))
  | PlatformPan115 =>
      some (seq scheme (seq (hosts ["115.com", "115cdn.com", "anxia.com"])
        (seq (str "/s/".toList) (plus (sym alnumFold)))))
  | PlatformAliyun =>
      some (seq scheme (seq (hosts ["www.aliyundrive.com", "aliyundrive.com",
            "www.alipan.com"])
        (seq (str "/s/".toList) (plus (sym alnumFold)))))
  | PlatformXunlei =>
      some (seq scheme (seq (hosts ["pan.xunlei.com"])
        (seq (str "/s/".toList)
          (plus (sym (fun c => alnumFold c || c == '_' || c == '-'))))))
  | PlatformCMCC =>
      some (seq scheme (seq (hosts ["yun.139.com/shareweb/#/w/i/", "caiyun.139.com/m/i?"])
        (plus (sym alnumFold))))

/-! ## pkg/validator/link_validator.go -/

/-- LinkInfo: the result of parsing one candidate. -/
structure LinkInfo where
  Link : List Char
  Platform : Platform
  deriving DecidableEq

/-- isTrimByte: the four bytes removed by the validator's own `trimSpace`. -/
def isTrimByte (c : Char) : Bool :=
  c == ' ' || c == '\t' || c == '\n' || c == '\r'

/-- trimSpace: drop the leading and trailing blanks (`s[start:end]` after the
two loops). -/
def trimSpace (s : List Char) : List Char :=
  (s.dropWhile isTrimByte).rdropWhile isTrimByte

/-- schemeStrict: the body of the case-sensitive pattern `^https?://` of
`normalizeLink` (the anchor is rendered by `matchPrefix`). -/
def schemeStrict : Regex :=
  seq (litExact 'h') (seq (litExact 't') (seq (litExact 't') (seq (litExact 'p')
    (seq (opt (litExact 's')) (seq (litExact ':') (seq (litExact '/') (litExact '/')))))))

/-- normalizeLink: prepend `https://` unless the link starts with `http://` or
`https://`. -/
def normalizeLink (link : List Char) : List Char :=
  if !matchPrefix schemeStrict link then "https://".toList ++ link else link

/-- matchesPlatform: the test `pattern.MatchString(link)` for the pattern stored
under one key of the map. -/
def matchesPlatform (link : List Char) (p : Platform) : Bool :=
  match patterns p with
  | some r => MatchString r link
  | none => false

/-- ParseLink: classify one candidate. `order` is the order in which this call's
`range patterns` visits the keys of the map. -/
def ParseLink (order : List Platform) (link : List Char) : LinkInfo :=
  let link := trimSpace link
  if link = [] then
    { Link := link, Platform := PlatformUnknown }
  else
    match order.find? (matchesPlatform link) with
    | some platform => { Link := normalizeLink link, Platform := platform }
    | none => { Link := link, Platform := PlatformUnknown }

/-- ParseLinks: parse a batch and keep the recognised candidates. `order` gives
the visiting order used by the call made for each candidate. -/
def ParseLinks (order : List Char → List Platform) (links : List (List Char)) :
    List LinkInfo :=
  (links.map (fun link => ParseLink (order link) link)).filter
    (fun info => info.Platform != PlatformUnknown)

/-! ## internal/checker/interface.go -/

/-- CheckResult: the outcome of one probe. `Duration` is in milliseconds. -/
structure CheckResult where
  Valid : Bool
  FailureReason : String
  Duration : Int
  IsRateLimited : Bool
  deriving DecidableEq

/-! ## pkg/cache/cache.go -/

/-- wrapInt64: the value of an `int64` computation that came out as `n`. -/
def wrapInt64 (n : Int) : Int := (n + 2 ^ 63) % 2 ^ 64 - 2 ^ 63

/-- Hour: `time.Hour`, in nanoseconds. -/
def Hour : Int := 3600000000000

/-- hours: the duration `time.Duration(n) * time.Hour`. -/
def hours (n : Int) : Int := wrapInt64 (n * Hour)

/-- CacheEntry: one key of the Redis store with its value and the TTL it was
written with. -/
structure CacheEntry where
  key : List Char
  val : CheckResult
  ttl : Int
  deriving DecidableEq

/-- redisCacheRepository: the cache repository. `enabled` stands for
`r.enabled && r.client != nil`; `entries` is the content of the Redis store (the
entries that have not expired). -/
structure redisCacheRepository where
  enabled : Bool
  entries : List CacheEntry

/-- cacheKey: `fmt.Sprintf("link:check:%s", link)`. -/
def cacheKey (link : List Char) : List Char := "link:check:".toList ++ link

namespace redisCacheRepository

/-- IsEnabled: the cache is in use. -/
def IsEnabled (r : redisCacheRepository) : Bool := r.enabled

/-- Get: the cached outcome of a link, `none` on a miss or when the cache is
disabled. -/
def Get (r : redisCacheRepository) (link : List Char) : Option CheckResult :=
  if !r.IsEnabled then none
  else (r.entries.find? (fun e => e.key = cacheKey link)).map (fun e => e.val)

/-- setTTL: the TTL computed by `Set` before it writes. -/
def setTTL (result : CheckResult) (platform : Platform) (invalidTTL : Int)
    (platformTTLMap : Platform → Option Int) : Int :=
  if result.Valid then
    match platformTTLMap platform with
    | some ttlHours => if ttlHours > 0 then hours ttlHours else hours 24
    | none => hours 24
  else
    if invalidTTL > 0 then hours invalidTTL else hours 168

/-- Set: write the outcome of a link under its key with the computed TTL; no
write when the cache is disabled. -/
def Set (r : redisCacheRepository) (link : List Char) (result : CheckResult)
    (platform : Platform) (invalidTTL : Int) (platformTTLMap : Platform → Option Int) :
    redisCacheRepository :=
  if !r.IsEnabled then r
  else
    { r with entries :=
        { key := cacheKey link, val := result,
          ttl := setTTL result platform invalidTTL platformTTLMap } ::
        r.entries.filter (fun e => e.key ≠ cacheKey link) }

end redisCacheRepository

/-! ## internal/model/invalid_link.go, internal/repository/invalid_link_repository.go -/

/-- InvalidLink: one row of the table `invalid_links` (the primary key and the
creation time are left out). `Link` carries a unique index. -/
structure InvalidLink where
  Link : List Char
  Platform : Platform
  FailureReason : String
  CheckDuration : Option Int
  IsRateLimited : Bool
  SubmissionID : Option Nat
  deriving DecidableEq

namespace InvalidLinkRepository

/-- FindByLinks: the rows whose link is in the list (`link IN ?`). -/
def FindByLinks (rows : List InvalidLink) (links : List (List Char)) : List InvalidLink :=
  rows.filter (fun r => links.contains r.Link)

/-- Exists: some row has this link and is not rate-limited
(`link = ? AND is_rate_limited = false`, `count > 0`). -/
def Exists (rows : List InvalidLink) (link : List Char) : Bool :=
  (rows.filter (fun r => r.Link = link ∧ r.IsRateLimited = false)).length > 0

/-- CreateOrUpdate: insert the row when its link is new, otherwise refresh the
stored row's reason, duration and rate-limit flag, and its submission id when
the new row carries one. -/
def CreateOrUpdate (rows : List InvalidLink) (invalidLink : InvalidLink) : List InvalidLink :=
  match rows.find? (fun r => r.Link = invalidLink.Link) with
  | none => rows ++ [invalidLink]
  | some _ =>
    rows.map (fun existing =>
      if existing.Link = invalidLink.Link then
        { existing with
          FailureReason := invalidLink.FailureReason
          CheckDuration := invalidLink.CheckDuration
          IsRateLimited := invalidLink.IsRateLimited
          SubmissionID :=
            match invalidLink.SubmissionID with
            | some id => some id
            | none => existing.SubmissionID }
      else existing)

end InvalidLinkRepository

/-! ## Go `strings.TrimSpace` -/

/-- isSpace: `unicode.IsSpace`. -/
def isSpace (c : Char) : Bool :=
  (9 ≤ c.toNat && c.toNat ≤ 13) || c.toNat == 0x20 || c.toNat == 0x85 || c.toNat == 0xA0 ||
  c.toNat == 0x1680 || (0x2000 ≤ c.toNat && c.toNat ≤ 0x200A) || c.toNat == 0x2028 ||
  c.toNat == 0x2029 || c.toNat == 0x202F || c.toNat == 0x205F || c.toNat == 0x3000

/-- TrimSpace: `strings.TrimSpace`, the string without its leading and trailing
white space. -/
def TrimSpace (s : List Char) : List Char :=
  (s.dropWhile isSpace).rdropWhile isSpace

/-! ## internal/service/link_service.go -/

/-- DedupState: the variables of the deduplication loop. `linkMap` holds the
keys set to `true` in the Go map. -/
structure DedupState where
  linkMap : List (List Char)
  uniqueLinks : List (List Char)
  duplicateCount : Nat

/-- dedupStep: one iteration of the deduplication loop. -/
def dedupStep (st : DedupState) (link : List Char) : DedupState :=
  let normalizedLink := TrimSpace link
  if normalizedLink = [] then st
  else if st.linkMap.contains normalizedLink then
    { st with duplicateCount := st.duplicateCount + 1 }
  else
    { st with linkMap := normalizedLink :: st.linkMap
              uniqueLinks := st.uniqueLinks ++ [normalizedLink] }

/-- dedupLinks: the deduplication loop over the submitted entries. -/
def dedupLinks (links : List (List Char)) : DedupState :=
  links.foldl dedupStep { linkMap := [], uniqueLinks := [], duplicateCount := 0 }

/-- SubmissionRecord: one row of the table `submission_records` (client and
time columns other than `CheckedAt` are left out). `CheckedAt` holds the clock
reading at which the record was marked checked. -/
structure SubmissionRecord where
  ID : Nat
  OriginalLinks : List (List Char)
  PendingLinks : List (List Char)
  ValidLinks : List (List Char)
  SelectedPlatforms : List Platform
  Status : String
  TotalDuration : Option Int
  TotalLinks : Nat
  ClientIP : String
  CheckedAt : Option Int
  deriving DecidableEq

/-- CheckLinksRequest: the request of `CheckLinks`. -/
structure CheckLinksRequest where
  Links : List (List Char)
  SelectedPlatforms : List Platform

/-- CheckLinksResponse: the response of `CheckLinks`. -/
structure CheckLinksResponse where
  SubmissionID : Nat
  InvalidLinks : List (List Char)
  PendingLinks : List (List Char)
  ValidLinks : List (List Char)
  TotalDuration : Option Int
  InvalidFormatCount : Nat
  DuplicateCount : Nat
  deriving DecidableEq

namespace LinkService

/-- CheckLinks: create a submission from a request. `order` gives the visiting
order of each `ParseLink` call, `rows` is the table `invalid_links`, `newID` the
primary key the database gives to the created record. The database calls are
taken to succeed. The result is the response and the record created, if any. -/
def CheckLinks (order : List Char → List Platform) (rows : List InvalidLink) (newID : Nat)
    (req : CheckLinksRequest) (clientIP : String) :
    CheckLinksResponse × Option SubmissionRecord :=
  let st := dedupLinks req.Links
  let uniqueLinks := st.uniqueLinks
  let duplicateCount := st.duplicateCount
  let linkInfos := ParseLinks order uniqueLinks
  let validLinkMap := linkInfos.map (fun info => info.Link)
  let invalidFormatCount := (uniqueLinks.filter (fun link => !validLinkMap.contains link)).length
  if linkInfos.length = 0 then
    ({ SubmissionID := 0, InvalidLinks := [], PendingLinks := [], ValidLinks := [],
       TotalDuration := none, InvalidFormatCount := invalidFormatCount,
       DuplicateCount := duplicateCount }, none)
  else
    let allLinks := linkInfos.map (fun info => info.Link)
    let invalidLinksFromDB := InvalidLinkRepository.FindByLinks rows allLinks
    let invalidLinkMap := invalidLinksFromDB.map (fun il => il.Link)
    let invalidLinks := invalidLinksFromDB.map (fun il => il.Link)
    let pendingLinks := allLinks.filter (fun link => !invalidLinkMap.contains link)
    let record : SubmissionRecord :=
      { ID := newID, OriginalLinks := uniqueLinks, PendingLinks := pendingLinks,
        ValidLinks := [], SelectedPlatforms := req.SelectedPlatforms, Status := "pending",
        TotalDuration := none, TotalLinks := uniqueLinks.length, ClientIP := clientIP,
        CheckedAt := none }
    ({ SubmissionID := record.ID, InvalidLinks := invalidLinks, PendingLinks := pendingLinks,
       ValidLinks := [], TotalDuration := none, InvalidFormatCount := invalidFormatCount,
       DuplicateCount := duplicateCount }, some record)

end LinkService

/-! ## internal/service/checker_service.go -/

/-- CheckError: an error returned by a probe; `IsRateLimitError` is the answer of
`apphttp.IsRateLimitError`, `Error` the text of the error. -/
structure CheckError where
  IsRateLimitError : Bool
  Error : String

/-- LinkChecker: a provider probe. `Check` returns the pair `(result, err)`,
either of which may be nil. -/
structure LinkChecker where
  GetPlatform : Platform
  GetConcurrencyLimit : Int
  Check : List Char → Option CheckResult × Option CheckError

/-- CheckerService: the configuration of the dispatcher: the checker factory
and the TTL settings. -/
structure CheckerService where
  checkers : Platform → Option LinkChecker
  invalidTTL : Int
  platformTTLMap : Platform → Option Int

/-- World: the state a dispatch reads and writes: the cache (a nil or disabled
cache repository is `enabled = false`), the table `invalid_links`, and the log
of the calls of `Check` made so far. -/
structure World where
  cacheRepo : redisCacheRepository
  invalidLinkRepo : List InvalidLink
  probes : List (Platform × List Char)

/-- Aggregate: the two lists shared by the workers of one dispatch. -/
structure Aggregate where
  validLinks : List (List Char)
  invalidLinks : List InvalidLink

namespace CheckerService

/-- storedOutcome: tiers 1 and 2 of the lookup of one link: the cached outcome
(flagged as coming from the cache), otherwise the outcome synthesized from the
negative store when `Exists` holds, otherwise nothing. -/
def storedOutcome (w : World) (normalizedLink : List Char) : Option CheckResult × Bool :=
  match (if w.cacheRepo.IsEnabled then w.cacheRepo.Get normalizedLink else none) with
  | some cachedResult => (some cachedResult, true)
  | none =>
    if InvalidLinkRepository.Exists w.invalidLinkRepo normalizedLink then
      match InvalidLinkRepository.FindByLinks w.invalidLinkRepo [normalizedLink] with
      | il :: _ =>
        (some { Valid := false, FailureReason := il.FailureReason,
                Duration := il.CheckDuration.getD 0, IsRateLimited := il.IsRateLimited },
         false)
      | [] => (none, false)
    else (none, false)

/-- cacheOutcome: write an outcome to the cache when the cache is in use. -/
def cacheOutcome (s : CheckerService) (w : World) (normalizedLink : List Char)
    (result : CheckResult) (platform : Platform) : World :=
  if w.cacheRepo.IsEnabled then
    { w with
      cacheRepo :=
        redisCacheRepository.Set w.cacheRepo normalizedLink result platform s.invalidTTL
          s.platformTTLMap }
  else w

/-- recordOutcome: the final step of a worker: a valid link joins `validLinks`,
an invalid one joins `invalidLinks` with the outcome's reason, duration and
rate-limit flag. -/
def recordOutcome (ch : LinkChecker) (submissionID : Nat) (agg : Aggregate)
    (normalizedLink : List Char) (result : CheckResult) : Aggregate :=
  if result.Valid then
    { agg with validLinks := agg.validLinks ++ [normalizedLink] }
  else
    { agg with invalidLinks := agg.invalidLinks ++
        [{ Link := normalizedLink, Platform := ch.GetPlatform,
           FailureReason := result.FailureReason, CheckDuration := some result.Duration,
           IsRateLimited := result.IsRateLimited, SubmissionID := some submissionID }] }

/-- checkOne: the worker run for one link by `checkLinksWithConcurrency`: cache,
then negative store, then live probe; the outcome is cached unless it came from
the cache, and recorded. A probe that returns neither a result nor an error
makes the worker panic on `result.Valid`; the panic is recovered and nothing is
recorded for the link (the recovery does not release the aggregate mutex taken
just before, which the embedding, running the workers one after the other, does
not render). The error branch placed after the cache write in the source cannot
be reached (an error always returns inside the probe branch) and is left out. -/
def checkOne (s : CheckerService) (order : List Char → List Platform) (ch : LinkChecker)
    (submissionID : Nat) (st : World × Aggregate) (l : List Char) : World × Aggregate :=
  let w := st.1
  let agg := st.2
  let platform := ch.GetPlatform
  let normalizedLink := (ParseLink (order l) l).Link
  match storedOutcome w normalizedLink with
  | (some result, fromCache) =>
    let w4 := if !fromCache then cacheOutcome s w normalizedLink result platform else w
    (w4, recordOutcome ch submissionID agg normalizedLink result)
  | (none, _) =>
    let w3 := { w with probes := w.probes ++ [(platform, l)] }
    match ch.Check l with
    | (result, some err) =>
      if err.IsRateLimitError then
        let duration := (result.map (fun r => r.Duration)).getD 0
        let agg1 := { agg with invalidLinks := agg.invalidLinks ++
          [{ Link := normalizedLink, Platform := ch.GetPlatform,
             FailureReason := "API频率限制（429错误）: " ++ err.Error,
             CheckDuration := some duration, IsRateLimited := true,
             SubmissionID := some submissionID }] }
        (cacheOutcome s w3 normalizedLink
          { Valid := false, FailureReason := "API频率限制（429错误）: " ++ err.Error,
            Duration := duration, IsRateLimited := true } platform, agg1)
      else
        let duration := (result.map (fun r => r.Duration)).getD 0
        let isRateLimited := (result.map (fun r => r.IsRateLimited)).getD false
        let agg1 := { agg with invalidLinks := agg.invalidLinks ++
          [{ Link := normalizedLink, Platform := ch.GetPlatform,
             FailureReason := "检测错误: " ++ err.Error,
             CheckDuration := some duration, IsRateLimited := isRateLimited,
             SubmissionID := some submissionID }] }
        (cacheOutcome s w3 normalizedLink
          { Valid := false, FailureReason := "检测错误: " ++ err.Error,
            Duration := duration, IsRateLimited := isRateLimited } platform, agg1)
    | (some result, none) =>
      (cacheOutcome s w3 normalizedLink result platform,
       recordOutcome ch submissionID agg normalizedLink result)
    | (none, none) => (w3, agg)

/-- checkLinksWithConcurrency: run the worker on every link of one platform.
The workers are run one after the other, in the order of the list (the
schedule of a concurrency limit of one). -/
def checkLinksWithConcurrency (s : CheckerService) (order : List Char → List Platform)
    (ch : LinkChecker) (links : List (List Char)) (submissionID : Nat)
    (st : World × Aggregate) : World × Aggregate :=
  links.foldl (checkOne s order ch submissionID) st

/-- uniqueLinkInfos: the first two loops of `CheckRealtime` and of
`CheckRealtimeWithPlatformFilter`: deduplicate the trimmed entries (the loop of
`CheckLinks` without its counter), then parse each kept entry. -/
def uniqueLinkInfos (order : List Char → List Platform) (links : List (List Char)) :
    List LinkInfo :=
  (dedupLinks links).uniqueLinks.map (fun link => ParseLink (order link) link)

/-- Groups: the result of the grouping loop: the links of each platform to
check, the links of unknown platform, and (filtered mode) the links of the
platforms that were not selected. -/
structure Groups where
  linksByPlatform : Platform → List (List Char)
  unknownLinks : List (List Char)
  skippedLinks : List (List Char)

/-- groupStep: one iteration of the grouping loop of `CheckRealtime`. -/
def groupStep (g : Groups) (info : LinkInfo) : Groups :=
  if info.Platform = PlatformUnknown then
    { g with unknownLinks := g.unknownLinks ++ [info.Link] }
  else
    { g with
      linksByPlatform :=
        Function.update g.linksByPlatform info.Platform
          (g.linksByPlatform info.Platform ++ [info.Link]) }

/-- groupLinks: the grouping loop of `CheckRealtime`. -/
def groupLinks (linkInfos : List LinkInfo) : Groups :=
  linkInfos.foldl groupStep
    { linksByPlatform := fun _ => [], unknownLinks := [], skippedLinks := [] }

/-- groupStepFiltered: one iteration of the grouping loop of
`CheckRealtimeWithPlatformFilter`. -/
def groupStepFiltered (selectedPlatforms : List Platform) (g : Groups) (info : LinkInfo) :
    Groups :=
  if info.Platform = PlatformUnknown then
    { g with unknownLinks := g.unknownLinks ++ [info.Link] }
  else if selectedPlatforms.contains info.Platform then
    { g with
      linksByPlatform :=
        Function.update g.linksByPlatform info.Platform
          (g.linksByPlatform info.Platform ++ [info.Link]) }
  else
    { g with skippedLinks := g.skippedLinks ++ [info.Link] }

/-- groupLinksFiltered: the grouping loop of `CheckRealtimeWithPlatformFilter`. -/
def groupLinksFiltered (selectedPlatforms : List Platform) (linkInfos : List LinkInfo) :
    Groups :=
  linkInfos.foldl (groupStepFiltered selectedPlatforms)
    { linksByPlatform := fun _ => [], unknownLinks := [], skippedLinks := [] }

/-- checkPlatforms: the fan-out loop of both dispatch modes: for every platform
that has links, in the visiting order `visit` of the range over
`linksByPlatform`, mark the links invalid when no checker is registered,
otherwise run `checkLinksWithConcurrency` on them. The platform groups are run
one after the other. -/
def checkPlatforms (s : CheckerService) (order : List Char → List Platform)
    (submissionID : Nat) (linksByPlatform : Platform → List (List Char))
    (visit : List Platform) (st : World × Aggregate) : World × Aggregate :=
  visit.foldl (fun st platform =>
    let platformLinks := linksByPlatform platform
    if platformLinks = [] then st
    else
      match s.checkers platform with
      | none =>
        (st.1, { st.2 with invalidLinks := st.2.invalidLinks ++
          platformLinks.map (fun link =>
            { Link := link, Platform := platform, FailureReason := "该平台检测器未实现",
              CheckDuration := none, IsRateLimited := false,
              SubmissionID := some submissionID }) })
      | some linkChecker =>
        checkLinksWithConcurrency s order linkChecker platformLinks submissionID st) st

/-- saveInvalidLinks: the last loop of both dispatch modes: upsert every
collected dead link into the table `invalid_links`. -/
def saveInvalidLinks (w : World) (invalidLinks : List InvalidLink) : World :=
  { w with invalidLinkRepo :=
      invalidLinks.foldl InvalidLinkRepository.CreateOrUpdate w.invalidLinkRepo }

end CheckerService

/-! ## pkg/http/client.go, internal/checker/uc_checker.go, internal/checker/pan123_checker.go -/

/-- HttpError: an error returned by `httpClient.Do`. `IsTimeoutError` is the
answer of `apphttp.IsTimeoutError` (a type assertion to `*apphttp.TimeoutError`),
`Error` the text of the error. -/
structure HttpError where
  IsTimeoutError : Bool
  Error : String

namespace UCChecker

/-- Check: the UC probe up to the answer of the HTTP request. `shareID` is the
result of `extractShareIDFromURL`, `newRequestErr` the error of
`http.NewRequestWithContext` if any, `doResult` the result of `httpClient.Do`,
`onResponse` the rest of the function once a response is there, `elapsed` the
reading of `time.Since(start).Milliseconds()`. -/
def Check {R : Type} (shareID : Except String String) (newRequestErr : Option String)
    (doResult : Except HttpError R) (onResponse : R → CheckResult) (elapsed : Int) :
    CheckResult :=
  match shareID with
  | .error e =>
    { Valid := false, FailureReason := "链接格式无效: " ++ e, Duration := elapsed,
      IsRateLimited := false }
  | .ok _ =>
    match newRequestErr with
    | some e =>
      { Valid := false, FailureReason := "创建请求失败: " ++ e, Duration := elapsed,
        IsRateLimited := false }
    | none =>
      match doResult with
      | .error err =>
        if err.IsTimeoutError then
          { Valid := true, FailureReason := "", Duration := elapsed, IsRateLimited := false }
        else if "ConnectError".toList <:+: err.Error.toList then
          { Valid := true, FailureReason := "", Duration := elapsed, IsRateLimited := false }
        else
          { Valid := false, FailureReason := "请求失败: " ++ err.Error, Duration := elapsed,
            IsRateLimited := false }
      | .ok resp => onResponse resp

end UCChecker

namespace Pan123Checker

/-- Check: the 123 probe up to the answer of the HTTP request; the arguments are
those of `UCChecker.Check`, with `shareKey` the result of `extractShareKey123`. -/
def Check {R : Type} (shareKey : Except String String) (newRequestErr : Option String)
    (doResult : Except HttpError R) (onResponse : R → CheckResult) (elapsed : Int) :
    CheckResult :=
  match shareKey with
  | .error e =>
    { Valid := false, FailureReason := "链接格式无效: " ++ e, Duration := elapsed,
      IsRateLimited := false }
  | .ok _ =>
    match newRequestErr with
    | some e =>
      { Valid := false, FailureReason := "创建请求失败: " ++ e, Duration := elapsed,
        IsRateLimited := false }
    | none =>
      match doResult with
      | .error err =>
        if err.IsTimeoutError then
          { Valid := true, FailureReason := "", Duration := elapsed, IsRateLimited := false }
        else
          { Valid := true, FailureReason := "", Duration := elapsed, IsRateLimited := false }
      | .ok resp => onResponse resp

end Pan123Checker

/-! ## internal/checker/baidu_checker.go -/

/-- Cookie: a cookie set by a response. -/
structure Cookie where
  Name : String
  Value : String

/-- HttpResponse: what the Baidu probe reads of a response: the status code, the
`Location` header (empty when absent) and the cookies. -/
structure HttpResponse where
  StatusCode : Int
  Location : String
  Cookies : List Cookie

/-- Step1Response: the parsed answer of step 1. -/
structure Step1Response where
  StatusCode : Int
  Location : String
  FullRedirectURL : String
  SetCookies : List Cookie
  SURL : String

/-- Step2JSONResponse: the JSON body of the answer of step 2. -/
structure Step2JSONResponse where
  Errno : Int
  ErrMsg : String
  RequestID : Int

/-- Step2Response: the parsed answer of step 2. -/
structure Step2Response where
  StatusCode : Int
  SetCookies : List Cookie
  BDCLND : String
  Body : String
  JSONResponse : Option Step2JSONResponse

/-- BaiduEnv: the answers of the libraries and of the network to the calls of
the Baidu probe.
* `normalizeBaiduURL`: the result of the function of that name;
* `queryPwd`: `url.Parse` of the normalized link, then `Query().Get("pwd")`;
* `resolveReference`: `url.Parse` of both arguments, then
  `base.ResolveReference(redirect).String()`, which is not empty for the
  absolute base the probe passes;
* `querySurl`: `url.Parse` of the location, `url.ParseQuery` of its query, then
  `Get("surl")`;
* `unmarshal`: `json.Unmarshal` of a body into `Step2JSONResponse`, `none` when
  it fails;
* `doStep1`: the result of `client.Do` on the step-1 request, an error text or
  a response (for a redirect status whose `Location` header does not parse,
  `net/http` returns an error and no response);
* `doStep2`: the result of `client.Do` and `io.ReadAll` on the step-2 request,
  an error already worded by `step2Request`, or the response and its body. -/
structure BaiduEnv where
  normalizeBaiduURL : String → Except String String
  queryPwd : String → Except String String
  resolveReference : String → String → Except String String
  resolveReference_ne : ∀ b l u, resolveReference b l = .ok u → u ≠ ""
  querySurl : String → Except String String
  unmarshal : String → Option Step2JSONResponse
  doStep1 : String → Except String HttpResponse
  doStep2 : Step1Response → String → Except String (HttpResponse × String)

namespace BaiduChecker

/-- buildFullRedirectURL: resolve the location against the request URL. -/
def buildFullRedirectURL (env : BaiduEnv) (baseURL location : String) :
    Except String String :=
  if location = "" then .error "location为空" else env.resolveReference baseURL location

/-- extractSURLFromLocation: the non-empty `surl` parameter of the location. -/
def extractSURLFromLocation (env : BaiduEnv) (location : String) : Except String String :=
  match env.querySurl location with
  | .error e => .error e
  | .ok surl => if surl = "" then .error "未找到surl参数" else .ok surl

/-- parseStep1Response: read the status, the location and the cookies; with a
location, resolve it (an error aborts) and extract `surl` (an error leaves it
empty). -/
def parseStep1Response (env : BaiduEnv) (resp : HttpResponse) (originalURL : String) :
    Except String Step1Response :=
  if resp.Location ≠ "" then
    match buildFullRedirectURL env originalURL resp.Location with
    | .error e => .error ("构建重定向URL失败: " ++ e)
    | .ok fullURL =>
      .ok { StatusCode := resp.StatusCode, Location := resp.Location,
            FullRedirectURL := fullURL, SetCookies := resp.Cookies,
            SURL :=
              match extractSURLFromLocation env resp.Location with
              | .ok surl => surl
              | .error _ => "" }
  else
    .ok { StatusCode := resp.StatusCode, Location := resp.Location, FullRedirectURL := "",
          SetCookies := resp.Cookies, SURL := "" }

/-- step1Request: send the step-1 request and parse the answer. -/
def step1Request (env : BaiduEnv) (targetURL : String) : Except String Step1Response :=
  match env.doStep1 targetURL with
  | .error e => .error ("请求失败: " ++ e)
  | .ok resp => parseStep1Response env resp targetURL

/-- parseStep2Response: read the status, the cookies and the body; the JSON
answer when the body parses; `BDCLND` is the value of the first cookie of that
name. -/
def parseStep2Response (env : BaiduEnv) (resp : HttpResponse) (body : String) :
    Step2Response :=
  { StatusCode := resp.StatusCode, SetCookies := resp.Cookies, Body := body,
    JSONResponse := env.unmarshal body,
    BDCLND :=
      match resp.Cookies.find? (fun cookie => cookie.Name = "BDCLND") with
      | some cookie => cookie.Value
      | none => "" }

/-- step2Request: send the verify request and parse the answer. -/
def step2Request (env : BaiduEnv) (step1Result : Step1Response) (password : String) :
    Except String Step2Response :=
  match env.doStep2 step1Result password with
  | .error e => .error e
  | .ok (resp, body) => .ok (parseStep2Response env resp body)

/-- errnoReason: `fmt.Sprintf("<label> (errno: %d, err_msg: %s)", errno, errMsg)`. -/
def errnoReason (label : String) (errno : Int) (errMsg : String) : String :=
  label ++ " (errno: " ++ toString errno ++ ", err_msg: " ++ errMsg ++ ")"

/-- checkStep2: the part of `Check` that follows a step 1 that passed: the
verify request, the switch on `errno`, and the `BDCLND` test. -/
def checkStep2 (env : BaiduEnv) (step1Result : Step1Response) (password : String)
    (elapsed : Int) : CheckResult :=
  match step2Request env step1Result password with
  | .error e =>
    { Valid := false, FailureReason := "第二步请求失败: " ++ e, Duration := elapsed,
      IsRateLimited := false }
  | .ok step2Result =>
    let cookieCheck : CheckResult :=
      if step2Result.BDCLND = "" then
        { Valid := false,
          FailureReason := "第二步响应未返回BDCLND Cookie (StatusCode: "
            ++ toString step2Result.StatusCode ++ ", Response: " ++ step2Result.Body ++ ")",
          Duration := elapsed, IsRateLimited := true }
      else
        { Valid := true, FailureReason := "", Duration := elapsed, IsRateLimited := false }
    match step2Result.JSONResponse with
    | none => cookieCheck
    | some json =>
      if json.Errno = -12 then
        { Valid := false, FailureReason := errnoReason "缺少提取码" json.Errno json.ErrMsg,
          Duration := elapsed, IsRateLimited := false }
      else if json.Errno = -9 then
        { Valid := false, FailureReason := errnoReason "提取码错误" json.Errno json.ErrMsg,
          Duration := elapsed, IsRateLimited := false }
      else if json.Errno = -62 then
        { Valid := false, FailureReason := errnoReason "请求接口受限" json.Errno json.ErrMsg,
          Duration := elapsed, IsRateLimited := true }
      else if json.Errno = 0 then cookieCheck
      else
        { Valid := false, FailureReason := errnoReason "第二步验证失败" json.Errno json.ErrMsg,
          Duration := elapsed, IsRateLimited := false }

/-- Check: the Baidu probe. `elapsed` is the reading of
`time.Since(start).Milliseconds()` at the return. -/
def Check (env : BaiduEnv) (link : String) (elapsed : Int) : CheckResult :=
  match env.normalizeBaiduURL link with
  | .error e =>
    { Valid := false, FailureReason := "URL规范化失败: " ++ e, Duration := 0,
      IsRateLimited := false }
  | .ok normalizedLink =>
    match env.queryPwd normalizedLink with
    | .error e =>
      { Valid := false, FailureReason := "解析URL失败: " ++ e, Duration := elapsed,
        IsRateLimited := false }
    | .ok password =>
      match step1Request env normalizedLink with
      | .error e =>
        { Valid := false, FailureReason := "第一步请求失败: " ++ e, Duration := elapsed,
          IsRateLimited := false }
      | .ok step1Result =>
        if step1Result.StatusCode = 200 ∧ step1Result.FullRedirectURL = "" then
          { Valid := false, FailureReason := "分享文件已过期", Duration := elapsed,
            IsRateLimited := false }
        else if step1Result.StatusCode ≠ 302 ∨ step1Result.FullRedirectURL = ""
            ∨ step1Result.SURL = "" then
          { Valid := false, FailureReason := "第一步302失败", Duration := elapsed,
            IsRateLimited := true }
        else checkStep2 env step1Result password elapsed

end BaiduChecker

/-! ## internal/checker/base_checker.go -/

/-- Second: `time.Second`, in nanoseconds. -/
def Second : Int := 1000000000

/-- Sub: `Time.Sub` on two clock readings given in nanoseconds: the difference
as a `time.Duration`, saturated at the ends of the `int64` range. -/
def Sub (t u : Int) : Int :=
  if t - u < -(2 ^ 63) then -(2 ^ 63)
  else if 2 ^ 63 - 1 < t - u then 2 ^ 63 - 1
  else t - u

/-- TokenBucket: the token bucket of a probe (`int` is 64 bits wide; the mutex
is left out, the calls are taken one after the other). -/
structure TokenBucket where
  capacity : Int
  tokens : Int
  refillRate : Int
  lastRefill : Int
  deriving DecidableEq

/-- minInt: the smaller of two integers. -/
def minInt (a b : Int) : Int := if a < b then a else b

/-- NewTokenBucket: the bucket created at clock reading `now`; `none` is the nil
pointer returned for a limit that is not positive. -/
def NewTokenBucket (maxRequestsPerSecond : Int) (now : Int) : Option TokenBucket :=
  if maxRequestsPerSecond ≤ 0 then none
  else
    let refillRate := Int.tdiv Second maxRequestsPerSecond
    some { capacity := maxRequestsPerSecond, tokens := maxRequestsPerSecond,
           refillRate := refillRate, lastRefill := now }

namespace TokenBucket

/-- Take: one call of `Take` at clock reading `now`: the answer and the bucket
after the call. The outer `none` is the run-time panic of the integer division
by a refill interval of zero. -/
def Take (tb : Option TokenBucket) (now : Int) : Option (Bool × Option TokenBucket) :=
  match tb with
  | none => some (true, none)
  | some tb =>
    let elapsed := Sub now tb.lastRefill
    if tb.refillRate = 0 then none
    else
      let tokensToAdd := Int.tdiv elapsed tb.refillRate
      let tb1 : TokenBucket :=
        if tokensToAdd > 0 then
          { tb with
            tokens := minInt (wrapInt64 (tb.tokens + tokensToAdd)) tb.capacity
            lastRefill := now }
        else tb
      if tb1.tokens > 0 then
        some (true, some { tb1 with tokens := tb1.tokens - 1 })
      else
        some (false, some tb1)

/-- TakeAll: a sequence of `Take` calls at the clock readings `times`, with the
answer of each call; `none` when a call panics. -/
def TakeAll (tb : Option TokenBucket) : List Int → Option (List Bool)
  | [] => some []
  | now :: rest =>
    match Take tb now with
    | none => none
    | some (ok, tb1) =>
      match TakeAll tb1 rest with
      | none => none
      | some oks => some (ok :: oks)

end TokenBucket

/-- grantsUpTo: the number of calls at a clock reading of at most `b` that
returned true. -/
def grantsUpTo (b : Int) : List Int → List Bool → Nat
  | t :: times, ok :: oks =>
    (if ok = true ∧ t ≤ b then 1 else 0) + grantsUpTo b times oks
  | _, _ => 0

/-- grantsIn: the number of calls in the one-second window `[a, a + Second)`
that returned true. -/
def grantsIn (a : Int) : List Int → List Bool → Nat
  | t :: times, ok :: oks =>
    (if ok = true ∧ a ≤ t ∧ t < a + Second then 1 else 0) + grantsIn a times oks
  | _, _ => 0

/-! ## internal/repository/submission_repository.go -/

/-- SubmissionRepository: the table `submission_records`, the log of the records
passed to `Update` so far (in call order, failed calls included), and the answer
of the database to each call of `Update`: `updateErr k` is the error returned by
call number `k` (counted from 0), `none` when the write goes through. The other
calls are taken to reach the database. -/
structure SubmissionRepository where
  rows : List SubmissionRecord
  updates : List SubmissionRecord
  updateErr : Nat → Option String

namespace SubmissionRepository

/-- UpdateStatusToChecking: set the status `checking` on the rows with this id
whose status is `pending` (`WHERE id = ? AND status = 'pending'`); the second
component is `RowsAffected`. -/
def UpdateStatusToChecking (r : SubmissionRepository) (id : Nat) :
    SubmissionRepository × Int :=
  ({ r with
     rows := r.rows.map (fun record =>
       if record.ID = id ∧ record.Status = "pending" then
         { record with Status := "checking" }
       else record) },
   ((r.rows.filter (fun record => record.ID = id ∧ record.Status = "pending")).length : Int))

/-- GetByID: the row with this primary key, an error when there is none. -/
def GetByID (r : SubmissionRepository) (id : Nat) : Except String SubmissionRecord :=
  match r.rows.find? (fun record => record.ID = id) with
  | some record => .ok record
  | none => .error "record not found"

/-- Update: `Save` the record: the call is logged; when the database reports no
error the row with the record's primary key is replaced by the record (inserted
when there is no such row). -/
def Update (r : SubmissionRepository) (record : SubmissionRecord) :
    SubmissionRepository × Option String :=
  let r1 := { r with updates := r.updates ++ [record] }
  match r.updateErr r.updates.length with
  | some e => (r1, some e)
  | none =>
    if r.rows.any (fun existing => existing.ID = record.ID) then
      ({ r1 with
         rows := r.rows.map (fun existing =>
           if existing.ID = record.ID then record else existing) }, none)
    else
      ({ r1 with rows := r.rows ++ [record] }, none)

end SubmissionRepository

/-- Stores: everything a dispatch reads and writes: the cache, the table
`invalid_links` and the probe log (`world`), and the submission repository. -/
structure Stores where
  world : World
  submissionRepo : SubmissionRepository

namespace CheckerService

/-- unknownRows: the dead rows `CheckRealtime` builds for the links of unknown
platform. -/
def unknownRows (submissionID : Nat) (unknownLinks : List (List Char)) : List InvalidLink :=
  unknownLinks.map (fun link =>
    { Link := link, Platform := PlatformUnknown, FailureReason := "无法识别网盘平台类型",
      CheckDuration := none, IsRateLimited := false, SubmissionID := some submissionID })

/-- CheckRealtime: the unfiltered dispatch. `order` and `visit` are the visiting
orders of the ranges over Go maps, `duration` is the elapsed time in
milliseconds and `now` the clock reading taken before the final update. Each
worker group runs to the end when it is started, so the links of unknown
platform are appended after the groups. The deferred `recover` of the source
acts only on a panic of the dispatching goroutine, which none of the rendered
paths raises. The result is the state of the stores and the pair
`(record, err)` of the source as an `Except`. -/
def CheckRealtime (s : CheckerService) (order : List Char → List Platform)
    (visit : List Platform) (duration now : Int) (st : Stores) (submissionID : Nat)
    (links : List (List Char)) : Stores × Except String SubmissionRecord :=
  let cas := st.submissionRepo.UpdateStatusToChecking submissionID
  if cas.2 = 0 then
    ({ st with submissionRepo := cas.1 },
     .error ("submission " ++ toString submissionID ++ " is already being processed"))
  else
    let linkInfos := uniqueLinkInfos order links
    if linkInfos.length = 0 then
      match cas.1.GetByID submissionID with
      | .error e =>
        ({ st with submissionRepo := cas.1 },
         .error ("failed to get submission record: " ++ e))
      | .ok record0 =>
        let record : SubmissionRecord :=
          { record0 with
            ValidLinks := []
            PendingLinks := []
            Status := "checked"
            TotalDuration := some duration
            CheckedAt := some now }
        match cas.1.Update record with
        | (repo2, some e) =>
          ({ st with submissionRepo := repo2 },
           .error ("failed to update submission record: " ++ e))
        | (repo2, none) => ({ st with submissionRepo := repo2 }, .ok record)
    else
      let g := groupLinks linkInfos
      let r := checkPlatforms s order submissionID g.linksByPlatform visit
        (st.world, { validLinks := [], invalidLinks := [] })
      let validLinks := r.2.validLinks
      let invalidLinks := r.2.invalidLinks ++ unknownRows submissionID g.unknownLinks
      match cas.1.GetByID submissionID with
      | .error e => ({ world := r.1, submissionRepo := cas.1 }, .error e)
      | .ok record0 =>
        let record : SubmissionRecord :=
          { record0 with
            ValidLinks := validLinks
            PendingLinks := []
            Status := "checked"
            TotalDuration := some duration
            CheckedAt := some now }
        match cas.1.Update record with
        | (repo2, some e) =>
          let repo3 := (repo2.Update { record with Status := "pending" }).1
          ({ world := r.1, submissionRepo := repo3 }, .error e)
        | (repo2, none) =>
          ({ world := saveInvalidLinks r.1 invalidLinks, submissionRepo := repo2 },
           .ok record)

/-- CheckRealtimeWithPlatformFilter: the filtered dispatch; the arguments are
those of `CheckRealtime` and the selected platforms. -/
def CheckRealtimeWithPlatformFilter (s : CheckerService) (order : List Char → List Platform)
    (visit : List Platform) (duration now : Int) (st : Stores) (submissionID : Nat)
    (links : List (List Char)) (selectedPlatforms : List Platform) :
    Stores × Except String SubmissionRecord :=
  let cas := st.submissionRepo.UpdateStatusToChecking submissionID
  if cas.2 = 0 then
    ({ st with submissionRepo := cas.1 },
     .error ("submission " ++ toString submissionID ++ " is already being processed"))
  else
    let linkInfos := uniqueLinkInfos order links
    if linkInfos.length = 0 then
      match cas.1.GetByID submissionID with
      | .error e =>
        ({ st with submissionRepo := cas.1 },
         .error ("failed to get submission record: " ++ e))
      | .ok record0 =>
        let record : SubmissionRecord :=
          { record0 with
            ValidLinks := []
            PendingLinks := []
            Status := "checked"
            TotalDuration := some duration
            CheckedAt := some now }
        match cas.1.Update record with
        | (repo2, some e) =>
          ({ st with submissionRepo := repo2 },
           .error ("failed to update submission record: " ++ e))
        | (repo2, none) => ({ st with submissionRepo := repo2 }, .ok record)
    else
      let g := groupLinksFiltered selectedPlatforms linkInfos
      let r := checkPlatforms s order submissionID g.linksByPlatform visit
        (st.world, { validLinks := [], invalidLinks := [] })
      let validLinks := r.2.validLinks
      let invalidLinks := r.2.invalidLinks
      match cas.1.GetByID submissionID with
      | .error e => ({ world := r.1, submissionRepo := cas.1 }, .error e)
      | .ok record0 =>
        let remainingPendingLinks := g.skippedLinks ++ g.unknownLinks
        let record1 : SubmissionRecord :=
          { record0 with
            ValidLinks := validLinks
            PendingLinks := remainingPendingLinks }
        let record2 : SubmissionRecord :=
          if remainingPendingLinks.length > 0 then { record1 with Status := "pending" }
          else
            { record1 with
              Status := "checked"
              CheckedAt := some now }
        let record : SubmissionRecord := { record2 with TotalDuration := some duration }
        match cas.1.Update record with
        | (repo2, some e) => ({ world := r.1, submissionRepo := repo2 }, .error e)
        | (repo2, none) =>
          ({ world := saveInvalidLinks r.1 invalidLinks, submissionRepo := repo2 },
           .ok record)

end CheckerService

namespace CheckerService

/-- outcomeValid: the valid flag of the outcome a worker settles on for one
link: the stored outcome when there is one, otherwise the result of the probe; a
probe that returns an error, or nothing, gives no valid outcome. -/
def outcomeValid (w : World) (ch : LinkChecker) (l normalizedLink : List Char) : Bool :=
  match storedOutcome w normalizedLink with
  | (some result, _) => result.Valid
  | (none, _) =>
    match ch.Check l with
    | (some result, none) => result.Valid
    | _ => false

end CheckerService

/-! ## internal/service/scheduled_task_service.go -/

/-- indexFrom: the scan of `strings.Index` from offset `i` on. -/
def indexFrom (sub : List Char) : List Char → Nat → Int
  | [], i => if sub = [] then (i : Int) else -1
  | c :: cs, i => if sub.isPrefixOf (c :: cs) then (i : Int) else indexFrom sub cs (i + 1)

/-- Index: `strings.Index`: the offset of the first occurrence of `sub` in `s`,
-1 when there is none. Offsets count characters; the texts searched for are
ASCII, so that slicing at a character offset is slicing at the byte offset Go
computes. -/
def Index (s sub : List Char) : Int := indexFrom sub s 0

namespace ScheduledTaskService

/-- ExecuteCurlCommand: run the stored command and return the content of the
response. `parseErr` is the error of `gcurl.Parse` if any; `executed` is the
result of `curl.Request().Execute()`: the content of the response, or an error
text together with the content of the response when there is one. The content
is returned as it is: the call of `cleanCurlOutput` on it is commented out in
the source. -/
def ExecuteCurlCommand (parseErr : Option String)
    (executed : Except (Option (List Char) × String) (List Char)) :
    Except String (List Char) :=
  match parseErr with
  | some e => .error ("failed to parse curl command: " ++ e)
  | none =>
    match executed with
    | .error (resp, e) =>
      match resp with
      | some outputStr =>
        if outputStr.length > 0 ∧
            (Index outputStr "http://".toList ≠ -1 ∨ Index outputStr "https://".toList ≠ -1
              ∨ Index outputStr "magnet:".toList ≠ -1) then
          .ok outputStr
        else .error ("HTTP request failed: " ++ e)
      | none => .error ("HTTP request failed: " ++ e)
    | .ok outputStr => .ok outputStr

end ScheduledTaskService

/-! ## internal/checker/cmcc_crypto.go -/

/-- CryptoLib: the library calls of the CMCC payload encoding, with bytes as
natural numbers: `aesEncrypt` and `aesDecrypt` are AES under the fixed key
`PVGDwmcvfs1uV3d1` on one block of 16 bytes (`crypto/aes`), a permutation of the
blocks and its inverse; `base64Encode` and `base64Decode` are
`base64.StdEncoding`, decoding undoing encoding. -/
structure CryptoLib where
  aesEncrypt : List Nat → List Nat
  aesDecrypt : List Nat → List Nat
  aesEncrypt_length : ∀ b, b.length = 16 → (aesEncrypt b).length = 16
  aesDecrypt_encrypt : ∀ b, b.length = 16 → aesDecrypt (aesEncrypt b) = b
  base64Encode : List Nat → String
  base64Decode : String → Except String (List Nat)
  base64Decode_encode : ∀ d, base64Decode (base64Encode d) = .ok d

/-- xorBytes: `subtle.XORBytes`: the bytewise exclusive or, as long as the
shorter argument. -/
def xorBytes (a b : List Nat) : List Nat := List.zipWith Nat.xor a b

/-- cbcEncryptBlocks: `CryptBlocks` of a CBC encrypter on `n` blocks: each block
is xored with the previous ciphertext block (first the IV) and encrypted. -/
def cbcEncryptBlocks (lib : CryptoLib) : Nat → List Nat → List Nat → List Nat
  | 0, _, _ => []
  | n + 1, prev, src =>
    let c := lib.aesEncrypt (xorBytes (src.take 16) prev)
    c ++ cbcEncryptBlocks lib n c (src.drop 16)

/-- cbcDecryptBlocks: `CryptBlocks` of a CBC decrypter on `n` blocks. -/
def cbcDecryptBlocks (lib : CryptoLib) : Nat → List Nat → List Nat → List Nat
  | 0, _, _ => []
  | n + 1, prev, src =>
    let c := src.take 16
    xorBytes (lib.aesDecrypt c) prev ++ cbcDecryptBlocks lib n c (src.drop 16)

/-- removePKCS7Padding: check and remove the padding. -/
def removePKCS7Padding (data : List Nat) : Except String (List Nat) :=
  if data.length = 0 then .error "数据为空"
  else
    let paddingLength := data.getLast?.getD 0
    if paddingLength = 0 ∨ paddingLength > data.length then .error "无效的填充长度"
    else if (data.drop (data.length - paddingLength)).any (fun b => b != paddingLength % 256)
    then .error "填充验证失败"
    else .ok (data.take (data.length - paddingLength))

/-- addPKCS7Padding: append `padding` bytes of value `byte(padding)`; the code
calls it with the block size 16. -/
def addPKCS7Padding (data : List Nat) (blockSize : Nat) : List Nat :=
  let padding := blockSize - data.length % blockSize
  data ++ List.replicate padding (padding % 256)

/-- chinaMobileCloudEncrypt: encrypt a text given as its bytes (the `string`
and `[]byte` cases of the type switch). `iv` is the result of reading 16 random
bytes. `aes.NewCipher` cannot fail on the 16-byte key. -/
def chinaMobileCloudEncrypt (lib : CryptoLib) (iv : Except String (List Nat))
    (plaintext : List Nat) : Except String String :=
  match iv with
  | .error e => .error ("生成IV失败: " ++ e)
  | .ok iv =>
    let plaintext := addPKCS7Padding plaintext 16
    let ciphertext := cbcEncryptBlocks lib (plaintext.length / 16) iv plaintext
    .ok (lib.base64Encode (iv ++ ciphertext))

/-- chinaMobileCloudDecrypt: decrypt an encoded message to the bytes of the
text. -/
def chinaMobileCloudDecrypt (lib : CryptoLib) (encryptedText : String) :
    Except String (List Nat) :=
  match lib.base64Decode encryptedText with
  | .error e => .error ("base64解码失败: " ++ e)
  | .ok encryptedData =>
    if encryptedData.length < 16 then .error "加密数据长度不足"
    else
      let iv := encryptedData.take 16
      let ciphertext := encryptedData.drop 16
      if ciphertext.length % 16 ≠ 0 then .error "密文长度不是块大小的倍数"
      else
        let plaintext := cbcDecryptBlocks lib (ciphertext.length / 16) iv ciphertext
        match removePKCS7Padding plaintext with
        | .error e => .error ("去除填充失败: " ++ e)
        | .ok plaintext => .ok plaintext

/-! ## Go `regexp`: `FindStringSubmatch` for patterns `literal(class+)` -/

/-- submatchAt: the match of a pattern `(?:lit₁|lit₂|…)(class+)` at the start of
`s`: the first literal that `s` starts with, followed by the longest non-empty
run of characters of the class; the run is the submatch. -/
def submatchAt (lits : List (List Char)) (cls : Char → Bool) (s : List Char) :
    Option (List Char) :=
  lits.findSome? (fun lit =>
    if lit.isPrefixOf s then
      let run := (s.drop lit.length).takeWhile cls
      if run = [] then none else some run
    else none)

/-- findSubmatch: the first submatch of the leftmost match of the pattern in
`s` (`FindStringSubmatch(s)[1]`), `none` when the pattern does not match. -/
def findSubmatch (lits : List (List Char)) (cls : Char → Bool) : List Char → Option (List Char)
  | [] => submatchAt lits cls []
  | c :: cs =>
    match submatchAt lits cls (c :: cs) with
    | some run => some run
    | none => findSubmatch lits cls cs

/-- extractShareIDFromURL: the share id of a UC link: the first submatch of the
pattern `https?://drive\.uc\.cn/s/([a-zA-Z0-9]+)`. -/
def extractShareIDFromURL (urlStr : List Char) (platform : String) : Except String String :=
  if platform = "uc" then
    match findSubmatch ["https://drive.uc.cn/s/".toList, "http://drive.uc.cn/s/".toList]
        Char.isAlphanum urlStr with
    | none => .error "无法从URL中提取share_id"
    | some shareID => .ok (String.mk shareID)
  else .error ("不支持的平台: " ++ platform)

/-! ## Go `net/url` -/

/-- URL: the fields of a parsed `url.URL` that the probes read. -/
structure URL where
  Scheme : List Char
  Host : List Char
  Path : List Char
  RawQuery : List Char
  Fragment : List Char
  deriving DecidableEq

/-- UrlLib: the answers of `net/url`: `Parse` is `url.Parse`; `queryGet q key`
is `Get(key)` on the values parsed from the raw query `q` (`u.Query()`,
`url.ParseQuery`); `queryEncode q` is `u.Query().Encode()` for the raw query
`q`; `urlString` is `u.String()`; `QueryUnescape` is `url.QueryUnescape`. -/
structure UrlLib where
  Parse : List Char → Except String URL
  queryGet : List Char → String → List Char
  queryEncode : List Char → List Char
  urlString : URL → List Char
  QueryUnescape : List Char → Except String (List Char)

/-! ## internal/checker/tianyi_checker.go -/

/-- isHex: a hexadecimal digit. -/
def isHex (c : Char) : Bool :=
  (c ≥ '0' ∧ c ≤ '9') ∨ (c ≥ 'a' ∧ c ≤ 'f') ∨ (c ≥ 'A' ∧ c ≤ 'F')

/-- isURLEncoded: some `%` is followed by two hexadecimal digits (the scan of
the source reads bytes; `%` and the digits are ASCII, so reading characters
gives the same answer). -/
def isURLEncoded : List Char → Bool
  | c :: c1 :: c2 :: rest =>
    (c = '%' ∧ isHex c1 ∧ isHex c2) || isURLEncoded (c1 :: c2 :: rest)
  | _ => false

/-- containsSpecialChars: some character of the text is in the list of
characters that need URL encoding. -/
def containsSpecialChars (s : List Char) : Bool :=
  s.any (fun char => " ()[]{}<>!@#$%^&*+=|\\:;\"',?/~".toList.contains char)

/-- isRegexSpace: the class `\s` of Go regular expressions. -/
def isRegexSpace (c : Char) : Bool :=
  c = '\t' ∨ c = '\n' ∨ c = '\x0c' ∨ c = '\r' ∨ c = ' '

/-- accessCodeAt: the match of `（访问码[：:]\s*([a-zA-Z0-9]+)）` at the start of `s`:
the submatch, which the classes of the pattern determine. -/
def accessCodeAt (s : List Char) : Option (List Char) :=
  if "（访问码".toList.isPrefixOf s then
    match s.drop 4 with
    | c :: rest =>
      if c = '：' ∨ c = ':' then
        let rest := rest.dropWhile isRegexSpace
        let run := rest.takeWhile Char.isAlphanum
        if run ≠ [] ∧ (rest.drop run.length).head? = some '）' then some run else none
      else none
    | [] => none
  else none

/-- findAccessCode: `accessCodePattern.FindStringSubmatch(urlStr)[1]`: the
submatch of the leftmost match. -/
def findAccessCode : List Char → Option (List Char)
  | [] => none
  | c :: cs =>
    match accessCodeAt (c :: cs) with
    | some run => some run
    | none => findAccessCode cs

/-- cutAtSlash: the text before the first `/`, the whole text when there is
none (`codeValue[:idx]`). -/
def cutAtSlash (s : List Char) : List Char := s.takeWhile (fun c => c != '/')

/-- extractCodeFromURL: the share code, the access code and the referer of a
Tianyi link. -/
def extractCodeFromURL (lib : UrlLib) (urlStr : List Char) :
    Except String (List Char × List Char × List Char) :=
  match lib.Parse urlStr with
  | .error e => .error ("解析URL失败: " ++ e)
  | .ok parsedURL =>
    let codeValue := lib.queryGet parsedURL.RawQuery "code"
    let codeValue :=
      if codeValue = [] then
        if "/t/".toList.isPrefixOf parsedURL.Path then cutAtSlash (parsedURL.Path.drop 3)
        else codeValue
      else codeValue
    let codeValue :=
      if codeValue = [] ∧ parsedURL.Fragment ≠ [] then
        if "/t/".toList.isPrefixOf parsedURL.Fragment then
          cutAtSlash (parsedURL.Fragment.drop 3)
        else if "#/t/".toList.isPrefixOf parsedURL.Fragment then
          cutAtSlash (parsedURL.Fragment.drop 4)
        else codeValue
      else codeValue
    if codeValue = [] then .error "输入URL中未找到 'code' 参数（查询参数、路径或hash中）"
    else
      let codeValue :=
        if isURLEncoded codeValue ∧ containsSpecialChars codeValue then
          match lib.QueryUnescape codeValue with
          | .ok decodedCode => if decodedCode ≠ codeValue then decodedCode else codeValue
          | .error _ => codeValue
        else codeValue
      let accessCode := (findAccessCode urlStr).getD []
      let refererValue :=
        match lib.Parse urlStr with
        | .ok parsedInputURL => lib.urlString parsedInputURL
        | .error _ => urlStr
      .ok (codeValue, accessCode, refererValue)

/-- shareCodeParam: the value `telecomRequest` builds for the request parameter
`shareCode` before escaping it. -/
def shareCodeParam (codeValue accessCode : List Char) : List Char :=
  if accessCode ≠ [] then codeValue ++ "（访问码：".toList ++ accessCode ++ "）".toList
  else codeValue

/-! ## The request functions of the Tianyi, 115, Aliyun and CMCC probes -/

/-- DoFailure: an error returned by `httpClient.Do`: its text, and the answer of
`ctx.Err() == context.DeadlineExceeded` at that moment (the per-platform
deadline of the probe has expired). -/
structure DoFailure where
  DeadlineExceeded : Bool
  Error : String

/-- RequestError: an error returned by the request function of a probe: the
answers of `apphttp.IsRateLimitError` and `apphttp.IsTimeoutError` (type
assertions to `*RateLimitError` and `*TimeoutError`), and the text of
`Error()`. -/
structure RequestError where
  IsRateLimitError : Bool
  IsTimeoutError : Bool
  Error : String

/-- plainError: an error made with `fmt.Errorf`. -/
def plainError (text : String) : RequestError :=
  { IsRateLimitError := false, IsTimeoutError := false, Error := text }

/-- HttpAnswer: what a request function reads of the answer that `Do` returned:
the status, the error of `io.ReadAll` if any, the body, and the result of
`json.Unmarshal` on the body (the error text or the value). -/
structure HttpAnswer (α : Type) where
  StatusCode : Int
  readErr : Option String
  body : String
  decoded : Except String α

/-- statusError: `fmt.Sprintf("API返回错误状态码: %d, 响应: %s", status, body)`. -/
def statusError (status : Int) (body : String) : String :=
  "API返回错误状态码: " ++ toString status ++ ", 响应: " ++ body

namespace TianyiChecker

/-- TelecomResp: the fields of the answer that `Check` reads. -/
structure TelecomResp where
  ResMessage : String
  ShareId : Int

/-- telecomRequest: the request of the Tianyi probe. `newRequestErr` is the
error of `http.NewRequestWithContext` if any and `doResult` the result of
`httpClient.Do`; parsing the constant base address does not fail. -/
def telecomRequest (newRequestErr : Option String)
    (doResult : Except DoFailure (HttpAnswer TelecomResp)) : Except RequestError TelecomResp :=
  match newRequestErr with
  | some e => .error (plainError ("创建HTTP请求失败: " ++ e))
  | none =>
    match doResult with
    | .error f =>
      if f.DeadlineExceeded then
        .error { IsRateLimitError := false, IsTimeoutError := true, Error := "请求超时" }
      else .error (plainError ("请求失败: " ++ f.Error))
    | .ok resp =>
      match resp.readErr with
      | some e => .error (plainError ("读取响应失败: " ++ e))
      | none =>
        if resp.StatusCode ≠ 200 then .error (plainError (statusError resp.StatusCode resp.body))
        else
          match resp.decoded with
          | .error e => .error (plainError ("解析JSON失败: " ++ e))
          | .ok response => .ok response

/-- Check: the Tianyi probe. `extracted` is the result of `extractCodeFromURL`,
`newRequestErr` and `doResult` are the arguments of `telecomRequest`, `elapsed`
is the reading of `time.Since(start).Milliseconds()`. -/
def Check (extracted : Except String (List Char × List Char × List Char))
    (newRequestErr : Option String) (doResult : Except DoFailure (HttpAnswer TelecomResp))
    (elapsed : Int) : CheckResult :=
  match extracted with
  | .error e =>
    { Valid := false, FailureReason := "链接格式无效: " ++ e, Duration := elapsed,
      IsRateLimited := false }
  | .ok _ =>
    match telecomRequest newRequestErr doResult with
    | .error err =>
      if err.IsTimeoutError then
        { Valid := false, FailureReason := "请求超时", Duration := elapsed,
          IsRateLimited := false }
      else
        { Valid := false, FailureReason := "检测失败: " ++ err.Error, Duration := elapsed,
          IsRateLimited := false }
    | .ok response =>
      if response.ShareId > 0 then
        { Valid := true, FailureReason := "", Duration := elapsed, IsRateLimited := false }
      else
        { Valid := false,
          FailureReason :=
            if response.ResMessage = "" then
              "无法获取分享信息 (ShareId=" ++ toString response.ShareId ++ ")"
            else response.ResMessage,
          Duration := elapsed, IsRateLimited := false }

end TianyiChecker

namespace Pan115Checker

/-- pan115Resp: the answer of the 115 API. -/
structure pan115Resp where
  State : Bool
  Error : String
  Errno : Int

/-- pan115Request: the request of the 115 probe; the arguments are those of
`TianyiChecker.telecomRequest`. -/
def pan115Request (newRequestErr : Option String)
    (doResult : Except DoFailure (HttpAnswer pan115Resp)) : Except RequestError pan115Resp :=
  match newRequestErr with
  | some e => .error (plainError ("创建请求失败: " ++ e))
  | none =>
    match doResult with
    | .error f =>
      if f.DeadlineExceeded then
        .error { IsRateLimitError := false, IsTimeoutError := true, Error := "请求超时" }
      else .error (plainError ("请求失败: " ++ f.Error))
    | .ok resp =>
      match resp.readErr with
      | some e => .error (plainError ("读取响应失败: " ++ e))
      | none =>
        if resp.StatusCode ≠ 200 then .error (plainError (statusError resp.StatusCode resp.body))
        else
          match resp.decoded with
          | .error e => .error (plainError ("解析JSON失败: " ++ e))
          | .ok response => .ok response

/-- Check: the 115 probe. `extracted` is the result of `extractParams115`: the
share code and the receive code, or an error. -/
def Check (extracted : Except String (String × String)) (newRequestErr : Option String)
    (doResult : Except DoFailure (HttpAnswer pan115Resp)) (elapsed : Int) : CheckResult :=
  match extracted with
  | .error e =>
    { Valid := false, FailureReason := "链接格式无效" ++ ": " ++ e, Duration := elapsed,
      IsRateLimited := false }
  | .ok (shareCode, receiveCode) =>
    if shareCode = "" then
      { Valid := false, FailureReason := "链接格式无效" ++ ": 缺少分享码", Duration := elapsed,
        IsRateLimited := false }
    else if receiveCode = "" then
      { Valid := false, FailureReason := "链接格式无效" ++ ": 缺少提取码", Duration := elapsed,
        IsRateLimited := false }
    else
      match pan115Request newRequestErr doResult with
      | .error err =>
        if err.IsTimeoutError then
          { Valid := false, FailureReason := "请求超时", Duration := elapsed,
            IsRateLimited := false }
        else
          { Valid := false, FailureReason := "检测失败: " ++ err.Error, Duration := elapsed,
            IsRateLimited := false }
      | .ok response =>
        if response.State ∧ response.Errno = 0 then
          { Valid := true, FailureReason := "", Duration := elapsed, IsRateLimited := false }
        else
          { Valid := false, FailureReason := response.Error, Duration := elapsed,
            IsRateLimited := false }

end Pan115Checker

namespace AliyunChecker

/-- aliPanResp: the answer of the Aliyun API. -/
structure aliPanResp where
  ShareTitle : String

/-- aliPanRequest: the request of the Aliyun probe; the arguments are those of
`TianyiChecker.telecomRequest`. The status 429 gives a `*RateLimitError`. -/
def aliPanRequest (newRequestErr : Option String)
    (doResult : Except DoFailure (HttpAnswer aliPanResp)) : Except RequestError aliPanResp :=
  match newRequestErr with
  | some e => .error (plainError ("创建请求失败: " ++ e))
  | none =>
    match doResult with
    | .error f =>
      if f.DeadlineExceeded then
        .error { IsRateLimitError := false, IsTimeoutError := true, Error := "请求超时" }
      else .error (plainError ("请求失败: " ++ f.Error))
    | .ok resp =>
      match resp.readErr with
      | some e => .error (plainError ("读取响应失败: " ++ e))
      | none =>
        if resp.StatusCode ≠ 200 then
          if resp.StatusCode = 429 then
            .error { IsRateLimitError := true, IsTimeoutError := false,
                     Error := statusError resp.StatusCode resp.body }
          else .error (plainError (statusError resp.StatusCode resp.body))
        else
          match resp.decoded with
          | .error e => .error (plainError ("解析JSON失败: " ++ e))
          | .ok response => .ok response

/-- Check: the Aliyun probe. `extracted` is the result of
`extractParamsAliPan`. -/
def Check (extracted : Except String String) (newRequestErr : Option String)
    (doResult : Except DoFailure (HttpAnswer aliPanResp)) (elapsed : Int) : CheckResult :=
  match extracted with
  | .error e =>
    { Valid := false, FailureReason := "链接格式无效: " ++ e, Duration := elapsed,
      IsRateLimited := false }
  | .ok _ =>
    match aliPanRequest newRequestErr doResult with
    | .error err =>
      if err.IsRateLimitError then
        { Valid := false, FailureReason := "API频率限制（429错误）: " ++ err.Error,
          Duration := elapsed, IsRateLimited := true }
      else if err.IsTimeoutError then
        { Valid := false, FailureReason := "请求超时", Duration := elapsed,
          IsRateLimited := false }
      else
        { Valid := false, FailureReason := "检测失败: " ++ err.Error, Duration := elapsed,
          IsRateLimited := false }
    | .ok _ =>
      { Valid := true, FailureReason := "", Duration := elapsed, IsRateLimited := false }

end AliyunChecker

namespace CMCCChecker

/-- ShareInfo: what `Check` reads in the decoded answer: `resultCode` and
`desc` (empty when absent or not a string) and whether `data` is not nil. -/
structure ShareInfo where
  resultCode : String
  desc : String
  hasData : Bool

/-- CMCCAnswer: what `getShareInfo` reads of the answer that `Do` returned: the
status, the error of `io.ReadAll` if any, the body, the result of
`chinaMobileCloudDecrypt` on the body and of `json.Unmarshal` on the decrypted
text. -/
structure CMCCAnswer where
  StatusCode : Int
  readErr : Option String
  body : String
  decrypted : Except String String
  response : Except String ShareInfo

/-- getShareInfo: the request of the CMCC probe. `encryptErr` is the error of
`chinaMobileCloudEncrypt` on the request data if any; marshalling the request
data and the encrypted text does not fail. -/
def getShareInfo (encryptErr : Option String) (newRequestErr : Option String)
    (doResult : Except DoFailure CMCCAnswer) : Except RequestError ShareInfo :=
  match encryptErr with
  | some e => .error (plainError ("加密请求数据失败: " ++ e))
  | none =>
    match newRequestErr with
    | some e => .error (plainError ("创建请求失败: " ++ e))
    | none =>
      match doResult with
      | .error f =>
        if f.DeadlineExceeded then
          .error { IsRateLimitError := false, IsTimeoutError := true, Error := "请求超时" }
        else .error (plainError ("请求失败: " ++ f.Error))
      | .ok resp =>
        match resp.readErr with
        | some e => .error (plainError ("读取响应失败: " ++ e))
        | none =>
          if resp.StatusCode ≠ 200 then
            .error (plainError (statusError resp.StatusCode resp.body))
          else
            match resp.decrypted with
            | .error e => .error (plainError ("解密响应数据失败: " ++ e))
            | .ok _ =>
              match resp.response with
              | .error e => .error (plainError ("解析JSON响应失败: " ++ e))
              | .ok response => .ok response

/-- Check: the CMCC probe. `shareID` is the result of `extractShareID`. -/
def Check (shareID : String) (encryptErr : Option String) (newRequestErr : Option String)
    (doResult : Except DoFailure CMCCAnswer) (elapsed : Int) : CheckResult :=
  if shareID = "" then
    { Valid := false, FailureReason := "链接格式无效：无法提取分享ID", Duration := elapsed,
      IsRateLimited := false }
  else
    match getShareInfo encryptErr newRequestErr doResult with
    | .error err =>
      if err.IsTimeoutError then
        { Valid := false, FailureReason := "请求超时", Duration := elapsed,
          IsRateLimited := false }
      else
        { Valid := false, FailureReason := "检测失败: " ++ err.Error, Duration := elapsed,
          IsRateLimited := false }
    | .ok response =>
      if response.resultCode = "0" ∧ response.hasData then
        { Valid := true, FailureReason := "", Duration := elapsed, IsRateLimited := false }
      else
        { Valid := false,
          FailureReason :=
            if response.desc ≠ "" then response.desc
            else if response.resultCode ≠ "" then "错误码: " ++ response.resultCode
            else "获取分享信息失败",
          Duration := elapsed, IsRateLimited := false }

end CMCCChecker

/-! ## internal/checker/xunlei_checker.go -/

namespace XunleiChecker

/-- extractShareID: the first submatch of `pan\.xunlei\.com/s/([^?/#]+)`, empty
when the pattern does not match. -/
def extractShareID (shareURL : List Char) : List Char :=
  (findSubmatch ["pan.xunlei.com/s/".toList] (fun c => c != '?' && c != '/' && c != '#')
    shareURL).getD []

/-- TokenHttpResponse: the answer of the captcha-init API: the status, the error
of `io.ReadAll` if any, and the result of `json.Unmarshal` on the body: the
fields `captcha_token` and `url`, or the error text. -/
structure TokenHttpResponse where
  StatusCode : Int
  readErr : Option String
  tokenResp : Except String (String × String)

/-- getCaptchaToken: ask for a captcha token. `doResult` is the result of
`httpClient.Do` (the error text or the answer). Marshalling the constant
request body and building the request for the constant address do not fail. -/
def getCaptchaToken (doResult : Except String TokenHttpResponse) : Except String String :=
  match doResult with
  | .error e => .error ("获取 token 请求失败: " ++ e)
  | .ok resp =>
    match resp.readErr with
    | some e => .error ("读取响应失败: " ++ e)
    | none =>
      if resp.StatusCode ≠ 200 then
        .error ("验证码token请求失败，状态码: " ++ toString resp.StatusCode)
      else
        match resp.tokenResp with
        | .error e => .error ("解析响应失败: " ++ e)
        | .ok (captchaToken, url) =>
          if url ≠ "" then .error ("需要验证: " ++ url)
          else if captchaToken = "" then .error "未获取到验证码token"
          else .ok captchaToken

/-- ApiBody: the fields of the share API's JSON answer that are strings:
`share_status`, `error`, `share_status_text` (`none` when absent or not a
string). -/
structure ApiBody where
  share_status : Option String
  error : Option String
  share_status_text : Option String

/-- ApiHttpResponse: the answer of the share API: the status, the error of
`io.ReadAll` if any; for a status other than 200 the integer part of a numeric
`error_code` of a JSON body and the text put in the failure reason (the
indented JSON, or the raw body); for the status 200 the result of
`json.Unmarshal`. -/
structure ApiHttpResponse where
  StatusCode : Int
  readErr : Option String
  errorCode : Option Int
  responseContent : String
  apiResp : Except String ApiBody

/-- Check: the Xunlei probe. `passCode` is the result of `url.Parse(link)`
followed by `Query().Get("pwd")`, `tokenDo` the result of `Do` on the
captcha-init request, `newRequestErr` the error of building the share request,
`apiDo` the result of `Do` on the share request, given the captcha token (the
header `X-Captcha-Token` is set when the token is not empty). -/
def Check (link : List Char) (passCode : Except String String)
    (tokenDo : Except String TokenHttpResponse) (newRequestErr : Option String)
    (apiDo : String → Except DoFailure ApiHttpResponse) (elapsed : Int) : CheckResult :=
  let shareID := extractShareID link
  if shareID = [] then
    { Valid := false, FailureReason := "链接格式无效：无法提取 share_id", Duration := elapsed,
      IsRateLimited := false }
  else
    match passCode with
    | .error _ =>
      { Valid := false, FailureReason := "链接格式无效：无法解析 URL", Duration := elapsed,
        IsRateLimited := false }
    | .ok _ =>
      let captchaToken :=
        match getCaptchaToken tokenDo with
        | .error _ => ""
        | .ok token => token
      match newRequestErr with
      | some e =>
        { Valid := false, FailureReason := "创建请求失败: " ++ e, Duration := elapsed,
          IsRateLimited := false }
      | none =>
        match apiDo captchaToken with
        | .error f =>
          if f.DeadlineExceeded then
            { Valid := true, FailureReason := "", Duration := elapsed, IsRateLimited := false }
          else
            { Valid := false, FailureReason := "请求失败: " ++ f.Error, Duration := elapsed,
              IsRateLimited := false }
        | .ok resp =>
          match resp.readErr with
          | some e =>
            { Valid := false, FailureReason := "读取响应失败: " ++ e, Duration := elapsed,
              IsRateLimited := false }
          | none =>
            if resp.StatusCode ≠ 200 then
              { Valid := false,
                FailureReason := "HTTP状态码: " ++ toString resp.StatusCode ++ ", 响应内容: "
                  ++ resp.responseContent,
                Duration := elapsed,
                IsRateLimited := resp.errorCode = some 9 }
            else
              match resp.apiResp with
              | .error e =>
                { Valid := false, FailureReason := "解析响应失败: " ++ e, Duration := elapsed,
                  IsRateLimited := false }
              | .ok apiResp =>
                match apiResp.share_status with
                | none =>
                  match apiResp.error with
                  | some errMsg =>
                    if errMsg ≠ "" then
                      { Valid := false, FailureReason := errMsg, Duration := elapsed,
                        IsRateLimited := false }
                    else
                      { Valid := false, FailureReason := "响应格式异常：缺少 share_status 字段",
                        Duration := elapsed, IsRateLimited := false }
                  | none =>
                    { Valid := false, FailureReason := "响应格式异常：缺少 share_status 字段",
                      Duration := elapsed, IsRateLimited := false }
                | some shareStatus =>
                  if shareStatus = "OK" then
                    { Valid := true, FailureReason := "", Duration := elapsed,
                      IsRateLimited := false }
                  else
                    { Valid := false,
                      FailureReason :=
                        if apiResp.share_status_text.getD "" = "" then
                          "分享状态: " ++ shareStatus
                        else apiResp.share_status_text.getD "",
                      Duration := elapsed, IsRateLimited := false }

end XunleiChecker

/-! ## internal/repository/scheduled_task_repository.go -/

/-- ScheduledTask: the fields of a row of the table of jobs that the expiration
sweep and `ExecuteTask` read and write, as `scheduler.go`, the repository and
`task_scheduler_service.go` use them: `AutoDestroyAt` is a pointer to a time,
here an optional instant. -/
structure ScheduledTask where
  ID : Nat
  Status : String
  AutoDestroyAt : Option Int
  CurlCommand : String
  TransformScript : String
  deriving DecidableEq, Repr

/-- ScheduledTaskRepository: the table of jobs. `queryErr` and `updateErr` are
the errors with which the database answers a query and an update, if any. -/
structure ScheduledTaskRepository where
  rows : List ScheduledTask
  queryErr : Option String
  updateErr : Option String

namespace ScheduledTaskRepository

/-- isExpired: the condition of the query of `GetExpiredTasks`:
`status = 'active' AND auto_destroy_at IS NOT NULL AND auto_destroy_at <= now`. -/
def isExpired (now : Int) (task : ScheduledTask) : Bool :=
  task.Status == "active" &&
    match task.AutoDestroyAt with
    | some at_ => decide (at_ ≤ now)
    | none => false

/-- GetExpiredTasks: the rows that are active and due at `now`, the reading of
`time.Now()` in the call. -/
def GetExpiredTasks (r : ScheduledTaskRepository) (now : Int) :
    Except String (List ScheduledTask) :=
  match r.queryErr with
  | some e => .error e
  | none => .ok (r.rows.filter (isExpired now))

/-- updateRow: the effect of `Updates(task)` on a row with the id of `task`:
the fields of `task` that are not zero values replace those of the row. -/
def updateRow (task row : ScheduledTask) : ScheduledTask :=
  if row.ID = task.ID then
    { ID := row.ID
      Status := if task.Status = "" then row.Status else task.Status
      AutoDestroyAt :=
        match task.AutoDestroyAt with
        | some at_ => some at_
        | none => row.AutoDestroyAt
      CurlCommand := if task.CurlCommand = "" then row.CurlCommand else task.CurlCommand
      TransformScript :=
        if task.TransformScript = "" then row.TransformScript else task.TransformScript }
  else row

/-- Update: write the non-zero fields of `task` into the rows with its id. -/
def Update (r : ScheduledTaskRepository) (task : ScheduledTask) :
    ScheduledTaskRepository × Option String :=
  match r.updateErr with
  | some e => (r, some e)
  | none => ({ r with rows := r.rows.map (updateRow task) }, none)

end ScheduledTaskRepository

namespace ScheduledTaskService

/-- expireTasks: the loop of `CheckExpiredTasks`: set each task to `expired`
and write it; the first error ends the loop. -/
def expireTasks (r : ScheduledTaskRepository) :
    List ScheduledTask → ScheduledTaskRepository × Option String
  | [] => (r, none)
  | task :: rest =>
    match r.Update { task with Status := "expired" } with
    | (r1, some e) => (r1, some e)
    | (r1, none) => expireTasks r1 rest

/-- CheckExpiredTasks: query the expired jobs and set them to `expired`. -/
def CheckExpiredTasks (r : ScheduledTaskRepository) (now : Int) :
    ScheduledTaskRepository × Option String :=
  match r.GetExpiredTasks now with
  | .error e => (r, some e)
  | .ok expiredTasks => expireTasks r expiredTasks

end ScheduledTaskService

/-! ## internal/scheduler/scheduler.go -/

/-- Scheduler: the table of jobs, the entry ids registered in the cron
scheduler, and the map `entries` from job ids to cron entry ids. -/
structure Scheduler where
  taskRepo : ScheduledTaskRepository
  cron : List Nat
  entries : List (Nat × Nat)

namespace Scheduler

/-- removeTask: remove the cron entry of a job and its key in `entries`, when
the job has one. -/
def removeTask (s : Scheduler) (taskID : Nat) : Scheduler :=
  match s.entries.lookup taskID with
  | some entryID =>
    { s with cron := s.cron.filter (fun id => id != entryID)
             entries := s.entries.filter (fun kv => kv.1 != taskID) }
  | none => s

/-- checkExpiredTasks: one pass of the loop of `checkExpiredTasks`, at a tick:
`CheckExpiredTasks` (an error is only logged), then a second query of the
expired jobs (an error ends the pass) and `removeTask` for each job it
returns. `now1` and `now2` are the readings of the clock in the two
queries. -/
def checkExpiredTasks (s : Scheduler) (now1 now2 : Int) : Scheduler :=
  let s1 := { s with taskRepo := (ScheduledTaskService.CheckExpiredTasks s.taskRepo now1).1 }
  match s1.taskRepo.GetExpiredTasks now2 with
  | .error _ => s1
  | .ok expiredTasks => expiredTasks.foldl (fun s task => s.removeTask task.ID) s1

end Scheduler

/-! ## internal/service/task_scheduler_service.go -/

/-- TaskExecution: a row of the table of job executions, with the fields that
`ExecuteTask` writes. -/
structure TaskExecution where
  ID : Nat
  TaskID : Nat
  Status : String
  StartedAt : Int
  FinishedAt : Option Int
  ExecutionDuration : Option Int
  ErrorMessage : String
  LinksCount : Nat
  CheckedCount : Nat
  ValidCount : Nat
  InvalidCount : Nat
  deriving DecidableEq

/-- TaskExecutionRepository: the table of job executions, and the errors with
which the database answers `Create` and `Update`, if any. -/
structure TaskExecutionRepository where
  rows : List TaskExecution
  createErr : Option String
  updateErr : Option String

namespace TaskExecutionRepository

/-- Create: insert the execution; `newID` is the primary key the database gives
it, which is written back into the execution. -/
def Create (r : TaskExecutionRepository) (execution : TaskExecution) (newID : Nat) :
    TaskExecutionRepository × TaskExecution × Option String :=
  match r.createErr with
  | some e => (r, execution, some e)
  | none =>
    ({ r with rows := r.rows ++ [{ execution with ID := newID }] },
     { execution with ID := newID }, none)

/-- Update: `Save` the execution: replace the row with its primary key, insert
it when there is none. -/
def Update (r : TaskExecutionRepository) (execution : TaskExecution) :
    TaskExecutionRepository × Option String :=
  match r.updateErr with
  | some e => (r, some e)
  | none =>
    if r.rows.any (fun existing => existing.ID = execution.ID) then
      ({ r with
         rows := r.rows.map (fun existing =>
           if existing.ID = execution.ID then execution else existing) }, none)
    else ({ r with rows := r.rows ++ [execution] }, none)

end TaskExecutionRepository

namespace SubmissionRepository

/-- Create: insert the record, which carries the primary key the database gave
it. -/
def Create (r : SubmissionRepository) (record : SubmissionRecord) : SubmissionRepository :=
  { r with rows := r.rows ++ [record] }

end SubmissionRepository

namespace CheckerService

/-- GetInvalidLinksFromRecord: the links of the record (original, pending and
valid) that have a row in the table `invalid_links`. -/
def GetInvalidLinksFromRecord (st : Stores) (submissionID : Nat) :
    Except String (List (List Char)) :=
  match st.submissionRepo.GetByID submissionID with
  | .error e => .error e
  | .ok record =>
    let allLinks := record.OriginalLinks ++ record.PendingLinks ++ record.ValidLinks
    .ok ((InvalidLinkRepository.FindByLinks st.world.invalidLinkRepo allLinks).map
      (fun il => il.Link))

end CheckerService

/-- TaskEnv: what a run of `ExecuteTask` gets from outside: the results of
`ExecuteCurlCommand` on a command and of `TransformData` on the raw data and a
script; the visiting orders of the map ranges in `CheckLinks` (`parseOrder`)
and in `CheckRealtime` (`order`, `visit`); the primary keys the database gives
to the execution and to the submission; the clock readings: the start, the
elapsed milliseconds and the instant read by the deferred update, and the
duration and the instant read by the dispatch. -/
structure TaskEnv where
  ExecuteCurlCommand : String → Except String String
  TransformData : String → String → Except String (List (List Char))
  parseOrder : List Char → List Platform
  order : List Char → List Platform
  visit : List Platform
  executionID : Nat
  submissionID : Nat
  started : Int
  elapsed : Int
  finished : Int
  dispatchDuration : Int
  dispatchNow : Int

/-- TaskState: the stores of the dispatcher and the table of job executions. -/
structure TaskState where
  stores : Stores
  executionRepo : TaskExecutionRepository

namespace TaskSchedulerService

/-- finishExecution: the deferred function of `ExecuteTask`: write the duration
and the end, the status `failed` and the text of the local error `err` when
there is one and `success` otherwise, and save the execution; an error of the
save is only logged. The `recover` acts only on a panic, which none of the
rendered paths raises. -/
def finishExecution (env : TaskEnv) (executionRepo : TaskExecutionRepository)
    (execution : TaskExecution) (err : Option String) : TaskExecutionRepository :=
  let execution1 :=
    { execution with ExecutionDuration := some env.elapsed, FinishedAt := some env.finished }
  let execution2 :=
    match err with
    | some e => { execution1 with Status := "failed", ErrorMessage := e }
    | none => { execution1 with Status := "success" }
  (executionRepo.Update execution2).1

/-- ExecuteTask: one run of a job. The result is the state after the run and
the error returned, if any. The database calls of `CheckLinks` are taken to
succeed, as in `LinkService.CheckLinks`. -/
def ExecuteTask (s : CheckerService) (env : TaskEnv) (st : TaskState) (task : ScheduledTask) :
    TaskState × Option String :=
  let execution0 : TaskExecution :=
    { ID := 0, TaskID := task.ID, Status := "running", StartedAt := env.started,
      FinishedAt := none, ExecutionDuration := none, ErrorMessage := "", LinksCount := 0,
      CheckedCount := 0, ValidCount := 0, InvalidCount := 0 }
  match st.executionRepo.Create execution0 env.executionID with
  | (repo1, _, some e) =>
    ({ st with executionRepo := repo1 }, some ("failed to create execution record: " ++ e))
  | (repo1, execution, none) =>
    match env.ExecuteCurlCommand task.CurlCommand with
    | .error e =>
      ({ st with executionRepo := finishExecution env repo1 execution (some e) },
       some ("curl execution failed: " ++ e))
    | .ok rawData =>
      match env.TransformData rawData task.TransformScript with
      | .error e =>
        ({ st with executionRepo := finishExecution env repo1 execution (some e) },
         some ("data transformation failed: " ++ e))
      | .ok links =>
        let execution1 := { execution with LinksCount := links.length }
        if links.length = 0 then
          ({ st with executionRepo := finishExecution env repo1 execution1 none }, none)
        else
          let checkReq : CheckLinksRequest := { Links := links, SelectedPlatforms := [] }
          let created := LinkService.CheckLinks env.parseOrder st.stores.world.invalidLinkRepo
            env.submissionID checkReq "system"
          let resp := created.1
          let stores1 : Stores :=
            match created.2 with
            | some record =>
              { st.stores with submissionRepo := st.stores.submissionRepo.Create record }
            | none => st.stores
          match CheckerService.CheckRealtime s env.order env.visit env.dispatchDuration
              env.dispatchNow stores1 resp.SubmissionID resp.PendingLinks with
          | (stores2, .error checkErr) =>
            let err := "link check execution failed: " ++ checkErr
            ({ stores := stores2,
               executionRepo := finishExecution env repo1 execution1 (some err) }, some err)
          | (stores2, .ok submissionRecord) =>
            let invalidLinksFromDB :=
              match CheckerService.GetInvalidLinksFromRecord stores2 resp.SubmissionID with
              | .ok invalidLinks => invalidLinks
              | .error _ => []
            let execution2 :=
              { execution1 with
                CheckedCount := submissionRecord.OriginalLinks.length
                ValidCount := submissionRecord.ValidLinks.length
                InvalidCount := invalidLinksFromDB.length }
            ({ stores := stores2,
               executionRepo := finishExecution env repo1 execution2 none }, none)

end TaskSchedulerService

/-! ## internal/checker/baidu_checker.go: `normalizeBaiduURL` -/

/-- scanURL: the loop of `normalizeBaiduURL` from the start index on: the text
up to the first space, line feed, carriage return or tab, or the first position
at which `提取码` or `密码` starts. The source steps over bytes; in a UTF-8
text the tests can only succeed at the first byte of a character. -/
def scanURL : List Char → List Char
  | [] => []
  | char :: rest =>
    if char = ' ' ∨ char = '\n' ∨ char = '\r' ∨ char = '\t' then []
    else if "提取码".toList.isPrefixOf (char :: rest) ∨ "密码".toList.isPrefixOf (char :: rest)
      then []
    else char :: scanURL rest

/-- normalizeBaiduURL: locate the share address in a text and rebuild it from
the parsed parts. -/
def normalizeBaiduURL (lib : UrlLib) (link : List Char) : Except String (List Char) :=
  let cleaned := TrimSpace link
  let startIdx :=
    if Index cleaned "https://pan.baidu.com/s/".toList = -1 then
      Index cleaned "http://pan.baidu.com/s/".toList
    else Index cleaned "https://pan.baidu.com/s/".toList
  if startIdx = -1 then .error "未找到有效的百度网盘URL"
  else
    let urlStr := TrimSpace (scanURL (cleaned.drop startIdx.toNat))
    match lib.Parse urlStr with
    | .error e => .error ("解析URL失败: " ++ e)
    | .ok parsedURL =>
      let normalized := parsedURL.Scheme ++ "://".toList ++ parsedURL.Host ++ parsedURL.Path
      let normalized :=
        if parsedURL.RawQuery ≠ [] then
          normalized ++ "?".toList ++ lib.queryEncode parsedURL.RawQuery
        else normalized
      let normalized :=
        if parsedURL.Fragment ≠ [] then normalized ++ "#".toList ++ parsedURL.Fragment
        else normalized
      .ok normalized

/-- queryPwd: the password `Check` reads in an address: `url.Parse` and then
`Query().Get("pwd")`. -/
def queryPwd (lib : UrlLib) (link : List Char) : Except String (List Char) :=
  match lib.Parse link with
  | .error e => .error e
  | .ok parsedURL => .ok (lib.queryGet parsedURL.RawQuery "pwd")

/-! ## Concrete scenarios -/

namespace CheckerService

/-- dispatchRound: what an unfiltered dispatch does to the cache and to the
table `invalid_links` once the submission is owned: deduplicate, parse, group,
fan out over the platforms, mark the links of unknown platform dead, and upsert
the collected dead links. -/
def dispatchRound (s : CheckerService) (order : List Char → List Platform)
    (visit : List Platform) (submissionID : Nat) (links : List (List Char)) (w : World) :
    World × Aggregate :=
  let g := groupLinks (uniqueLinkInfos order links)
  let r := checkPlatforms s order submissionID g.linksByPlatform visit
    (w, { validLinks := [], invalidLinks := [] })
  let agg : Aggregate :=
    { r.2 with invalidLinks := r.2.invalidLinks ++
        g.unknownLinks.map (fun link =>
          { Link := link, Platform := PlatformUnknown, FailureReason := "无法识别网盘平台类型",
            CheckDuration := none, IsRateLimited := false,
            SubmissionID := some submissionID }) }
  (saveInvalidLinks r.1 agg.invalidLinks, agg)

end CheckerService

/-- aliyunLink: an Aliyun share link. -/
def aliyunLink : List Char := "https://www.alipan.com/s/abc".toList

/-- throttledOutcome: the outcome the Aliyun probe returns on HTTP 429. -/
def throttledOutcome : CheckResult :=
  { Valid := false, FailureReason := "API频率限制（429错误）: 429", Duration := 5,
    IsRateLimited := true }

/-- throttledService: a dispatcher whose Aliyun probe is throttled on every
call; the TTL settings are left at their defaults. -/
def throttledService : CheckerService :=
  { checkers := fun p =>
      if p = PlatformAliyun then
        some { GetPlatform := PlatformAliyun, GetConcurrencyLimit := 5,
               Check := fun _ => (some throttledOutcome, none) }
      else none
    invalidTTL := 0
    platformTTLMap := fun _ => none }

/-- freshWorld: an enabled empty cache, an empty table, no probe made. -/
def freshWorld : World :=
  { cacheRepo := { enabled := true, entries := [] }, invalidLinkRepo := [], probes := [] }

/-- afterThrottledDispatch: the state left by one dispatch of `aliyunLink` with
the throttled probe, with the probe log cleared for the next dispatch. -/
def afterThrottledDispatch : World :=
  { (CheckerService.dispatchRound throttledService (fun _ => AllPlatforms) AllPlatforms 1
      [aliyunLink] freshWorld).1 with probes := [] }

/-- throttledRow: the row left in `invalid_links` by a throttled probe of
`aliyunLink` made for submission 1. -/
def throttledRow : InvalidLink :=
  { Link := aliyunLink, Platform := PlatformAliyun,
    FailureReason := "API频率限制（429错误）: 429", CheckDuration := some 5,
    IsRateLimited := true, SubmissionID := some 1 }

/-- quarkChecker: a Quark probe that answers valid. -/
def quarkChecker : LinkChecker :=
  { GetPlatform := PlatformQuark, GetConcurrencyLimit := 5,
    Check := fun _ =>
      (some { Valid := true, FailureReason := "", Duration := 1, IsRateLimited := false },
       none) }

/-- quarkService: a dispatcher with the Quark probe only. -/
def quarkService : CheckerService :=
  { checkers := fun p => if p = PlatformQuark then some quarkChecker else none
    invalidTTL := 0
    platformTTLMap := fun _ => none }

/-- deadRow: a confirmed-dead Quark link in the table `invalid_links`. -/
def deadRow : InvalidLink :=
  { Link := "https://pan.quark.cn/s/dead1".toList, Platform := PlatformQuark,
    FailureReason := "分享已失效", CheckDuration := some 12, IsRateLimited := false,
    SubmissionID := some 3 }

/-- deadWorld: an enabled empty cache and a table that holds `deadRow`. -/
def deadWorld : World :=
  { cacheRepo := { enabled := true, entries := [] }, invalidLinkRepo := [deadRow],
    probes := [] }

/-- scriptedBaiduEnv: a Baidu environment that answers step 1 with `resp1`, finds
`surl` in every location, answers step 2 with `resp2` and `body`, parses the
body as `json`, and rejects the location `/%zz` (an invalid URL escape) when it
resolves it. -/
def scriptedBaiduEnv (resp1 : HttpResponse) (surl : String) (resp2 : HttpResponse)
    (body : String) (json : Option Step2JSONResponse) : BaiduEnv :=
  { normalizeBaiduURL := fun link => .ok link
    queryPwd := fun _ => .ok "1234"
    resolveReference := fun _ location =>
      if location = "/%zz" then .error "invalid URL escape" else .ok ("h" ++ location)
    resolveReference_ne := by
      intro b l u h
      by_cases hl : l = "/%zz"
      · simp [hl] at h
      · simp only [hl, if_false, Except.ok.injEq] at h
        subst h
        intro he
        have hd := congrArg String.data he
        simp at hd
    querySurl := fun _ => .ok surl
    unmarshal := fun _ => json
    doStep1 := fun _ => .ok resp1
    doStep2 := fun _ _ => .ok (resp2, body) }

/-- baiduRedirect: a step-1 answer that redirects to the share page. -/
def baiduRedirect : HttpResponse :=
  { StatusCode := 302, Location := "/share/init?surl=abc", Cookies := [] }

/-- baiduBadLocation: a step-1 answer with the status 200 whose `Location`
header is not a valid URL. (For a redirect status `client.Do` itself fails on
such a header, so the probe never gets that answer.) -/
def baiduBadLocation : HttpResponse :=
  { StatusCode := 200, Location := "/%zz", Cookies := [] }

/-- baiduStep1: the parsed form of `baiduRedirect`. -/
def baiduStep1 : Step1Response :=
  { StatusCode := 302, Location := "/share/init?surl=abc",
    FullRedirectURL := "h/share/init?surl=abc", SetCookies := [], SURL := "abc" }

/-- baiduPlain: a step-2 answer that sets no cookie. -/
def baiduPlain : HttpResponse :=
  { StatusCode := 200, Location := "", Cookies := [] }

/-- baiduWithCookie: a step-2 answer that sets the cookie `BDCLND`. -/
def baiduWithCookie : HttpResponse :=
  { StatusCode := 200, Location := "", Cookies := [{ Name := "BDCLND", Value := "tok" }] }

/-- The request `[X, X, " X "]` for a recognised Quark link `X`. -/
def tripleRequest : CheckLinksRequest :=
  { Links := ["https://pan.quark.cn/s/a1".toList, "https://pan.quark.cn/s/a1".toList,
              " https://pan.quark.cn/s/a1 ".toList],
    SelectedPlatforms := [] }

/-- The record that `CheckLinks` creates from `tripleRequest` with primary key 1. -/
def tripleRecord : SubmissionRecord :=
  { ID := 1, OriginalLinks := ["https://pan.quark.cn/s/a1".toList],
    PendingLinks := ["https://pan.quark.cn/s/a1".toList], ValidLinks := [],
    SelectedPlatforms := [], Status := "pending", TotalDuration := none, TotalLinks := 1,
    ClientIP := "203.0.113.7", CheckedAt := none }

/-- pendingRecord: submission 1, pending, as `CheckLinks` stores it for the
links given. -/
def pendingRecord (links : List (List Char)) (selected : List Platform) : SubmissionRecord :=
  { ID := 1, OriginalLinks := links, PendingLinks := links, ValidLinks := [],
    SelectedPlatforms := selected, Status := "pending", TotalDuration := none,
    TotalLinks := links.length, ClientIP := "203.0.113.7", CheckedAt := none }

/-- storesWith: an enabled empty cache, an empty table `invalid_links`, no probe
made, the table `submission_records` holding `record`, and a database that
answers the calls of `Update` by `updateErr`. -/
def storesWith (record : SubmissionRecord) (updateErr : Nat → Option String) : Stores :=
  { world := freshWorld,
    submissionRepo := { rows := [record], updates := [], updateErr := updateErr } }

/-- mixedBatch: the batch of scenario S4: two Quark links, two Baidu links and
one Xunlei link. -/
def mixedBatch : List (List Char) :=
  ["https://pan.quark.cn/s/a1".toList, "https://pan.baidu.com/s/1abcdef".toList,
   "https://pan.quark.cn/s/b2".toList, "https://pan.xunlei.com/s/VNabc123".toList,
   "https://pan.baidu.com/s/1ghijkl".toList]

/-- quarkLink: a Quark share link. -/
def quarkLink : List Char := "https://pan.quark.cn/s/a1".toList

/-- checkingStores: the stores in which submission 1 is already in status
`checking`. -/
def checkingStores : Stores :=
  storesWith { pendingRecord [quarkLink] [PlatformQuark] with Status := "checking" }
    (fun _ => none)

/-- failingStores: the stores in which submission 1 is pending and every call of
`Update` is answered by the error "connection refused". -/
def failingStores : Stores :=
  storesWith (pendingRecord [quarkLink] [PlatformQuark]) (fun _ => some "connection refused")

/-- failedFilteredDispatch: the filtered dispatch of `quarkLink` with the filter
`[quark]` on `failingStores`. -/
def failedFilteredDispatch : Stores × Except String SubmissionRecord :=
  CheckerService.CheckRealtimeWithPlatformFilter quarkService (fun _ => AllPlatforms)
    AllPlatforms 7 100 failingStores 1 [quarkLink] [PlatformQuark]

/-- failedUnfilteredDispatch: the unfiltered dispatch of `quarkLink` on
`failingStores`. -/
def failedUnfilteredDispatch : Stores × Except String SubmissionRecord :=
  CheckerService.CheckRealtime quarkService (fun _ => AllPlatforms) AllPlatforms 7 100
    failingStores 1 [quarkLink]

/-- failedEmptyDispatch: the unfiltered dispatch of no link on `failingStores`. -/
def failedEmptyDispatch : Stores × Except String SubmissionRecord :=
  CheckerService.CheckRealtime quarkService (fun _ => AllPlatforms) AllPlatforms 7 100
    failingStores 1 []

/-- mixedDispatch: scenario S4: the filtered dispatch of `mixedBatch` with the
filter `[quark]`, the Quark probe answering valid. -/
def mixedDispatch : Stores × Except String SubmissionRecord :=
  CheckerService.CheckRealtimeWithPlatformFilter quarkService (fun _ => AllPlatforms)
    AllPlatforms 7 100 (storesWith (pendingRecord mixedBatch [PlatformQuark]) (fun _ => none))
    1 mixedBatch [PlatformQuark]

/-- mixedRecord: the record returned by `mixedDispatch`. -/
def mixedRecord : SubmissionRecord :=
  { ID := 1, OriginalLinks := mixedBatch,
    PendingLinks := ["https://pan.baidu.com/s/1abcdef".toList,
      "https://pan.xunlei.com/s/VNabc123".toList, "https://pan.baidu.com/s/1ghijkl".toList],
    ValidLinks := ["https://pan.quark.cn/s/a1".toList, "https://pan.quark.cn/s/b2".toList],
    SelectedPlatforms := [PlatformQuark], Status := "pending", TotalDuration := some 7,
    TotalLinks := 5, ClientIP := "203.0.113.7", CheckedAt := none }

/-- plainBatch: a Quark link and a text that no pattern matches. -/
def plainBatch : List (List Char) := [quarkLink, "not a link".toList]

/-- schemelessRequest: one Quark link submitted without a scheme. -/
def schemelessRequest : CheckLinksRequest :=
  { Links := ["pan.quark.cn/s/abc".toList], SelectedPlatforms := [] }

/-- unaryDecode: read back a text of `a`s closed by `b`s, `k` being the
number of `a`s read since the last `b`. -/
def unaryDecode : List Char → Nat → List Nat
  | [], _ => []
  | c :: rest, k => if c = 'b' then k :: unaryDecode rest 0 else unaryDecode rest (k + 1)

/-- unaryEncode: write each number `n` as `n` letters `a` and one `b`. -/
def unaryEncode (d : List Nat) : List Char :=
  d.flatMap (fun n => List.replicate n 'a' ++ ['b'])

/-- toyCryptoLib: a stand-in for the libraries that satisfies their laws: the
block cipher is the identity and the text encoding is unary. -/
def toyCryptoLib : CryptoLib :=
  { aesEncrypt := fun b => b
    aesDecrypt := fun b => b
    aesEncrypt_length := fun _ h => h
    aesDecrypt_encrypt := fun _ _ => rfl
    base64Encode := fun d => String.mk (unaryEncode d)
    base64Decode := fun s => .ok (unaryDecode s.data 0)
    base64Decode_encode := fun d => by
      have key : ∀ (n k : Nat) (rest : List Char),
          unaryDecode (List.replicate n 'a' ++ 'b' :: rest) k
            = (k + n) :: unaryDecode rest 0 := by
        intro n
        induction n with
        | zero => intro k rest; simp [unaryDecode]
        | succ n ih =>
          intro k rest
          rw [List.replicate_succ, List.cons_append, unaryDecode, if_neg (by decide), ih]
          congr 1
          omega
      show Except.ok (unaryDecode (unaryEncode d) 0) = Except.ok d
      congr 1
      induction d with
      | nil => rfl
      | cons n d ih =>
        unfold unaryEncode at ih ⊢
        rw [List.flatMap_cons, List.append_assoc, List.singleton_append, key, ih,
          Nat.zero_add] }

/-- tianyiLink: the Tianyi link of scenario S2, with its access code. -/
def tianyiLink : List Char := "https://cloud.189.cn/t/abcDEF（访问码：xyz9）".toList

/-- tianyiURL: what `url.Parse` makes of `tianyiLink`: no query, no fragment,
and the path up to the end of the text. -/
def tianyiURL : URL :=
  { Scheme := "https".toList, Host := "cloud.189.cn".toList,
    Path := "/t/abcDEF（访问码：xyz9）".toList, RawQuery := [], Fragment := [] }

/-- tianyiUrlLib: a `net/url` that knows `tianyiLink` only; `String()` writes
the bytes of the path that are not ASCII as percent escapes. -/
def tianyiUrlLib : UrlLib :=
  { Parse := fun s => if s = tianyiLink then .ok tianyiURL else .error "unknown"
    queryGet := fun _ _ => []
    queryEncode := fun q => q
    urlString := fun u =>
      if u = tianyiURL then
        ("https://cloud.189.cn/t/abcDEF%EF%BC%88%E8%AE%BF%E9%97%AE%E7%A0%81%EF%BC%9A"
          ++ "xyz9%EF%BC%89").toList
      else []
    QueryUnescape := fun s => .ok s }


/-- xunleiLink: a Xunlei share link. -/
def xunleiLink : List Char := "https://pan.xunlei.com/s/abc".toList

/-- verificationRequired: a captcha-init answer with the status 200 whose `url`
is not empty. -/
def verificationRequired : XunleiChecker.TokenHttpResponse :=
  { StatusCode := 200, readErr := none,
    tokenResp := .ok ("", "https://i.xunlei.com/captcha") }

/-- shareOK: an answer of the share API with the status 200 and the share
status `OK`. -/
def shareOK : XunleiChecker.ApiHttpResponse :=
  { StatusCode := 200, readErr := none, errorCode := none, responseContent := "",
    apiResp := .ok { share_status := some "OK", error := none, share_status_text := none } }

/-- deadlineFailure: the error of a `Do` that ended because the deadline of the
probe expired. -/
def deadlineFailure : DoFailure :=
  { DeadlineExceeded := true, Error := "context deadline exceeded" }

/-- timedOutBaiduEnv: a Baidu environment whose step-1 request ends with the
error of an expired deadline. -/
def timedOutBaiduEnv : BaiduEnv :=
  { scriptedBaiduEnv baiduPlain "abc" baiduPlain "" none with
    doStep1 := fun _ => .error "context deadline exceeded" }


/-- dueScheduler: a scheduler with one active job, number 1, due at the instant
5 and registered under the cron entry 7. -/
def dueScheduler : Scheduler :=
  { taskRepo :=
      { rows := [{ ID := 1, Status := "active", AutoDestroyAt := some 5,
                   CurlCommand := "curl https://example.com/links",
                   TransformScript := "return rawData;" }],
        queryErr := none, updateErr := none }
    cron := [7]
    entries := [(1, 7)] }


/-- emptyTaskState: stores with an enabled empty cache and empty tables. -/
def emptyTaskState : TaskState :=
  { stores :=
      { world := freshWorld
        submissionRepo := { rows := [], updates := [], updateErr := fun _ => none } }
    executionRepo := { rows := [], createErr := none, updateErr := none } }

/-- s6Task: the job of the scenario: a command and the transform that returns
the raw data. -/
def s6Task : ScheduledTask :=
  { ID := 1, Status := "active", AutoDestroyAt := none,
    CurlCommand := "curl https://example.com/links", TransformScript := "return rawData;" }

/-- s6Env: an environment in which the command answers with the body `rawData`
and the transform of that body gives `links`. -/
def s6Env (rawData : String) (links : List (List Char)) : TaskEnv :=
  { ExecuteCurlCommand := fun _ => .ok rawData
    TransformData := fun _ _ => .ok links
    parseOrder := fun _ => AllPlatforms
    order := fun _ => AllPlatforms
    visit := AllPlatforms
    executionID := 1
    submissionID := 1
    started := 100
    elapsed := 20
    finished := 120
    dispatchDuration := 15
    dispatchNow := 118 }


/-- baiduPaste: a pasted text with a Baidu share address whose path holds an
escaped `#`, followed by the extraction code. -/
def baiduPaste : List Char :=
  "链接: https://pan.baidu.com/s/1abc%23x?pwd=1234 提取码: 1234".toList

/-- baiduUrlLib: the answers of `net/url` on the two addresses of the scenario:
the path of a parsed address is stored decoded, so `%23` becomes `#`; an
address is cut at its first `#`, and what follows is the fragment. -/
def baiduUrlLib : UrlLib :=
  { Parse := fun s =>
      if s = "https://pan.baidu.com/s/1abc%23x?pwd=1234".toList then
        .ok { Scheme := "https".toList, Host := "pan.baidu.com".toList,
              Path := "/s/1abc#x".toList, RawQuery := "pwd=1234".toList, Fragment := [] }
      else if s = "https://pan.baidu.com/s/1abc#x?pwd=1234".toList then
        .ok { Scheme := "https".toList, Host := "pan.baidu.com".toList,
              Path := "/s/1abc".toList, RawQuery := [], Fragment := "x?pwd=1234".toList }
      else .error "not an address of the scenario"
    queryGet := fun q key =>
      if q = "pwd=1234".toList ∧ key = "pwd" then "1234".toList else []
    queryEncode := fun q => q
    urlString := fun u =>
      if u.Path = "/s/1abc#x".toList ∧ u.RawQuery = "pwd=1234".toList ∧ u.Fragment = [] then
        "https://pan.baidu.com/s/1abc%23x?pwd=1234".toList
      else if u.Path = "/s/1abc".toList ∧ u.RawQuery = []
          ∧ u.Fragment = "x?pwd=1234".toList then
        "https://pan.baidu.com/s/1abc#x?pwd=1234".toList
      else []
    QueryUnescape := fun s => .ok s }

/-- schemeRequest: a request with one Quark link written without and with its
scheme. -/
def schemeRequest : CheckLinksRequest :=
  { Links := ["pan.quark.cn/s/a1".toList, "https://pan.quark.cn/s/a1".toList],
    SelectedPlatforms := [] }

/-- schemePending: the pending links `CheckLinks` returns for `schemeRequest`
when the table `invalid_links` is empty. -/
def schemePending : List (List Char) :=
  (LinkService.CheckLinks (fun _ => AllPlatforms) [] 1 schemeRequest
    "203.0.113.7").1.PendingLinks

/-- uncachedStores: no cache, an empty table `invalid_links`, no probe made, and
the table `submission_records` holding `record`. -/
def uncachedStores (record : SubmissionRecord) : Stores :=
  { world := { cacheRepo := { enabled := false, entries := [] }, invalidLinkRepo := [],
               probes := [] },
    submissionRepo := { rows := [record], updates := [], updateErr := fun _ => none } }

/-! # Theorems -/

open CheckerService

/-! ## Facts about the matcher -/

namespace Regex

theorem matchPrefix_empty (s : List Char) : matchPrefix empty s = false := by
  cases s <;> simp [matchPrefix, nullable, isEmpty]

theorem matchPrefix_cons (r : Regex) (c : Char) (t : List Char) :
    matchPrefix r (c :: t) = (nullable r || matchPrefix (deriv r c) t) := by
  cases r <;> simp [matchPrefix, isEmpty, nullable, deriv, matchPrefix_empty]

theorem matchPrefix_of_nullable {r : Regex} (h : nullable r = true) (s : List Char) :
    matchPrefix r s = true := by
  cases s with
  | nil => simp [matchPrefix, h]
  | cons c t => simp [matchPrefix_cons, h]

theorem matchPrefix_mkAlt (a b : Regex) (s : List Char) :
    matchPrefix (mkAlt a b) s = (matchPrefix a s || matchPrefix b s) := by
  induction s generalizing a b with
  | nil => cases a <;> cases b <;> simp [mkAlt, matchPrefix, nullable]
  | cons c t ih =>
    have key : matchPrefix (alt a b) (c :: t)
        = (matchPrefix a (c :: t) || matchPrefix b (c :: t)) := by
      simp only [matchPrefix_cons, deriv, nullable, ih]
      cases nullable a <;> cases nullable b <;> simp
    cases a <;> cases b <;>
      first
        | exact key
        | simp [mkAlt, matchPrefix_empty]

theorem mkSeq_eps (b : Regex) : mkSeq eps b = b := rfl

theorem mkSeq_empty (b : Regex) : mkSeq empty b = empty := rfl

theorem mkAlt_empty_left (b : Regex) : mkAlt empty b = b := by
  cases b <;> rfl

theorem deriv_sym (p : Char → Bool) (c : Char) :
    deriv (sym p) c = if p c then eps else empty := rfl

theorem deriv_seq_sym (p : Char → Bool) (r : Regex) (c : Char) :
    deriv (seq (sym p) r) c = if p c then r else empty := by
  cases h : p c <;> simp [deriv, nullable, h, mkSeq_eps, mkSeq_empty]

theorem deriv_seq_opt_sym (p : Char → Bool) (r : Regex) (c : Char) :
    deriv (seq (opt (sym p)) r) c = if p c then mkAlt r (deriv r c) else deriv r c := by
  cases h : p c <;>
    simp [opt, deriv, nullable, h, mkSeq_eps, mkSeq_empty, mkAlt_empty_left]

theorem matchPrefix_sym_iff (p : Char → Bool) (s : List Char) :
    matchPrefix (sym p) s = true ↔ ∃ c t, s = c :: t ∧ p c = true := by
  cases s with
  | nil => simp [matchPrefix, nullable]
  | cons c t =>
    rw [matchPrefix_cons, deriv_sym]
    cases h : p c with
    | true =>
      simp only [if_true, nullable, Bool.false_or]
      exact ⟨fun _ => ⟨c, t, rfl, h⟩, fun _ => matchPrefix_of_nullable (r := eps) rfl t⟩
    | false =>
      simp only [nullable, Bool.false_or, matchPrefix_empty, Bool.false_eq_true, if_false]
      constructor
      · intro h'; cases h'
      · rintro ⟨c', t', heq, hp⟩
        cases heq
        rw [h] at hp; cases hp

theorem matchPrefix_seq_sym_iff (p : Char → Bool) (r : Regex) (s : List Char) :
    matchPrefix (seq (sym p) r) s = true ↔
      ∃ c t, s = c :: t ∧ p c = true ∧ matchPrefix r t = true := by
  cases s with
  | nil => simp [matchPrefix, nullable]
  | cons c t =>
    rw [matchPrefix_cons, deriv_seq_sym]
    cases h : p c with
    | true =>
      simp only [if_true, nullable, Bool.false_and, Bool.false_or]
      exact ⟨fun hr => ⟨c, t, rfl, h, hr⟩, fun ⟨c', t', heq, _, hr⟩ => by cases heq; exact hr⟩
    | false =>
      simp only [nullable, Bool.false_and, Bool.false_or, matchPrefix_empty,
        Bool.false_eq_true, if_false]
      constructor
      · intro h'; cases h'
      · rintro ⟨c', t', heq, hp, _⟩
        cases heq
        rw [h] at hp; cases hp

theorem matchPrefix_seq_opt_sym_iff (p : Char → Bool) (r : Regex) (s : List Char) :
    matchPrefix (seq (opt (sym p)) r) s = true ↔
      (matchPrefix r s = true ∨
        ∃ c t, s = c :: t ∧ p c = true ∧ matchPrefix r t = true) := by
  cases s with
  | nil => simp [matchPrefix, nullable, opt]
  | cons c t =>
    have hn : nullable (seq (opt (sym p)) r) = nullable r := by simp [nullable, opt]
    rw [matchPrefix_cons, deriv_seq_opt_sym, hn, matchPrefix_cons r c t]
    cases h : p c with
    | true =>
      simp only [if_true, matchPrefix_mkAlt, Bool.or_eq_true]
      constructor
      · rintro (hn | hr | hd)
        · exact Or.inl (Or.inl hn)
        · exact Or.inr ⟨c, t, rfl, h, hr⟩
        · exact Or.inl (Or.inr hd)
      · rintro ((hn | hd) | ⟨c', t', heq, _, hr⟩)
        · exact Or.inl hn
        · exact Or.inr (Or.inr hd)
        · cases heq; exact Or.inr (Or.inl hr)
    | false =>
      simp only [Bool.or_eq_true, Bool.false_eq_true, if_false]
      constructor
      · intro h'; exact Or.inl h'
      · rintro (h' | ⟨c', t', heq, hp, _⟩)
        · exact h'
        · cases heq; rw [h] at hp; cases hp

theorem MatchString_of_matchPrefix {r : Regex} {s : List Char}
    (h : matchPrefix r s = true) : MatchString r s = true := by
  cases s with
  | nil => simpa [MatchString, matchPrefix] using h
  | cons c t => simp [MatchString, h]

theorem matchPrefix_of_derivs (w : List Char) (r : Regex) (s : List Char)
    (h : matchPrefix (derivs r w) s = true) : matchPrefix r (w ++ s) = true := by
  induction w generalizing r with
  | nil => simpa [derivs] using h
  | cons c t ih =>
    have := ih (deriv r c) (by simpa [derivs] using h)
    simp [matchPrefix_cons, this]

theorem matchPrefix_plus_sym (p : Char → Bool) (c : Char) (t : List Char)
    (h : p c = true) : matchPrefix (plus (sym p)) (c :: t) = true := by
  simp [plus, matchPrefix_cons, nullable, deriv, h, mkSeq, matchPrefix_of_nullable]

theorem matchPrefix_append (w : List Char) (r : Regex) (t : List Char) :
    matchPrefix r (w ++ t) = (nullableAlong r w || matchPrefix (derivs r w) t) := by
  induction w generalizing r with
  | nil => simp [nullableAlong, derivs]
  | cons c w ih =>
    rw [List.cons_append, matchPrefix_cons, ih (deriv r c)]
    simp [nullableAlong, derivs, Bool.or_assoc]

theorem eq_empty_of_isEmpty {r : Regex} (h : isEmpty r = true) : r = empty := by
  cases r <;> simp [isEmpty] at h ⊢

theorem matchPrefix_of_deadAfter {r : Regex} {w : List Char} (h : deadAfter r w = true)
    (t : List Char) : matchPrefix r (w ++ t) = false := by
  simp only [deadAfter, Bool.and_eq_true, Bool.not_eq_true'] at h
  rw [matchPrefix_append, h.1, eq_empty_of_isEmpty h.2, matchPrefix_empty]
  rfl

theorem MatchString_of_allTailsDead {r : Regex} (w : List Char)
    (h : allTailsDead r w = true) (t : List Char) :
    MatchString r (w ++ t) = MatchString r t := by
  induction w with
  | nil => rfl
  | cons c w ih =>
    simp only [allTailsDead, Bool.and_eq_true] at h
    rw [List.cons_append, MatchString, ← List.cons_append, matchPrefix_of_deadAfter h.1,
      ih h.2]
    rfl

theorem matchPrefix_seq_of_nullable {a b : Regex} (ha : nullable a = true) (t : List Char)
    (h : matchPrefix b t = true) : matchPrefix (seq a b) t = true := by
  cases t with
  | nil => simp [matchPrefix, nullable, ha] at h ⊢; exact h
  | cons c t =>
    rw [matchPrefix_cons] at h ⊢
    simp only [deriv, ha, if_true, matchPrefix_mkAlt, nullable, Bool.true_and]
    cases hb : nullable b with
    | true => simp
    | false =>
      rw [hb] at h
      simp at h
      simp [h]

end Regex

/-! ## Facts about `ParseLink` -/

theorem matchPrefix_schemeStrict_iff (s : List Char) :
    matchPrefix schemeStrict s = true ↔
      ("http://".toList <+: s ∨ "https://".toList <+: s) := by
  constructor
  · intro h
    simp only [schemeStrict, litExact, matchPrefix_seq_sym_iff, matchPrefix_seq_opt_sym_iff,
      matchPrefix_sym_iff, beq_iff_eq] at h
    obtain ⟨c1, t1, rfl, rfl, c2, t2, rfl, rfl, c3, t3, rfl, rfl, c4, t4, rfl, rfl, h⟩ := h
    rcases h with ⟨c5, t5, rfl, rfl, c6, t6, rfl, rfl, c7, t7, rfl, rfl⟩ |
      ⟨c5, t5, rfl, rfl, c6, t6, rfl, rfl, c7, t7, rfl, rfl, c8, t8, rfl, rfl⟩
    · exact Or.inl ⟨t7, rfl⟩
    · exact Or.inr ⟨t8, rfl⟩
  · rintro (⟨t, rfl⟩ | ⟨t, rfl⟩)
    · exact matchPrefix_of_derivs _ _ _ (matchPrefix_of_nullable (by rfl) t)
    · exact matchPrefix_of_derivs _ _ _ (matchPrefix_of_nullable (by rfl) t)

theorem normalizeLink_of_scheme {link : List Char}
    (h : "http://".toList <+: link ∨ "https://".toList <+: link) :
    normalizeLink link = link := by
  simp [normalizeLink, (matchPrefix_schemeStrict_iff link).2 h]

theorem normalizeLink_of_no_scheme {link : List Char}
    (h : ¬ ("http://".toList <+: link ∨ "https://".toList <+: link)) :
    normalizeLink link = "https://".toList ++ link := by
  have : matchPrefix schemeStrict link = false := by
    rw [← Bool.not_eq_true]
    exact fun hm => h ((matchPrefix_schemeStrict_iff link).1 hm)
  simp [normalizeLink, this]

theorem matchesPlatform_nil (p : Platform) : matchesPlatform [] p = false := by
  cases p <;> rfl

theorem matchesPlatform_unknown (link : List Char) :
    matchesPlatform link PlatformUnknown = false := rfl

/-- When the visiting order finds a matching key, `ParseLink` returns that key
and the normalized trimmed link. -/
theorem ParseLink_of_find {order : List Platform} {raw : List Char} {p : Platform}
    (h : order.find? (matchesPlatform (trimSpace raw)) = some p) :
    ParseLink order raw = { Link := normalizeLink (trimSpace raw), Platform := p } := by
  have hne : trimSpace raw ≠ [] := by
    intro he
    have hm := List.find?_some h
    rw [he, matchesPlatform_nil] at hm
    cases hm
  simp [ParseLink, hne, h]

/-- When no key matches, `ParseLink` returns the trimmed link tagged unknown. -/
theorem ParseLink_of_find_none {order : List Platform} {raw : List Char}
    (h : order.find? (matchesPlatform (trimSpace raw)) = none) :
    ParseLink order raw = { Link := trimSpace raw, Platform := PlatformUnknown } := by
  by_cases hne : trimSpace raw = [] <;> simp [ParseLink, hne, h]

theorem mem_AllPlatforms {p : Platform} (h : p ≠ PlatformUnknown) : p ∈ AllPlatforms := by
  cases p <;> first | exact absurd rfl h | decide

/-- Every visiting order that covers the nine keys finds a key when some pattern
matches. -/
theorem find_isSome_of_match {order : List Platform} {link : List Char}
    (hperm : order.Perm AllPlatforms) {p : Platform}
    (hm : matchesPlatform link p = true) :
    ∃ q, order.find? (matchesPlatform link) = some q ∧ matchesPlatform link q = true := by
  have hp : p ∈ order := by
    refine hperm.mem_iff.2 (mem_AllPlatforms ?_)
    rintro rfl
    simp [matchesPlatform_unknown] at hm
  cases hf : order.find? (matchesPlatform link) with
  | none =>
    have := List.find?_eq_none.1 hf p hp
    exact absurd hm this
  | some q => exact ⟨q, rfl, List.find?_some hf⟩

theorem ParseLink_Link_of_match {order : List Platform} {raw : List Char}
    (hperm : order.Perm AllPlatforms) {p : Platform}
    (hm : matchesPlatform (trimSpace raw) p = true) :
    (ParseLink order raw).Link = normalizeLink (trimSpace raw) ∧
      (ParseLink order raw).Platform ≠ PlatformUnknown := by
  obtain ⟨q, hq, hqm⟩ := find_isSome_of_match hperm hm
  rw [ParseLink_of_find hq]
  refine ⟨rfl, ?_⟩
  rintro h
  simp only at h
  rw [h, matchesPlatform_unknown] at hqm
  cases hqm

theorem trimSpace_tianyi_input (code access : List Char) :
    trimSpace ("https://cloud.189.cn/t/".toList ++ code ++ "（访问码：".toList ++ access
      ++ "）".toList)
    = "https://cloud.189.cn/t/".toList ++ code ++ "（访问码：".toList ++ access
      ++ "）".toList := by
  have h1 : "https://cloud.189.cn/t/".toList = 'h' :: "ttps://cloud.189.cn/t/".toList := rfl
  have h2 : "）".toList = ['）'] := rfl
  unfold trimSpace
  rw [h1, h2]
  simp only [List.cons_append]
  rw [List.dropWhile_cons_of_neg (by decide)]
  rw [← List.cons_append, ← List.cons_append, ← List.cons_append]
  rw [List.rdropWhile_concat_neg _ _ _ (by decide)]

theorem matchesPlatform_tianyi_path (code rest : List Char) (hc : code ≠ [])
    (halnum : ∀ x ∈ code, x.isAlphanum = true) :
    matchesPlatform ("https://cloud.189.cn/t/".toList ++ (code ++ rest)) PlatformTianyi
      = true := by
  obtain ⟨c, cs, rfl⟩ := List.exists_cons_of_ne_nil hc
  have hcl : alnumFold c = true := by simp [alnumFold, halnum c (List.mem_cons_self _ _)]
  simp only [matchesPlatform, patterns]
  apply MatchString_of_matchPrefix
  apply matchPrefix_of_derivs
  have hd : derivs (seq scheme (seq (hosts ["cloud.189.cn", "h5.cloud.189.cn"])
        (seq (lit '/')
          (alts [seq (str "t/".toList) (plus (sym alnumFold)),
                 seq (str "web/share?code=".toList) (plus (sym alnumFold)),
                 seq (str "share.html#/t/".toList) (plus (sym alnumFold))]))))
      "https://cloud.189.cn/t/".toList = plus (sym alnumFold) := by rfl
  rw [hd]
  exact matchPrefix_plus_sym _ _ _ hcl

theorem MatchString_https (body : Regex) (t : List Char)
    (h1 : nullableAlong (seq scheme body) "https://".toList = false)
    (h2 : derivs (seq scheme body) "https://".toList = body)
    (h3 : allTailsDead (seq scheme body) "ttps://".toList = true) :
    MatchString (seq scheme body) ("https://".toList ++ t) = MatchString (seq scheme body) t := by
  have hs : "https://".toList = 'h' :: "ttps://".toList := rfl
  have ht2 : "https://".toList ++ t = 'h' :: ("ttps://".toList ++ t) := by rw [hs]; rfl
  rw [ht2, MatchString, ← ht2, matchPrefix_append, h1, h2, MatchString_of_allTailsDead _ h3 t]
  cases hm : matchPrefix body t with
  | false => simp
  | true =>
    have := MatchString_of_matchPrefix
      (matchPrefix_seq_of_nullable (a := scheme) (b := body) (by rfl) t hm)
    simp [this]

theorem matchesPlatform_https (p : Platform) (t : List Char) :
    matchesPlatform ("https://".toList ++ t) p = matchesPlatform t p := by
  cases p
  · rfl
  all_goals
    simp only [matchesPlatform, patterns]
    exact MatchString_https _ t rfl rfl rfl

theorem trimSpace_dropWhile (raw : List Char) :
    (trimSpace raw).dropWhile isTrimByte = trimSpace raw := by
  unfold trimSpace
  generalize hd : raw.dropWhile isTrimByte = d
  have hdd : d.dropWhile isTrimByte = d := by rw [← hd, List.dropWhile_idempotent]
  obtain ⟨s, hs⟩ := List.rdropWhile_prefix isTrimByte d
  cases hx : d.rdropWhile isTrimByte with
  | nil => rfl
  | cons a x =>
    rw [hx] at hs
    have hna : ¬ isTrimByte a = true := by
      intro ha
      rw [← hs, List.cons_append, List.dropWhile_cons_of_pos ha] at hdd
      have hle := (List.dropWhile_suffix isTrimByte (l := x ++ s)).length_le
      rw [hdd] at hle
      simp at hle
    exact List.dropWhile_cons_of_neg hna

theorem trimSpace_rdropWhile (raw : List Char) :
    (trimSpace raw).rdropWhile isTrimByte = trimSpace raw :=
  List.rdropWhile_idempotent _ _

theorem trimSpace_idempotent (raw : List Char) : trimSpace (trimSpace raw) = trimSpace raw := by
  have h : trimSpace (trimSpace raw)
      = ((trimSpace raw).dropWhile isTrimByte).rdropWhile isTrimByte := rfl
  rw [h, trimSpace_dropWhile, trimSpace_rdropWhile]

theorem trimSpace_https_append (raw : List Char) (hne : trimSpace raw ≠ []) :
    trimSpace ("https://".toList ++ trimSpace raw) = "https://".toList ++ trimSpace raw := by
  have hs : "https://".toList ++ trimSpace raw
      = 'h' :: ("ttps://".toList ++ trimSpace raw) := rfl
  have h : trimSpace ('h' :: ("ttps://".toList ++ trimSpace raw))
      = (('h' :: ("ttps://".toList ++ trimSpace raw)).dropWhile isTrimByte).rdropWhile
          isTrimByte := rfl
  rw [hs, h, List.dropWhile_cons_of_neg (by decide), List.rdropWhile_eq_self_iff]
  intro hl
  have hlast := (List.rdropWhile_eq_self_iff.1 (trimSpace_rdropWhile raw)) hne
  have hg : ('h' :: ("ttps://".toList ++ trimSpace raw)).getLast hl
      = (trimSpace raw).getLast hne := by
    exact List.getLast_append' ('h' :: "ttps://".toList) (trimSpace raw) hne
  rw [hg]
  exact hlast

theorem normalizeLink_idempotent (t : List Char) :
    normalizeLink (normalizeLink t) = normalizeLink t := by
  by_cases h : "http://".toList <+: t ∨ "https://".toList <+: t
  · rw [normalizeLink_of_scheme h, normalizeLink_of_scheme h]
  · rw [normalizeLink_of_no_scheme h]
    exact normalizeLink_of_scheme (Or.inr ⟨t, rfl⟩)

theorem matchesPlatform_normalizeLink (t : List Char) (p : Platform) :
    matchesPlatform (normalizeLink t) p = matchesPlatform t p := by
  by_cases h : "http://".toList <+: t ∨ "https://".toList <+: t
  · rw [normalizeLink_of_scheme h]
  · rw [normalizeLink_of_no_scheme h, matchesPlatform_https]

theorem trimSpace_normalizeLink (raw : List Char) (hne : trimSpace raw ≠ []) :
    trimSpace (normalizeLink (trimSpace raw)) = normalizeLink (trimSpace raw) := by
  by_cases h : "http://".toList <+: trimSpace raw ∨ "https://".toList <+: trimSpace raw
  · rw [normalizeLink_of_scheme h, trimSpace_idempotent]
  · rw [normalizeLink_of_no_scheme h, trimSpace_https_append raw hne]

/-- With one visiting order for both calls, parsing the canonical link again
returns the same link and the same platform. -/
theorem ParseLink_idempotent_fixed_order (order : List Platform) (raw : List Char) :
    ParseLink order (ParseLink order raw).Link = ParseLink order raw := by
  cases hf : order.find? (matchesPlatform (trimSpace raw)) with
  | none =>
    rw [ParseLink_of_find_none hf]
    show ParseLink order (trimSpace raw) = _
    have hf2 : order.find? (matchesPlatform (trimSpace (trimSpace raw))) = none := by
      rw [trimSpace_idempotent]
      exact hf
    rw [ParseLink_of_find_none hf2, trimSpace_idempotent]
  | some p =>
    have hne : trimSpace raw ≠ [] := by
      intro he
      have hm := List.find?_some hf
      rw [he, matchesPlatform_nil] at hm
      cases hm
    rw [ParseLink_of_find hf]
    show ParseLink order (normalizeLink (trimSpace raw)) = _
    have hf2 : order.find? (matchesPlatform (trimSpace (normalizeLink (trimSpace raw))))
        = some p := by
      rw [trimSpace_normalizeLink raw hne]
      have : matchesPlatform (normalizeLink (trimSpace raw)) = matchesPlatform (trimSpace raw) :=
        funext (matchesPlatform_normalizeLink _)
      rw [this]
      exact hf
    rw [ParseLink_of_find hf2, trimSpace_normalizeLink raw hne, normalizeLink_idempotent]

/-- When exactly one provider pattern matches the trimmed input, every visiting
order of the nine keys returns that provider. -/
theorem ParseLink_platform_of_unique_match (order : List Platform) (raw : List Char)
    (p : Platform) (hperm : order.Perm AllPlatforms)
    (hm : matchesPlatform (trimSpace raw) p = true)
    (huniq : ∀ q, matchesPlatform (trimSpace raw) q = true → q = p) :
    (ParseLink order raw).Platform = p := by
  obtain ⟨q, hq, hqm⟩ := find_isSome_of_match hperm hm
  rw [ParseLink_of_find hq]
  exact huniq q hqm

/-! ## Claims about the link parser -/

/-- C1 (code evaluated at the failing input): on the candidate
`pan.quark.cn/s/a1 drive.uc.cn/s/b2`, which matches the Quark and the UC
pattern, `ParseLink` returns Quark when the range over the pattern map visits
the keys in the order of `AllPlatforms` and UC when it visits them in the
reverse order: the platform is not a function of the input alone. -/
theorem ParseLink_platform_follows_range_order :
    AllPlatforms.reverse.Perm AllPlatforms ∧
    (ParseLink AllPlatforms "pan.quark.cn/s/a1 drive.uc.cn/s/b2".toList).Platform
      = PlatformQuark ∧
    (ParseLink AllPlatforms.reverse "pan.quark.cn/s/a1 drive.uc.cn/s/b2".toList).Platform
      = PlatformUC :=
  ⟨List.reverse_perm _, rfl, rfl⟩

/-- C2 (counterexample): the input `http://pan.quark.cn/s/abc` matches the Quark
pattern and its canonical link is the input itself, which does not start with
`https://`. -/
theorem ParseLink_canonical_not_always_https :
    ¬ ∀ (order : List Platform) (raw : List Char), order.Perm AllPlatforms →
      (∃ p, matchesPlatform (trimSpace raw) p = true) →
      "https://".toList <+: (ParseLink order raw).Link := by
  intro h
  have h1 := h AllPlatforms "http://pan.quark.cn/s/abc".toList (List.Perm.refl _)
    ⟨PlatformQuark, by rfl⟩
  have h2 : (ParseLink AllPlatforms "http://pan.quark.cn/s/abc".toList).Link
      = "http://pan.quark.cn/s/abc".toList := by rfl
  rw [h2] at h1
  revert h1
  decide

/-- C2 (amended): for every input that matches a provider pattern and every
visiting order of the nine keys, the canonical link starts with `https://` or
with `http://`; a trimmed input that starts with `http://` is returned as it
is, and in every other case the canonical link starts with `https://`. -/
theorem ParseLink_canonical_scheme (order : List Platform) (raw : List Char)
    (hperm : order.Perm AllPlatforms)
    (hmatch : ∃ p, matchesPlatform (trimSpace raw) p = true) :
    ("https://".toList <+: (ParseLink order raw).Link ∨
      "http://".toList <+: (ParseLink order raw).Link) ∧
    ("http://".toList <+: trimSpace raw → (ParseLink order raw).Link = trimSpace raw) ∧
    (¬ "http://".toList <+: trimSpace raw →
      "https://".toList <+: (ParseLink order raw).Link) := by
  obtain ⟨p, hp⟩ := hmatch
  rw [(ParseLink_Link_of_match hperm hp).1]
  by_cases h1 : "http://".toList <+: trimSpace raw
  · rw [normalizeLink_of_scheme (Or.inl h1)]
    exact ⟨Or.inr h1, fun _ => rfl, fun h => absurd h1 h⟩
  · by_cases h2 : "https://".toList <+: trimSpace raw
    · rw [normalizeLink_of_scheme (Or.inr h2)]
      exact ⟨Or.inl h2, fun h => absurd h h1, fun _ => h2⟩
    · rw [normalizeLink_of_no_scheme (fun h => h.elim h1 h2)]
      exact ⟨Or.inl ⟨_, rfl⟩, fun h => absurd h h1, fun _ => ⟨_, rfl⟩⟩

/-- C2 (witness): the amended statement at the input `pan.quark.cn/s/abc`. -/
theorem ParseLink_canonical_scheme_witness :
    ("https://".toList <+: (ParseLink AllPlatforms "pan.quark.cn/s/abc".toList).Link ∨
      "http://".toList <+: (ParseLink AllPlatforms "pan.quark.cn/s/abc".toList).Link) ∧
    ("http://".toList <+: trimSpace "pan.quark.cn/s/abc".toList →
      (ParseLink AllPlatforms "pan.quark.cn/s/abc".toList).Link
        = trimSpace "pan.quark.cn/s/abc".toList) ∧
    (¬ "http://".toList <+: trimSpace "pan.quark.cn/s/abc".toList →
      "https://".toList <+: (ParseLink AllPlatforms "pan.quark.cn/s/abc".toList).Link) :=
  ParseLink_canonical_scheme AllPlatforms "pan.quark.cn/s/abc".toList (List.Perm.refl _)
    ⟨PlatformQuark, by rfl⟩

/-- C3 (code evaluated at the failing input): the candidate
`pan.quark.cn/s/a1 drive.uc.cn/s/b2` is classified Quark by a call whose range
visits the keys in the order of `AllPlatforms`; its canonical link, parsed again
by a call whose range visits the keys in the reverse order, is classified UC. -/
theorem ParseLink_reparse_follows_range_order :
    ParseLink AllPlatforms "pan.quark.cn/s/a1 drive.uc.cn/s/b2".toList
      = { Link := "https://pan.quark.cn/s/a1 drive.uc.cn/s/b2".toList,
          Platform := PlatformQuark } ∧
    AllPlatforms.reverse.Perm AllPlatforms ∧
    (ParseLink AllPlatforms.reverse
      (ParseLink AllPlatforms "pan.quark.cn/s/a1 drive.uc.cn/s/b2".toList).Link).Platform
      = PlatformUC :=
  ⟨rfl, List.reverse_perm _, rfl⟩

/-- C4 (counterexample): for the input `https://cloud.189.cn/t/abcDEF（访问码：xyz9）`
the canonical link is the whole input, not `https://cloud.189.cn/t/abcDEF`. -/
theorem ParseLink_tianyi_witness_keeps_access_text :
    ParseLink AllPlatforms "https://cloud.189.cn/t/abcDEF（访问码：xyz9）".toList
      = { Link := "https://cloud.189.cn/t/abcDEF（访问码：xyz9）".toList,
          Platform := PlatformTianyi } ∧
    (ParseLink AllPlatforms "https://cloud.189.cn/t/abcDEF（访问码：xyz9）".toList).Link
      ≠ "https://cloud.189.cn/t/abcDEF".toList :=
  ⟨rfl, by decide⟩

/-- C4 (amended): for a Tianyi input `https://cloud.189.cn/t/<code>（访问码：<access>）`
with a non-empty alphanumeric code, the canonical link returned by `ParseLink`
is the input itself, the parenthesized access-code text included; the link is
recognised, and parsing the canonical link again (as the dispatcher does to
compute its cache and negative-store key) returns the same text. -/
theorem ParseLink_tianyi_keeps_access_text (order order2 : List Platform)
    (code access : List Char)
    (hperm : order.Perm AllPlatforms) (hperm2 : order2.Perm AllPlatforms)
    (hc : code ≠ []) (halnum : ∀ x ∈ code, x.isAlphanum = true) :
    (ParseLink order ("https://cloud.189.cn/t/".toList ++ code ++ "（访问码：".toList
        ++ access ++ "）".toList)).Link
      = "https://cloud.189.cn/t/".toList ++ code ++ "（访问码：".toList ++ access
        ++ "）".toList ∧
    (ParseLink order ("https://cloud.189.cn/t/".toList ++ code ++ "（访问码：".toList
        ++ access ++ "）".toList)).Platform ≠ PlatformUnknown ∧
    (ParseLink order2 (ParseLink order ("https://cloud.189.cn/t/".toList ++ code
        ++ "（访问码：".toList ++ access ++ "）".toList)).Link).Link
      = "https://cloud.189.cn/t/".toList ++ code ++ "（访问码：".toList ++ access
        ++ "）".toList := by
  have hm : matchesPlatform (trimSpace ("https://cloud.189.cn/t/".toList ++ code
      ++ "（访问码：".toList ++ access ++ "）".toList)) PlatformTianyi = true := by
    rw [trimSpace_tianyi_input]
    have := matchesPlatform_tianyi_path code ("（访问码：".toList ++ access ++ "）".toList)
      hc halnum
    simpa [List.append_assoc] using this
  have hn : normalizeLink ("https://cloud.189.cn/t/".toList ++ code ++ "（访问码：".toList
      ++ access ++ "）".toList)
      = "https://cloud.189.cn/t/".toList ++ code ++ "（访问码：".toList ++ access
        ++ "）".toList :=
    normalizeLink_of_scheme (Or.inr ⟨"cloud.189.cn/t/".toList ++ code ++ "（访问码：".toList
      ++ access ++ "）".toList, by simp [List.append_assoc]⟩)
  have h1 := ParseLink_Link_of_match hperm hm
  rw [trimSpace_tianyi_input, hn] at h1
  refine ⟨h1.1, h1.2, ?_⟩
  rw [h1.1]
  have h2 := ParseLink_Link_of_match hperm2 hm
  rw [trimSpace_tianyi_input, hn] at h2
  exact h2.1

/-- C4 (witness): the amended statement at code `abcDEF` and access code `xyz9`. -/
theorem ParseLink_tianyi_keeps_access_text_witness :
    (ParseLink AllPlatforms ("https://cloud.189.cn/t/".toList ++ "abcDEF".toList
        ++ "（访问码：".toList ++ "xyz9".toList ++ "）".toList)).Link
      = "https://cloud.189.cn/t/".toList ++ "abcDEF".toList ++ "（访问码：".toList
        ++ "xyz9".toList ++ "）".toList ∧
    (ParseLink AllPlatforms ("https://cloud.189.cn/t/".toList ++ "abcDEF".toList
        ++ "（访问码：".toList ++ "xyz9".toList ++ "）".toList)).Platform ≠ PlatformUnknown ∧
    (ParseLink AllPlatforms.reverse (ParseLink AllPlatforms ("https://cloud.189.cn/t/".toList
        ++ "abcDEF".toList ++ "（访问码：".toList ++ "xyz9".toList ++ "）".toList)).Link).Link
      = "https://cloud.189.cn/t/".toList ++ "abcDEF".toList ++ "（访问码：".toList
        ++ "xyz9".toList ++ "）".toList :=
  ParseLink_tianyi_keeps_access_text AllPlatforms AllPlatforms.reverse "abcDEF".toList
    "xyz9".toList (List.Perm.refl _) (List.reverse_perm _) (by decide) (by decide)

/-! ## Claims about the cache TTL -/

theorem hours_exact (n : Int) (h0 : 0 < n) (h1 : n ≤ 2562047) : hours n = n * Hour := by
  unfold hours wrapInt64 Hour
  omega

theorem setTTL_valid (result : CheckResult) (platform : Platform) (invalidTTL : Int)
    (platformTTLMap : Platform → Option Int) (hv : result.Valid = true) :
    redisCacheRepository.setTTL result platform invalidTTL platformTTLMap =
      match platformTTLMap platform with
      | some h => if 0 < h then hours h else hours 24
      | none => hours 24 := by
  unfold redisCacheRepository.setTTL
  rw [if_pos hv]

theorem setTTL_invalid (result : CheckResult) (platform : Platform) (invalidTTL : Int)
    (platformTTLMap : Platform → Option Int) (hv : result.Valid = false) :
    redisCacheRepository.setTTL result platform invalidTTL platformTTLMap =
      if 0 < invalidTTL then hours invalidTTL else hours 168 := by
  simp [redisCacheRepository.setTTL, hv]

theorem hours_overflow (n : Int) (h : 2562047 < n) : hours n < n * Hour := by
  unfold hours wrapInt64 Hour
  omega

/-- C5 (counterexample): with the invalid TTL 2562048 (hours), `Set` stores an
invalid outcome with the duration `time.Duration(2562048) * time.Hour`, which
overflows `int64`: the stored TTL is -9223371273709551616 ns, a negative
duration, not 2562048 hours; the same happens to a valid outcome whose platform
entry is 2562048. -/
theorem Set_ttl_overflow :
    (redisCacheRepository.Set { enabled := true, entries := [] } "k".toList
        { Valid := false, FailureReason := "expired", Duration := 3, IsRateLimited := false }
        PlatformQuark 2562048 (fun _ => none)).entries
      = [{ key := cacheKey "k".toList,
           val := { Valid := false, FailureReason := "expired", Duration := 3,
                    IsRateLimited := false },
           ttl := -9223371273709551616 }] ∧
    redisCacheRepository.setTTL
        { Valid := true, FailureReason := "", Duration := 3, IsRateLimited := false }
        PlatformQuark 168 (fun _ => some 2562048) = -9223371273709551616 ∧
    (2562048 : Int) * Hour = 9223372800000000000 ∧
    (2 : Int) ^ 63 - 1 = 9223372036854775807 := by
  refine ⟨?_, ?_, ?_, ?_⟩ <;> decide

/-- C5 (amended): on an enabled cache `Set` stores the outcome under the key of
the link with the TTL `setTTL`. For a valid outcome the TTL is the platform's
entry of the TTL map in hours when that entry exists, is positive and is at
most 2562047, and 24 hours when there is no entry or the entry is not positive,
whatever the invalid TTL is. For an invalid outcome it is the invalid TTL in
hours when that is positive and at most 2562047, and 168 hours when it is not
positive, whatever the platform and the TTL map are. For a configured value
`n` above 2562047 the TTL is the wrapped `int64` product
`time.Duration(n) * time.Hour`, which is less than `n` hours. -/
theorem Set_ttl (r : redisCacheRepository) (link : List Char) (result : CheckResult)
    (platform : Platform) (invalidTTL : Int) (platformTTLMap : Platform → Option Int)
    (henabled : r.IsEnabled = true) :
    (redisCacheRepository.Set r link result platform invalidTTL platformTTLMap).entries.find?
        (fun e => e.key = cacheKey link)
      = some { key := cacheKey link, val := result,
               ttl := redisCacheRepository.setTTL result platform invalidTTL platformTTLMap } ∧
    (result.Valid = true →
      (∀ h, platformTTLMap platform = some h → 0 < h → h ≤ 2562047 →
        redisCacheRepository.setTTL result platform invalidTTL platformTTLMap = h * Hour) ∧
      (∀ h, platformTTLMap platform = some h → 2562047 < h →
        redisCacheRepository.setTTL result platform invalidTTL platformTTLMap
          = wrapInt64 (h * Hour) ∧
        redisCacheRepository.setTTL result platform invalidTTL platformTTLMap < h * Hour) ∧
      ((platformTTLMap platform = none ∨ ∃ h, platformTTLMap platform = some h ∧ h ≤ 0) →
        redisCacheRepository.setTTL result platform invalidTTL platformTTLMap = 24 * Hour) ∧
      (∀ invalidTTL2,
        redisCacheRepository.setTTL result platform invalidTTL2 platformTTLMap
          = redisCacheRepository.setTTL result platform invalidTTL platformTTLMap)) ∧
    (result.Valid = false →
      (0 < invalidTTL → invalidTTL ≤ 2562047 →
        redisCacheRepository.setTTL result platform invalidTTL platformTTLMap
          = invalidTTL * Hour) ∧
      (2562047 < invalidTTL →
        redisCacheRepository.setTTL result platform invalidTTL platformTTLMap
          = wrapInt64 (invalidTTL * Hour) ∧
        redisCacheRepository.setTTL result platform invalidTTL platformTTLMap
          < invalidTTL * Hour) ∧
      (invalidTTL ≤ 0 →
        redisCacheRepository.setTTL result platform invalidTTL platformTTLMap = 168 * Hour) ∧
      (∀ platform2 platformTTLMap2,
        redisCacheRepository.setTTL result platform2 invalidTTL platformTTLMap2
          = redisCacheRepository.setTTL result platform invalidTTL platformTTLMap)) := by
  have h24 : hours 24 = 24 * Hour := by decide
  have h168 : hours 168 = 168 * Hour := by decide
  refine ⟨?_, ?_, ?_⟩
  · simp [redisCacheRepository.Set, henabled]
  · intro hv
    refine ⟨?_, ?_, ?_, ?_⟩
    · intro h hh hpos hle
      rw [setTTL_valid _ _ _ _ hv, hh]
      simp only [hpos, if_true]
      exact hours_exact h hpos hle
    · intro h hh hbig
      have hpos : 0 < h := by omega
      rw [setTTL_valid _ _ _ _ hv, hh]
      simp only [hpos, if_true]
      exact ⟨rfl, hours_overflow h hbig⟩
    · rintro (hn | ⟨h, hh, hle⟩)
      · rw [setTTL_valid _ _ _ _ hv, hn]
        exact h24
      · rw [setTTL_valid _ _ _ _ hv, hh]
        simp only [not_lt.2 hle, if_false]
        exact h24
    · intro i2
      rw [setTTL_valid _ _ _ _ hv, setTTL_valid _ _ _ _ hv]
  · intro hv
    refine ⟨?_, ?_, ?_, ?_⟩
    · intro hpos hle
      rw [setTTL_invalid _ _ _ _ hv]
      simp only [hpos, if_true]
      exact hours_exact invalidTTL hpos hle
    · intro hbig
      have hpos : 0 < invalidTTL := by omega
      rw [setTTL_invalid _ _ _ _ hv]
      simp only [hpos, if_true]
      exact ⟨rfl, hours_overflow invalidTTL hbig⟩
    · intro hle
      rw [setTTL_invalid _ _ _ _ hv]
      simp only [not_lt.2 hle, if_false]
      exact h168
    · intro p2 m2
      rw [setTTL_invalid _ _ _ _ hv, setTTL_invalid _ _ _ _ hv]

/-- C5 (witness): the amended statement on an empty enabled cache, for a valid
Quark outcome with a platform TTL of 12 hours. -/
theorem Set_ttl_witness :
    (redisCacheRepository.Set { enabled := true, entries := [] } "k".toList
        { Valid := true, FailureReason := "", Duration := 3, IsRateLimited := false }
        PlatformQuark 48 (fun _ => some 12)).entries.find?
        (fun e => e.key = cacheKey "k".toList)
      = some { key := cacheKey "k".toList,
               val := { Valid := true, FailureReason := "", Duration := 3,
                        IsRateLimited := false },
               ttl := redisCacheRepository.setTTL
                 { Valid := true, FailureReason := "", Duration := 3, IsRateLimited := false }
                 PlatformQuark 48 (fun _ => some 12) } ∧
    redisCacheRepository.setTTL
        { Valid := true, FailureReason := "", Duration := 3, IsRateLimited := false }
        PlatformQuark 48 (fun _ => some 12) = 12 * Hour :=
  ⟨(Set_ttl { enabled := true, entries := [] } "k".toList
      { Valid := true, FailureReason := "", Duration := 3, IsRateLimited := false }
      PlatformQuark 48 (fun _ => some 12) rfl).1,
   ((Set_ttl { enabled := true, entries := [] } "k".toList
      { Valid := true, FailureReason := "", Duration := 3, IsRateLimited := false }
      PlatformQuark 48 (fun _ => some 12) rfl).2.1 rfl).1 12 rfl (by decide) (by decide)⟩

/-! ## Facts about the deduplication loop -/

theorem dedupStep_inv (st : DedupState) (l : List Char)
    (hmap : ∀ x, x ∈ st.linkMap ↔ x ∈ st.uniqueLinks) (hnd : st.uniqueLinks.Nodup) :
    (∀ x, x ∈ (dedupStep st l).linkMap ↔ x ∈ (dedupStep st l).uniqueLinks) ∧
    (dedupStep st l).uniqueLinks.Nodup ∧
    (∀ x, x ∈ (dedupStep st l).uniqueLinks ↔
      x ∈ st.uniqueLinks ∨ (x ≠ [] ∧ TrimSpace l = x)) ∧
    (dedupStep st l).duplicateCount + (dedupStep st l).uniqueLinks.length
      = st.duplicateCount + st.uniqueLinks.length
        + (if TrimSpace l = [] then 0 else 1) := by
  by_cases he : TrimSpace l = []
  · have hs : dedupStep st l = st := by simp [dedupStep, he]
    rw [hs]
    refine ⟨hmap, hnd, ?_, by simp [he]⟩
    intro x
    constructor
    · exact Or.inl
    · rintro (h | ⟨hx, rfl⟩)
      · exact h
      · exact absurd he hx
  · by_cases hc : st.linkMap.contains (TrimSpace l) = true
    · have hc2 : TrimSpace l ∈ st.linkMap := by simpa using hc
      have hs : dedupStep st l = { st with duplicateCount := st.duplicateCount + 1 } := by
        simp [dedupStep, he, hc2]
      rw [hs]
      have hin : TrimSpace l ∈ st.uniqueLinks := (hmap _).1 (by simpa using hc)
      refine ⟨hmap, hnd, ?_, by simp [he]; omega⟩
      intro x
      constructor
      · exact Or.inl
      · rintro (h | ⟨_, rfl⟩)
        · exact h
        · exact hin
    · have hc2 : TrimSpace l ∉ st.linkMap := by simpa using hc
      have hs : dedupStep st l = { st with linkMap := TrimSpace l :: st.linkMap
                                           uniqueLinks := st.uniqueLinks ++ [TrimSpace l] } := by
        simp [dedupStep, he, hc2]
      rw [hs]
      have hnin : TrimSpace l ∉ st.uniqueLinks := fun h => hc (by simpa using (hmap _).2 h)
      refine ⟨?_, ?_, ?_, ?_⟩
      · intro x
        show x ∈ TrimSpace l :: st.linkMap ↔ x ∈ st.uniqueLinks ++ [TrimSpace l]
        simp [hmap x, or_comm]
      · show (st.uniqueLinks ++ [TrimSpace l]).Nodup
        exact List.Nodup.append hnd (List.nodup_singleton _) (by simpa using hnin)
      · intro x
        show x ∈ st.uniqueLinks ++ [TrimSpace l] ↔ _
        simp only [List.mem_append, List.mem_singleton]
        constructor
        · rintro (h | rfl)
          · exact Or.inl h
          · exact Or.inr ⟨he, rfl⟩
        · rintro (h | ⟨_, rfl⟩)
          · exact Or.inl h
          · exact Or.inr rfl
      · show st.duplicateCount + (st.uniqueLinks ++ [TrimSpace l]).length = _
        simp [he]
        omega

theorem dedup_fold_inv (ls : List (List Char)) (st : DedupState)
    (hmap : ∀ x, x ∈ st.linkMap ↔ x ∈ st.uniqueLinks) (hnd : st.uniqueLinks.Nodup) :
    (ls.foldl dedupStep st).uniqueLinks.Nodup ∧
    (∀ x, x ∈ (ls.foldl dedupStep st).uniqueLinks ↔
      x ∈ st.uniqueLinks ∨ (x ≠ [] ∧ ∃ l ∈ ls, TrimSpace l = x)) ∧
    (ls.foldl dedupStep st).duplicateCount + (ls.foldl dedupStep st).uniqueLinks.length
      = st.duplicateCount + st.uniqueLinks.length
        + ((ls.map TrimSpace).filter (fun x => x ≠ [])).length := by
  induction ls generalizing st with
  | nil => simp [hnd]
  | cons l ls ih =>
    obtain ⟨h1, h2, h3, h4⟩ := dedupStep_inv st l hmap hnd
    obtain ⟨i2, i3, i4⟩ := ih (dedupStep st l) h1 h2
    simp only [List.foldl_cons]
    refine ⟨i2, ?_, ?_⟩
    · intro x
      rw [i3 x, h3 x]
      constructor
      · rintro ((h | ⟨hx, he⟩) | ⟨hx, l', hl', he⟩)
        · exact Or.inl h
        · exact Or.inr ⟨hx, l, List.mem_cons_self _ _, he⟩
        · exact Or.inr ⟨hx, l', List.mem_cons_of_mem _ hl', he⟩
      · rintro (h | ⟨hx, l', hl', he⟩)
        · exact Or.inl (Or.inl h)
        · rcases List.mem_cons.1 hl' with rfl | hl'
          · exact Or.inl (Or.inr ⟨hx, he⟩)
          · exact Or.inr ⟨hx, l', hl', he⟩
    · rw [i4, h4]
      by_cases he : TrimSpace l = []
      · simp [he, List.filter_cons]
      · simp [he, List.filter_cons]
        omega

theorem dedupLinks_spec (links : List (List Char)) :
    (dedupLinks links).uniqueLinks.Nodup ∧
    (∀ x, x ∈ (dedupLinks links).uniqueLinks ↔ x ≠ [] ∧ ∃ l ∈ links, TrimSpace l = x) ∧
    (dedupLinks links).duplicateCount + (dedupLinks links).uniqueLinks.length
      = ((links.map TrimSpace).filter (fun x => x ≠ [])).length := by
  obtain ⟨h1, h2, h3⟩ := dedup_fold_inv links
    { linkMap := [], uniqueLinks := [], duplicateCount := 0 } (by simp) (by simp)
  refine ⟨h1, ?_, ?_⟩
  · intro x
    have := h2 x
    simpa using this
  · simpa using h3

theorem dedupLinks_length (links : List (List Char)) :
    (dedupLinks links).uniqueLinks.length
      = ((links.map TrimSpace).filter (fun x => x ≠ [])).dedup.length := by
  obtain ⟨h1, h2, _⟩ := dedupLinks_spec links
  apply List.Perm.length_eq
  rw [List.perm_ext_iff_of_nodup h1 (List.nodup_dedup _)]
  intro x
  rw [h2 x, List.mem_dedup, List.mem_filter, List.mem_map]
  constructor
  · rintro ⟨hx, l, hl, he⟩
    exact ⟨⟨l, hl, he⟩, by simpa using hx⟩
  · rintro ⟨⟨l, hl, he⟩, hx⟩
    exact ⟨by simpa using hx, l, hl, he⟩

/-! ## Claims about `LinkService.CheckLinks` -/

/-- C10: the `duplicate_count` returned by `CheckLinks` is the number of
submitted entries that are non-empty after trimming minus the number of distinct
ones among them; for the entries `"X"`, `"X"`, `" X "` it is 2. -/
theorem CheckLinks_duplicate_count (order : List Char → List Platform)
    (rows : List InvalidLink) (newID : Nat) (req : CheckLinksRequest) (clientIP : String) :
    (LinkService.CheckLinks order rows newID req clientIP).1.DuplicateCount
      = ((req.Links.map TrimSpace).filter (fun x => x ≠ [])).length
        - ((req.Links.map TrimSpace).filter (fun x => x ≠ [])).dedup.length ∧
    (LinkService.CheckLinks order rows newID
      { Links := ["X".toList, "X".toList, " X ".toList],
        SelectedPlatforms := req.SelectedPlatforms } clientIP).1.DuplicateCount = 2 := by
  have key : ∀ r : CheckLinksRequest,
      (LinkService.CheckLinks order rows newID r clientIP).1.DuplicateCount
        = (dedupLinks r.Links).duplicateCount := by
    intro r
    unfold LinkService.CheckLinks
    simp only
    split <;> rfl
  refine ⟨?_, ?_⟩
  · rw [key, ← dedupLinks_length]
    have := (dedupLinks_spec req.Links).2.2
    omega
  · rw [key]
    rfl

/-! ## Claims about the dispatcher's lookup -/

/-- C6 (code evaluated at the failing input): with the cache enabled, a first
dispatch of an Aliyun link whose probe is throttled (outcome `rate_limited=true`)
calls the probe once, writes the throttled outcome to the cache with the invalid
TTL of 168 hours and leaves a row with `rate_limited=true`, for which `Exists`
is false. The next dispatch of the link finds the cached outcome and calls no
probe. With the cache disabled the same second dispatch does call the probe. -/
theorem rate_limited_outcome_cached_not_reprobed :
    (dispatchRound throttledService (fun _ => AllPlatforms) AllPlatforms 1 [aliyunLink]
      freshWorld).1.probes = [(PlatformAliyun, aliyunLink)] ∧
    afterThrottledDispatch.cacheRepo.entries
      = [{ key := cacheKey aliyunLink, val := throttledOutcome, ttl := hours 168 }] ∧
    afterThrottledDispatch.cacheRepo.Get aliyunLink = some throttledOutcome ∧
    afterThrottledDispatch.invalidLinkRepo = [throttledRow] ∧
    InvalidLinkRepository.Exists afterThrottledDispatch.invalidLinkRepo aliyunLink = false ∧
    (dispatchRound throttledService (fun _ => AllPlatforms) AllPlatforms 2 [aliyunLink]
      afterThrottledDispatch).1.probes = [] ∧
    (dispatchRound throttledService (fun _ => AllPlatforms) AllPlatforms 2 [aliyunLink]
      { afterThrottledDispatch with cacheRepo := { enabled := false, entries := [] } }).1.probes
      = [(PlatformAliyun, aliyunLink)] :=
  ⟨rfl, rfl, rfl, rfl, rfl, rfl, rfl⟩

theorem FindByLinks_singleton (rows : List InvalidLink) (row : InvalidLink)
    (huniq : (rows.map (fun r => r.Link)).Nodup) (hrow : row ∈ rows) :
    InvalidLinkRepository.FindByLinks rows [row.Link] = [row] := by
  unfold InvalidLinkRepository.FindByLinks
  have hp : (fun r : InvalidLink => [row.Link].contains r.Link)
      = (fun r => decide (r.Link = row.Link)) := by
    funext r
    simp
  rw [hp]
  induction rows with
  | nil => cases hrow
  | cons r rs ih =>
    simp only [List.map_cons, List.nodup_cons] at huniq
    rcases List.mem_cons.1 hrow with rfl | hmem
    · have hnone : rs.filter (fun r => decide (r.Link = row.Link)) = [] := by
        rw [List.filter_eq_nil_iff]
        intro a ha hc
        have : a.Link = row.Link := by simpa using hc
        exact huniq.1 (this ▸ List.mem_map_of_mem _ ha)
      rw [List.filter_cons, hnone]
      simp
    · have hne : r.Link ≠ row.Link := by
        intro he
        exact huniq.1 (he ▸ List.mem_map_of_mem _ hmem)
      rw [List.filter_cons, ih huniq.2 hmem]
      simp [hne]

theorem Exists_of_row (rows : List InvalidLink) (row : InvalidLink) (hrow : row ∈ rows)
    (hrl : row.IsRateLimited = false) :
    InvalidLinkRepository.Exists rows row.Link = true := by
  unfold InvalidLinkRepository.Exists
  have : row ∈ rows.filter (fun r => r.Link = row.Link ∧ r.IsRateLimited = false) := by
    simp [List.mem_filter, hrow, hrl]
  have hpos := List.length_pos_of_mem this
  simpa using hpos

/-- C8: when the cache has no entry for the normalized link and the table
`invalid_links` (whose links are unique) holds a row for it with
`rate_limited=false`, the lookup synthesizes the outcome `valid=false` with the
row's failure reason and duration (0 when the row has none), and the worker
calls no probe, leaves the table as it is and records the link as dead with
that reason and duration. -/
theorem checkOne_known_dead (s : CheckerService) (order : List Char → List Platform)
    (ch : LinkChecker) (submissionID : Nat) (w : World) (agg : Aggregate) (l : List Char)
    (row : InvalidLink)
    (hcache : w.cacheRepo.Get (ParseLink (order l) l).Link = none)
    (huniq : (w.invalidLinkRepo.map (fun r => r.Link)).Nodup)
    (hrow : row ∈ w.invalidLinkRepo)
    (hlink : row.Link = (ParseLink (order l) l).Link)
    (hrl : row.IsRateLimited = false) :
    storedOutcome w (ParseLink (order l) l).Link
      = (some { Valid := false, FailureReason := row.FailureReason,
                Duration := row.CheckDuration.getD 0, IsRateLimited := false }, false) ∧
    (checkOne s order ch submissionID (w, agg) l).1.probes = w.probes ∧
    (checkOne s order ch submissionID (w, agg) l).1.invalidLinkRepo = w.invalidLinkRepo ∧
    (checkOne s order ch submissionID (w, agg) l).2.validLinks = agg.validLinks ∧
    (checkOne s order ch submissionID (w, agg) l).2.invalidLinks
      = agg.invalidLinks ++
        [{ Link := (ParseLink (order l) l).Link, Platform := ch.GetPlatform,
           FailureReason := row.FailureReason,
           CheckDuration := some (row.CheckDuration.getD 0), IsRateLimited := false,
           SubmissionID := some submissionID }] := by
  have hso : storedOutcome w (ParseLink (order l) l).Link
      = (some { Valid := false, FailureReason := row.FailureReason,
                Duration := row.CheckDuration.getD 0, IsRateLimited := false }, false) := by
    unfold storedOutcome
    have h1 : (if w.cacheRepo.IsEnabled = true then
        w.cacheRepo.Get (ParseLink (order l) l).Link else none) = none := by
      split
      · exact hcache
      · rfl
    rw [h1, ← hlink]
    simp only [Exists_of_row _ _ hrow hrl, if_true, FindByLinks_singleton _ _ huniq hrow, hrl]
  refine ⟨hso, ?_⟩
  unfold checkOne
  simp only [hso]
  simp [cacheOutcome, recordOutcome]
  split <;> simp [redisCacheRepository.Set]

/-- C8 (witness): the statement for a table that holds one confirmed-dead Quark
link. -/
theorem checkOne_known_dead_witness :
    (checkOne quarkService (fun _ => AllPlatforms) quarkChecker 7
        (deadWorld, { validLinks := [], invalidLinks := [] })
        "https://pan.quark.cn/s/dead1".toList).1.probes = [] ∧
    (checkOne quarkService (fun _ => AllPlatforms) quarkChecker 7
        (deadWorld, { validLinks := [], invalidLinks := [] })
        "https://pan.quark.cn/s/dead1".toList).2.invalidLinks
      = [{ Link := "https://pan.quark.cn/s/dead1".toList, Platform := PlatformQuark,
           FailureReason := "分享已失效", CheckDuration := some 12, IsRateLimited := false,
           SubmissionID := some 7 }] :=
  ⟨(checkOne_known_dead quarkService (fun _ => AllPlatforms) quarkChecker 7 deadWorld
      { validLinks := [], invalidLinks := [] } "https://pan.quark.cn/s/dead1".toList deadRow
      rfl (by decide) (by decide) rfl rfl).2.1,
   (checkOne_known_dead quarkService (fun _ => AllPlatforms) quarkChecker 7 deadWorld
      { validLinks := [], invalidLinks := [] } "https://pan.quark.cn/s/dead1".toList deadRow
      rfl (by decide) (by decide) rfl rfl).2.2.2.2⟩

/-! ## Claims about the dispatcher's deduplication -/

theorem groupStep_linksByPlatform (g : Groups) (i : LinkInfo) (p : Platform)
    (hp : p ≠ PlatformUnknown) :
    (groupStep g i).linksByPlatform p
      = g.linksByPlatform p ++ (if i.Platform = p then [i.Link] else []) := by
  unfold groupStep
  by_cases hu : i.Platform = PlatformUnknown
  · have hne : ¬ i.Platform = p := fun h => hp (h ▸ hu)
    rw [if_pos hu, if_neg hne, List.append_nil]
  · rw [if_neg hu]
    by_cases he : i.Platform = p
    · rw [if_pos he, he]
      exact Function.update_same _ _ _
    · rw [if_neg he, List.append_nil]
      exact Function.update_noteq (Ne.symm he) _ _

theorem groupStepFiltered_linksByPlatform (selected : List Platform) (g : Groups)
    (i : LinkInfo) (p : Platform) (hp : p ≠ PlatformUnknown) :
    (groupStepFiltered selected g i).linksByPlatform p
      = g.linksByPlatform p ++
        (if i.Platform = p ∧ p ∈ selected then [i.Link] else []) := by
  unfold groupStepFiltered
  by_cases hu : i.Platform = PlatformUnknown
  · have hne : ¬ (i.Platform = p ∧ p ∈ selected) := fun h => hp (h.1 ▸ hu)
    rw [if_pos hu, if_neg hne, List.append_nil]
  · rw [if_neg hu]
    by_cases hs : selected.contains i.Platform = true
    · rw [if_pos hs]
      have hs2 : i.Platform ∈ selected := by simpa using hs
      by_cases he : i.Platform = p
      · rw [if_pos ⟨he, he ▸ hs2⟩, he]
        exact Function.update_same _ _ _
      · have hn : ¬ (i.Platform = p ∧ p ∈ selected) := fun h => he h.1
        rw [if_neg hn, List.append_nil]
        exact Function.update_noteq (Ne.symm he) _ _
    · rw [if_neg hs]
      have hs2 : i.Platform ∉ selected := by simpa using hs
      have hn : ¬ (i.Platform = p ∧ p ∈ selected) := fun h => hs2 (h.1 ▸ h.2)
      rw [if_neg hn, List.append_nil]

theorem groupLinks_fold (infos : List LinkInfo) (g : Groups) (p : Platform)
    (hp : p ≠ PlatformUnknown) :
    (infos.foldl groupStep g).linksByPlatform p
      = g.linksByPlatform p ++ (infos.filter (fun i => i.Platform = p)).map (fun i => i.Link) := by
  induction infos generalizing g with
  | nil => simp
  | cons i is ih =>
    rw [List.foldl_cons, ih, groupStep_linksByPlatform g i p hp, List.filter_cons]
    by_cases he : i.Platform = p <;> simp [he]

theorem groupLinksFiltered_fold (selected : List Platform) (infos : List LinkInfo)
    (g : Groups) (p : Platform) (hp : p ≠ PlatformUnknown) :
    (infos.foldl (groupStepFiltered selected) g).linksByPlatform p
      = g.linksByPlatform p ++
        (infos.filter (fun i => i.Platform = p ∧ p ∈ selected)).map (fun i => i.Link) := by
  induction infos generalizing g with
  | nil => simp
  | cons i is ih =>
    rw [List.foldl_cons, ih, groupStepFiltered_linksByPlatform selected g i p hp,
      List.filter_cons]
    by_cases he : i.Platform = p ∧ p ∈ selected
    · simp [he]
    · rw [if_neg he]
      have : decide (i.Platform = p ∧ p ∈ selected) = false := by simpa using he
      simp [this]

theorem TrimSpace_of_blank (l : List Char) (h : ∀ c ∈ l, isSpace c = true) :
    TrimSpace l = [] := by
  unfold TrimSpace
  have : l.dropWhile isSpace = [] := by
    rw [List.dropWhile_eq_nil_iff]
    exact h
  rw [this]
  rfl

/-- The keys of the dispatcher's `linkMap` are the trimmed texts: on a list
that holds `pan.quark.cn/s/a1` and `https://pan.quark.cn/s/a1` as typed, which
is no list of pending links (those are canonical links), both entries are kept,
the Quark group holds their common canonical form twice in both dispatch
modes, and with no cache entry and no dead row the probe is called twice on
it. -/
theorem dispatch_probes_same_canonical_twice :
    (dedupLinks ["pan.quark.cn/s/a1".toList, "https://pan.quark.cn/s/a1".toList]).uniqueLinks
      = ["pan.quark.cn/s/a1".toList, "https://pan.quark.cn/s/a1".toList] ∧
    (groupLinks (uniqueLinkInfos (fun _ => AllPlatforms)
        ["pan.quark.cn/s/a1".toList, "https://pan.quark.cn/s/a1".toList])).linksByPlatform
        PlatformQuark
      = ["https://pan.quark.cn/s/a1".toList, "https://pan.quark.cn/s/a1".toList] ∧
    (groupLinksFiltered [PlatformQuark] (uniqueLinkInfos (fun _ => AllPlatforms)
        ["pan.quark.cn/s/a1".toList, "https://pan.quark.cn/s/a1".toList])).linksByPlatform
        PlatformQuark
      = ["https://pan.quark.cn/s/a1".toList, "https://pan.quark.cn/s/a1".toList] ∧
    (dispatchRound quarkService (fun _ => AllPlatforms) AllPlatforms 1
        ["pan.quark.cn/s/a1".toList, "https://pan.quark.cn/s/a1".toList]
        { cacheRepo := { enabled := false, entries := [] }, invalidLinkRepo := [],
          probes := [] }).1.probes
      = [(PlatformQuark, "https://pan.quark.cn/s/a1".toList),
         (PlatformQuark, "https://pan.quark.cn/s/a1".toList)] :=
  ⟨rfl, rfl, rfl, rfl⟩

/-- The first loops of both dispatch modes, for every list: the kept entries
are pairwise different, they are exactly the non-empty trimmed forms of the
entries given (an entry made of white space only trims to the empty string and
is dropped), and the links handed to the workers of a platform are the
canonical forms of the kept entries of that platform (in filtered mode, of
a selected platform), one for each kept entry. -/
theorem dispatch_dedup_by_trimmed_text (order : List Char → List Platform)
    (selectedPlatforms : List Platform) (links : List (List Char)) :
    (dedupLinks links).uniqueLinks.Nodup ∧
    (∀ x, x ∈ (dedupLinks links).uniqueLinks ↔ x ≠ [] ∧ ∃ l ∈ links, TrimSpace l = x) ∧
    (∀ l, (∀ c ∈ l, isSpace c = true) → TrimSpace l = []) ∧
    (∀ p, p ≠ PlatformUnknown →
      (groupLinks (uniqueLinkInfos order links)).linksByPlatform p
        = (((dedupLinks links).uniqueLinks.map (fun l => ParseLink (order l) l)).filter
            (fun i => i.Platform = p)).map (fun i => i.Link)) ∧
    (∀ p, p ≠ PlatformUnknown →
      (groupLinksFiltered selectedPlatforms (uniqueLinkInfos order links)).linksByPlatform p
        = (((dedupLinks links).uniqueLinks.map (fun l => ParseLink (order l) l)).filter
            (fun i => i.Platform = p ∧ p ∈ selectedPlatforms)).map (fun i => i.Link)) := by
  obtain ⟨h1, h2, _⟩ := dedupLinks_spec links
  refine ⟨h1, h2, TrimSpace_of_blank, ?_, ?_⟩
  · intro p hp
    unfold groupLinks
    rw [groupLinks_fold _ _ p hp]
    rfl
  · intro p hp
    unfold groupLinksFiltered
    rw [groupLinksFiltered_fold _ _ _ p hp]
    rfl

/-! ## Claims about the known-dead filter of `CheckLinks` -/

/-- C7 (code evaluated at the failing input): the table holds a row for an
Aliyun link with `rate_limited=true`, for which `Exists` is false; a submission
of that link gets the link in `invalid_links` and an empty `pending_links`, in
the response and in the created record. -/
theorem CheckLinks_drops_rate_limited_link :
    InvalidLinkRepository.Exists [throttledRow] aliyunLink = false ∧
    (LinkService.CheckLinks (fun _ => AllPlatforms) [throttledRow] 2
      { Links := [aliyunLink], SelectedPlatforms := [] } "203.0.113.7").1.PendingLinks = [] ∧
    (LinkService.CheckLinks (fun _ => AllPlatforms) [throttledRow] 2
      { Links := [aliyunLink], SelectedPlatforms := [] } "203.0.113.7").1.InvalidLinks
      = [aliyunLink] ∧
    (LinkService.CheckLinks (fun _ => AllPlatforms) [throttledRow] 2
      { Links := [aliyunLink], SelectedPlatforms := [] } "203.0.113.7").2.map
        (fun record => record.PendingLinks) = some [] :=
  ⟨rfl, rfl, rfl, rfl⟩

/-! ## Claims about the Baidu probe -/

open BaiduChecker

/-- C16 (counterexample): a step-1 answer with status 200 and the location
`/%zz`, which `net/url` cannot parse, is neither of the first two shapes (it is
not status 200 without location, and not status 302), and the outcome is
valid=false with rate_limited=false. -/
theorem Check_step1_unparsable_location_not_rate_limited :
    Check (scriptedBaiduEnv baiduBadLocation "abc" baiduPlain "" none)
        "https://pan.baidu.com/s/1AAAAAAA?pwd=1234" 9
      = { Valid := false,
          FailureReason := "第一步请求失败: 构建重定向URL失败: invalid URL escape",
          Duration := 9, IsRateLimited := false } := by
  rfl

/-- C16 (amended): for every step-1 answer: status 200 with no location gives
valid=false, reason `分享文件已过期`, rate_limited=false; status 302 with a
location that resolves and carries a non-empty `surl` proceeds to step 2; every
other answer whose location is absent or resolves gives valid=false, reason
`第一步302失败`, rate_limited=true; an answer whose location does not resolve
gives valid=false with the step-1 error as reason and rate_limited=false. -/
theorem Check_step1 (env : BaiduEnv) (link : String) (elapsed : Int)
    (normalizedLink password : String) (resp : HttpResponse)
    (hn : env.normalizeBaiduURL link = .ok normalizedLink)
    (hp : env.queryPwd normalizedLink = .ok password)
    (h1 : env.doStep1 normalizedLink = .ok resp) :
    (resp.StatusCode = 200 → resp.Location = "" →
      Check env link elapsed
        = { Valid := false, FailureReason := "分享文件已过期", Duration := elapsed,
            IsRateLimited := false }) ∧
    (∀ fullURL surl, resp.StatusCode = 302 → resp.Location ≠ "" →
      env.resolveReference normalizedLink resp.Location = .ok fullURL →
      env.querySurl resp.Location = .ok surl → surl ≠ "" →
      Check env link elapsed
        = checkStep2 env
            { StatusCode := 302, Location := resp.Location, FullRedirectURL := fullURL,
              SetCookies := resp.Cookies, SURL := surl } password elapsed) ∧
    (¬ (resp.StatusCode = 200 ∧ resp.Location = "") →
      ¬ (resp.StatusCode = 302 ∧ resp.Location ≠ "" ∧
          ∃ surl, env.querySurl resp.Location = .ok surl ∧ surl ≠ "") →
      (resp.Location = "" ∨
        ∃ fullURL, env.resolveReference normalizedLink resp.Location = .ok fullURL) →
      Check env link elapsed
        = { Valid := false, FailureReason := "第一步302失败", Duration := elapsed,
            IsRateLimited := true }) ∧
    (∀ e, resp.Location ≠ "" →
      env.resolveReference normalizedLink resp.Location = .error e →
      Check env link elapsed
        = { Valid := false, FailureReason := "第一步请求失败: " ++ ("构建重定向URL失败: " ++ e),
            Duration := elapsed, IsRateLimited := false }) := by
  refine ⟨?_, ?_, ?_, ?_⟩
  · intro hs hl
    simp [Check, hn, hp, step1Request, h1, parseStep1Response, hl, hs]
  · intro fullURL surl hs hl hr hq hne
    have hfull := env.resolveReference_ne _ _ _ hr
    simp [Check, hn, hp, step1Request, h1, parseStep1Response, hl, hs, buildFullRedirectURL, hr,
      extractSURLFromLocation, hq, hne, hfull]
  · intro hnot1 hnot2 hres
    by_cases hl : resp.Location = ""
    · have hs : resp.StatusCode ≠ 200 := fun h => hnot1 ⟨h, hl⟩
      simp [Check, hn, hp, step1Request, h1, parseStep1Response, hl, hs]
    · rcases hres with hl2 | ⟨fullURL, hr⟩
      · exact absurd hl2 hl
      · have hfull := env.resolveReference_ne _ _ _ hr
        by_cases hs : resp.StatusCode = 302
        · have hsurl : (match extractSURLFromLocation env resp.Location with
              | .ok surl => surl
              | .error _ => "") = "" := by
            unfold extractSURLFromLocation
            cases hq : env.querySurl resp.Location with
            | error e => rfl
            | ok surl =>
              by_cases hne : surl = ""
              · simp [hne]
              · exact absurd ⟨hs, hl, surl, hq, hne⟩ hnot2
          simp [Check, hn, hp, step1Request, h1, parseStep1Response, hl, buildFullRedirectURL, hr,
            hfull, hsurl, hs]
        · simp [Check, hn, hp, step1Request, h1, parseStep1Response, hl, buildFullRedirectURL, hr,
            hfull, hs]
  · intro e hl hr
    simp [Check, hn, hp, step1Request, h1, parseStep1Response, hl, buildFullRedirectURL, hr]

/-- C17 (counterexample): for `errno = -9` with an empty `err_msg` the failure
reason is `提取码错误 (errno: -9, err_msg: )`, not the bare `提取码错误`. -/
theorem checkStep2_wrong_password_reason_has_details :
    (checkStep2 (scriptedBaiduEnv baiduRedirect "abc" baiduPlain "(errno -9)"
          (some { Errno := -9, ErrMsg := "", RequestID := 1 }))
        baiduStep1 "1234" 9).FailureReason
      = "提取码错误 (errno: -9, err_msg: )" ∧
    "提取码错误 (errno: -9, err_msg: )" ≠ "提取码错误" := by
  refine ⟨by rfl, by decide⟩

/-- C17 (amended): for every step-2 JSON answer with `errno ≠ 0` the outcome is
valid=false, rate_limited is true exactly when `errno = -62`, and the failure
reason is `<label> (errno: <errno>, err_msg: <err_msg>)`, where the label is
`缺少提取码` for -12, `提取码错误` for -9, `请求接口受限` for -62 and `第二步验证失败` otherwise; so
for -9 the reason starts with `提取码错误` and for -12 with `缺少提取码`, and every
reason surfaces the errno and the err_msg. -/
theorem checkStep2_errno (env : BaiduEnv) (step1Result : Step1Response) (password : String)
    (elapsed : Int) (resp : HttpResponse) (body : String) (json : Step2JSONResponse)
    (h2 : env.doStep2 step1Result password = .ok (resp, body))
    (hj : env.unmarshal body = some json) (he : json.Errno ≠ 0) :
    (checkStep2 env step1Result password elapsed).Valid = false ∧
    ((checkStep2 env step1Result password elapsed).IsRateLimited = true ↔ json.Errno = -62) ∧
    (checkStep2 env step1Result password elapsed).Duration = elapsed ∧
    (checkStep2 env step1Result password elapsed).FailureReason
      = (if json.Errno = -12 then "缺少提取码"
         else if json.Errno = -9 then "提取码错误"
         else if json.Errno = -62 then "请求接口受限"
         else "第二步验证失败")
        ++ " (errno: " ++ toString json.Errno ++ ", err_msg: " ++ json.ErrMsg ++ ")" ∧
    (json.Errno = -9 →
      "提取码错误".toList <+: (checkStep2 env step1Result password elapsed).FailureReason.toList) ∧
    (json.Errno = -12 →
      "缺少提取码".toList <+: (checkStep2 env step1Result password elapsed).FailureReason.toList) := by
  have hs : step2Request env step1Result password = .ok (parseStep2Response env resp body) := by
    simp [step2Request, h2]
  have hpj : (parseStep2Response env resp body).JSONResponse = some json := by
    simp [parseStep2Response, hj]
  have hpre : ∀ (label rest : String), label.toList <+: (label ++ rest).toList := by
    intro label rest
    exact ⟨rest.toList, by simp [String.toList, String.data_append]⟩
  by_cases h12 : json.Errno = -12
  · have hr : checkStep2 env step1Result password elapsed
        = { Valid := false, FailureReason := errnoReason "缺少提取码" json.Errno json.ErrMsg,
            Duration := elapsed, IsRateLimited := false } := by
      simp [checkStep2, hs, hpj, h12]
    rw [hr]
    refine ⟨rfl, ?_, rfl, ?_, ?_, ?_⟩
    · simp [h12]
    · simp [errnoReason, h12]
    · intro h9; rw [h12] at h9; exact absurd h9 (by decide)
    · intro _
      simp only [errnoReason, String.append_assoc]
      exact hpre _ _
  · by_cases h9 : json.Errno = -9
    · have hr : checkStep2 env step1Result password elapsed
          = { Valid := false, FailureReason := errnoReason "提取码错误" json.Errno json.ErrMsg,
              Duration := elapsed, IsRateLimited := false } := by
        simp [checkStep2, hs, hpj, h12, h9]
      rw [hr]
      refine ⟨rfl, ?_, rfl, ?_, ?_, ?_⟩
      · simp [h9]
      · simp [errnoReason, h9]
      · intro _
        simp only [errnoReason, String.append_assoc]
        exact hpre _ _
      · intro h; exact absurd h h12
    · by_cases h62 : json.Errno = -62
      · have hr : checkStep2 env step1Result password elapsed
            = { Valid := false,
                FailureReason := errnoReason "请求接口受限" json.Errno json.ErrMsg,
                Duration := elapsed, IsRateLimited := true } := by
          simp [checkStep2, hs, hpj, h12, h9, h62]
        rw [hr]
        refine ⟨rfl, ?_, rfl, ?_, ?_, ?_⟩
        · simp [h62]
        · simp [errnoReason, h62]
        · intro h; exact absurd h h9
        · intro h; exact absurd h h12
      · have hr : checkStep2 env step1Result password elapsed
            = { Valid := false,
                FailureReason := errnoReason "第二步验证失败" json.Errno json.ErrMsg,
                Duration := elapsed, IsRateLimited := false } := by
          simp [checkStep2, hs, hpj, h12, h9, h62, he]
        rw [hr]
        refine ⟨rfl, ?_, rfl, ?_, ?_, ?_⟩
        · simp [h62]
        · simp [errnoReason, h12, h9, h62]
        · intro h; exact absurd h h9
        · intro h; exact absurd h h12

/-- C16 (witness): the amended statement for a step-1 answer with status 200
and no location. -/
theorem Check_step1_witness :
    Check (scriptedBaiduEnv baiduPlain "abc" baiduPlain "" none)
        "https://pan.baidu.com/s/1AAAAAAA?pwd=1234" 9
      = { Valid := false, FailureReason := "分享文件已过期", Duration := 9,
          IsRateLimited := false } :=
  (Check_step1 (scriptedBaiduEnv baiduPlain "abc" baiduPlain "" none)
    "https://pan.baidu.com/s/1AAAAAAA?pwd=1234" 9 "https://pan.baidu.com/s/1AAAAAAA?pwd=1234"
    "1234" baiduPlain rfl rfl rfl).1 rfl rfl

/-- C17 (witness): the amended statement for `errno = -9`. -/
theorem checkStep2_errno_witness :
    (checkStep2 (scriptedBaiduEnv baiduRedirect "abc" baiduPlain "(errno -9)"
          (some { Errno := -9, ErrMsg := "", RequestID := 1 }))
        baiduStep1 "1234" 9).Valid = false ∧
    "提取码错误".toList <+:
      (checkStep2 (scriptedBaiduEnv baiduRedirect "abc" baiduPlain "(errno -9)"
          (some { Errno := -9, ErrMsg := "", RequestID := 1 }))
        baiduStep1 "1234" 9).FailureReason.toList :=
  ⟨(checkStep2_errno (scriptedBaiduEnv baiduRedirect "abc" baiduPlain "(errno -9)"
        (some { Errno := -9, ErrMsg := "", RequestID := 1 }))
      baiduStep1 "1234" 9 baiduPlain "(errno -9)" { Errno := -9, ErrMsg := "", RequestID := 1 }
      rfl rfl (by decide)).1,
   (checkStep2_errno (scriptedBaiduEnv baiduRedirect "abc" baiduPlain "(errno -9)"
        (some { Errno := -9, ErrMsg := "", RequestID := 1 }))
      baiduStep1 "1234" 9 baiduPlain "(errno -9)" { Errno := -9, ErrMsg := "", RequestID := 1 }
      rfl rfl (by decide)).2.2.2.2.1 rfl⟩

/-- C18 (counterexample): a step-2 answer whose body is not JSON and that sets
the cookie `BDCLND` gives valid=true. -/
theorem Check_valid_without_json :
    Check (scriptedBaiduEnv baiduRedirect "abc" baiduWithCookie "<html>" none)
        "https://pan.baidu.com/s/1AAAAAAA?pwd=1234" 9
      = { Valid := true, FailureReason := "", Duration := 9, IsRateLimited := false } := by
  rfl

theorem checkStep2_valid (env : BaiduEnv) (step1Result : Step1Response) (password : String)
    (elapsed : Int) (h : (checkStep2 env step1Result password elapsed).Valid = true) :
    ∃ resp body, env.doStep2 step1Result password = .ok (resp, body) ∧
      (env.unmarshal body = none ∨ ∃ json, env.unmarshal body = some json ∧ json.Errno = 0) ∧
      ∃ cookie ∈ resp.Cookies, cookie.Name = "BDCLND" ∧ cookie.Value ≠ "" := by
  unfold checkStep2 step2Request at h
  cases h2 : env.doStep2 step1Result password with
  | error e => simp [h2] at h
  | ok rb =>
    obtain ⟨resp, body⟩ := rb
    simp only [h2] at h
    have hcookie : (parseStep2Response env resp body).BDCLND ≠ "" →
        ∃ cookie ∈ resp.Cookies, cookie.Name = "BDCLND" ∧ cookie.Value ≠ "" := by
      intro hb
      simp only [parseStep2Response] at hb
      cases hf : resp.Cookies.find? (fun cookie => cookie.Name = "BDCLND") with
      | none => simp [hf] at hb
      | some c =>
        simp only [hf] at hb
        refine ⟨c, List.mem_of_find?_eq_some hf, ?_, hb⟩
        simpa using List.find?_some hf
    have hcc : ∀ r : CheckResult,
        r = (if (parseStep2Response env resp body).BDCLND = "" then
          ({ Valid := false,
             FailureReason := "第二步响应未返回BDCLND Cookie (StatusCode: "
               ++ toString (parseStep2Response env resp body).StatusCode ++ ", Response: "
               ++ (parseStep2Response env resp body).Body ++ ")",
             Duration := elapsed, IsRateLimited := true } : CheckResult)
          else { Valid := true, FailureReason := "", Duration := elapsed,
                 IsRateLimited := false }) →
        r.Valid = true → (parseStep2Response env resp body).BDCLND ≠ "" := by
      intro r hr hv hb
      rw [hr, if_pos hb] at hv
      cases hv
    refine ⟨resp, body, rfl, ?_⟩
    have hj : (parseStep2Response env resp body).JSONResponse = env.unmarshal body := rfl
    cases hu : env.unmarshal body with
    | none =>
      rw [hj, hu] at h
      exact ⟨Or.inl rfl, hcookie (hcc _ rfl h)⟩
    | some json =>
      rw [hj, hu] at h
      simp only at h
      by_cases h12 : json.Errno = -12
      · simp [h12] at h
      · by_cases h9 : json.Errno = -9
        · simp [h9] at h
        · by_cases h62 : json.Errno = -62
          · simp [h62] at h
          · by_cases h0 : json.Errno = 0
            · simp only [h0] at h
              exact ⟨Or.inr ⟨json, rfl, h0⟩, hcookie (hcc _ rfl (by simpa using h))⟩
            · simp [h12, h9, h62, h0] at h

theorem Check_valid (env : BaiduEnv) (link : String) (elapsed : Int)
    (h : (Check env link elapsed).Valid = true) :
    ∃ normalizedLink password step1Result resp body,
      env.normalizeBaiduURL link = .ok normalizedLink ∧
      env.queryPwd normalizedLink = .ok password ∧
      step1Request env normalizedLink = .ok step1Result ∧
      step1Result.StatusCode = 302 ∧ step1Result.SURL ≠ "" ∧
      env.doStep2 step1Result password = .ok (resp, body) ∧
      (env.unmarshal body = none ∨ ∃ json, env.unmarshal body = some json ∧ json.Errno = 0) ∧
      ∃ cookie ∈ resp.Cookies, cookie.Name = "BDCLND" ∧ cookie.Value ≠ "" := by
  unfold Check at h
  cases hn : env.normalizeBaiduURL link with
  | error e => simp [hn] at h
  | ok normalizedLink =>
    simp only [hn] at h
    cases hp : env.queryPwd normalizedLink with
    | error e => simp [hp] at h
    | ok password =>
      simp only [hp] at h
      cases h1 : step1Request env normalizedLink with
      | error e => simp [h1] at h
      | ok step1Result =>
        simp only [h1] at h
        by_cases ha : step1Result.StatusCode = 200 ∧ step1Result.FullRedirectURL = ""
        · simp [ha] at h
        · rw [if_neg ha] at h
          by_cases hb : step1Result.StatusCode ≠ 302 ∨ step1Result.FullRedirectURL = ""
              ∨ step1Result.SURL = ""
          · rw [if_pos hb] at h
            cases h
          · rw [if_neg hb] at h
            obtain ⟨resp, body, h2, hj, hc⟩ := checkStep2_valid env step1Result password elapsed h
            refine ⟨normalizedLink, password, step1Result, resp, body, rfl, hp, h1, ?_, ?_, h2,
              hj, hc⟩
            · by_contra hs
              exact hb (Or.inl hs)
            · intro hs
              exact hb (Or.inr (Or.inr hs))

theorem checkStep2_errno_zero_no_cookie (env : BaiduEnv) (step1Result : Step1Response)
    (password : String) (elapsed : Int) (resp : HttpResponse) (body : String)
    (json : Step2JSONResponse)
    (h2 : env.doStep2 step1Result password = .ok (resp, body))
    (hj : env.unmarshal body = some json) (he : json.Errno = 0)
    (hc : ∀ cookie ∈ resp.Cookies, cookie.Name ≠ "BDCLND") :
    (checkStep2 env step1Result password elapsed).Valid = false ∧
    (checkStep2 env step1Result password elapsed).IsRateLimited = true := by
  have hf : resp.Cookies.find? (fun cookie => cookie.Name = "BDCLND") = none := by
    rw [List.find?_eq_none]
    intro c hcm
    simpa using hc c hcm
  have hb : (parseStep2Response env resp body).BDCLND = "" := by
    simp [parseStep2Response, hf]
  have hpj : (parseStep2Response env resp body).JSONResponse = some json := by
    simp [parseStep2Response, hj]
  simp [checkStep2, step2Request, h2, hpj, he, hb]

/-- C18 (amended): the Baidu probe returns valid=true only if step 1 passed with
status 302 and a `surl`, the step-2 body either did not parse as JSON or parsed
with `errno = 0`, and the answer set a non-empty `BDCLND` cookie; when
`errno = 0` and no `BDCLND` cookie is set, the outcome is valid=false with
rate_limited=true. -/
theorem Check_valid_condition (env : BaiduEnv) (link : String) (elapsed : Int) :
    ((Check env link elapsed).Valid = true →
      ∃ normalizedLink password step1Result resp body,
        env.normalizeBaiduURL link = .ok normalizedLink ∧
        env.queryPwd normalizedLink = .ok password ∧
        step1Request env normalizedLink = .ok step1Result ∧
        step1Result.StatusCode = 302 ∧ step1Result.SURL ≠ "" ∧
        env.doStep2 step1Result password = .ok (resp, body) ∧
        (env.unmarshal body = none ∨
          ∃ json, env.unmarshal body = some json ∧ json.Errno = 0) ∧
        ∃ cookie ∈ resp.Cookies, cookie.Name = "BDCLND" ∧ cookie.Value ≠ "") ∧
    (∀ (step1Result : Step1Response) (password : String) (resp : HttpResponse)
        (body : String) (json : Step2JSONResponse),
      env.doStep2 step1Result password = .ok (resp, body) →
      env.unmarshal body = some json → json.Errno = 0 →
      (∀ cookie ∈ resp.Cookies, cookie.Name ≠ "BDCLND") →
      (checkStep2 env step1Result password elapsed).Valid = false ∧
      (checkStep2 env step1Result password elapsed).IsRateLimited = true) :=
  ⟨Check_valid env link elapsed,
   fun step1Result password resp body json h2 hj he hc =>
     checkStep2_errno_zero_no_cookie env step1Result password elapsed resp body json h2 hj he hc⟩

/-! ## Claims about the UC and 123 probes -/

/-- C20 (code evaluated at the failing input): a DNS failure returned by
`httpClient.Do` to the UC probe is not an `*apphttp.TimeoutError` and its text
does not contain `ConnectError`, so the UC probe answers valid=false with the
reason `请求失败: ...`; the 123 probe answers valid=true with an empty reason for
every error of the request. -/
theorem UC_transport_error_is_invalid (onResponse : Unit → CheckResult) :
    ¬ "ConnectError".toList <:+: "dial tcp: lookup drive.uc.cn: no such host".toList ∧
    UCChecker.Check (.ok "abc") none
        (.error { IsTimeoutError := false,
                  Error := "dial tcp: lookup drive.uc.cn: no such host" })
        onResponse 7
      = { Valid := false,
          FailureReason := "请求失败: dial tcp: lookup drive.uc.cn: no such host",
          Duration := 7, IsRateLimited := false } ∧
    (∀ (shareKey : String) (err : HttpError) (elapsed : Int),
      Pan123Checker.Check (.ok shareKey) none (.error err) onResponse elapsed
        = { Valid := true, FailureReason := "", Duration := elapsed,
            IsRateLimited := false }) := by
  refine ⟨by decide, by rfl, ?_⟩
  intro k err elapsed
  simp [Pan123Checker.Check]

/-! ## Claims about the stored original links -/

theorem TrimSpace_cons_space (c : Char) (s : List Char) (hc : isSpace c = true) :
    TrimSpace (c :: s) = TrimSpace s := by
  unfold TrimSpace
  rw [List.dropWhile_cons_of_pos hc]

theorem TrimSpace_concat_space (c : Char) (s : List Char) (hc : isSpace c = true) :
    TrimSpace (s ++ [c]) = TrimSpace s := by
  induction s with
  | nil =>
    unfold TrimSpace
    simp [List.dropWhile_cons_of_pos hc]
  | cons x s ih =>
    by_cases hx : isSpace x = true
    · rw [List.cons_append, TrimSpace_cons_space x _ hx, ih, TrimSpace_cons_space x _ hx]
    · unfold TrimSpace
      rw [List.cons_append, List.dropWhile_cons_of_neg hx, List.dropWhile_cons_of_neg hx,
        ← List.cons_append, List.rdropWhile_concat_pos _ _ _ hc]

theorem TrimSpace_pad (X : List Char) :
    TrimSpace (' ' :: (X ++ [' '])) = TrimSpace X := by
  rw [TrimSpace_cons_space ' ' _ (by decide), TrimSpace_concat_space ' ' _ (by decide)]

/-- The record created by `CheckLinks`, when one is created. -/
theorem CheckLinks_record (order : List Char → List Platform) (rows : List InvalidLink)
    (newID : Nat) (req : CheckLinksRequest) (clientIP : String) (record : SubmissionRecord)
    (h : (LinkService.CheckLinks order rows newID req clientIP).2 = some record) :
    record.OriginalLinks = (dedupLinks req.Links).uniqueLinks ∧
    record.TotalLinks = (dedupLinks req.Links).uniqueLinks.length ∧
    record.Status = "pending" ∧ record.ID = newID := by
  unfold LinkService.CheckLinks at h
  simp only at h
  split at h
  · cases h
  · simp only [Option.some.injEq] at h
    subst h
    exact ⟨rfl, rfl, rfl, rfl⟩

theorem dedupLinks_triple (X : List Char) (hX : TrimSpace X ≠ []) :
    (dedupLinks [X, X, " ".toList ++ X ++ " ".toList]).uniqueLinks = [TrimSpace X] ∧
    (dedupLinks [X, X, " ".toList ++ X ++ " ".toList]).duplicateCount = 2 := by
  have hpad := TrimSpace_pad X
  simp [dedupLinks, dedupStep, hpad, hX]

theorem dedupLinks_triple_blank (X : List Char) (hX : TrimSpace X = []) :
    (dedupLinks [X, X, " ".toList ++ X ++ " ".toList]).uniqueLinks = [] := by
  have hpad := TrimSpace_pad X
  simp [dedupLinks, dedupStep, hpad, hX]

/-- C11 (the code at the failing input): for the recognised Quark link `X =
https://pan.quark.cn/s/a1` the request `[X, X, " X "]` creates a record whose
`OriginalLinks` is `[X]`: one entry, not the three that were submitted, and
`TotalLinks` is 1. -/
theorem CheckLinks_original_links_deduplicated :
    (LinkService.CheckLinks (fun _ => AllPlatforms) [] 1 tripleRequest "203.0.113.7").2
      = some tripleRecord ∧
    tripleRecord.OriginalLinks.length = 1 ∧ tripleRecord.OriginalLinks.length ≠ 3 ∧
    tripleRecord.OriginalLinks = ["https://pan.quark.cn/s/a1".toList] ∧
    tripleRecord.TotalLinks = 1 := by
  refine ⟨rfl, rfl, by decide, rfl, rfl⟩

/-- What `CheckLinks` stores in `OriginalLinks` for every request: the
deduplicated entries, that is the trimmed non-empty submitted entries, each once
(no entry twice, an entry is there exactly when it is the non-empty trimmed form
of a submitted entry, the length is the number of distinct such forms and
equals `TotalLinks`); for the input `[X, X, " X "]` it is the single entry
`TrimSpace X`. -/
theorem CheckLinks_original_links (order : List Char → List Platform)
    (rows : List InvalidLink) (newID : Nat) (req : CheckLinksRequest) (clientIP : String)
    (record : SubmissionRecord)
    (h : (LinkService.CheckLinks order rows newID req clientIP).2 = some record) :
    record.OriginalLinks.Nodup ∧
    (∀ x, x ∈ record.OriginalLinks ↔ x ≠ [] ∧ ∃ l ∈ req.Links, TrimSpace l = x) ∧
    record.OriginalLinks.length
      = ((req.Links.map TrimSpace).filter (fun x => x ≠ [])).dedup.length ∧
    record.TotalLinks = record.OriginalLinks.length ∧
    (∀ X, req.Links = [X, X, " ".toList ++ X ++ " ".toList] →
      record.OriginalLinks = [TrimSpace X]) := by
  obtain ⟨h1, h2, _, _⟩ := CheckLinks_record order rows newID req clientIP record h
  obtain ⟨d1, d2, _⟩ := dedupLinks_spec req.Links
  refine ⟨h1 ▸ d1, ?_, ?_, ?_, ?_⟩
  · intro x; rw [h1]; exact d2 x
  · rw [h1]; exact dedupLinks_length req.Links
  · rw [h2, h1]
  · intro X hX
    rw [h1, hX]
    by_cases hT : TrimSpace X = []
    · exfalso
      have hu : (dedupLinks req.Links).uniqueLinks = [] := by
        rw [hX]
        exact dedupLinks_triple_blank X hT
      unfold LinkService.CheckLinks at h
      simp only [hu, ParseLinks] at h
      simp at h
    · exact (dedupLinks_triple X hT).1

/-- The stored original links of the request `[X, X, " X "]` have no entry
twice and their number is `TotalLinks`. -/
theorem CheckLinks_original_links_witness :
    (LinkService.CheckLinks (fun _ => AllPlatforms) [] 1 tripleRequest "203.0.113.7").2
      = some tripleRecord ∧
    tripleRecord.OriginalLinks.Nodup ∧
    tripleRecord.TotalLinks = tripleRecord.OriginalLinks.length :=
  ⟨rfl,
   (CheckLinks_original_links (fun _ => AllPlatforms) [] 1 tripleRequest "203.0.113.7"
      tripleRecord rfl).1,
   (CheckLinks_original_links (fun _ => AllPlatforms) [] 1 tripleRequest "203.0.113.7"
      tripleRecord rfl).2.2.2.1⟩

/-! ## Claims about the token bucket -/

open TokenBucket

theorem ediv_add_ediv_le (x y r : Int) (hr : 0 < r) : x / r + y / r ≤ (x + y) / r := by
  apply Int.le_ediv_of_mul_le hr
  have h1 := Int.ediv_mul_le x (ne_of_gt hr)
  have h2 := Int.ediv_mul_le y (ne_of_gt hr)
  rw [add_mul]
  omega

theorem wrapInt64_le (x : Int) (h : -(2 ^ 63) ≤ x) : wrapInt64 x ≤ x := by
  unfold wrapInt64
  omega

theorem wrapInt64_ge (x : Int) : -(2 ^ 63) ≤ wrapInt64 x := by
  unfold wrapInt64
  omega

theorem Sub_of_le (t u : Int) (h : u ≤ t) :
    0 ≤ Sub t u ∧ Sub t u ≤ t - u ∧ (Sub t u = t - u ∨ Sub t u = 2 ^ 63 - 1) := by
  unfold Sub
  split
  · omega
  · split
    · omega
    · omega

/-- One call of `Take` on a bucket whose refill interval is positive. -/
theorem Take_step (tb : TokenBucket) (t : Int) (hr : 0 < tb.refillRate)
    (hr2 : tb.refillRate < 2 ^ 63) (hT : -(2 ^ 63) ≤ tb.tokens)
    (hcap : tb.tokens ≤ tb.capacity) (hL : tb.lastRefill ≤ t) :
    ∃ g tb1, Take (some tb) t = some (g, some tb1) ∧
      tb1.refillRate = tb.refillRate ∧ tb1.capacity = tb.capacity ∧
      -(2 ^ 63) ≤ tb1.tokens ∧ tb1.tokens + (if g = true then 1 else 0) ≤ tb1.capacity ∧
      tb.lastRefill ≤ tb1.lastRefill ∧ tb1.lastRefill ≤ t ∧
      t - tb1.lastRefill < tb.refillRate ∧
      ∀ b, t ≤ b →
        (if g = true then 1 else 0)
            + (tb1.tokens + (b - tb1.lastRefill) / tb.refillRate).toNat
          ≤ (tb.tokens + (b - tb.lastRefill) / tb.refillRate).toNat := by
  obtain ⟨he0, he1, he2⟩ := Sub_of_le t tb.lastRefill hL
  have hk : Int.tdiv (Sub t tb.lastRefill) tb.refillRate
      = Sub t tb.lastRefill / tb.refillRate := Int.tdiv_eq_ediv he0 (le_of_lt hr)
  have hk0 : 0 ≤ Sub t tb.lastRefill / tb.refillRate := Int.ediv_nonneg he0 (le_of_lt hr)
  have hk1 : Sub t tb.lastRefill / tb.refillRate ≤ (t - tb.lastRefill) / tb.refillRate :=
    Int.ediv_le_ediv hr he1
  have hfl : ∀ b, t ≤ b →
      (t - tb.lastRefill) / tb.refillRate + (b - t) / tb.refillRate
        ≤ (b - tb.lastRefill) / tb.refillRate ∧ 0 ≤ (b - t) / tb.refillRate ∧
      0 ≤ (b - tb.lastRefill) / tb.refillRate := by
    intro b hb
    refine ⟨?_, Int.ediv_nonneg (by omega) (le_of_lt hr),
      Int.ediv_nonneg (by omega) (le_of_lt hr)⟩
    have := ediv_add_ediv_le (t - tb.lastRefill) (b - t) tb.refillRate hr
    have he : t - tb.lastRefill + (b - t) = b - tb.lastRefill := by ring
    rwa [he] at this
  have hw1 := wrapInt64_le (tb.tokens + Sub t tb.lastRefill / tb.refillRate) (by omega)
  have hw2 := wrapInt64_ge (tb.tokens + Sub t tb.lastRefill / tb.refillRate)
  unfold Take
  simp only [hk, if_neg (ne_of_gt hr)]
  by_cases hpos : Sub t tb.lastRefill / tb.refillRate > 0
  · simp only [if_pos hpos]
    have hm1 : minInt (wrapInt64 (tb.tokens + Sub t tb.lastRefill / tb.refillRate)) tb.capacity
        ≤ tb.tokens + Sub t tb.lastRefill / tb.refillRate := by
      unfold minInt; split <;> omega
    have hm2 : minInt (wrapInt64 (tb.tokens + Sub t tb.lastRefill / tb.refillRate)) tb.capacity
        ≤ tb.capacity := by
      unfold minInt; split <;> omega
    have hm3 : -(2 ^ 63) ≤
        minInt (wrapInt64 (tb.tokens + Sub t tb.lastRefill / tb.refillRate)) tb.capacity := by
      unfold minInt; split <;> omega
    by_cases hg : minInt (wrapInt64 (tb.tokens + Sub t tb.lastRefill / tb.refillRate))
        tb.capacity > 0
    · simp only [if_pos hg]
      refine ⟨true, _, rfl, rfl, rfl, ?_, ?_, ?_, ?_, ?_, ?_⟩
      · simp only; omega
      · simp only [if_true]; omega
      · simpa using hL
      · simp
      · simpa using hr
      · intro b hb
        obtain ⟨f1, f2, f3⟩ := hfl b hb
        simp only [if_true]
        omega
    · simp only [if_neg hg]
      refine ⟨false, _, rfl, rfl, rfl, ?_, ?_, ?_, ?_, ?_, ?_⟩
      · simp only; omega
      · simp; omega
      · simpa using hL
      · simp
      · simpa using hr
      · intro b hb
        obtain ⟨f1, f2, f3⟩ := hfl b hb
        simp
        omega
  · simp only [if_neg hpos]
    have hz : Sub t tb.lastRefill / tb.refillRate = 0 := by omega
    have hlt : t - tb.lastRefill < tb.refillRate := by
      have h1 : Sub t tb.lastRefill < tb.refillRate := by
        by_contra hc
        have : 1 ≤ Sub t tb.lastRefill / tb.refillRate :=
          Int.le_ediv_of_mul_le hr (by omega)
        omega
      omega
    by_cases hg : tb.tokens > 0
    · simp only [if_pos hg]
      refine ⟨true, _, rfl, rfl, rfl, ?_, ?_, ?_, ?_, ?_, ?_⟩
      · simp only; omega
      · simp only [if_true]; omega
      · simp
      · simpa using hL
      · simpa using hlt
      · intro b hb
        obtain ⟨f1, f2, f3⟩ := hfl b hb
        simp only [if_true]
        omega
    · simp only [if_neg hg]
      refine ⟨false, _, rfl, rfl, rfl, hT, ?_, ?_, ?_, ?_, ?_⟩
      · simp; omega
      · simp
      · simpa using hL
      · simpa using hlt
      · intro b hb
        simp

theorem TakeAll_cons (tb : TokenBucket) (t : Int) (rest : List Int) (g : Bool)
    (tb1 : TokenBucket) (h : Take (some tb) t = some (g, some tb1)) :
    TakeAll (some tb) (t :: rest) = (TakeAll (some tb1) rest).map (fun oks => g :: oks) := by
  rw [TakeAll, h]
  dsimp only
  cases TakeAll (some tb1) rest <;> rfl

/-- A sequence of calls on a bucket whose refill interval is positive returns
an answer for every call. -/
theorem TakeAll_some (times : List Int) : ∀ (tb : TokenBucket), 0 < tb.refillRate →
    tb.refillRate < 2 ^ 63 → -(2 ^ 63) ≤ tb.tokens → tb.tokens ≤ tb.capacity →
    (∀ x ∈ times, tb.lastRefill ≤ x) → times.Pairwise (fun x y => x ≤ y) →
    ∃ results, TakeAll (some tb) times = some results ∧ results.length = times.length := by
  induction times with
  | nil => intro tb _ _ _ _ _ _; exact ⟨[], rfl, rfl⟩
  | cons t rest ih =>
    intro tb hr hr2 hT hcap hL hs
    obtain ⟨g, tb1, hg, e1, e2, i1, i2, _, i4, _, _⟩ :=
      Take_step tb t hr hr2 hT hcap (hL t (List.mem_cons_self _ _))
    rw [List.pairwise_cons] at hs
    obtain ⟨oks, ho, hl⟩ := ih tb1 (e1 ▸ hr) (e1 ▸ hr2) i1 (by split at i2 <;> omega)
      (fun x hx => le_trans i4 (hs.1 x hx)) hs.2
    refine ⟨g :: oks, ?_, by simp [hl]⟩
    rw [TakeAll_cons tb t rest g tb1 hg, ho]
    rfl

theorem grantsUpTo_zero (b : Int) (times : List Int) : ∀ (oks : List Bool),
    (∀ x ∈ times, b < x) → grantsUpTo b times oks = 0 := by
  induction times with
  | nil => intro oks _; cases oks <;> rfl
  | cons t rest ih =>
    intro oks h
    cases oks with
    | nil => rfl
    | cons ok oks =>
      have ht := h t (List.mem_cons_self _ _)
      have hn : ¬ (ok = true ∧ t ≤ b) := fun hc => absurd hc.2 (not_le.mpr ht)
      rw [grantsUpTo, if_neg hn, ih oks (fun x hx => h x (List.mem_cons_of_mem _ hx))]

theorem grantsIn_le_grantsUpTo (a : Int) (times : List Int) : ∀ (oks : List Bool),
    grantsIn a times oks ≤ grantsUpTo (a + Second - 1) times oks := by
  induction times with
  | nil => intro oks; cases oks <;> exact le_refl _
  | cons t rest ih =>
    intro oks
    cases oks with
    | nil => exact le_refl _
    | cons ok oks =>
      rw [grantsIn, grantsUpTo]
      have := ih oks
      by_cases h : ok = true ∧ a ≤ t ∧ t < a + Second
      · have h2 : ok = true ∧ t ≤ a + Second - 1 := ⟨h.1, by omega⟩
        rw [if_pos h, if_pos h2]
        omega
      · rw [if_neg h]
        omega

/-- The granted calls up to the clock reading `b` are covered by the tokens in
the bucket and the refills that fit between the last refill and `b`. -/
theorem grantsUpTo_le (b : Int) (times : List Int) : ∀ (tb : TokenBucket) (results : List Bool),
    0 < tb.refillRate → tb.refillRate < 2 ^ 63 → -(2 ^ 63) ≤ tb.tokens →
    tb.tokens ≤ tb.capacity → (∀ x ∈ times, tb.lastRefill ≤ x) →
    times.Pairwise (fun x y => x ≤ y) → TakeAll (some tb) times = some results →
    grantsUpTo b times results
      ≤ (tb.tokens + (b - tb.lastRefill) / tb.refillRate).toNat := by
  induction times with
  | nil =>
    intro tb results _ _ _ _ _ _ h
    cases results <;> simp [grantsUpTo]
  | cons t rest ih =>
    intro tb results hr hr2 hT hcap hL hs h
    obtain ⟨g, tb1, hg, e1, e2, i1, i2, _, i4, _, i6⟩ :=
      Take_step tb t hr hr2 hT hcap (hL t (List.mem_cons_self _ _))
    rw [List.pairwise_cons] at hs
    rw [TakeAll_cons tb t rest g tb1 hg] at h
    cases ho : TakeAll (some tb1) rest with
    | none => rw [ho] at h; cases h
    | some oks =>
      rw [ho] at h
      simp only [Option.map_some', Option.some.injEq] at h
      subst h
      rw [grantsUpTo]
      by_cases htb : t ≤ b
      · have hih := ih tb1 oks (e1 ▸ hr) (e1 ▸ hr2) i1 (by split at i2 <;> omega)
          (fun x hx => le_trans i4 (hs.1 x hx)) hs.2 ho
        have hp := i6 b htb
        rw [e1] at hih
        by_cases hgt : g = true
        · have hc : g = true ∧ t ≤ b := ⟨hgt, htb⟩
          rw [if_pos hc]
          rw [if_pos hgt] at hp
          omega
        · have hc : ¬ (g = true ∧ t ≤ b) := fun hc => hgt hc.1
          rw [if_neg hc]
          omega
      · have hc : ¬ (g = true ∧ t ≤ b) := fun hc => htb hc.2
        rw [if_neg hc, grantsUpTo_zero b rest oks (fun x hx => by
          have := hs.1 x hx
          omega)]
        omega

/-- The granted calls inside a window of one second. -/
theorem grantsIn_le (a : Int) (times : List Int) : ∀ (tb : TokenBucket) (results : List Bool),
    0 < tb.refillRate → tb.refillRate < 2 ^ 63 → -(2 ^ 63) ≤ tb.tokens →
    tb.tokens ≤ tb.capacity → 0 < tb.capacity → (∀ x ∈ times, tb.lastRefill ≤ x) →
    times.Pairwise (fun x y => x ≤ y) → TakeAll (some tb) times = some results →
    (grantsIn a times results : Int)
      ≤ tb.capacity + (Second + tb.refillRate - 2) / tb.refillRate := by
  induction times with
  | nil =>
    intro tb results hr _ _ _ hc _ _ h
    have h0 : 0 ≤ (Second + tb.refillRate - 2) / tb.refillRate :=
      Int.ediv_nonneg (by unfold Second; omega) (le_of_lt hr)
    cases results <;> simp [grantsIn] <;> omega
  | cons t rest ih =>
    intro tb results hr hr2 hT hcap hc0 hL hs h
    obtain ⟨g, tb1, hg, e1, e2, i1, i2, _, i4, i5, _⟩ :=
      Take_step tb t hr hr2 hT hcap (hL t (List.mem_cons_self _ _))
    rw [List.pairwise_cons] at hs
    rw [TakeAll_cons tb t rest g tb1 hg] at h
    have h0 : 0 ≤ (Second + tb.refillRate - 2) / tb.refillRate :=
      Int.ediv_nonneg (by unfold Second; omega) (le_of_lt hr)
    cases ho : TakeAll (some tb1) rest with
    | none => rw [ho] at h; cases h
    | some oks =>
      rw [ho] at h
      simp only [Option.map_some', Option.some.injEq] at h
      subst h
      have hcap1 : tb1.tokens ≤ tb1.capacity := by split at i2 <;> omega
      have hL1 : ∀ x ∈ rest, tb1.lastRefill ≤ x := fun x hx => le_trans i4 (hs.1 x hx)
      rw [grantsIn]
      by_cases hw : a ≤ t ∧ t < a + Second
      · have h1 := grantsIn_le_grantsUpTo a rest oks
        have h2 := grantsUpTo_le (a + Second - 1) rest tb1 oks (e1 ▸ hr) (e1 ▸ hr2) i1 hcap1
          hL1 hs.2 ho
        rw [e1] at h2
        have h3 : (a + Second - 1 - tb1.lastRefill) / tb.refillRate
            ≤ (Second + tb.refillRate - 2) / tb.refillRate :=
          Int.ediv_le_ediv hr (by omega)
        rw [e2] at i2
        by_cases hgt : g = true
        · have hc : g = true ∧ a ≤ t ∧ t < a + Second := ⟨hgt, hw⟩
          rw [if_pos hc]
          rw [if_pos hgt] at i2
          omega
        · have hc : ¬ (g = true ∧ a ≤ t ∧ t < a + Second) := fun hc => hgt hc.1
          rw [if_neg hc]
          rw [if_neg hgt] at i2
          omega
      · have hc : ¬ (g = true ∧ a ≤ t ∧ t < a + Second) := fun hc => hw hc.2
        rw [if_neg hc]
        have hih := ih tb1 oks (e1 ▸ hr) (e1 ▸ hr2) i1 hcap1 (e2 ▸ hc0) hL1 hs.2 ho
        rw [e1, e2] at hih
        omega

theorem refill_bound (N : Int) (hN : 0 < N) (hNN : N * N ≤ Second) :
    (Second + Second / N - 2) / (Second / N) ≤ N + 1 := by
  have hr : N ≤ Second / N := Int.le_ediv_of_mul_le hN hNN
  have hd := Int.ediv_add_emod Second N
  have hm := Int.emod_lt_of_pos Second hN
  have hm0 := Int.emod_nonneg Second (ne_of_gt hN)
  have hlt : Second + Second / N - 2 < (N + 1 + 1) * (Second / N) := by
    have he : (N + 1 + 1) * (Second / N) = N * (Second / N) + 2 * (Second / N) := by ring
    rw [he]
    omega
  have := Int.ediv_lt_of_lt_mul (lt_of_lt_of_le hN hr) hlt
  omega

/-- C19 (amended): for a bucket created at clock reading `t0` with
`max_requests_per_second = N > 0` and calls of `Take` at non-decreasing clock
readings from `t0` on: when `N ≤ 10^9` every call returns an answer, and no
window of one second `[a, a + 1s)` holds more than `N + (10^9 + r - 2) / r`
calls that return true, `r = 10^9 / N` being the refill interval in
nanoseconds; that is at most `2 * N + 1` when `N * N ≤ 10^9`. -/
theorem Take_window_bound (N t0 : Int) (times : List Int) (hN : 0 < N)
    (h0 : ∀ t ∈ times, t0 ≤ t) (hs : times.Pairwise (fun x y => x ≤ y)) :
    (N ≤ 1000000000 →
      ∃ results, TakeAll (NewTokenBucket N t0) times = some results ∧
        results.length = times.length) ∧
    ∀ results, TakeAll (NewTokenBucket N t0) times = some results → ∀ a,
      (grantsIn a times results : Int) ≤ N + (Second + Second / N - 2) / (Second / N) ∧
      (N * N ≤ Second → (grantsIn a times results : Int) ≤ 2 * N + 1) := by
  have hnew : NewTokenBucket N t0
      = some { capacity := N, tokens := N, refillRate := Second / N, lastRefill := t0 } := by
    unfold NewTokenBucket
    rw [if_neg (not_le.mpr hN), Int.tdiv_eq_ediv (by decide) (le_of_lt hN)]
  have hr2 : Second / N < 2 ^ 63 := by
    have : Second / N ≤ Second := Int.ediv_le_self N (by decide)
    unfold Second at this ⊢
    omega
  rw [hnew]
  constructor
  · intro hN2
    have hr : 0 < Second / N := by
      have : 1 ≤ Second / N := Int.le_ediv_of_mul_le hN (by unfold Second; omega)
      omega
    exact TakeAll_some times _ hr hr2 (by simp only; omega) (le_refl _) h0 hs
  · intro results h a
    have key : (grantsIn a times results : Int)
        ≤ N + (Second + Second / N - 2) / (Second / N) := by
      by_cases hr : 0 < Second / N
      · exact grantsIn_le a times _ results hr hr2 (by simp only; omega) (le_refl _) hN h0 hs h
      · have hz : Second / N = 0 := by
          have := Int.ediv_nonneg (show (0:Int) ≤ Second by decide) (le_of_lt hN)
          omega
        cases times with
        | nil =>
          cases results <;> simp [grantsIn, hz] <;> omega
        | cons t rest =>
          exfalso
          rw [TakeAll] at h
          simp [Take, hz] at h
    refine ⟨key, fun hNN => ?_⟩
    have := refill_bound N hN hNN
    omega

theorem Take_window_bound_witness :
    ((grantsIn 499999999 [499999999, 499999999, 500000000, 1000000000]
        [true, true, true, true] : Nat) : Int) ≤ 2 * 2 + 1 :=
  ((Take_window_bound 2 0 [499999999, 499999999, 500000000, 1000000000] (by decide)
      (by decide) (by decide)).2 [true, true, true, true] (by decide) 499999999).2 (by decide)

/-- C19 (counterexample): a bucket created at clock reading 0 with
`max_requests_per_second = 1` grants the calls at 999999999 ns and at
1000000000 ns, one nanosecond apart: two granted calls in the window of one
second that starts at 999999999 ns; and with `max_requests_per_second = 2` four
calls are granted in the window that starts at 499999999 ns. -/
theorem Take_grants_more_than_N_in_a_window :
    TakeAll (NewTokenBucket 1 0) [999999999, 1000000000] = some [true, true] ∧
    grantsIn 999999999 [999999999, 1000000000] [true, true] = 2 ∧
    TakeAll (NewTokenBucket 2 0) [499999999, 499999999, 500000000, 1000000000]
      = some [true, true, true, true] ∧
    grantsIn 499999999 [499999999, 499999999, 500000000, 1000000000]
      [true, true, true, true] = 4 := by
  decide

/-! ## Claims about the ownership of a submission and the final update -/

open SubmissionRepository

theorem UpdateStatusToChecking_zero (r : SubmissionRepository) (id : Nat)
    (h : (r.UpdateStatusToChecking id).2 = 0) : (r.UpdateStatusToChecking id).1 = r := by
  have hn : ∀ record ∈ r.rows, ¬ (record.ID = id ∧ record.Status = "pending") := by
    intro record hm hc
    have hl : (r.rows.filter (fun record => record.ID = id ∧ record.Status = "pending")).length
        = 0 := by
      have := h
      simp only [UpdateStatusToChecking] at this
      exact_mod_cast this
    have hmem : record ∈ r.rows.filter (fun record => record.ID = id ∧ record.Status = "pending") :=
      List.mem_filter.2 ⟨hm, by simpa using hc⟩
    rw [List.length_eq_zero] at hl
    rw [hl] at hmem
    cases hmem
  have hmap : r.rows.map (fun record =>
       if record.ID = id ∧ record.Status = "pending" then
         { record with Status := "checking" }
       else record) = r.rows := by
    conv_rhs => rw [← List.map_id r.rows]
    apply List.map_congr_left
    intro record hm
    rw [if_neg (hn record hm)]
    rfl
  cases r with
  | mk rows updates updateErr =>
    simp only [UpdateStatusToChecking] at hmap ⊢
    rw [hmap]

/-- C14: in both dispatch modes, when `UpdateStatusToChecking` reports 0 affected
rows the dispatch returns the error "submission N is already being processed"
and leaves every store as it was: the probe log, the cache, the table
`invalid_links`, the table `submission_records` and the log of `Update` calls. -/
theorem dispatch_aborts_without_mutation (s : CheckerService)
    (order : List Char → List Platform) (visit : List Platform) (duration now : Int)
    (st : Stores) (submissionID : Nat) (links : List (List Char))
    (selectedPlatforms : List Platform)
    (h : (st.submissionRepo.UpdateStatusToChecking submissionID).2 = 0) :
    CheckRealtime s order visit duration now st submissionID links
      = (st, .error ("submission " ++ toString submissionID
          ++ " is already being processed")) ∧
    CheckRealtimeWithPlatformFilter s order visit duration now st submissionID links
        selectedPlatforms
      = (st, .error ("submission " ++ toString submissionID
          ++ " is already being processed")) := by
  have hr := UpdateStatusToChecking_zero st.submissionRepo submissionID h
  constructor
  · unfold CheckRealtime
    simp only [h, if_true, hr]
  · unfold CheckRealtimeWithPlatformFilter
    simp only [h, if_true, hr]

theorem dispatch_aborts_without_mutation_witness :
    (checkingStores.submissionRepo.UpdateStatusToChecking 1).2 = 0 ∧
    CheckRealtime quarkService (fun _ => AllPlatforms) AllPlatforms 7 100 checkingStores 1
        [quarkLink]
      = (checkingStores, .error ("submission " ++ toString 1
          ++ " is already being processed")) :=
  ⟨by decide,
   (dispatch_aborts_without_mutation quarkService (fun _ => AllPlatforms) AllPlatforms 7 100
      checkingStores 1 [quarkLink] [PlatformQuark] (by decide)).1⟩

theorem Update_updates (r : SubmissionRepository) (x : SubmissionRecord) :
    (r.Update x).1.updates = r.updates ++ [x] := by
  unfold Update
  dsimp only
  split
  · rfl
  · split <;> rfl

theorem Update_fail (r : SubmissionRepository) (x : SubmissionRecord) (e : String)
    (h : r.updateErr r.updates.length = some e) :
    r.Update x = ({ r with updates := r.updates ++ [x] }, some e) := by
  unfold Update
  dsimp only
  rw [h]

/-- When the final update of an unfiltered dispatch with links fails, a second
call of `Update` carries the record with status `pending`: the log of `Update`
calls ends with the `checked` record and then the `pending` record. -/
theorem CheckRealtime_update_failure_reverts (s : CheckerService)
    (order : List Char → List Platform) (visit : List Platform) (duration now : Int)
    (st : Stores) (submissionID : Nat) (links : List (List Char)) (record0 : SubmissionRecord)
    (e : String)
    (hcas : (st.submissionRepo.UpdateStatusToChecking submissionID).2 ≠ 0)
    (hl : (uniqueLinkInfos order links).length ≠ 0)
    (hget : (st.submissionRepo.UpdateStatusToChecking submissionID).1.GetByID submissionID
      = .ok record0)
    (herr : st.submissionRepo.updateErr st.submissionRepo.updates.length = some e) :
    (CheckRealtime s order visit duration now st submissionID links).2 = .error e ∧
    (CheckRealtime s order visit duration now st submissionID links).1.submissionRepo.updates.map
        (fun r => r.Status)
      = st.submissionRepo.updates.map (fun r => r.Status) ++ ["checked", "pending"] := by
  have hu : ((st.submissionRepo.UpdateStatusToChecking submissionID).1).updateErr
      ((st.submissionRepo.UpdateStatusToChecking submissionID).1).updates.length = some e := herr
  unfold CheckRealtime
  simp only [if_neg hcas, if_neg hl, hget]
  rw [Update_fail _ _ e hu]
  dsimp only
  refine ⟨rfl, ?_⟩
  rw [Update_updates]
  simp [UpdateStatusToChecking]

/-- C15 (the code at the failing input): the filtered dispatch of one Quark link
with the filter `[quark]`, whose final update is answered by an error, returns
the error after a single call of `Update` (the record with status `checked`)
and leaves the row in status `checking`; the unfiltered dispatch of the same
link calls `Update` a second time with status `pending`; the unfiltered
dispatch of no link, which takes the early return, calls `Update` once. -/
theorem filtered_dispatch_update_failure_not_reverted :
    failedFilteredDispatch.2 = .error "connection refused" ∧
    failedFilteredDispatch.1.submissionRepo.updates.map (fun r => r.Status) = ["checked"] ∧
    failedFilteredDispatch.1.submissionRepo.rows.map (fun r => r.Status) = ["checking"] ∧
    failedUnfilteredDispatch.2 = .error "connection refused" ∧
    failedUnfilteredDispatch.1.submissionRepo.updates.map (fun r => r.Status)
      = ["checked", "pending"] ∧
    failedEmptyDispatch.2
      = .error "failed to update submission record: connection refused" ∧
    failedEmptyDispatch.1.submissionRepo.updates.map (fun r => r.Status) = ["checked"] ∧
    failedEmptyDispatch.1.submissionRepo.rows.map (fun r => r.Status) = ["checking"] := by
  refine ⟨rfl, rfl, rfl, rfl, rfl, rfl, rfl, rfl⟩

/-! ## Facts about the two dispatch modes -/

theorem cacheOutcome_probes (s : CheckerService) (w : World) (c : List Char)
    (r : CheckResult) (p : Platform) :
    (cacheOutcome s w c r p).probes = w.probes ∧
    (cacheOutcome s w c r p).invalidLinkRepo = w.invalidLinkRepo := by
  unfold cacheOutcome
  split <;> exact ⟨rfl, rfl⟩

/-- What one worker run does to the probe log and to the table `invalid_links`. -/
theorem checkOne_world (s : CheckerService) (order : List Char → List Platform)
    (ch : LinkChecker) (submissionID : Nat) (st : World × Aggregate) (l : List Char) :
    (∃ extra, (checkOne s order ch submissionID st l).1.probes = st.1.probes ++ extra ∧
      ∀ pr ∈ extra, pr.2 = l) ∧
    (checkOne s order ch submissionID st l).1.invalidLinkRepo = st.1.invalidLinkRepo := by
  unfold checkOne
  dsimp only
  rcases hso : storedOutcome st.1 (ParseLink (order l) l).Link with ⟨_ | r, fc⟩
  · dsimp only
    rcases hc : ch.Check l with ⟨_ | r, _ | err⟩
    · dsimp only
      exact ⟨⟨[(ch.GetPlatform, l)], rfl, by simp⟩, rfl⟩
    · dsimp only
      split
      · refine ⟨⟨[(ch.GetPlatform, l)], ?_, by simp⟩, ?_⟩
        · rw [(cacheOutcome_probes _ _ _ _ _).1]
        · rw [(cacheOutcome_probes _ _ _ _ _).2]
      · refine ⟨⟨[(ch.GetPlatform, l)], ?_, by simp⟩, ?_⟩
        · rw [(cacheOutcome_probes _ _ _ _ _).1]
        · rw [(cacheOutcome_probes _ _ _ _ _).2]
    · dsimp only
      refine ⟨⟨[(ch.GetPlatform, l)], ?_, by simp⟩, ?_⟩
      · rw [(cacheOutcome_probes _ _ _ _ _).1]
      · rw [(cacheOutcome_probes _ _ _ _ _).2]
    · dsimp only
      split
      · refine ⟨⟨[(ch.GetPlatform, l)], ?_, by simp⟩, ?_⟩
        · rw [(cacheOutcome_probes _ _ _ _ _).1]
        · rw [(cacheOutcome_probes _ _ _ _ _).2]
      · refine ⟨⟨[(ch.GetPlatform, l)], ?_, by simp⟩, ?_⟩
        · rw [(cacheOutcome_probes _ _ _ _ _).1]
        · rw [(cacheOutcome_probes _ _ _ _ _).2]
  · dsimp only
    refine ⟨⟨[], ?_, by simp⟩, ?_⟩
    · split
      · rw [(cacheOutcome_probes _ _ _ _ _).1, List.append_nil]
      · rw [List.append_nil]
    · split
      · rw [(cacheOutcome_probes _ _ _ _ _).2]
      · rfl

/-- What one worker run does to the two shared lists, when the probe returns a
result or an error. -/
theorem checkOne_aggregate (s : CheckerService) (order : List Char → List Platform)
    (ch : LinkChecker) (submissionID : Nat) (st : World × Aggregate) (l : List Char)
    (hc : ch.Check l ≠ (none, none)) :
    (outcomeValid st.1 ch l (ParseLink (order l) l).Link = true →
      (checkOne s order ch submissionID st l).2
        = { st.2 with validLinks := st.2.validLinks ++ [(ParseLink (order l) l).Link] }) ∧
    (outcomeValid st.1 ch l (ParseLink (order l) l).Link = false →
      ∃ row : InvalidLink, row.Link = (ParseLink (order l) l).Link ∧
        row.SubmissionID = some submissionID ∧ row.Platform = ch.GetPlatform ∧
        (checkOne s order ch submissionID st l).2
          = { st.2 with invalidLinks := st.2.invalidLinks ++ [row] }) := by
  unfold checkOne outcomeValid
  dsimp only
  rcases hso : storedOutcome st.1 (ParseLink (order l) l).Link with ⟨_ | r, fc⟩
  · dsimp only
    rcases hch : ch.Check l with ⟨_ | r, _ | err⟩
    · exact absurd hch hc
    · dsimp only
      constructor
      · intro h; cases h
      · intro _
        split
        · exact ⟨_, rfl, rfl, rfl, rfl⟩
        · exact ⟨_, rfl, rfl, rfl, rfl⟩
    · dsimp only
      unfold recordOutcome
      constructor
      · intro h
        rw [if_pos h]
      · intro h
        rw [if_neg (by simp [h])]
        exact ⟨_, rfl, rfl, rfl, rfl⟩
    · dsimp only
      constructor
      · intro h; cases h
      · intro _
        split
        · exact ⟨_, rfl, rfl, rfl, rfl⟩
        · exact ⟨_, rfl, rfl, rfl, rfl⟩
  · dsimp only
    unfold recordOutcome
    constructor
    · intro h
      rw [if_pos h]
    · intro h
      rw [if_neg (by simp [h])]
      exact ⟨_, rfl, rfl, rfl, rfl⟩

theorem perm_flatMap_filter {α κ : Type} [DecidableEq κ] (k : α → κ) :
    ∀ (keys : List κ), keys.Nodup → ∀ (xs : List α), (∀ x ∈ xs, k x ∈ keys) →
      (keys.flatMap (fun p => xs.filter (fun x => k x = p))).Perm xs := by
  intro keys
  induction keys with
  | nil =>
    intro _ xs h
    cases xs with
    | nil => exact List.Perm.refl _
    | cons x xs => exact absurd (h x (List.mem_cons_self _ _)) (List.not_mem_nil _)
  | cons p ks ih =>
    intro hn xs h
    rw [List.nodup_cons] at hn
    rw [List.flatMap_cons]
    have hk : ks.flatMap (fun q => xs.filter (fun x => k x = q))
        = ks.flatMap (fun q => (xs.filter (fun x => !decide (k x = p))).filter
            (fun x => k x = q)) := by
      apply List.flatMap_congr
      intro q hq
      rw [List.filter_filter]
      apply List.filter_congr
      intro x _
      by_cases hx : k x = q
      · have hne : k x ≠ p := fun he => hn.1 (he ▸ hx ▸ hq)
        simp [hx, hne]
        intro he
        exact hn.1 (he ▸ hq)
      · simp [hx]
    rw [hk]
    have hih := ih hn.2 (xs.filter (fun x => !decide (k x = p))) (by
      intro x hx
      rw [List.mem_filter] at hx
      have hm := h x hx.1
      rw [List.mem_cons] at hm
      rcases hm with hm | hm
      · simp [hm] at hx
      · exact hm)
    exact (List.Perm.append (List.Perm.refl _) hih).trans
      (List.filter_append_perm (fun x => decide (k x = p)) xs)

/-- A worker group appends probes of its own links only and leaves the table
`invalid_links` alone. -/
theorem checkLinksWithConcurrency_world (s : CheckerService)
    (order : List Char → List Platform) (ch : LinkChecker) (submissionID : Nat)
    (links : List (List Char)) : ∀ (st : World × Aggregate),
    (∃ extra, (checkLinksWithConcurrency s order ch links submissionID st).1.probes
        = st.1.probes ++ extra ∧ ∀ pr ∈ extra, pr.2 ∈ links) ∧
    (checkLinksWithConcurrency s order ch links submissionID st).1.invalidLinkRepo
      = st.1.invalidLinkRepo := by
  unfold checkLinksWithConcurrency
  induction links with
  | nil => intro st; exact ⟨⟨[], by simp, by simp⟩, rfl⟩
  | cons l ls ih =>
    intro st
    rw [List.foldl_cons]
    obtain ⟨⟨e1, h1, h2⟩, h3⟩ := checkOne_world s order ch submissionID st l
    obtain ⟨⟨e2, k1, k2⟩, k3⟩ := ih (checkOne s order ch submissionID st l)
    refine ⟨⟨e1 ++ e2, ?_, ?_⟩, ?_⟩
    · rw [k1, h1, List.append_assoc]
    · intro pr hpr
      rw [List.mem_append] at hpr
      rcases hpr with hpr | hpr
      · rw [h2 pr hpr]; exact List.mem_cons_self _ _
      · exact List.mem_cons_of_mem _ (k2 pr hpr)
    · rw [k3, h3]

/-- One worker run adds exactly one entry, the canonical link, to the two
shared lists taken together. -/
theorem checkOne_entries (s : CheckerService) (order : List Char → List Platform)
    (ch : LinkChecker) (submissionID : Nat) (st : World × Aggregate) (l : List Char)
    (hc : ch.Check l ≠ (none, none)) :
    ((checkOne s order ch submissionID st l).2.validLinks
        ++ (checkOne s order ch submissionID st l).2.invalidLinks.map (fun d => d.Link)).Perm
      ((st.2.validLinks ++ st.2.invalidLinks.map (fun d => d.Link))
        ++ [(ParseLink (order l) l).Link]) ∧
    (∀ d ∈ (checkOne s order ch submissionID st l).2.invalidLinks,
      d ∈ st.2.invalidLinks ∨ d.SubmissionID = some submissionID) := by
  obtain ⟨hv, hi⟩ := checkOne_aggregate s order ch submissionID st l hc
  cases ho : outcomeValid st.1 ch l (ParseLink (order l) l).Link with
  | true =>
    rw [hv ho]
    refine ⟨?_, fun d hd => Or.inl hd⟩
    dsimp only
    rw [List.append_assoc, List.append_assoc]
    exact List.Perm.append (List.Perm.refl _) List.perm_append_comm
  | false =>
    obtain ⟨row, r1, r2, _, r4⟩ := hi ho
    rw [r4]
    dsimp only
    refine ⟨?_, ?_⟩
    · rw [List.map_append, List.map_cons, List.map_nil, r1, List.append_assoc]
    · intro d hd
      rw [List.mem_append, List.mem_singleton] at hd
      rcases hd with hd | hd
      · exact Or.inl hd
      · exact Or.inr (hd ▸ r2)

theorem checkLinksWithConcurrency_entries (s : CheckerService)
    (order : List Char → List Platform) (ch : LinkChecker) (submissionID : Nat)
    (links : List (List Char)) (hc : ∀ l ∈ links, ch.Check l ≠ (none, none)) :
    ∀ (st : World × Aggregate),
    ((checkLinksWithConcurrency s order ch links submissionID st).2.validLinks
        ++ (checkLinksWithConcurrency s order ch links submissionID st).2.invalidLinks.map
            (fun d => d.Link)).Perm
      ((st.2.validLinks ++ st.2.invalidLinks.map (fun d => d.Link))
        ++ links.map (fun l => (ParseLink (order l) l).Link)) ∧
    (∀ d ∈ (checkLinksWithConcurrency s order ch links submissionID st).2.invalidLinks,
      d ∈ st.2.invalidLinks ∨ d.SubmissionID = some submissionID) := by
  unfold checkLinksWithConcurrency
  induction links with
  | nil => intro st; exact ⟨by simp, fun d hd => Or.inl hd⟩
  | cons l ls ih =>
    intro st
    rw [List.foldl_cons]
    obtain ⟨h1, h2⟩ := checkOne_entries s order ch submissionID st l
      (hc l (List.mem_cons_self _ _))
    obtain ⟨k1, k2⟩ := ih (fun x hx => hc x (List.mem_cons_of_mem _ hx))
      (checkOne s order ch submissionID st l)
    refine ⟨?_, ?_⟩
    · refine k1.trans ?_
      rw [List.map_cons]
      refine (List.Perm.append h1 (List.Perm.refl _)).trans ?_
      rw [List.append_assoc]
      rfl
    · intro d hd
      rcases k2 d hd with h | h
      · exact h2 d h
      · exact Or.inr h

theorem checkPlatforms_nil (s : CheckerService) (order : List Char → List Platform)
    (submissionID : Nat) (lbp : Platform → List (List Char)) (st : World × Aggregate) :
    checkPlatforms s order submissionID lbp [] st = st := rfl

theorem checkPlatforms_cons (s : CheckerService) (order : List Char → List Platform)
    (submissionID : Nat) (lbp : Platform → List (List Char)) (p : Platform)
    (ps : List Platform) (st : World × Aggregate) :
    checkPlatforms s order submissionID lbp (p :: ps) st
      = checkPlatforms s order submissionID lbp ps
          (checkPlatforms s order submissionID lbp [p] st) := rfl

/-- The fan-out over one platform: the probe log and the table. -/
theorem checkPlatforms_one_world (s : CheckerService) (order : List Char → List Platform)
    (submissionID : Nat) (lbp : Platform → List (List Char)) (p : Platform)
    (st : World × Aggregate) :
    (∃ extra, (checkPlatforms s order submissionID lbp [p] st).1.probes
        = st.1.probes ++ extra ∧ ∀ pr ∈ extra, pr.2 ∈ lbp p) ∧
    (checkPlatforms s order submissionID lbp [p] st).1.invalidLinkRepo
      = st.1.invalidLinkRepo := by
  unfold checkPlatforms
  rw [List.foldl_cons, List.foldl_nil]
  dsimp only
  split
  · exact ⟨⟨[], by simp, by simp⟩, rfl⟩
  · split
    · exact ⟨⟨[], by simp, by simp⟩, rfl⟩
    · exact checkLinksWithConcurrency_world s order _ submissionID (lbp p) st

theorem checkPlatforms_world (s : CheckerService) (order : List Char → List Platform)
    (submissionID : Nat) (lbp : Platform → List (List Char)) (visit : List Platform) :
    ∀ (st : World × Aggregate),
    (∃ extra, (checkPlatforms s order submissionID lbp visit st).1.probes
        = st.1.probes ++ extra ∧ ∀ pr ∈ extra, ∃ p ∈ visit, pr.2 ∈ lbp p) ∧
    (checkPlatforms s order submissionID lbp visit st).1.invalidLinkRepo
      = st.1.invalidLinkRepo := by
  induction visit with
  | nil => intro st; exact ⟨⟨[], by simp [checkPlatforms_nil], by simp⟩, rfl⟩
  | cons p ps ih =>
    intro st
    rw [checkPlatforms_cons]
    obtain ⟨⟨e1, h1, h2⟩, h3⟩ := checkPlatforms_one_world s order submissionID lbp p st
    obtain ⟨⟨e2, k1, k2⟩, k3⟩ := ih (checkPlatforms s order submissionID lbp [p] st)
    refine ⟨⟨e1 ++ e2, ?_, ?_⟩, ?_⟩
    · rw [k1, h1, List.append_assoc]
    · intro pr hpr
      rw [List.mem_append] at hpr
      rcases hpr with hpr | hpr
      · exact ⟨p, List.mem_cons_self _ _, h2 pr hpr⟩
      · obtain ⟨q, hq, hm⟩ := k2 pr hpr
        exact ⟨q, List.mem_cons_of_mem _ hq, hm⟩
    · rw [k3, h3]

/-- The fan-out over one platform: the two shared lists. -/
theorem checkPlatforms_one_entries (s : CheckerService) (order : List Char → List Platform)
    (submissionID : Nat) (lbp : Platform → List (List Char)) (p : Platform)
    (hprobe : ∀ ch l, s.checkers p = some ch → l ∈ lbp p → ch.Check l ≠ (none, none))
    (hcanon : ∀ l ∈ lbp p, (ParseLink (order l) l).Link = l)
    (st : World × Aggregate) :
    ((checkPlatforms s order submissionID lbp [p] st).2.validLinks
        ++ (checkPlatforms s order submissionID lbp [p] st).2.invalidLinks.map
            (fun d => d.Link)).Perm
      ((st.2.validLinks ++ st.2.invalidLinks.map (fun d => d.Link)) ++ lbp p) ∧
    (∀ d ∈ (checkPlatforms s order submissionID lbp [p] st).2.invalidLinks,
      d ∈ st.2.invalidLinks ∨ d.SubmissionID = some submissionID) := by
  unfold checkPlatforms
  rw [List.foldl_cons, List.foldl_nil]
  dsimp only
  split
  · rename_i he
    rw [he]
    exact ⟨by simp, fun d hd => Or.inl hd⟩
  · split
    · dsimp only
      refine ⟨?_, ?_⟩
      · rw [List.map_append, List.map_map, ← List.append_assoc]
        have : (lbp p).map ((fun d : InvalidLink => d.Link) ∘ (fun link =>
            ({ Link := link, Platform := p, FailureReason := "该平台检测器未实现",
               CheckDuration := none, IsRateLimited := false,
               SubmissionID := some submissionID } : InvalidLink))) = lbp p := by
          conv_rhs => rw [← List.map_id (lbp p)]
          apply List.map_congr_left
          intro a _
          rfl
        rw [this]
      · intro d hd
        rw [List.mem_append, List.mem_map] at hd
        rcases hd with hd | ⟨link, _, hl⟩
        · exact Or.inl hd
        · exact Or.inr (hl ▸ rfl)
    · rename_i ch hch
      obtain ⟨h1, h2⟩ := checkLinksWithConcurrency_entries s order ch submissionID (lbp p)
        (fun l hl => hprobe ch l hch hl) st
      refine ⟨?_, h2⟩
      have hm : (lbp p).map (fun l => (ParseLink (order l) l).Link) = lbp p := by
        conv_rhs => rw [← List.map_id (lbp p)]
        apply List.map_congr_left
        intro a ha
        exact hcanon a ha
      rw [hm] at h1
      exact h1

theorem checkPlatforms_entries (s : CheckerService) (order : List Char → List Platform)
    (submissionID : Nat) (lbp : Platform → List (List Char)) (visit : List Platform)
    (hprobe : ∀ p ch l, s.checkers p = some ch → l ∈ lbp p → ch.Check l ≠ (none, none))
    (hcanon : ∀ p, ∀ l ∈ lbp p, (ParseLink (order l) l).Link = l) :
    ∀ (st : World × Aggregate),
    ((checkPlatforms s order submissionID lbp visit st).2.validLinks
        ++ (checkPlatforms s order submissionID lbp visit st).2.invalidLinks.map
            (fun d => d.Link)).Perm
      ((st.2.validLinks ++ st.2.invalidLinks.map (fun d => d.Link))
        ++ visit.flatMap lbp) ∧
    (∀ d ∈ (checkPlatforms s order submissionID lbp visit st).2.invalidLinks,
      d ∈ st.2.invalidLinks ∨ d.SubmissionID = some submissionID) := by
  induction visit with
  | nil => intro st; exact ⟨by simp [checkPlatforms_nil], fun d hd => Or.inl hd⟩
  | cons p ps ih =>
    intro st
    rw [checkPlatforms_cons]
    obtain ⟨h1, h2⟩ := checkPlatforms_one_entries s order submissionID lbp p
      (hprobe p) (hcanon p) st
    obtain ⟨k1, k2⟩ := ih (checkPlatforms s order submissionID lbp [p] st)
    refine ⟨?_, ?_⟩
    · refine k1.trans ?_
      rw [List.flatMap_cons, ← List.append_assoc]
      exact List.Perm.append h1 (List.Perm.refl _)
    · intro d hd
      rcases k2 d hd with h | h
      · exact h2 d h
      · exact Or.inr h

theorem groupLinks_unknown (infos : List LinkInfo) (g : Groups) :
    (infos.foldl groupStep g).unknownLinks
      = g.unknownLinks
        ++ (infos.filter (fun i => i.Platform = PlatformUnknown)).map (fun i => i.Link) ∧
    (infos.foldl groupStep g).linksByPlatform PlatformUnknown
      = g.linksByPlatform PlatformUnknown := by
  induction infos generalizing g with
  | nil => simp
  | cons i is ih =>
    rw [List.foldl_cons, (ih (groupStep g i)).1, (ih (groupStep g i)).2, List.filter_cons]
    unfold groupStep
    by_cases hu : i.Platform = PlatformUnknown
    · simp [hu]
    · rw [if_neg hu]
      refine ⟨by simp [hu], ?_⟩
      exact Function.update_noteq (Ne.symm hu) _ _

theorem groupLinksFiltered_rest (selected : List Platform) (infos : List LinkInfo)
    (g : Groups) :
    (infos.foldl (groupStepFiltered selected) g).unknownLinks
      = g.unknownLinks
        ++ (infos.filter (fun i => i.Platform = PlatformUnknown)).map (fun i => i.Link) ∧
    (infos.foldl (groupStepFiltered selected) g).skippedLinks
      = g.skippedLinks
        ++ (infos.filter (fun i => i.Platform ≠ PlatformUnknown ∧ i.Platform ∉ selected)).map
            (fun i => i.Link) ∧
    (infos.foldl (groupStepFiltered selected) g).linksByPlatform PlatformUnknown
      = g.linksByPlatform PlatformUnknown := by
  induction infos generalizing g with
  | nil => simp
  | cons i is ih =>
    rw [List.foldl_cons, (ih (groupStepFiltered selected g i)).1,
      (ih (groupStepFiltered selected g i)).2.1, (ih (groupStepFiltered selected g i)).2.2,
      List.filter_cons, List.filter_cons]
    unfold groupStepFiltered
    by_cases hu : i.Platform = PlatformUnknown
    · simp [hu]
    · by_cases hs : i.Platform ∈ selected
      · have hc : selected.contains i.Platform = true := by simpa using hs
        rw [if_neg hu, if_pos hc]
        refine ⟨by simp [hu], by simp [hu, hs], ?_⟩
        exact Function.update_noteq (Ne.symm hu) _ _
      · have hc : ¬ selected.contains i.Platform = true := by simpa using hs
        rw [if_neg hu, if_neg hc]
        refine ⟨by simp [hu], by simp [hu, hs], ?_⟩
        rfl

/-- The canonical link of a recognised candidate parses to itself, whatever
the visiting order of the second call. -/
theorem ParseLink_Link_canonical (o o2 : List Platform) (u : List Char)
    (h : (ParseLink o u).Platform ≠ PlatformUnknown) :
    (ParseLink o2 (ParseLink o u).Link).Link = (ParseLink o u).Link := by
  cases hf : o.find? (matchesPlatform (trimSpace u)) with
  | none =>
    rw [ParseLink_of_find_none hf] at h
    exact absurd rfl h
  | some p =>
    have hne : trimSpace u ≠ [] := by
      intro he
      have hm := List.find?_some hf
      rw [he, matchesPlatform_nil] at hm
      cases hm
    rw [ParseLink_of_find hf]
    show (ParseLink o2 (normalizeLink (trimSpace u))).Link = normalizeLink (trimSpace u)
    cases hf2 : o2.find? (matchesPlatform (trimSpace (normalizeLink (trimSpace u)))) with
    | none =>
      rw [ParseLink_of_find_none hf2]
      exact trimSpace_normalizeLink u hne
    | some q =>
      rw [ParseLink_of_find hf2]
      show normalizeLink (trimSpace (normalizeLink (trimSpace u))) = _
      rw [trimSpace_normalizeLink u hne, normalizeLink_idempotent]

theorem find_replace (rows : List SubmissionRecord) (record : SubmissionRecord)
    (h : ∃ e ∈ rows, e.ID = record.ID) :
    (rows.map (fun existing => if existing.ID = record.ID then record else existing)).find?
        (fun r => r.ID = record.ID) = some record := by
  induction rows with
  | nil => obtain ⟨e, he, _⟩ := h; cases he
  | cons e es ih =>
    rw [List.map_cons]
    by_cases hid : e.ID = record.ID
    · rw [if_pos hid, List.find?_cons_of_pos]
      simp
    · rw [if_neg hid, List.find?_cons_of_neg]
      · apply ih
        obtain ⟨x, hx, hxi⟩ := h
        rw [List.mem_cons] at hx
        rcases hx with hx | hx
        · exact absurd (hx ▸ hxi) hid
        · exact ⟨x, hx, hxi⟩
      · simpa using hid

theorem find_append_new (rows : List SubmissionRecord) (record : SubmissionRecord)
    (h : ∀ e ∈ rows, e.ID ≠ record.ID) :
    (rows ++ [record]).find? (fun r => r.ID = record.ID) = some record := by
  induction rows with
  | nil => simp
  | cons e es ih =>
    rw [List.cons_append, List.find?_cons_of_neg]
    · exact ih (fun x hx => h x (List.mem_cons_of_mem _ hx))
    · simpa using h e (List.mem_cons_self _ _)

/-- A record written by `Update` is the one `GetByID` returns afterwards. -/
theorem Update_GetByID (r : SubmissionRepository) (record : SubmissionRecord)
    (h : r.updateErr r.updates.length = none) :
    (r.Update record).2 = none ∧ (r.Update record).1.GetByID record.ID = .ok record := by
  unfold Update
  dsimp only
  rw [h]
  dsimp only
  split
  · rename_i ha
    refine ⟨rfl, ?_⟩
    unfold GetByID
    dsimp only
    rw [find_replace r.rows record (by simpa using ha)]
  · rename_i ha
    refine ⟨rfl, ?_⟩
    unfold GetByID
    dsimp only
    rw [find_append_new r.rows record (by simpa using ha)]

/-- After a successful CAS the record is there. -/
theorem GetByID_after_cas (r : SubmissionRepository) (id : Nat)
    (h : (r.UpdateStatusToChecking id).2 ≠ 0) :
    ∃ record0, (r.UpdateStatusToChecking id).1.GetByID id = .ok record0 ∧ record0.ID = id := by
  have hex : ∃ e ∈ (r.UpdateStatusToChecking id).1.rows, e.ID = id := by
    have hl : (r.rows.filter (fun record => record.ID = id ∧ record.Status = "pending")).length
        ≠ 0 := by
      intro hz
      apply h
      simp only [UpdateStatusToChecking]
      exact_mod_cast hz
    obtain ⟨x, hx⟩ := List.exists_mem_of_length_pos (Nat.pos_of_ne_zero hl)
    rw [List.mem_filter] at hx
    have hx2 : x.ID = id ∧ x.Status = "pending" := by simpa using hx.2
    refine ⟨{ x with Status := "checking" }, ?_, hx2.1⟩
    simp only [UpdateStatusToChecking, List.mem_map]
    exact ⟨x, hx.1, by rw [if_pos hx2]⟩
  unfold GetByID
  cases hf : (r.UpdateStatusToChecking id).1.rows.find? (fun record => record.ID = id) with
  | none =>
    obtain ⟨e, he, hid⟩ := hex
    have := List.find?_eq_none.1 hf e he
    simp [hid] at this
  | some rec =>
    have := List.find?_some hf
    exact ⟨rec, rfl, by simpa using this⟩

theorem CreateOrUpdate_has (rows : List InvalidLink) (d : InvalidLink) (id : Nat)
    (hd : d.SubmissionID = some id) :
    ∃ row ∈ InvalidLinkRepository.CreateOrUpdate rows d,
      row.Link = d.Link ∧ row.SubmissionID = some id := by
  unfold InvalidLinkRepository.CreateOrUpdate
  cases hf : rows.find? (fun r => r.Link = d.Link) with
  | none => exact ⟨d, by simp, rfl, hd⟩
  | some e =>
    dsimp only
    have hm := List.mem_of_find?_eq_some hf
    have hl : e.Link = d.Link := by simpa using List.find?_some hf
    refine ⟨_, List.mem_map.2 ⟨e, hm, rfl⟩, ?_, ?_⟩
    · rw [if_pos hl]
      exact hl
    · rw [if_pos hl, hd]

theorem CreateOrUpdate_keeps (rows : List InvalidLink) (d : InvalidLink) (id : Nat)
    (hd : d.SubmissionID = some id) (link : List Char)
    (h : ∃ row ∈ rows, row.Link = link ∧ row.SubmissionID = some id) :
    ∃ row ∈ InvalidLinkRepository.CreateOrUpdate rows d,
      row.Link = link ∧ row.SubmissionID = some id := by
  obtain ⟨row, hm, hl, hs⟩ := h
  unfold InvalidLinkRepository.CreateOrUpdate
  cases hf : rows.find? (fun r => r.Link = d.Link) with
  | none => exact ⟨row, by simp [hm], hl, hs⟩
  | some e =>
    dsimp only
    refine ⟨_, List.mem_map.2 ⟨row, hm, rfl⟩, ?_, ?_⟩
    · by_cases hc : row.Link = d.Link
      · rw [if_pos hc]; exact hl
      · rw [if_neg hc]; exact hl
    · by_cases hc : row.Link = d.Link
      · rw [if_pos hc, hd]
      · rw [if_neg hc]; exact hs

/-- After the upserts, every upserted link has a row that carries the
submission id. -/
theorem saveInvalidLinks_rows (id : Nat) (D : List InvalidLink) :
    ∀ (rows : List InvalidLink), (∀ d ∈ D, d.SubmissionID = some id) →
    ∀ link, (link ∈ D.map (fun d => d.Link) ∨
        ∃ row ∈ rows, row.Link = link ∧ row.SubmissionID = some id) →
      ∃ row ∈ D.foldl InvalidLinkRepository.CreateOrUpdate rows,
        row.Link = link ∧ row.SubmissionID = some id := by
  induction D with
  | nil =>
    intro rows _ link h
    rcases h with h | h
    · cases h
    · exact h
  | cons d ds ih =>
    intro rows hD link h
    rw [List.foldl_cons]
    have hd := hD d (List.mem_cons_self _ _)
    apply ih _ (fun x hx => hD x (List.mem_cons_of_mem _ hx))
    rcases h with h | h
    · rw [List.map_cons, List.mem_cons] at h
      rcases h with h | h
      · right
        rw [h]
        exact CreateOrUpdate_has rows d id hd
      · exact Or.inl h
    · exact Or.inr (CreateOrUpdate_keeps rows d id hd link h)

/-! ## Claims about the filtered dispatch -/

theorem Update_ok (r : SubmissionRepository) (record : SubmissionRecord)
    (h : (r.Update record).2 = none) :
    (r.Update record).1.GetByID record.ID = .ok record := by
  cases he : r.updateErr r.updates.length with
  | none => exact (Update_GetByID r record he).2
  | some e =>
    rw [Update_fail r record e he] at h
    cases h

/-- What a filtered dispatch that returns a record has done. -/
theorem filtered_dispatch_result (s : CheckerService) (order : List Char → List Platform)
    (visit : List Platform) (duration now : Int) (st : Stores) (submissionID : Nat)
    (links : List (List Char)) (selectedPlatforms : List Platform) (st2 : Stores)
    (record : SubmissionRecord)
    (h : CheckRealtimeWithPlatformFilter s order visit duration now st submissionID links
      selectedPlatforms = (st2, .ok record)) :
    (∃ extra, st2.world.probes = st.world.probes ++ extra ∧
      ∀ pr ∈ extra, ∃ info ∈ uniqueLinkInfos order links,
        info.Link = pr.2 ∧ info.Platform ∈ selectedPlatforms) ∧
    record.PendingLinks
      = ((uniqueLinkInfos order links).filter (fun i =>
            i.Platform ≠ PlatformUnknown ∧ i.Platform ∉ selectedPlatforms)).map
          (fun i => i.Link)
        ++ ((uniqueLinkInfos order links).filter (fun i =>
            i.Platform = PlatformUnknown)).map (fun i => i.Link) ∧
    st2.submissionRepo.GetByID submissionID = .ok record ∧
    ((record.Status = "checked" ∧ record.CheckedAt = some now) ↔ record.PendingLinks = []) ∧
    (record.PendingLinks ≠ [] → record.Status = "pending") := by
  unfold CheckRealtimeWithPlatformFilter at h
  by_cases hcas : (st.submissionRepo.UpdateStatusToChecking submissionID).2 = 0
  · rw [if_pos hcas] at h
    simp at h
  · rw [if_neg hcas] at h
    obtain ⟨record0, hget, hid⟩ := GetByID_after_cas _ _ hcas
    dsimp only at h
    rw [hget] at h
    by_cases hl : (uniqueLinkInfos order links).length = 0
    · rw [if_pos hl] at h
      dsimp only at h
      split at h
      · simp at h
      · rename_i repo2 hU
        simp only [Prod.mk.injEq, Except.ok.injEq] at h
        obtain ⟨h1, h2⟩ := h
        subst h1 h2
        have hnil : uniqueLinkInfos order links = [] := List.length_eq_zero.1 hl
        have hok := Update_ok _ _ (congrArg Prod.snd hU)
        rw [hU] at hok
        refine ⟨⟨[], by simp, by simp⟩, by simp [hnil], ?_, by simp, by simp⟩
        rw [← hid]
        exact hok
    · rw [if_neg hl] at h
      dsimp only at h
      split at h
      · simp at h
      · rename_i repo2 hU
        simp only [Prod.mk.injEq, Except.ok.injEq] at h
        obtain ⟨h1, h2⟩ := h
        have hok := Update_ok _ _ (congrArg Prod.snd hU)
        rw [hU] at hok
        obtain ⟨gu, gs, gz⟩ := groupLinksFiltered_rest selectedPlatforms
          (uniqueLinkInfos order links)
          { linksByPlatform := fun _ => [], unknownLinks := [], skippedLinks := [] }
        have hpend : record.PendingLinks
            = (groupLinksFiltered selectedPlatforms (uniqueLinkInfos order links)).skippedLinks
              ++ (groupLinksFiltered selectedPlatforms
                    (uniqueLinkInfos order links)).unknownLinks := by
          rw [← h2]
          split <;> rfl
        have hpend2 : record.PendingLinks
            = ((uniqueLinkInfos order links).filter (fun i =>
                i.Platform ≠ PlatformUnknown ∧ i.Platform ∉ selectedPlatforms)).map
                (fun i => i.Link)
              ++ ((uniqueLinkInfos order links).filter (fun i =>
                i.Platform = PlatformUnknown)).map (fun i => i.Link) := by
          rw [hpend]
          unfold groupLinksFiltered
          rw [gu, gs]
          simp
        refine ⟨?_, hpend2, ?_, ?_, ?_⟩
        · obtain ⟨⟨extra, e1, e2⟩, _⟩ := checkPlatforms_world s order submissionID
            (groupLinksFiltered selectedPlatforms (uniqueLinkInfos order links)).linksByPlatform
            visit (st.world, { validLinks := [], invalidLinks := [] })
          refine ⟨extra, ?_, ?_⟩
          · rw [← h1]
            exact e1
          · intro pr hpr
            obtain ⟨p, _, hm⟩ := e2 pr hpr
            by_cases hp : p = PlatformUnknown
            · exfalso
              rw [hp] at hm
              unfold groupLinksFiltered at hm
              rw [gz] at hm
              cases hm
            · unfold groupLinksFiltered at hm
              rw [groupLinksFiltered_fold selectedPlatforms _ _ p hp] at hm
              simp only [List.nil_append, List.mem_map, List.mem_filter,
                decide_eq_true_eq] at hm
              obtain ⟨info, ⟨hi, hip, hsel⟩, hlink⟩ := hm
              exact ⟨info, hi, hlink, hip ▸ hsel⟩
        · rw [← h1]
          have : record.ID = submissionID := by
            rw [← h2, ← hid]
            split <;> rfl
          rw [← this, ← h2]
          exact hok
        · rw [hpend]
          rw [← h2]
          split
          · rename_i hlen
            have hne : (groupLinksFiltered selectedPlatforms
                (uniqueLinkInfos order links)).skippedLinks
              ++ (groupLinksFiltered selectedPlatforms
                (uniqueLinkInfos order links)).unknownLinks ≠ [] := by
              intro he
              rw [he] at hlen
              simp at hlen
            simp [hne]
          · rename_i hlen
            have he : (groupLinksFiltered selectedPlatforms
                (uniqueLinkInfos order links)).skippedLinks
              ++ (groupLinksFiltered selectedPlatforms
                (uniqueLinkInfos order links)).unknownLinks = [] := by
              have : ((groupLinksFiltered selectedPlatforms
                (uniqueLinkInfos order links)).skippedLinks
              ++ (groupLinksFiltered selectedPlatforms
                (uniqueLinkInfos order links)).unknownLinks).length = 0 := by omega
              exact List.length_eq_zero.1 this
            simp [he]
        · intro hne
          rw [hpend] at hne
          rw [← h2]
          split
          · rfl
          · rename_i hlen
            exfalso
            apply hne
            apply List.length_eq_zero.1
            omega

/-- C13: a filtered dispatch that completes has probed only links whose
platform is among the selected ones; the pending links it stored are the links
of the platforms not selected followed by the links of unknown platform; the
stored status is `checked` with `CheckedAt` set exactly when that list is empty,
and `pending` otherwise. In scenario S4 (two Quark links, two Baidu links, one
Xunlei link, filter `[quark]`) the two Quark links are probed, the three other
links stay pending and the status is `pending`. -/
theorem filtered_dispatch_completes (s : CheckerService) (order : List Char → List Platform)
    (visit : List Platform) (duration now : Int) (st : Stores) (submissionID : Nat)
    (links : List (List Char)) (selectedPlatforms : List Platform) (st2 : Stores)
    (record : SubmissionRecord)
    (h : CheckRealtimeWithPlatformFilter s order visit duration now st submissionID links
      selectedPlatforms = (st2, .ok record)) :
    (∃ extra, st2.world.probes = st.world.probes ++ extra ∧
      ∀ pr ∈ extra, ∃ info ∈ uniqueLinkInfos order links,
        info.Link = pr.2 ∧ info.Platform ∈ selectedPlatforms) ∧
    record.PendingLinks
      = ((uniqueLinkInfos order links).filter (fun i =>
            i.Platform ≠ PlatformUnknown ∧ i.Platform ∉ selectedPlatforms)).map
          (fun i => i.Link)
        ++ ((uniqueLinkInfos order links).filter (fun i =>
            i.Platform = PlatformUnknown)).map (fun i => i.Link) ∧
    st2.submissionRepo.GetByID submissionID = .ok record ∧
    ((record.Status = "checked" ∧ record.CheckedAt = some now) ↔ record.PendingLinks = []) ∧
    (record.PendingLinks ≠ [] → record.Status = "pending") ∧
    (mixedDispatch.2 = .ok mixedRecord ∧
      mixedDispatch.1.world.probes
        = [(PlatformQuark, "https://pan.quark.cn/s/a1".toList),
           (PlatformQuark, "https://pan.quark.cn/s/b2".toList)] ∧
      mixedRecord.PendingLinks
        = ["https://pan.baidu.com/s/1abcdef".toList,
           "https://pan.xunlei.com/s/VNabc123".toList,
           "https://pan.baidu.com/s/1ghijkl".toList] ∧
      mixedRecord.Status = "pending") := by
  obtain ⟨h1, h2, h3, h4, h5⟩ := filtered_dispatch_result s order visit duration now st
    submissionID links selectedPlatforms st2 record h
  exact ⟨h1, h2, h3, h4, h5, rfl, rfl, rfl, rfl⟩

theorem filtered_dispatch_completes_witness :
    CheckRealtimeWithPlatformFilter quarkService (fun _ => AllPlatforms) AllPlatforms 7 100
        (storesWith (pendingRecord mixedBatch [PlatformQuark]) (fun _ => none)) 1 mixedBatch
        [PlatformQuark]
      = (mixedDispatch.1, .ok mixedRecord) ∧
    mixedDispatch.1.submissionRepo.GetByID 1 = .ok mixedRecord ∧
    (mixedRecord.PendingLinks ≠ [] → mixedRecord.Status = "pending") :=
  ⟨rfl,
   (filtered_dispatch_completes quarkService (fun _ => AllPlatforms) AllPlatforms 7 100
      (storesWith (pendingRecord mixedBatch [PlatformQuark]) (fun _ => none)) 1 mixedBatch
      [PlatformQuark] mixedDispatch.1 mixedRecord rfl).2.2.1,
   (filtered_dispatch_completes quarkService (fun _ => AllPlatforms) AllPlatforms 7 100
      (storesWith (pendingRecord mixedBatch [PlatformQuark]) (fun _ => none)) 1 mixedBatch
      [PlatformQuark] mixedDispatch.1 mixedRecord rfl).2.2.2.2.1⟩

/-! ## Claims about the unfiltered dispatch -/

theorem unknownRows_links (id : Nat) (ls : List (List Char)) :
    (unknownRows id ls).map (fun d => d.Link) = ls ∧
    ∀ d ∈ unknownRows id ls, d.SubmissionID = some id := by
  unfold unknownRows
  refine ⟨?_, ?_⟩
  · rw [List.map_map]
    conv_rhs => rw [← List.map_id ls]
    apply List.map_congr_left
    intro a _
    rfl
  · intro d hd
    rw [List.mem_map] at hd
    obtain ⟨l, _, hl⟩ := hd
    rw [← hl]

/-- The links grouped by `groupLinks`, taken over a visiting order that has
every platform once, are the recognised links. -/
theorem groupLinks_flatMap (infos : List LinkInfo) (visit : List Platform)
    (hnd : visit.Nodup) (hall : ∀ p, p ≠ PlatformUnknown → p ∈ visit) :
    (visit.flatMap (groupLinks infos).linksByPlatform).Perm
      ((infos.filter (fun i => !decide (i.Platform = PlatformUnknown))).map
        (fun i => i.Link)) := by
  have hk : visit.flatMap (groupLinks infos).linksByPlatform
      = visit.flatMap (fun p =>
          ((infos.filter (fun i => !decide (i.Platform = PlatformUnknown))).filter
            (fun i => i.Platform = p)).map (fun i => i.Link)) := by
    apply List.flatMap_congr
    intro p _
    by_cases hp : p = PlatformUnknown
    · rw [hp]
      unfold groupLinks
      rw [(groupLinks_unknown infos _).2, List.filter_filter]
      have : infos.filter (fun a => decide (a.Platform = PlatformUnknown)
          && !decide (a.Platform = PlatformUnknown)) = [] := by
        rw [List.filter_eq_nil_iff]
        intro a _
        simp
      rw [this]
      rfl
    · unfold groupLinks
      rw [groupLinks_fold infos _ p hp, List.filter_filter, List.nil_append]
      congr 1
      apply List.filter_congr
      intro a _
      by_cases ha : a.Platform = p
      · have : a.Platform ≠ PlatformUnknown := ha ▸ hp
        simp [ha, hp]
      · simp [ha]
  rw [hk, ← List.map_flatMap]
  apply List.Perm.map
  apply perm_flatMap_filter (fun i : LinkInfo => i.Platform) visit hnd
  intro x hx
  rw [List.mem_filter] at hx
  apply hall
  simpa using hx.2

theorem Update_success (r : SubmissionRepository) (x : SubmissionRecord)
    (h : r.updateErr r.updates.length = none) :
    r.Update x = ((r.Update x).1, none) := by
  have := (Update_GetByID r x h).1
  exact Prod.ext rfl this

theorem Update_GetByID_of_id (r : SubmissionRepository) (x : SubmissionRecord) (id : Nat)
    (h : r.updateErr r.updates.length = none) (hid : x.ID = id) :
    (r.Update x).1.GetByID id = .ok x := by
  subst hid
  exact (Update_GetByID r x h).2

theorem cacheKey_injective (a b : List Char) (h : cacheKey a = cacheKey b) : a = b := by
  unfold cacheKey at h
  exact List.append_cancel_left h

/-- Reading a key of the cache after a write: the written outcome under the
written key, the former answer under every other key. -/
theorem Get_Set (r : redisCacheRepository) (c : List Char) (result : CheckResult)
    (p : Platform) (i : Int) (m : Platform → Option Int) (hen : r.IsEnabled = true) :
    (redisCacheRepository.Set r c result p i m).IsEnabled = true ∧
    (redisCacheRepository.Set r c result p i m).Get c = some result ∧
    ∀ c2, c2 ≠ c → (redisCacheRepository.Set r c result p i m).Get c2 = r.Get c2 := by
  have hen2 : r.enabled = true := hen
  refine ⟨?_, ?_, ?_⟩
  · simp [redisCacheRepository.Set, redisCacheRepository.IsEnabled, hen2]
  · simp [redisCacheRepository.Set, redisCacheRepository.Get, redisCacheRepository.IsEnabled,
      hen2]
  · intro c2 hne
    have hk : cacheKey c ≠ cacheKey c2 := fun h => hne (cacheKey_injective _ _ h).symm
    simp only [redisCacheRepository.Set, redisCacheRepository.Get,
      redisCacheRepository.IsEnabled, hen2, Bool.not_true, Bool.false_eq_true, if_false]
    rw [List.find?_cons_of_neg]
    · congr 1
      induction r.entries with
      | nil => rfl
      | cons e es ih =>
        by_cases he : e.key = cacheKey c
        · have h1 : ¬ (e.key = cacheKey c2) := fun h => hk (he.symm.trans h)
          rw [List.filter_cons_of_neg (by simpa using he), List.find?_cons_of_neg _ (by simpa using h1)]
          exact ih
        · rw [List.filter_cons_of_pos (by simpa using he)]
          by_cases h2 : e.key = cacheKey c2
          · rw [List.find?_cons_of_pos _ (by simpa using h2), List.find?_cons_of_pos _ (by simpa using h2)]
          · rw [List.find?_cons_of_neg _ (by simpa using h2), List.find?_cons_of_neg _ (by simpa using h2)]
            exact ih
    · simpa using hk

/-- What a cache write does to the stored outcomes: the outcome of the written
link is unchanged (cache not in use) or is the written outcome, now read from
the cache; the stored outcome of every other link is unchanged. -/
theorem storedOutcome_cacheOutcome (s : CheckerService) (w : World) (c : List Char)
    (result : CheckResult) (p : Platform) :
    (storedOutcome (cacheOutcome s w c result p) c = storedOutcome w c ∨
      storedOutcome (cacheOutcome s w c result p) c = (some result, true)) ∧
    ∀ c2, c2 ≠ c → storedOutcome (cacheOutcome s w c result p) c2 = storedOutcome w c2 := by
  unfold cacheOutcome
  by_cases hen : w.cacheRepo.IsEnabled = true
  · rw [if_pos hen]
    obtain ⟨h1, h2, h3⟩ := Get_Set w.cacheRepo c result p s.invalidTTL s.platformTTLMap hen
    refine ⟨Or.inr ?_, ?_⟩
    · unfold storedOutcome
      simp only [h1, if_true, h2]
    · intro c2 hne
      unfold storedOutcome
      simp only [h1, hen, if_true, h3 c2 hne]
  · rw [if_neg hen]
    exact ⟨Or.inl rfl, fun _ _ => rfl⟩

/-- What one worker run does to the stored outcomes: the stored outcome of the
link of the run is unchanged, or it is now a cached outcome whose valid flag is
the flag the worker settled on; the stored outcome of every other link is
unchanged. -/
theorem checkOne_storedOutcome (s : CheckerService) (order : List Char → List Platform)
    (ch : LinkChecker) (submissionID : Nat) (st : World × Aggregate) (l : List Char) :
    (storedOutcome (checkOne s order ch submissionID st l).1 (ParseLink (order l) l).Link
        = storedOutcome st.1 (ParseLink (order l) l).Link ∨
      ∃ r, storedOutcome (checkOne s order ch submissionID st l).1 (ParseLink (order l) l).Link
          = (some r, true) ∧
        r.Valid = outcomeValid st.1 ch l (ParseLink (order l) l).Link) ∧
    ∀ c, c ≠ (ParseLink (order l) l).Link →
      storedOutcome (checkOne s order ch submissionID st l).1 c = storedOutcome st.1 c := by
  unfold checkOne outcomeValid
  dsimp only
  rcases hso : storedOutcome st.1 (ParseLink (order l) l).Link with ⟨_ | r, fc⟩
  · dsimp only
    have hw3 : ∀ c, storedOutcome { st.1 with probes := st.1.probes ++ [(ch.GetPlatform, l)] } c
        = storedOutcome st.1 c := fun _ => rfl
    rcases hc : ch.Check l with ⟨_ | r, _ | err⟩
    · dsimp only
      refine ⟨Or.inl ?_, fun c _ => hw3 c⟩
      rw [hw3, hso]
    · dsimp only
      split
      · obtain ⟨h1, h2⟩ := storedOutcome_cacheOutcome s
          { st.1 with probes := st.1.probes ++ [(ch.GetPlatform, l)] }
          (ParseLink (order l) l).Link
          { Valid := false, FailureReason := "API频率限制（429错误）: " ++ err.Error,
            Duration := (Option.map (fun r : CheckResult => r.Duration) none).getD 0,
            IsRateLimited := true } ch.GetPlatform
        refine ⟨?_, fun c hc2 => (h2 c hc2).trans (hw3 c)⟩
        rcases h1 with h1 | h1
        · left; rw [h1, hw3, hso]
        · right; exact ⟨_, h1, rfl⟩
      · obtain ⟨h1, h2⟩ := storedOutcome_cacheOutcome s
          { st.1 with probes := st.1.probes ++ [(ch.GetPlatform, l)] }
          (ParseLink (order l) l).Link
          { Valid := false, FailureReason := "检测错误: " ++ err.Error,
            Duration := (Option.map (fun r : CheckResult => r.Duration) none).getD 0,
            IsRateLimited := (Option.map (fun r : CheckResult => r.IsRateLimited) none).getD false }
          ch.GetPlatform
        refine ⟨?_, fun c hc2 => (h2 c hc2).trans (hw3 c)⟩
        rcases h1 with h1 | h1
        · left; rw [h1, hw3, hso]
        · right; exact ⟨_, h1, rfl⟩
    · dsimp only
      obtain ⟨h1, h2⟩ := storedOutcome_cacheOutcome s
        { st.1 with probes := st.1.probes ++ [(ch.GetPlatform, l)] }
        (ParseLink (order l) l).Link r ch.GetPlatform
      refine ⟨?_, fun c hc2 => (h2 c hc2).trans (hw3 c)⟩
      rcases h1 with h1 | h1
      · left; rw [h1, hw3, hso]
      · right; exact ⟨_, h1, rfl⟩
    · dsimp only
      split
      · obtain ⟨h1, h2⟩ := storedOutcome_cacheOutcome s
          { st.1 with probes := st.1.probes ++ [(ch.GetPlatform, l)] }
          (ParseLink (order l) l).Link
          { Valid := false, FailureReason := "API频率限制（429错误）: " ++ err.Error,
            Duration := (Option.map (fun r : CheckResult => r.Duration) (some r)).getD 0,
            IsRateLimited := true } ch.GetPlatform
        refine ⟨?_, fun c hc2 => (h2 c hc2).trans (hw3 c)⟩
        rcases h1 with h1 | h1
        · left; rw [h1, hw3, hso]
        · right; exact ⟨_, h1, rfl⟩
      · obtain ⟨h1, h2⟩ := storedOutcome_cacheOutcome s
          { st.1 with probes := st.1.probes ++ [(ch.GetPlatform, l)] }
          (ParseLink (order l) l).Link
          { Valid := false, FailureReason := "检测错误: " ++ err.Error,
            Duration := (Option.map (fun r : CheckResult => r.Duration) (some r)).getD 0,
            IsRateLimited := (Option.map (fun r : CheckResult => r.IsRateLimited) (some r)).getD false }
          ch.GetPlatform
        refine ⟨?_, fun c hc2 => (h2 c hc2).trans (hw3 c)⟩
        rcases h1 with h1 | h1
        · left; rw [h1, hw3, hso]
        · right; exact ⟨_, h1, rfl⟩
  · dsimp only
    cases fc with
    | true =>
      refine ⟨Or.inl ?_, fun c _ => rfl⟩
      exact hso
    | false =>
      obtain ⟨h1, h2⟩ := storedOutcome_cacheOutcome s st.1 (ParseLink (order l) l).Link r
        ch.GetPlatform
      refine ⟨?_, fun c hc2 => h2 c hc2⟩
      rcases h1 with h1 | h1
      · left; rw [← hso]; exact h1
      · right; exact ⟨_, h1, rfl⟩

/-- One worker run keeps every stored outcome justified and records the link
under a justified flag. `J c b` says that the flag `b` is justified for the
link `c`; the stored outcome of a link is either the one of the world `w0`
before the dispatch or a cached outcome with a justified flag. -/
theorem checkOne_justified (s : CheckerService) (order : List Char → List Platform)
    (ch : LinkChecker) (submissionID : Nat) (st : World × Aggregate) (l : List Char)
    (w0 : World) (J : List Char → Bool → Prop)
    (hinv : ∀ c, storedOutcome st.1 c = storedOutcome w0 c ∨
      ∃ r, storedOutcome st.1 c = (some r, true) ∧ J c r.Valid)
    (hc : ch.Check l ≠ (none, none)) (hcanon : (ParseLink (order l) l).Link = l)
    (hJ : J l (outcomeValid w0 ch l l)) :
    (∀ c, storedOutcome (checkOne s order ch submissionID st l).1 c = storedOutcome w0 c ∨
      ∃ r, storedOutcome (checkOne s order ch submissionID st l).1 c = (some r, true) ∧
        J c r.Valid) ∧
    (∀ c ∈ (checkOne s order ch submissionID st l).2.validLinks,
      c ∈ st.2.validLinks ∨ J c true) ∧
    (∀ d ∈ (checkOne s order ch submissionID st l).2.invalidLinks,
      d ∈ st.2.invalidLinks ∨ J d.Link false) := by
  have key : J l (outcomeValid st.1 ch l l) := by
    rcases hinv l with h | ⟨r, h, hj⟩
    · have : outcomeValid st.1 ch l l = outcomeValid w0 ch l l := by
        unfold outcomeValid
        rw [h]
      rw [this]
      exact hJ
    · have : outcomeValid st.1 ch l l = r.Valid := by
        unfold outcomeValid
        rw [h]
      rw [this]
      exact hj
  obtain ⟨hs1, hs2⟩ := checkOne_storedOutcome s order ch submissionID st l
  obtain ⟨hv, hi⟩ := checkOne_aggregate s order ch submissionID st l hc
  rw [hcanon] at hs1 hs2 hv hi
  refine ⟨?_, ?_, ?_⟩
  · intro c
    by_cases hcl : c = l
    · subst hcl
      rcases hs1 with h | ⟨r, h, hr⟩
      · rw [h]
        exact hinv c
      · right
        refine ⟨r, h, ?_⟩
        rw [hr]
        exact key
    · rw [hs2 c hcl]
      exact hinv c
  · intro c hcm
    cases ho : outcomeValid st.1 ch l l with
    | true =>
      rw [hv ho] at hcm
      dsimp only at hcm
      rw [List.mem_append, List.mem_singleton] at hcm
      rcases hcm with h | h
      · exact Or.inl h
      · right
        rw [h, ← ho]
        exact key
    | false =>
      obtain ⟨row, _, _, _, r4⟩ := hi ho
      rw [r4] at hcm
      exact Or.inl hcm
  · intro d hdm
    cases ho : outcomeValid st.1 ch l l with
    | true =>
      rw [hv ho] at hdm
      exact Or.inl hdm
    | false =>
      obtain ⟨row, r1, _, _, r4⟩ := hi ho
      rw [r4] at hdm
      dsimp only at hdm
      rw [List.mem_append, List.mem_singleton] at hdm
      rcases hdm with h | h
      · exact Or.inl h
      · right
        rw [h, r1, ← ho]
        exact key

/-- A worker group keeps every stored outcome justified and records its links
under justified flags. -/
theorem checkLinksWithConcurrency_justified (s : CheckerService)
    (order : List Char → List Platform) (ch : LinkChecker) (submissionID : Nat)
    (w0 : World) (J : List Char → Bool → Prop) (links : List (List Char))
    (hc : ∀ l ∈ links, ch.Check l ≠ (none, none))
    (hcanon : ∀ l ∈ links, (ParseLink (order l) l).Link = l)
    (hJ : ∀ l ∈ links, J l (outcomeValid w0 ch l l)) :
    ∀ (st : World × Aggregate),
    (∀ c, storedOutcome st.1 c = storedOutcome w0 c ∨
      ∃ r, storedOutcome st.1 c = (some r, true) ∧ J c r.Valid) →
    (∀ c, storedOutcome (checkLinksWithConcurrency s order ch links submissionID st).1 c
        = storedOutcome w0 c ∨
      ∃ r, storedOutcome (checkLinksWithConcurrency s order ch links submissionID st).1 c
          = (some r, true) ∧ J c r.Valid) ∧
    (∀ c ∈ (checkLinksWithConcurrency s order ch links submissionID st).2.validLinks,
      c ∈ st.2.validLinks ∨ J c true) ∧
    (∀ d ∈ (checkLinksWithConcurrency s order ch links submissionID st).2.invalidLinks,
      d ∈ st.2.invalidLinks ∨ J d.Link false) := by
  unfold checkLinksWithConcurrency
  induction links with
  | nil => intro st hinv; exact ⟨hinv, fun c h => Or.inl h, fun d h => Or.inl h⟩
  | cons l ls ih =>
    intro st hinv
    rw [List.foldl_cons]
    obtain ⟨h1, h2, h3⟩ := checkOne_justified s order ch submissionID st l w0 J hinv
      (hc l (List.mem_cons_self _ _)) (hcanon l (List.mem_cons_self _ _))
      (hJ l (List.mem_cons_self _ _))
    obtain ⟨k1, k2, k3⟩ := ih (fun x hx => hc x (List.mem_cons_of_mem _ hx))
      (fun x hx => hcanon x (List.mem_cons_of_mem _ hx))
      (fun x hx => hJ x (List.mem_cons_of_mem _ hx))
      (checkOne s order ch submissionID st l) h1
    refine ⟨k1, ?_, ?_⟩
    · intro c hcm
      rcases k2 c hcm with h | h
      · exact h2 c h
      · exact Or.inr h
    · intro d hdm
      rcases k3 d hdm with h | h
      · exact h3 d h
      · exact Or.inr h

/-- The fan-out keeps every stored outcome justified; every link it adds to
the valid links has a justified valid flag, and every dead row it adds is for
a link with a justified invalid flag or for a link of a platform without a
registered checker. -/
theorem checkPlatforms_justified (s : CheckerService) (order : List Char → List Platform)
    (submissionID : Nat) (lbp : Platform → List (List Char)) (w0 : World)
    (J : List Char → Bool → Prop)
    (hprobe : ∀ p ch l, s.checkers p = some ch → l ∈ lbp p → ch.Check l ≠ (none, none))
    (hcanon : ∀ p, ∀ l ∈ lbp p, (ParseLink (order l) l).Link = l)
    (hJ : ∀ p ch l, s.checkers p = some ch → l ∈ lbp p → J l (outcomeValid w0 ch l l))
    (visit : List Platform) :
    ∀ (st : World × Aggregate),
    (∀ c, storedOutcome st.1 c = storedOutcome w0 c ∨
      ∃ r, storedOutcome st.1 c = (some r, true) ∧ J c r.Valid) →
    (∀ c, storedOutcome (checkPlatforms s order submissionID lbp visit st).1 c
        = storedOutcome w0 c ∨
      ∃ r, storedOutcome (checkPlatforms s order submissionID lbp visit st).1 c
          = (some r, true) ∧ J c r.Valid) ∧
    (∀ c ∈ (checkPlatforms s order submissionID lbp visit st).2.validLinks,
      c ∈ st.2.validLinks ∨ J c true) ∧
    (∀ d ∈ (checkPlatforms s order submissionID lbp visit st).2.invalidLinks,
      d ∈ st.2.invalidLinks ∨ J d.Link false ∨
        ∃ p, s.checkers p = none ∧ d.Link ∈ lbp p) := by
  induction visit with
  | nil =>
    intro st hinv
    exact ⟨hinv, fun c h => Or.inl h, fun d h => Or.inl h⟩
  | cons p ps ih =>
    intro st hinv
    rw [checkPlatforms_cons]
    have hone : (∀ c, storedOutcome (checkPlatforms s order submissionID lbp [p] st).1 c
          = storedOutcome w0 c ∨
        ∃ r, storedOutcome (checkPlatforms s order submissionID lbp [p] st).1 c
            = (some r, true) ∧ J c r.Valid) ∧
      (∀ c ∈ (checkPlatforms s order submissionID lbp [p] st).2.validLinks,
        c ∈ st.2.validLinks ∨ J c true) ∧
      (∀ d ∈ (checkPlatforms s order submissionID lbp [p] st).2.invalidLinks,
        d ∈ st.2.invalidLinks ∨ J d.Link false ∨
          ∃ p, s.checkers p = none ∧ d.Link ∈ lbp p) := by
      unfold checkPlatforms
      rw [List.foldl_cons, List.foldl_nil]
      dsimp only
      split
      · exact ⟨hinv, fun c h => Or.inl h, fun d h => Or.inl h⟩
      · split
        · rename_i hnone
          refine ⟨hinv, fun c h => Or.inl h, ?_⟩
          intro d hd
          dsimp only at hd
          rw [List.mem_append, List.mem_map] at hd
          rcases hd with hd | ⟨link, hl, hrow⟩
          · exact Or.inl hd
          · right; right
            refine ⟨p, hnone, ?_⟩
            rw [← hrow]
            exact hl
        · rename_i ch hch
          obtain ⟨g1, g2, g3⟩ := checkLinksWithConcurrency_justified s order ch submissionID
            w0 J (lbp p) (fun l hl => hprobe p ch l hch hl) (hcanon p)
            (fun l hl => hJ p ch l hch hl) st hinv
          refine ⟨g1, g2, ?_⟩
          intro d hd
          rcases g3 d hd with h | h
          · exact Or.inl h
          · exact Or.inr (Or.inl h)
    obtain ⟨h1, h2, h3⟩ := hone
    obtain ⟨k1, k2, k3⟩ := ih (checkPlatforms s order submissionID lbp [p] st) h1
    refine ⟨k1, ?_, ?_⟩
    · intro c hcm
      rcases k2 c hcm with h | h
      · exact h2 c h
      · exact Or.inr h
    · intro d hdm
      rcases k3 d hdm with h | h
      · exact h3 d h
      · exact Or.inr h

/-- A link grouped under a platform by `groupLinks` is the canonical link of a
kept entry that was classified under that platform, which is not the unknown
one. -/
theorem mem_groupLinks (order : List Char → List Platform) (links : List (List Char))
    (p : Platform) (l : List Char)
    (hm : l ∈ (groupLinks (uniqueLinkInfos order links)).linksByPlatform p) :
    p ≠ PlatformUnknown ∧ ∃ u ∈ (dedupLinks links).uniqueLinks,
      (ParseLink (order u) u).Link = l ∧ (ParseLink (order u) u).Platform = p := by
  by_cases hp : p = PlatformUnknown
  · exfalso
    rw [hp] at hm
    unfold groupLinks at hm
    rw [(groupLinks_unknown _ _).2] at hm
    cases hm
  · refine ⟨hp, ?_⟩
    unfold groupLinks at hm
    rw [groupLinks_fold _ _ p hp] at hm
    simp only [List.nil_append, List.mem_map, List.mem_filter, decide_eq_true_eq] at hm
    obtain ⟨info, ⟨hi, hip⟩, hlink⟩ := hm
    unfold uniqueLinkInfos at hi
    rw [List.mem_map] at hi
    obtain ⟨u, hu, hinfo⟩ := hi
    refine ⟨u, hu, ?_, ?_⟩
    · rw [hinfo]; exact hlink
    · rw [hinfo]; exact hip

/-- What an unfiltered dispatch does when the CAS succeeds, the probes answer
and the final update goes through. -/
theorem unfiltered_dispatch_result (s : CheckerService) (order : List Char → List Platform)
    (visit : List Platform) (duration now : Int) (st : Stores) (submissionID : Nat)
    (links : List (List Char))
    (hcas : (st.submissionRepo.UpdateStatusToChecking submissionID).2 ≠ 0)
    (hupd : st.submissionRepo.updateErr st.submissionRepo.updates.length = none)
    (hprobe : ∀ p ch l, s.checkers p = some ch → ch.Check l ≠ (none, none))
    (hnd : visit.Nodup) (hall : ∀ p, p ≠ PlatformUnknown → p ∈ visit) :
    ∃ (st2 : Stores) (record : SubmissionRecord) (D : List InvalidLink),
      CheckRealtime s order visit duration now st submissionID links = (st2, .ok record) ∧
      record.Status = "checked" ∧ record.PendingLinks = [] ∧
      st2.submissionRepo.GetByID submissionID = .ok record ∧
      st2.world.invalidLinkRepo
        = D.foldl InvalidLinkRepository.CreateOrUpdate st.world.invalidLinkRepo ∧
      (∀ d ∈ D, d.SubmissionID = some submissionID) ∧
      (record.ValidLinks ++ D.map (fun d => d.Link)).Perm
        ((dedupLinks links).uniqueLinks.map (fun u => (ParseLink (order u) u).Link)) ∧
      (∀ u ∈ (dedupLinks links).uniqueLinks,
        (ParseLink (order u) u).Platform = PlatformUnknown →
        ({ Link := (ParseLink (order u) u).Link, Platform := PlatformUnknown,
           FailureReason := "无法识别网盘平台类型", CheckDuration := none,
           IsRateLimited := false, SubmissionID := some submissionID } : InvalidLink) ∈ D) ∧
      (∀ c ∈ record.ValidLinks, ∃ u ∈ (dedupLinks links).uniqueLinks,
        (ParseLink (order u) u).Link = c ∧
        (ParseLink (order u) u).Platform ≠ PlatformUnknown ∧
        ∃ ch, s.checkers (ParseLink (order u) u).Platform = some ch ∧
          outcomeValid st.world ch c c = true) ∧
      (∀ d ∈ D, ∃ u ∈ (dedupLinks links).uniqueLinks,
        (ParseLink (order u) u).Link = d.Link ∧
        ((ParseLink (order u) u).Platform = PlatformUnknown ∨
          s.checkers (ParseLink (order u) u).Platform = none ∨
          ∃ ch, s.checkers (ParseLink (order u) u).Platform = some ch ∧
            outcomeValid st.world ch d.Link d.Link = false)) := by
  obtain ⟨record0, hget, hid⟩ := GetByID_after_cas _ _ hcas
  have hupd2 : ((st.submissionRepo.UpdateStatusToChecking submissionID).1).updateErr
      ((st.submissionRepo.UpdateStatusToChecking submissionID).1).updates.length = none := hupd
  unfold CheckRealtime
  rw [if_neg hcas]
  dsimp only
  rw [hget]
  by_cases hl : (uniqueLinkInfos order links).length = 0
  · rw [if_pos hl]
    dsimp only
    rw [Update_success _ _ hupd2]
    dsimp only
    have hnil : (dedupLinks links).uniqueLinks = [] := by
      have := List.length_eq_zero.1 hl
      unfold uniqueLinkInfos at this
      exact List.map_eq_nil_iff.1 this
    refine ⟨_, _, [], rfl, rfl, rfl, ?_, rfl, ?_, ?_, ?_, ?_, ?_⟩
    · exact Update_GetByID_of_id _ _ submissionID hupd2 hid
    · intro d hd; cases hd
    · rw [hnil]
      exact List.Perm.refl _
    · intro u hu
      rw [hnil] at hu
      cases hu
    · intro c hc; cases hc
    · intro d hd; cases hd
  · rw [if_neg hl]
    dsimp only
    rw [Update_success _ _ hupd2]
    dsimp only
    have hcanon : ∀ p, ∀ l ∈ (groupLinks (uniqueLinkInfos order links)).linksByPlatform p,
        (ParseLink (order l) l).Link = l := by
      intro p l hm
      by_cases hp : p = PlatformUnknown
      · exfalso
        rw [hp] at hm
        unfold groupLinks at hm
        rw [(groupLinks_unknown _ _).2] at hm
        cases hm
      · unfold groupLinks at hm
        rw [groupLinks_fold _ _ p hp] at hm
        simp only [List.nil_append, List.mem_map, List.mem_filter, decide_eq_true_eq] at hm
        obtain ⟨info, ⟨hi, hip⟩, hlink⟩ := hm
        unfold uniqueLinkInfos at hi
        rw [List.mem_map] at hi
        obtain ⟨u, _, hu⟩ := hi
        rw [← hlink, ← hu]
        apply ParseLink_Link_canonical
        rw [hu, hip]
        exact hp
    obtain ⟨e1, e2⟩ := checkPlatforms_entries s order submissionID
      (groupLinks (uniqueLinkInfos order links)).linksByPlatform visit
      (fun p ch l hch _ => hprobe p ch l hch) hcanon
      (st.world, { validLinks := [], invalidLinks := [] })
    obtain ⟨_, w2⟩ := checkPlatforms_world s order submissionID
      (groupLinks (uniqueLinkInfos order links)).linksByPlatform visit
      (st.world, { validLinks := [], invalidLinks := [] })
    obtain ⟨u1, u2⟩ := unknownRows_links submissionID
      (groupLinks (uniqueLinkInfos order links)).unknownLinks
    obtain ⟨_, j2, j3⟩ := checkPlatforms_justified s order submissionID
      (groupLinks (uniqueLinkInfos order links)).linksByPlatform st.world
      (fun c b => ∃ u ∈ (dedupLinks links).uniqueLinks,
        (ParseLink (order u) u).Link = c ∧
        (ParseLink (order u) u).Platform ≠ PlatformUnknown ∧
        ∃ ch, s.checkers (ParseLink (order u) u).Platform = some ch ∧
          outcomeValid st.world ch c c = b)
      (fun p ch l hch _ => hprobe p ch l hch) hcanon
      (by
        intro p ch l hch hl
        obtain ⟨hp, u, hu, h1, h2⟩ := mem_groupLinks order links p l hl
        refine ⟨u, hu, h1, ?_, ch, ?_, rfl⟩
        · rw [h2]; exact hp
        · rw [h2]; exact hch)
      visit (st.world, { validLinks := [], invalidLinks := [] }) (fun _ => Or.inl rfl)
    have hunk : (groupLinks (uniqueLinkInfos order links)).unknownLinks
        = ((uniqueLinkInfos order links).filter (fun i => i.Platform = PlatformUnknown)).map
            (fun i => i.Link) := by
      unfold groupLinks
      rw [(groupLinks_unknown _ _).1, List.nil_append]
    refine ⟨_, _,
      (checkPlatforms s order submissionID
        (groupLinks (uniqueLinkInfos order links)).linksByPlatform visit
        (st.world, { validLinks := [], invalidLinks := [] })).2.invalidLinks
        ++ unknownRows submissionID (groupLinks (uniqueLinkInfos order links)).unknownLinks,
      rfl, rfl, rfl, ?_, ?_, ?_, ?_, ?_, ?_, ?_⟩
    · exact Update_GetByID_of_id _ _ submissionID hupd2 hid
    · unfold saveInvalidLinks
      dsimp only
      rw [w2]
    · intro d hd
      rw [List.mem_append] at hd
      rcases hd with hd | hd
      · rcases e2 d hd with h | h
        · cases h
        · exact h
      · exact u2 d hd
    · dsimp only
      rw [List.map_append, u1, ← List.append_assoc]
      have hp1 := e1.trans (by
        simp only [List.map_nil, List.append_nil, List.nil_append]
        exact groupLinks_flatMap (uniqueLinkInfos order links) visit hnd hall)
      rw [hunk]
      refine (List.Perm.append hp1 (List.Perm.refl _)).trans ?_
      refine List.perm_append_comm.trans ?_
      rw [← List.map_append]
      have hperm := List.filter_append_perm (fun i : LinkInfo => decide (i.Platform = PlatformUnknown))
        (uniqueLinkInfos order links)
      refine (List.Perm.map _ hperm).trans ?_
      unfold uniqueLinkInfos
      rw [List.map_map]
      exact List.Perm.refl _
    · intro u hu hpu
      rw [List.mem_append]
      right
      unfold unknownRows
      rw [List.mem_map]
      refine ⟨(ParseLink (order u) u).Link, ?_, rfl⟩
      rw [hunk, List.mem_map]
      refine ⟨ParseLink (order u) u, ?_, rfl⟩
      rw [List.mem_filter]
      refine ⟨?_, by simpa using hpu⟩
      unfold uniqueLinkInfos
      exact List.mem_map.2 ⟨u, hu, rfl⟩
    · intro c hc
      rcases j2 c hc with h | h
      · cases h
      · exact h
    · intro d hd
      rw [List.mem_append] at hd
      rcases hd with hd | hd
      · rcases j3 d hd with h | h | ⟨p, hnone, hmem⟩
        · cases h
        · obtain ⟨u, hu, h1, _, ch, h3, h4⟩ := h
          exact ⟨u, hu, h1, Or.inr (Or.inr ⟨ch, h3, h4⟩)⟩
        · obtain ⟨_, u, hu, h1, h2⟩ := mem_groupLinks order links p d.Link hmem
          refine ⟨u, hu, h1, Or.inr (Or.inl ?_)⟩
          rw [h2]
          exact hnone
      · have hdl : d.Link ∈ (unknownRows submissionID
            (groupLinks (uniqueLinkInfos order links)).unknownLinks).map (fun d => d.Link) :=
          List.mem_map.2 ⟨d, hd, rfl⟩
        rw [u1, hunk, List.mem_map] at hdl
        obtain ⟨info, hi, hlink⟩ := hdl
        rw [List.mem_filter] at hi
        obtain ⟨hi1, hi2⟩ := hi
        unfold uniqueLinkInfos at hi1
        rw [List.mem_map] at hi1
        obtain ⟨u, hu, hinfo⟩ := hi1
        refine ⟨u, hu, ?_, Or.inl ?_⟩
        · rw [hinfo]; exact hlink
        · rw [hinfo]; simpa using hi2

/-- C12: an unfiltered dispatch in which the CAS succeeds, every probe returns
a result or an error and the final update goes through returns a record with
status `checked` and no pending link, and upserts a list `D` of dead rows, each
with this submission id, such that the valid links together with the links of
`D` are, as a multiset, the canonical links of the deduplicated input: each
deduplicated link gives exactly one entry and nothing else is there (no link
is in both lists when the canonical links are pairwise distinct); after the
upserts every link of `D` has a row with this submission id; every link of
unknown platform is in `D` with the reason "无法识别网盘平台类型" and no rate-limit
flag. Recognised links are decided by the valid flag of their outcome, the
outcome of a link in the world before the dispatch being the cached outcome,
otherwise the one of its dead row, otherwise the result of the probe (`outcomeValid`):
every valid link is the canonical link of a kept entry of a recognised platform
whose checker gives it a valid outcome; every row of `D` is for a kept entry
of unknown platform, or of a platform without a registered checker, or of
a platform whose checker gives its link an invalid outcome; so, when the
canonical links are pairwise distinct, a recognised link with a registered
checker is among the valid links exactly when the flag is set and among the
dead links exactly when it is not. -/
theorem unfiltered_dispatch_partition (s : CheckerService)
    (order : List Char → List Platform) (visit : List Platform) (duration now : Int)
    (st : Stores) (submissionID : Nat) (links : List (List Char))
    (hcas : (st.submissionRepo.UpdateStatusToChecking submissionID).2 ≠ 0)
    (hupd : st.submissionRepo.updateErr st.submissionRepo.updates.length = none)
    (hprobe : ∀ p ch l, s.checkers p = some ch → ch.Check l ≠ (none, none))
    (hnd : visit.Nodup) (hall : ∀ p, p ≠ PlatformUnknown → p ∈ visit) :
    ∃ (st2 : Stores) (record : SubmissionRecord) (D : List InvalidLink),
      CheckRealtime s order visit duration now st submissionID links = (st2, .ok record) ∧
      record.Status = "checked" ∧ record.PendingLinks = [] ∧
      st2.submissionRepo.GetByID submissionID = .ok record ∧
      st2.world.invalidLinkRepo
        = D.foldl InvalidLinkRepository.CreateOrUpdate st.world.invalidLinkRepo ∧
      (∀ d ∈ D, d.SubmissionID = some submissionID) ∧
      (record.ValidLinks ++ D.map (fun d => d.Link)).Perm
        ((dedupLinks links).uniqueLinks.map (fun u => (ParseLink (order u) u).Link)) ∧
      (∀ u ∈ (dedupLinks links).uniqueLinks,
        (ParseLink (order u) u).Platform = PlatformUnknown →
        ({ Link := (ParseLink (order u) u).Link, Platform := PlatformUnknown,
           FailureReason := "无法识别网盘平台类型", CheckDuration := none,
           IsRateLimited := false, SubmissionID := some submissionID } : InvalidLink) ∈ D) ∧
      (∀ d ∈ D, ∃ row ∈ st2.world.invalidLinkRepo,
        row.Link = d.Link ∧ row.SubmissionID = some submissionID) ∧
      (((dedupLinks links).uniqueLinks.map (fun u => (ParseLink (order u) u).Link)).Nodup →
        ∀ c, c ∈ record.ValidLinks → c ∉ D.map (fun d => d.Link)) ∧
      (∀ c ∈ record.ValidLinks, ∃ u ∈ (dedupLinks links).uniqueLinks,
        (ParseLink (order u) u).Link = c ∧
        (ParseLink (order u) u).Platform ≠ PlatformUnknown ∧
        ∃ ch, s.checkers (ParseLink (order u) u).Platform = some ch ∧
          outcomeValid st.world ch c c = true) ∧
      (∀ d ∈ D, ∃ u ∈ (dedupLinks links).uniqueLinks,
        (ParseLink (order u) u).Link = d.Link ∧
        ((ParseLink (order u) u).Platform = PlatformUnknown ∨
          s.checkers (ParseLink (order u) u).Platform = none ∨
          ∃ ch, s.checkers (ParseLink (order u) u).Platform = some ch ∧
            outcomeValid st.world ch d.Link d.Link = false)) ∧
      (((dedupLinks links).uniqueLinks.map (fun u => (ParseLink (order u) u).Link)).Nodup →
        ∀ u ∈ (dedupLinks links).uniqueLinks, ∀ ch,
          (ParseLink (order u) u).Platform ≠ PlatformUnknown →
          s.checkers (ParseLink (order u) u).Platform = some ch →
          ((ParseLink (order u) u).Link ∈ record.ValidLinks ↔
            outcomeValid st.world ch (ParseLink (order u) u).Link (ParseLink (order u) u).Link
              = true) ∧
          ((ParseLink (order u) u).Link ∈ D.map (fun d => d.Link) ↔
            outcomeValid st.world ch (ParseLink (order u) u).Link (ParseLink (order u) u).Link
              = false)) ∧
      (∀ (ch : LinkChecker) (w : World) (agg : Aggregate) (l : List Char),
        ch.Check l ≠ (none, none) →
        (outcomeValid w ch l (ParseLink (order l) l).Link = true →
          (checkOne s order ch submissionID (w, agg) l).2
            = { agg with validLinks := agg.validLinks ++ [(ParseLink (order l) l).Link] }) ∧
        (outcomeValid w ch l (ParseLink (order l) l).Link = false →
          ∃ row : InvalidLink, row.Link = (ParseLink (order l) l).Link ∧
            row.SubmissionID = some submissionID ∧ row.Platform = ch.GetPlatform ∧
            (checkOne s order ch submissionID (w, agg) l).2
              = { agg with invalidLinks := agg.invalidLinks ++ [row] })) := by
  obtain ⟨st2, record, D, h1, h2, h3, h4, h5, h6, h7, h8, h9, h10⟩ :=
    unfiltered_dispatch_result s order visit duration now st submissionID links hcas hupd
      hprobe hnd hall
  have hdisj : ((dedupLinks links).uniqueLinks.map (fun u => (ParseLink (order u) u).Link)).Nodup
      → ∀ c, c ∈ record.ValidLinks → c ∉ D.map (fun d => d.Link) := by
    intro hn c hc hd
    have hnd2 : (record.ValidLinks ++ D.map (fun d => d.Link)).Nodup := h7.nodup_iff.2 hn
    exact (List.nodup_append.1 hnd2).2.2 hc hd
  refine ⟨st2, record, D, h1, h2, h3, h4, h5, h6, h7, h8, ?_, hdisj, h9, h10, ?_, ?_⟩
  · intro d hd
    rw [h5]
    exact saveInvalidLinks_rows submissionID D st.world.invalidLinkRepo h6 d.Link
      (Or.inl (List.mem_map.2 ⟨d, hd, rfl⟩))
  · intro hn u hu ch hpu hch
    have huniq : ∀ u2 ∈ (dedupLinks links).uniqueLinks,
        (ParseLink (order u2) u2).Link = (ParseLink (order u) u).Link → u2 = u :=
      fun u2 hu2 he => List.inj_on_of_nodup_map hn hu2 hu he
    have hmem : (ParseLink (order u) u).Link ∈ record.ValidLinks ++ D.map (fun d => d.Link) :=
      h7.mem_iff.2 (List.mem_map.2 ⟨u, hu, rfl⟩)
    have hvalid : (ParseLink (order u) u).Link ∈ record.ValidLinks →
        outcomeValid st.world ch (ParseLink (order u) u).Link (ParseLink (order u) u).Link
          = true := by
      intro hc
      obtain ⟨u2, hu2, e1, _, ch2, e3, e4⟩ := h9 _ hc
      have := huniq u2 hu2 e1
      subst this
      rw [hch] at e3
      cases e3
      exact e4
    have hdead : (ParseLink (order u) u).Link ∈ D.map (fun d => d.Link) →
        outcomeValid st.world ch (ParseLink (order u) u).Link (ParseLink (order u) u).Link
          = false := by
      intro hc
      rw [List.mem_map] at hc
      obtain ⟨d, hd, hdl⟩ := hc
      obtain ⟨u2, hu2, e1, e2⟩ := h10 d hd
      have := huniq u2 hu2 (e1.trans hdl)
      subst this
      rcases e2 with e2 | e2 | ⟨ch2, e3, e4⟩
      · exact absurd e2 hpu
      · rw [hch] at e2
        cases e2
      · rw [hch] at e3
        cases e3
        rw [← hdl]
        exact e4
    refine ⟨⟨hvalid, ?_⟩, ⟨hdead, ?_⟩⟩
    · intro ho
      rcases List.mem_append.1 hmem with h | h
      · exact h
      · rw [hdead h] at ho
        cases ho
    · intro ho
      rcases List.mem_append.1 hmem with h | h
      · rw [hvalid h] at ho
        cases ho
      · exact h
  · intro ch w agg l hch
    exact checkOne_aggregate s order ch submissionID (w, agg) l hch

/-- C12 (witness): the statement for the dispatch of a Quark link, which the
probe answers as valid, and of a text that is no link: the Quark link is among
the valid links, and the valid links and the dead links together are the
two entries. -/
theorem unfiltered_dispatch_partition_witness :
    ∃ (st2 : Stores) (record : SubmissionRecord) (D : List InvalidLink),
      CheckRealtime quarkService (fun _ => AllPlatforms) AllPlatforms 7 100
        (storesWith (pendingRecord plainBatch []) (fun _ => none)) 1 plainBatch
        = (st2, .ok record) ∧
      (record.ValidLinks ++ D.map (fun d => d.Link)).Perm plainBatch ∧
      quarkLink ∈ record.ValidLinks := by
  obtain ⟨st2, record, D, h1, _, _, _, _, _, h7, _, _, _, _, _, h13, _⟩ :=
    unfiltered_dispatch_partition quarkService (fun _ => AllPlatforms) AllPlatforms 7 100
      (storesWith (pendingRecord plainBatch []) (fun _ => none)) 1 plainBatch
      (by decide) rfl
      (by
        intro p ch l h
        unfold quarkService at h
        dsimp only at h
        split at h
        · cases h
          intro hc
          cases hc
        · cases h)
      (by decide) (fun p hp => mem_AllPlatforms hp)
  exact ⟨st2, record, D, h1, h7,
    ((h13 (by decide) quarkLink (by decide) quarkChecker (by decide) rfl).1).2 rfl⟩

/-! ## Claims about the links the dispatcher probes -/

theorem dropWhile_eq_self_of_imp (p q : Char → Bool) (hq : ∀ c, q c = true → p c = true)
    (t : List Char) (h : t.dropWhile p = t) : t.dropWhile q = t := by
  cases t with
  | nil => rfl
  | cons a x =>
    have hna : ¬ p a = true := by
      intro ha
      rw [List.dropWhile_cons_of_pos ha] at h
      have hle := (List.dropWhile_suffix p (l := x)).length_le
      rw [h] at hle
      simp at hle
    exact List.dropWhile_cons_of_neg (fun hqa => hna (hq a hqa))

theorem rdropWhile_eq_self_of_imp (p q : Char → Bool) (hq : ∀ c, q c = true → p c = true)
    (t : List Char) (h : t.rdropWhile p = t) : t.rdropWhile q = t := by
  rw [List.rdropWhile_eq_self_iff] at h ⊢
  intro hl hqa
  exact h hl (hq _ hqa)

theorem TrimSpace_dropWhile (raw : List Char) :
    (TrimSpace raw).dropWhile isSpace = TrimSpace raw := by
  unfold TrimSpace
  generalize hd : raw.dropWhile isSpace = d
  have hdd : d.dropWhile isSpace = d := by rw [← hd, List.dropWhile_idempotent]
  obtain ⟨s, hs⟩ := List.rdropWhile_prefix isSpace d
  cases hx : d.rdropWhile isSpace with
  | nil => rfl
  | cons a x =>
    rw [hx] at hs
    have hna : ¬ isSpace a = true := by
      intro ha
      rw [← hs, List.cons_append, List.dropWhile_cons_of_pos ha] at hdd
      have hle := (List.dropWhile_suffix isSpace (l := x ++ s)).length_le
      rw [hdd] at hle
      simp at hle
    exact List.dropWhile_cons_of_neg hna

theorem TrimSpace_rdropWhile (raw : List Char) :
    (TrimSpace raw).rdropWhile isSpace = TrimSpace raw :=
  List.rdropWhile_idempotent _ _

theorem TrimSpace_idempotent (raw : List Char) : TrimSpace (TrimSpace raw) = TrimSpace raw := by
  have h : TrimSpace (TrimSpace raw)
      = ((TrimSpace raw).dropWhile isSpace).rdropWhile isSpace := rfl
  rw [h, TrimSpace_dropWhile, TrimSpace_rdropWhile]

theorem isSpace_of_isTrimByte (c : Char) (h : isTrimByte c = true) : isSpace c = true := by
  unfold isTrimByte at h
  simp only [Bool.or_eq_true, beq_iff_eq] at h
  rcases h with ((h | h) | h) | h <;> subst h <;> decide

/-- The validator's own trimming leaves a text trimmed by `strings.TrimSpace`
as it is. -/
theorem trimSpace_TrimSpace (raw : List Char) : trimSpace (TrimSpace raw) = TrimSpace raw := by
  have h : trimSpace (TrimSpace raw)
      = ((TrimSpace raw).dropWhile isTrimByte).rdropWhile isTrimByte := rfl
  rw [h, dropWhile_eq_self_of_imp isSpace isTrimByte isSpace_of_isTrimByte _
      (TrimSpace_dropWhile raw),
    rdropWhile_eq_self_of_imp isSpace isTrimByte isSpace_of_isTrimByte _
      (TrimSpace_rdropWhile raw)]

theorem TrimSpace_https_append (raw : List Char) (hne : TrimSpace raw ≠ []) :
    TrimSpace ("https://".toList ++ TrimSpace raw) = "https://".toList ++ TrimSpace raw := by
  have hs : "https://".toList ++ TrimSpace raw
      = 'h' :: ("ttps://".toList ++ TrimSpace raw) := rfl
  have h : TrimSpace ('h' :: ("ttps://".toList ++ TrimSpace raw))
      = (('h' :: ("ttps://".toList ++ TrimSpace raw)).dropWhile isSpace).rdropWhile
          isSpace := rfl
  rw [hs, h, List.dropWhile_cons_of_neg (by decide), List.rdropWhile_eq_self_iff]
  intro hl
  have hlast := (List.rdropWhile_eq_self_iff.1 (TrimSpace_rdropWhile raw)) hne
  have hg : ('h' :: ("ttps://".toList ++ TrimSpace raw)).getLast hl
      = (TrimSpace raw).getLast hne := by
    exact List.getLast_append' ('h' :: "ttps://".toList) (TrimSpace raw) hne
  rw [hg]
  exact hlast

theorem TrimSpace_normalizeLink (raw : List Char) (hne : TrimSpace raw ≠ []) :
    TrimSpace (normalizeLink (TrimSpace raw)) = normalizeLink (TrimSpace raw) := by
  by_cases h : "http://".toList <+: TrimSpace raw ∨ "https://".toList <+: TrimSpace raw
  · rw [normalizeLink_of_scheme h, TrimSpace_idempotent]
  · rw [normalizeLink_of_no_scheme h, TrimSpace_https_append raw hne]

theorem normalizeLink_ne_nil (t : List Char) (hne : t ≠ []) : normalizeLink t ≠ [] := by
  by_cases h : "http://".toList <+: t ∨ "https://".toList <+: t
  · rw [normalizeLink_of_scheme h]; exact hne
  · rw [normalizeLink_of_no_scheme h]
    intro he
    cases he

/-- The canonical link of a recognised entry of `CheckLinks` (a text trimmed by
`strings.TrimSpace`): it is not empty, `strings.TrimSpace` leaves it as it is,
and parsing it again, in any visiting order, returns it. -/
theorem canonical_link_fixed (o : List Platform) (raw : List Char)
    (h : (ParseLink o (TrimSpace raw)).Platform ≠ PlatformUnknown) :
    (ParseLink o (TrimSpace raw)).Link ≠ [] ∧
    TrimSpace (ParseLink o (TrimSpace raw)).Link = (ParseLink o (TrimSpace raw)).Link ∧
    ∀ o2, (ParseLink o2 (ParseLink o (TrimSpace raw)).Link).Link
      = (ParseLink o (TrimSpace raw)).Link := by
  refine ⟨?_, ?_, fun o2 => ParseLink_Link_canonical o o2 _ h⟩
  · cases hf : o.find? (matchesPlatform (trimSpace (TrimSpace raw))) with
    | none =>
      rw [ParseLink_of_find_none hf] at h
      exact absurd rfl h
    | some p =>
      have hne : trimSpace (TrimSpace raw) ≠ [] := by
        intro he
        have hm := List.find?_some hf
        rw [he, matchesPlatform_nil] at hm
        cases hm
      rw [ParseLink_of_find hf]
      exact normalizeLink_ne_nil _ hne
  · cases hf : o.find? (matchesPlatform (trimSpace (TrimSpace raw))) with
    | none =>
      rw [ParseLink_of_find_none hf] at h
      exact absurd rfl h
    | some p =>
      have hne : trimSpace (TrimSpace raw) ≠ [] := by
        intro he
        have hm := List.find?_some hf
        rw [he, matchesPlatform_nil] at hm
        cases hm
      rw [ParseLink_of_find hf]
      show TrimSpace (normalizeLink (trimSpace (TrimSpace raw)))
        = normalizeLink (trimSpace (TrimSpace raw))
      rw [trimSpace_TrimSpace] at hne ⊢
      exact TrimSpace_normalizeLink raw hne

/-- The kept entries of a list made of blank entries and canonical links are
entries of the list, and parsing one of them again returns it. -/
theorem uniqueLinks_of_canonical (links : List (List Char))
    (hrecv : ∀ l ∈ links, TrimSpace l = [] ∨ ∃ o raw,
      (ParseLink o (TrimSpace raw)).Platform ≠ PlatformUnknown ∧
      (ParseLink o (TrimSpace raw)).Link = l) :
    ∀ u ∈ (dedupLinks links).uniqueLinks,
      u ∈ links ∧ TrimSpace u ≠ [] ∧ ∀ o2, (ParseLink o2 u).Link = u := by
  intro u hu
  obtain ⟨_, h2, _⟩ := dedupLinks_spec links
  obtain ⟨hne, l, hl, he⟩ := (h2 u).1 hu
  rcases hrecv l hl with hb | ⟨o, raw, hp, hlink⟩
  · rw [hb] at he
    exact absurd he.symm hne
  · obtain ⟨c1, c2, c3⟩ := canonical_link_fixed o raw hp
    rw [hlink] at c1 c2 c3
    rw [c2] at he
    subst he
    exact ⟨hl, by rw [c2]; exact c1, c3⟩

/-- For such a list the canonical links of the kept entries are the kept
entries, which are pairwise different. -/
theorem uniqueLinkInfos_of_canonical (order : List Char → List Platform)
    (links : List (List Char))
    (hrecv : ∀ l ∈ links, TrimSpace l = [] ∨ ∃ o raw,
      (ParseLink o (TrimSpace raw)).Platform ≠ PlatformUnknown ∧
      (ParseLink o (TrimSpace raw)).Link = l) :
    (uniqueLinkInfos order links).map (fun i => i.Link) = (dedupLinks links).uniqueLinks ∧
    ((uniqueLinkInfos order links).map (fun i => i.Link)).Nodup := by
  have h : (uniqueLinkInfos order links).map (fun i => i.Link)
      = (dedupLinks links).uniqueLinks := by
    unfold uniqueLinkInfos
    rw [List.map_map]
    conv_rhs => rw [← List.map_id (dedupLinks links).uniqueLinks]
    apply List.map_congr_left
    intro u hu
    exact (uniqueLinks_of_canonical links hrecv u hu).2.2 (order u)
  refine ⟨h, ?_⟩
  rw [h]
  exact (dedupLinks_spec links).1

/-- Groups taken from a list of infos with pairwise different links, each
group holding links of infos of its own platform, do not share a link, in
whatever order without repetition the platforms are visited. -/
theorem groups_flatMap_nodup (infos : List LinkInfo) (pred : Platform → LinkInfo → Bool)
    (visit : List Platform) (hinj : (infos.map (fun i => i.Link)).Nodup)
    (hpred : ∀ p i, pred p i = true → i.Platform = p) (hnd : visit.Nodup) :
    (visit.flatMap (fun p => (infos.filter (pred p)).map (fun i => i.Link))).Nodup := by
  rw [List.nodup_flatMap]
  refine ⟨?_, ?_⟩
  · intro p _
    exact hinj.sublist ((List.filter_sublist _).map _)
  · refine List.Pairwise.imp ?_ hnd
    intro a b hab l ha hb
    rw [List.mem_map] at ha hb
    obtain ⟨i, hi, hil⟩ := ha
    obtain ⟨j, hj, hjl⟩ := hb
    rw [List.mem_filter] at hi hj
    have hij : i = j := List.inj_on_of_nodup_map hinj hi.1 hj.1 (hil.trans hjl.symm)
    apply hab
    rw [← hpred a i hi.2, ← hpred b j hj.2, hij]

/-- One worker run adds at most the probe of its own link to the log. -/
theorem checkOne_probes_sublist (s : CheckerService) (order : List Char → List Platform)
    (ch : LinkChecker) (submissionID : Nat) (st : World × Aggregate) (l : List Char) :
    ∃ extra, (checkOne s order ch submissionID st l).1.probes = st.1.probes ++ extra ∧
      (extra.map Prod.snd).Sublist [l] := by
  unfold checkOne
  dsimp only
  rcases hso : storedOutcome st.1 (ParseLink (order l) l).Link with ⟨_ | r, fc⟩
  · dsimp only
    rcases hc : ch.Check l with ⟨_ | r, _ | err⟩
    · dsimp only
      exact ⟨[(ch.GetPlatform, l)], rfl, List.Sublist.refl _⟩
    · dsimp only
      split
      · refine ⟨[(ch.GetPlatform, l)], ?_, List.Sublist.refl _⟩
        rw [(cacheOutcome_probes _ _ _ _ _).1]
      · refine ⟨[(ch.GetPlatform, l)], ?_, List.Sublist.refl _⟩
        rw [(cacheOutcome_probes _ _ _ _ _).1]
    · dsimp only
      refine ⟨[(ch.GetPlatform, l)], ?_, List.Sublist.refl _⟩
      rw [(cacheOutcome_probes _ _ _ _ _).1]
    · dsimp only
      split
      · refine ⟨[(ch.GetPlatform, l)], ?_, List.Sublist.refl _⟩
        rw [(cacheOutcome_probes _ _ _ _ _).1]
      · refine ⟨[(ch.GetPlatform, l)], ?_, List.Sublist.refl _⟩
        rw [(cacheOutcome_probes _ _ _ _ _).1]
  · dsimp only
    refine ⟨[], ?_, by simp⟩
    cases fc
    · simp only [Bool.not_false, if_true]
      rw [(cacheOutcome_probes _ _ _ _ _).1]
      simp
    · simp

theorem checkLinksWithConcurrency_probes_sublist (s : CheckerService)
    (order : List Char → List Platform) (ch : LinkChecker) (submissionID : Nat)
    (links : List (List Char)) : ∀ (st : World × Aggregate),
    ∃ extra, (checkLinksWithConcurrency s order ch links submissionID st).1.probes
        = st.1.probes ++ extra ∧ (extra.map Prod.snd).Sublist links := by
  unfold checkLinksWithConcurrency
  induction links with
  | nil => intro st; exact ⟨[], by simp, by simp⟩
  | cons l ls ih =>
    intro st
    rw [List.foldl_cons]
    obtain ⟨e1, h1, h2⟩ := checkOne_probes_sublist s order ch submissionID st l
    obtain ⟨e2, k1, k2⟩ := ih (checkOne s order ch submissionID st l)
    refine ⟨e1 ++ e2, ?_, ?_⟩
    · rw [k1, h1, List.append_assoc]
    · rw [List.map_append]
      exact List.Sublist.append h2 k2

theorem checkPlatforms_probes_sublist (s : CheckerService)
    (order : List Char → List Platform) (submissionID : Nat)
    (lbp : Platform → List (List Char)) (visit : List Platform) :
    ∀ (st : World × Aggregate),
    ∃ extra, (checkPlatforms s order submissionID lbp visit st).1.probes
        = st.1.probes ++ extra ∧ (extra.map Prod.snd).Sublist (visit.flatMap lbp) := by
  induction visit with
  | nil => intro st; exact ⟨[], by simp [checkPlatforms_nil], by simp⟩
  | cons p ps ih =>
    intro st
    rw [checkPlatforms_cons]
    have h1 : ∃ extra, (checkPlatforms s order submissionID lbp [p] st).1.probes
        = st.1.probes ++ extra ∧ (extra.map Prod.snd).Sublist (lbp p) := by
      unfold checkPlatforms
      rw [List.foldl_cons, List.foldl_nil]
      dsimp only
      split
      · exact ⟨[], by simp, by simp⟩
      · split
        · exact ⟨[], by simp, by simp⟩
        · exact checkLinksWithConcurrency_probes_sublist s order _ submissionID (lbp p) st
    obtain ⟨e1, h1, h2⟩ := h1
    obtain ⟨e2, k1, k2⟩ := ih (checkPlatforms s order submissionID lbp [p] st)
    refine ⟨e1 ++ e2, ?_, ?_⟩
    · rw [k1, h1, List.append_assoc]
    · rw [List.map_append, List.flatMap_cons]
      exact List.Sublist.append h2 k2

/-- A worker run that finds no stored outcome for its link calls the probe on
the link. -/
theorem checkOne_probes_of_none (s : CheckerService) (order : List Char → List Platform)
    (ch : LinkChecker) (submissionID : Nat) (st : World × Aggregate) (l : List Char)
    (h : (storedOutcome st.1 (ParseLink (order l) l).Link).1 = none) :
    (checkOne s order ch submissionID st l).1.probes
      = st.1.probes ++ [(ch.GetPlatform, l)] := by
  unfold checkOne
  dsimp only
  rcases hso : storedOutcome st.1 (ParseLink (order l) l).Link with ⟨_ | r, fc⟩
  · dsimp only
    rcases hc : ch.Check l with ⟨_ | r, _ | err⟩
    · rfl
    · dsimp only
      split
      · rw [(cacheOutcome_probes _ _ _ _ _).1]
      · rw [(cacheOutcome_probes _ _ _ _ _).1]
    · dsimp only
      rw [(cacheOutcome_probes _ _ _ _ _).1]
    · dsimp only
      split
      · rw [(cacheOutcome_probes _ _ _ _ _).1]
      · rw [(cacheOutcome_probes _ _ _ _ _).1]
  · rw [hso] at h
    cases h

/-- The worker runs of one platform leave the stored outcome of every link
that is not the canonical form of one of their links as it was. -/
theorem checkLinksWithConcurrency_storedOutcome_other (s : CheckerService)
    (order : List Char → List Platform) (ch : LinkChecker) (submissionID : Nat)
    (links : List (List Char)) (c : List Char)
    (hc : ∀ l ∈ links, c ≠ (ParseLink (order l) l).Link) : ∀ (st : World × Aggregate),
    storedOutcome (checkLinksWithConcurrency s order ch links submissionID st).1 c
      = storedOutcome st.1 c := by
  unfold checkLinksWithConcurrency
  induction links with
  | nil => intro st; rfl
  | cons l ls ih =>
    intro st
    rw [List.foldl_cons, ih (fun x hx => hc x (List.mem_cons_of_mem _ hx))]
    exact (checkOne_storedOutcome s order ch submissionID st l).2 c
      (hc l (List.mem_cons_self _ _))

/-- Among pairwise different canonical links of one platform, every link
that has no stored outcome when the workers start is probed. -/
theorem checkLinksWithConcurrency_probes_complete (s : CheckerService)
    (order : List Char → List Platform) (ch : LinkChecker) (submissionID : Nat)
    (links : List (List Char)) (hnd : links.Nodup)
    (hcanon : ∀ l ∈ links, (ParseLink (order l) l).Link = l) : ∀ (st : World × Aggregate),
    ∃ extra, (checkLinksWithConcurrency s order ch links submissionID st).1.probes
        = st.1.probes ++ extra ∧
      ∀ l ∈ links, (storedOutcome st.1 l).1 = none → (ch.GetPlatform, l) ∈ extra := by
  unfold checkLinksWithConcurrency
  induction links with
  | nil => intro st; exact ⟨[], by simp, by simp⟩
  | cons a as ih =>
    intro st
    rw [List.foldl_cons]
    rw [List.nodup_cons] at hnd
    obtain ⟨e1, h1, _⟩ := checkOne_probes_sublist s order ch submissionID st a
    obtain ⟨e2, k1, k2⟩ := ih hnd.2 (fun x hx => hcanon x (List.mem_cons_of_mem _ hx))
      (checkOne s order ch submissionID st a)
    refine ⟨e1 ++ e2, ?_, ?_⟩
    · rw [k1, h1, List.append_assoc]
    · intro l hl hnone
      rw [List.mem_cons] at hl
      rcases hl with hl | hl
      · subst hl
        have hp := checkOne_probes_of_none s order ch submissionID st l
          (by rw [hcanon l (List.mem_cons_self _ _)]; exact hnone)
        rw [h1] at hp
        have he : e1 = [(ch.GetPlatform, l)] := List.append_cancel_left hp
        rw [he]
        simp
      · have hne : l ≠ (ParseLink (order a) a).Link := by
          rw [hcanon a (List.mem_cons_self _ _)]
          intro he
          rw [he] at hl
          exact hnd.1 hl
        have hso := (checkOne_storedOutcome s order ch submissionID st a).2 l hne
        exact List.mem_append_right _ (k2 l hl (by rw [hso]; exact hnone))

/-- The fan-out over one platform leaves the stored outcome of every link
outside the canonical forms of the group as it was. -/
theorem checkPlatforms_one_storedOutcome_other (s : CheckerService)
    (order : List Char → List Platform) (submissionID : Nat)
    (lbp : Platform → List (List Char)) (p : Platform) (c : List Char)
    (hc : ∀ l ∈ lbp p, c ≠ (ParseLink (order l) l).Link) (st : World × Aggregate) :
    storedOutcome (checkPlatforms s order submissionID lbp [p] st).1 c
      = storedOutcome st.1 c := by
  unfold checkPlatforms
  rw [List.foldl_cons, List.foldl_nil]
  dsimp only
  split
  · rfl
  · split
    · rfl
    · exact checkLinksWithConcurrency_storedOutcome_other s order _ submissionID (lbp p) c hc st

/-- When the groups visited hold pairwise different canonical links, every
link of a visited group with a registered probe that has no stored outcome
when the fan-out starts is probed. -/
theorem checkPlatforms_probes_complete (s : CheckerService)
    (order : List Char → List Platform) (submissionID : Nat)
    (lbp : Platform → List (List Char)) (visit : List Platform)
    (hnd : (visit.flatMap lbp).Nodup)
    (hcanon : ∀ p, ∀ l ∈ lbp p, (ParseLink (order l) l).Link = l) :
    ∀ (st : World × Aggregate),
    ∃ extra, (checkPlatforms s order submissionID lbp visit st).1.probes
        = st.1.probes ++ extra ∧
      ∀ p ∈ visit, ∀ ch, s.checkers p = some ch → ∀ l ∈ lbp p,
        (storedOutcome st.1 l).1 = none → (ch.GetPlatform, l) ∈ extra := by
  induction visit with
  | nil => intro st; exact ⟨[], by simp [checkPlatforms_nil], by simp⟩
  | cons q qs ih =>
    intro st
    rw [checkPlatforms_cons]
    rw [List.flatMap_cons, List.nodup_append] at hnd
    obtain ⟨hq, hqs, hdisj⟩ := hnd
    have h1 : ∃ extra, (checkPlatforms s order submissionID lbp [q] st).1.probes
        = st.1.probes ++ extra ∧
        ∀ ch, s.checkers q = some ch → ∀ l ∈ lbp q,
          (storedOutcome st.1 l).1 = none → (ch.GetPlatform, l) ∈ extra := by
      unfold checkPlatforms
      rw [List.foldl_cons, List.foldl_nil]
      dsimp only
      split
      · rename_i he
        refine ⟨[], by simp, ?_⟩
        intro ch _ l hl
        rw [he] at hl
        cases hl
      · split
        · rename_i hn
          refine ⟨[], by simp, ?_⟩
          intro ch hch
          rw [hn] at hch
          cases hch
        · rename_i ch0 hch0
          obtain ⟨e, e1, e2⟩ := checkLinksWithConcurrency_probes_complete s order ch0
            submissionID (lbp q) hq (hcanon q) st
          refine ⟨e, e1, ?_⟩
          intro ch hch
          rw [hch0] at hch
          cases hch
          exact e2
    obtain ⟨e1, h1, h2⟩ := h1
    obtain ⟨e2, k1, k2⟩ := ih hqs (checkPlatforms s order submissionID lbp [q] st)
    refine ⟨e1 ++ e2, ?_, ?_⟩
    · rw [k1, h1, List.append_assoc]
    · intro p hp ch hch l hl hnone
      by_cases hlq : l ∈ lbp q
      · by_cases hpq : p = q
        · subst hpq
          exact List.mem_append_left _ (h2 ch hch l hl hnone)
        · exfalso
          rw [List.mem_cons] at hp
          rcases hp with hp | hp
          · exact hpq hp
          · exact hdisj hlq (List.mem_flatMap.2 ⟨p, hp, hl⟩)
      · have hpq : p ∈ qs := by
          rw [List.mem_cons] at hp
          rcases hp with hp | hp
          · subst hp
            exact absurd hl hlq
          · exact hp
        have hso := checkPlatforms_one_storedOutcome_other s order submissionID lbp q l
          (by
            intro x hx he
            rw [hcanon q x hx] at he
            rw [he] at hlq
            exact hlq hx) st
        exact List.mem_append_right _ (k2 p hpq ch hch l hl (by rw [hso]; exact hnone))

theorem checkPlatforms_empty (s : CheckerService) (order : List Char → List Platform)
    (submissionID : Nat) (lbp : Platform → List (List Char)) (h : ∀ p, lbp p = [])
    (visit : List Platform) : ∀ (st : World × Aggregate),
    checkPlatforms s order submissionID lbp visit st = st := by
  induction visit with
  | nil => intro st; rfl
  | cons p ps ih =>
    intro st
    rw [checkPlatforms_cons, ih]
    unfold checkPlatforms
    rw [List.foldl_cons, List.foldl_nil]
    dsimp only
    rw [if_pos (h p)]

/-- The probe log after an unfiltered dispatch, whatever its result: the log
before when the CAS fails, otherwise the log left by the fan-out over the
groups. -/
theorem CheckRealtime_probes (s : CheckerService) (order : List Char → List Platform)
    (visit : List Platform) (duration now : Int) (st : Stores) (submissionID : Nat)
    (links : List (List Char)) :
    ((st.submissionRepo.UpdateStatusToChecking submissionID).2 = 0 →
      (CheckRealtime s order visit duration now st submissionID links).1.world.probes
        = st.world.probes) ∧
    ((st.submissionRepo.UpdateStatusToChecking submissionID).2 ≠ 0 →
      (CheckRealtime s order visit duration now st submissionID links).1.world.probes
        = (checkPlatforms s order submissionID
            (groupLinks (uniqueLinkInfos order links)).linksByPlatform visit
            (st.world, { validLinks := [], invalidLinks := [] })).1.probes) := by
  unfold CheckRealtime
  dsimp only
  split
  · rename_i h
    exact ⟨fun _ => rfl, fun hne => absurd h hne⟩
  · rename_i h
    refine ⟨fun h0 => absurd h0 h, fun _ => ?_⟩
    split
    · rename_i hl
      have hnil : uniqueLinkInfos order links = [] := List.length_eq_zero.1 hl
      rw [hnil, checkPlatforms_empty s order submissionID (groupLinks []).linksByPlatform
        (fun _ => rfl) visit]
      split
      · rfl
      · split
        · rfl
        · rfl
    · split
      · rfl
      · split
        · rfl
        · rfl

/-- The probe log after a filtered dispatch, whatever its result. -/
theorem CheckRealtimeWithPlatformFilter_probes (s : CheckerService)
    (order : List Char → List Platform) (visit : List Platform) (duration now : Int)
    (st : Stores) (submissionID : Nat) (links : List (List Char))
    (selectedPlatforms : List Platform) :
    ((st.submissionRepo.UpdateStatusToChecking submissionID).2 = 0 →
      (CheckRealtimeWithPlatformFilter s order visit duration now st submissionID links
        selectedPlatforms).1.world.probes = st.world.probes) ∧
    ((st.submissionRepo.UpdateStatusToChecking submissionID).2 ≠ 0 →
      (CheckRealtimeWithPlatformFilter s order visit duration now st submissionID links
        selectedPlatforms).1.world.probes
        = (checkPlatforms s order submissionID
            (groupLinksFiltered selectedPlatforms
              (uniqueLinkInfos order links)).linksByPlatform visit
            (st.world, { validLinks := [], invalidLinks := [] })).1.probes) := by
  unfold CheckRealtimeWithPlatformFilter
  dsimp only
  split
  · rename_i h
    exact ⟨fun _ => rfl, fun hne => absurd h hne⟩
  · rename_i h
    refine ⟨fun h0 => absurd h0 h, fun _ => ?_⟩
    split
    · rename_i hl
      have hnil : uniqueLinkInfos order links = [] := List.length_eq_zero.1 hl
      rw [hnil, checkPlatforms_empty s order submissionID
        (groupLinksFiltered selectedPlatforms []).linksByPlatform (fun _ => rfl) visit]
      split
      · rfl
      · split
        · rfl
        · rfl
    · split
      · rfl
      · split
        · rfl
        · rfl

/-- The probes of a fan-out over groups cut out of the parsed kept entries of
a list made of blank entries and canonical links: they are for pairwise
different canonical links, each an entry of the list that is not blank, and
every entry that is not blank, falls in a visited group with a registered
probe and has no stored outcome is probed. -/
theorem fanout_probes_of_canonical (s : CheckerService) (order : List Char → List Platform)
    (submissionID : Nat) (links : List (List Char)) (lbp : Platform → List (List Char))
    (pred : Platform → LinkInfo → Bool) (visit : List Platform) (w : World)
    (hrecv : ∀ l ∈ links, TrimSpace l = [] ∨ ∃ o raw,
      (ParseLink o (TrimSpace raw)).Platform ≠ PlatformUnknown ∧
      (ParseLink o (TrimSpace raw)).Link = l)
    (hnd : visit.Nodup)
    (hlbp : ∀ p, lbp p = ((uniqueLinkInfos order links).filter (pred p)).map (fun i => i.Link))
    (hpred : ∀ p i, pred p i = true → i.Platform = p) :
    ∃ extra,
      (checkPlatforms s order submissionID lbp visit
          (w, { validLinks := [], invalidLinks := [] })).1.probes = w.probes ++ extra ∧
      (∀ o2 : List Char → List Platform,
        (extra.map (fun pr => (ParseLink (o2 pr.2) pr.2).Link)).Nodup) ∧
      (∀ pr ∈ extra, pr.2 ∈ links ∧ TrimSpace pr.2 ≠ []) ∧
      (∀ l ∈ links, TrimSpace l ≠ [] → ∀ ch,
        (ParseLink (order l) l).Platform ∈ visit →
        pred (ParseLink (order l) l).Platform (ParseLink (order l) l) = true →
        s.checkers (ParseLink (order l) l).Platform = some ch →
        (storedOutcome w l).1 = none → (ch.GetPlatform, l) ∈ extra) := by
  have huniq := uniqueLinks_of_canonical links hrecv
  obtain ⟨hmap, hinj⟩ := uniqueLinkInfos_of_canonical order links hrecv
  have hfun : lbp = fun p => ((uniqueLinkInfos order links).filter (pred p)).map
      (fun i => i.Link) := funext hlbp
  have hmem : ∀ p, ∀ l ∈ lbp p, l ∈ (dedupLinks links).uniqueLinks := by
    intro p l hl
    rw [hlbp p, List.mem_map] at hl
    obtain ⟨i, hi, hil⟩ := hl
    rw [← hmap, ← hil]
    exact List.mem_map.2 ⟨i, (List.mem_filter.1 hi).1, rfl⟩
  have hflat : (visit.flatMap lbp).Nodup := by
    rw [hfun]
    exact groups_flatMap_nodup _ pred visit hinj hpred hnd
  have hcanon : ∀ p, ∀ l ∈ lbp p, (ParseLink (order l) l).Link = l :=
    fun p l hl => (huniq l (hmem p l hl)).2.2 (order l)
  obtain ⟨extra, e1, e2⟩ := checkPlatforms_probes_sublist s order submissionID lbp visit
    (w, { validLinks := [], invalidLinks := [] })
  obtain ⟨extra2, f1, f2⟩ := checkPlatforms_probes_complete s order submissionID lbp visit
    hflat hcanon (w, { validLinks := [], invalidLinks := [] })
  have hee : extra2 = extra := List.append_cancel_left (f1.symm.trans e1)
  subst hee
  have hin : ∀ pr ∈ extra2, pr.2 ∈ (dedupLinks links).uniqueLinks := by
    intro pr hpr
    have h1 : pr.2 ∈ visit.flatMap lbp := e2.subset (List.mem_map.2 ⟨pr, hpr, rfl⟩)
    obtain ⟨p, _, hp⟩ := List.mem_flatMap.1 h1
    exact hmem p _ hp
  refine ⟨extra2, e1, ?_, ?_, ?_⟩
  · intro o2
    have hm : extra2.map (fun pr => (ParseLink (o2 pr.2) pr.2).Link) = extra2.map Prod.snd := by
      apply List.map_congr_left
      intro pr hpr
      exact (huniq pr.2 (hin pr hpr)).2.2 (o2 pr.2)
    rw [hm]
    exact hflat.sublist e2
  · intro pr hpr
    exact ⟨(huniq pr.2 (hin pr hpr)).1, (huniq pr.2 (hin pr hpr)).2.1⟩
  · intro l hl hne ch hv hp hch hnone
    have hu : l ∈ (dedupLinks links).uniqueLinks := by
      rcases hrecv l hl with hb | ⟨o, raw, hpl, hlink⟩
      · exact absurd hb hne
      · obtain ⟨c1, c2, _⟩ := canonical_link_fixed o raw hpl
        rw [hlink] at c1 c2
        exact ((dedupLinks_spec links).2.1 l).2 ⟨c1, l, hl, c2⟩
    have hl2 : l ∈ lbp (ParseLink (order l) l).Platform := by
      rw [hlbp, List.mem_map]
      refine ⟨ParseLink (order l) l, List.mem_filter.2 ⟨?_, hp⟩, (huniq l hu).2.2 (order l)⟩
      unfold uniqueLinkInfos
      exact List.mem_map.2 ⟨l, hu, rfl⟩
    exact f2 _ hv ch hch l hl2 hnone

theorem groupLinks_groups (infos : List LinkInfo) (p : Platform) :
    (groupLinks infos).linksByPlatform p
      = (infos.filter (fun i => decide (i.Platform = p ∧ p ≠ PlatformUnknown))).map
          (fun i => i.Link) := by
  unfold groupLinks
  by_cases hp : p = PlatformUnknown
  · rw [hp, (groupLinks_unknown _ _).2]
    simp
  · rw [groupLinks_fold _ _ p hp]
    simp [hp]

theorem groupLinksFiltered_groups (selected : List Platform) (infos : List LinkInfo)
    (p : Platform) :
    (groupLinksFiltered selected infos).linksByPlatform p
      = (infos.filter (fun i =>
          decide ((i.Platform = p ∧ p ∈ selected) ∧ p ≠ PlatformUnknown))).map
          (fun i => i.Link) := by
  unfold groupLinksFiltered
  by_cases hp : p = PlatformUnknown
  · rw [hp, (groupLinksFiltered_rest _ _ _).2.2]
    simp
  · rw [groupLinksFiltered_fold _ _ _ p hp]
    simp [hp]

/-- The pending links `CheckLinks` returns and stores are canonical links of
recognised entries trimmed by `strings.TrimSpace`. -/
theorem CheckLinks_pending_canonical (order : List Char → List Platform)
    (rows : List InvalidLink) (newID : Nat) (req : CheckLinksRequest) (clientIP : String) :
    ∀ l ∈ (LinkService.CheckLinks order rows newID req clientIP).1.PendingLinks,
      ∃ o raw, (ParseLink o (TrimSpace raw)).Platform ≠ PlatformUnknown ∧
        (ParseLink o (TrimSpace raw)).Link = l := by
  intro l hl
  unfold LinkService.CheckLinks at hl
  simp only at hl
  split at hl
  · cases hl
  · simp only at hl
    rw [List.mem_filter, List.mem_map] at hl
    obtain ⟨⟨info, hi, hil⟩, _⟩ := hl
    unfold ParseLinks at hi
    rw [List.mem_filter, List.mem_map] at hi
    obtain ⟨⟨u, hu, hinfo⟩, hp⟩ := hi
    obtain ⟨_, raw, _, hraw⟩ := ((dedupLinks_spec req.Links).2.1 u).1 hu
    refine ⟨order u, raw, ?_, ?_⟩
    · rw [hraw, hinfo]
      simpa using hp
    · rw [hraw, hinfo]
      exact hil

/-- C9: the dispatcher is given the pending links of a submission, which are
canonical links of recognised entries of `CheckLinks` (`link_handler.go`,
`task_scheduler_service.go`, `CheckPendingSubmissions`); for every list made of
such links and of blank entries, in both dispatch modes and whatever the
result of the dispatch, the probes added to the log are for links with pairwise
different canonical forms (in whatever order the patterns are visited when the
canonical form is taken), every probed link is an entry of the list that is
not blank, so the empty and white-space-only entries are dropped, and, when the
CAS succeeds, every entry that is not blank, is of a recognised platform that
is visited (and, in filtered mode, selected), has a registered probe and no
stored outcome is probed, hence probed exactly once. `visit` is the order in
which the range over the groups visits each platform, once. The lists given
stay of that kind: the pending links `CheckLinks` returns for any request are
canonical links of recognised entries, and the pending links a filtered
dispatch writes back are entries of its list that are not blank. -/
theorem dispatch_probes_distinct_canonical (s : CheckerService)
    (order : List Char → List Platform) (visit : List Platform) (duration now : Int)
    (st : Stores) (submissionID : Nat) (links : List (List Char))
    (selectedPlatforms : List Platform)
    (hrecv : ∀ l ∈ links, TrimSpace l = [] ∨ ∃ o raw,
      (ParseLink o (TrimSpace raw)).Platform ≠ PlatformUnknown ∧
      (ParseLink o (TrimSpace raw)).Link = l)
    (hnd : visit.Nodup) :
    (∃ extra,
      (CheckRealtime s order visit duration now st submissionID links).1.world.probes
        = st.world.probes ++ extra ∧
      (∀ o2 : List Char → List Platform,
        (extra.map (fun pr => (ParseLink (o2 pr.2) pr.2).Link)).Nodup) ∧
      (∀ pr ∈ extra, pr.2 ∈ links ∧ TrimSpace pr.2 ≠ []) ∧
      ((st.submissionRepo.UpdateStatusToChecking submissionID).2 ≠ 0 →
        ∀ l ∈ links, TrimSpace l ≠ [] → ∀ ch,
          (ParseLink (order l) l).Platform ≠ PlatformUnknown →
          (ParseLink (order l) l).Platform ∈ visit →
          s.checkers (ParseLink (order l) l).Platform = some ch →
          (storedOutcome st.world l).1 = none → (ch.GetPlatform, l) ∈ extra)) ∧
    (∃ extra,
      (CheckRealtimeWithPlatformFilter s order visit duration now st submissionID links
        selectedPlatforms).1.world.probes = st.world.probes ++ extra ∧
      (∀ o2 : List Char → List Platform,
        (extra.map (fun pr => (ParseLink (o2 pr.2) pr.2).Link)).Nodup) ∧
      (∀ pr ∈ extra, pr.2 ∈ links ∧ TrimSpace pr.2 ≠ []) ∧
      ((st.submissionRepo.UpdateStatusToChecking submissionID).2 ≠ 0 →
        ∀ l ∈ links, TrimSpace l ≠ [] → ∀ ch,
          (ParseLink (order l) l).Platform ≠ PlatformUnknown →
          (ParseLink (order l) l).Platform ∈ visit →
          (ParseLink (order l) l).Platform ∈ selectedPlatforms →
          s.checkers (ParseLink (order l) l).Platform = some ch →
          (storedOutcome st.world l).1 = none → (ch.GetPlatform, l) ∈ extra)) ∧
    (∀ (order1 : List Char → List Platform) (rows : List InvalidLink) (newID : Nat)
        (req : CheckLinksRequest) (clientIP : String),
      ∀ l ∈ (LinkService.CheckLinks order1 rows newID req clientIP).1.PendingLinks,
        ∃ o raw, (ParseLink o (TrimSpace raw)).Platform ≠ PlatformUnknown ∧
          (ParseLink o (TrimSpace raw)).Link = l) ∧
    (∀ (st2 : Stores) (record : SubmissionRecord),
      CheckRealtimeWithPlatformFilter s order visit duration now st submissionID links
        selectedPlatforms = (st2, .ok record) →
      ∀ l ∈ record.PendingLinks, l ∈ links ∧ TrimSpace l ≠ []) := by
  refine ⟨?_, ?_, CheckLinks_pending_canonical, ?_⟩
  · by_cases hcas : (st.submissionRepo.UpdateStatusToChecking submissionID).2 = 0
    · refine ⟨[], ?_, fun _ => List.nodup_nil, ?_, fun h => absurd hcas h⟩
      · rw [(CheckRealtime_probes s order visit duration now st submissionID links).1 hcas]
        simp
      · intro pr hpr; cases hpr
    · obtain ⟨extra, e1, e2, e3, e4⟩ := fanout_probes_of_canonical s order submissionID links
        (groupLinks (uniqueLinkInfos order links)).linksByPlatform
        (fun p i => decide (i.Platform = p ∧ p ≠ PlatformUnknown)) visit st.world hrecv hnd
        (groupLinks_groups _)
        (fun p i h => (of_decide_eq_true h).1)
      refine ⟨extra, ?_, e2, e3, ?_⟩
      · rw [(CheckRealtime_probes s order visit duration now st submissionID links).2 hcas]
        exact e1
      · intro _ l hl hne ch hpu hv hch hnone
        exact e4 l hl hne ch hv (decide_eq_true ⟨rfl, hpu⟩) hch hnone
  · by_cases hcas : (st.submissionRepo.UpdateStatusToChecking submissionID).2 = 0
    · refine ⟨[], ?_, fun _ => List.nodup_nil, ?_, fun h => absurd hcas h⟩
      · rw [(CheckRealtimeWithPlatformFilter_probes s order visit duration now st submissionID
          links selectedPlatforms).1 hcas]
        simp
      · intro pr hpr; cases hpr
    · obtain ⟨extra, e1, e2, e3, e4⟩ := fanout_probes_of_canonical s order submissionID links
        (groupLinksFiltered selectedPlatforms (uniqueLinkInfos order links)).linksByPlatform
        (fun p i => decide ((i.Platform = p ∧ p ∈ selectedPlatforms) ∧ p ≠ PlatformUnknown))
        visit st.world hrecv hnd
        (groupLinksFiltered_groups selectedPlatforms _)
        (fun p i h => (of_decide_eq_true h).1.1)
      refine ⟨extra, ?_, e2, e3, ?_⟩
      · rw [(CheckRealtimeWithPlatformFilter_probes s order visit duration now st submissionID
          links selectedPlatforms).2 hcas]
        exact e1
      · intro _ l hl hne ch hpu hv hsel hch hnone
        exact e4 l hl hne ch hv (decide_eq_true ⟨⟨rfl, hsel⟩, hpu⟩) hch hnone
  · intro st2 record h l hl
    obtain ⟨hmap, _⟩ := uniqueLinkInfos_of_canonical order links hrecv
    have hu : l ∈ (dedupLinks links).uniqueLinks := by
      rw [(filtered_dispatch_result s order visit duration now st submissionID links
        selectedPlatforms st2 record h).2.1, List.mem_append, List.mem_map, List.mem_map] at hl
      rw [← hmap]
      rcases hl with ⟨i, hi, hil⟩ | ⟨i, hi, hil⟩
      · exact List.mem_map.2 ⟨i, (List.mem_filter.1 hi).1, hil⟩
      · exact List.mem_map.2 ⟨i, (List.mem_filter.1 hi).1, hil⟩
    exact ⟨(uniqueLinks_of_canonical links hrecv l hu).1,
      (uniqueLinks_of_canonical links hrecv l hu).2.1⟩

/-- C9 (witness): the request with `pan.quark.cn/s/a1` and
`https://pan.quark.cn/s/a1`: `CheckLinks` returns their common canonical link
twice as pending, and the dispatch of these pending links, in both modes and
without a cache, calls the Quark probe once. -/
theorem dispatch_probes_distinct_canonical_witness :
    schemePending = [quarkLink, quarkLink] ∧
    (CheckRealtime quarkService (fun _ => AllPlatforms) AllPlatforms 7 100
      (uncachedStores (pendingRecord schemePending [])) 1 schemePending).1.world.probes
      = [(PlatformQuark, quarkLink)] ∧
    (CheckRealtimeWithPlatformFilter quarkService (fun _ => AllPlatforms) AllPlatforms 7 100
      (uncachedStores (pendingRecord schemePending [])) 1 schemePending
      [PlatformQuark]).1.world.probes = [(PlatformQuark, quarkLink)] ∧
    ∃ extra,
      (CheckRealtime quarkService (fun _ => AllPlatforms) AllPlatforms 7 100
        (uncachedStores (pendingRecord schemePending [])) 1 schemePending).1.world.probes
        = (uncachedStores (pendingRecord schemePending [])).world.probes ++ extra ∧
      (∀ o2 : List Char → List Platform,
        (extra.map (fun pr => (ParseLink (o2 pr.2) pr.2).Link)).Nodup) ∧
      (PlatformQuark, quarkLink) ∈ extra := by
  obtain ⟨extra, h1, h2, _, h4⟩ :=
    (dispatch_probes_distinct_canonical quarkService (fun _ => AllPlatforms) AllPlatforms 7 100
      (uncachedStores (pendingRecord schemePending [])) 1 schemePending [PlatformQuark]
      (fun l hl => Or.inr (CheckLinks_pending_canonical _ _ _ _ _ l hl)) (by decide)).1
  exact ⟨rfl, rfl, rfl, extra, h1, h2,
    h4 (by decide) quarkLink (by decide) (by decide) quarkChecker (by decide) (by decide) rfl rfl⟩

/-! ## Claims about the count of unrecognised links -/

/-- C30 (the code at the failing input): for the request `["pan.quark.cn/s/abc"]`
the parser recognises the link as Quark and `CheckLinks` puts its canonical form
in `pending_links`, yet `invalid_format_count` is 1: the count compares the
trimmed text with the canonical links. With the scheme written out the count
is 0. -/
theorem CheckLinks_counts_recognised_link_without_scheme :
    (ParseLink AllPlatforms "pan.quark.cn/s/abc".toList)
      = { Link := "https://pan.quark.cn/s/abc".toList, Platform := PlatformQuark } ∧
    (LinkService.CheckLinks (fun _ => AllPlatforms) [] 1 schemelessRequest
        "203.0.113.7").1.PendingLinks = ["https://pan.quark.cn/s/abc".toList] ∧
    (LinkService.CheckLinks (fun _ => AllPlatforms) [] 1 schemelessRequest
        "203.0.113.7").1.InvalidFormatCount = 1 ∧
    (LinkService.CheckLinks (fun _ => AllPlatforms) [] 1
        { Links := ["https://pan.quark.cn/s/abc".toList], SelectedPlatforms := [] }
        "203.0.113.7").1.InvalidFormatCount = 0 := by
  refine ⟨by rfl, by rfl, by rfl, by rfl⟩

/-! ## Claims about the text a scheduled command returns -/

/-- C29 (counterexample): for the response text `ok {"a":1}`, whose first `{`
stands at offset 3, `ExecuteCurlCommand` returns the whole text, `ok` included:
the text is not cut to the JSON value `{"a":1}` that starts at the first `{`
and ends at its matching close. -/
theorem ExecuteCurlCommand_returns_text_uncut :
    ScheduledTaskService.ExecuteCurlCommand none (.ok "ok \x7b\"a\":1\x7d".toList)
      = .ok "ok \x7b\"a\":1\x7d".toList ∧
    Index "ok \x7b\"a\":1\x7d".toList ['{'] = 3 ∧
    "ok \x7b\"a\":1\x7d".toList ≠ "\x7b\"a\":1\x7d".toList := by
  refine ⟨rfl, by decide, by decide⟩

/-- C29 (amended): for every response text, `ExecuteCurlCommand` returns the
content of the response as it was received, with no JSON extraction: when the
command parses and the request succeeds the result is the content, and
whenever a text is returned it is the whole content of the response (of a
successful request, or of a failed request whose content holds `http://`,
`https://` or `magnet:`); in particular the text `["a",{"b":1}]` is returned
whole. -/
theorem ExecuteCurlCommand_returns_content (parseErr : Option String)
    (executed : Except (Option (List Char) × String) (List Char)) (output : List Char)
    (h : ScheduledTaskService.ExecuteCurlCommand parseErr executed = .ok output) :
    (parseErr = none ∧
      (executed = .ok output ∨
        ∃ e, executed = .error (some output, e) ∧ output ≠ [] ∧
          (Index output "http://".toList ≠ -1 ∨ Index output "https://".toList ≠ -1
            ∨ Index output "magnet:".toList ≠ -1))) ∧
    (∀ content, ScheduledTaskService.ExecuteCurlCommand none (.ok content) = .ok content) ∧
    ScheduledTaskService.ExecuteCurlCommand none (.ok "[\"a\",\x7b\"b\":1\x7d]".toList)
      = .ok "[\"a\",\x7b\"b\":1\x7d]".toList := by
  refine ⟨?_, fun _ => rfl, rfl⟩
  unfold ScheduledTaskService.ExecuteCurlCommand at h
  cases parseErr with
  | some e => cases h
  | none =>
    refine ⟨rfl, ?_⟩
    cases executed with
    | ok content =>
      simp only [Except.ok.injEq] at h
      exact Or.inl (by rw [h])
    | error failure =>
      obtain ⟨resp, e⟩ := failure
      cases resp with
      | none => cases h
      | some content =>
        simp only at h
        split at h
        · rename_i hc
          simp only [Except.ok.injEq] at h
          subst h
          refine Or.inr ⟨e, rfl, ?_, hc.2⟩
          intro hnil
          rw [hnil] at hc
          exact absurd hc.1 (by decide)
        · cases h

/-- C29 (amended), at the response text `["a",{"b":1}]` of a successful
request. -/
theorem ExecuteCurlCommand_returns_content_witness :
    (none : Option String) = none ∧
      ((Except.ok "[\"a\",\x7b\"b\":1\x7d]".toList :
          Except (Option (List Char) × String) (List Char))
          = .ok "[\"a\",\x7b\"b\":1\x7d]".toList ∨
        ∃ e, (Except.ok "[\"a\",\x7b\"b\":1\x7d]".toList :
          Except (Option (List Char) × String) (List Char))
            = .error (some "[\"a\",\x7b\"b\":1\x7d]".toList, e) ∧
          "[\"a\",\x7b\"b\":1\x7d]".toList ≠ [] ∧
          (Index "[\"a\",\x7b\"b\":1\x7d]".toList "http://".toList ≠ -1
            ∨ Index "[\"a\",\x7b\"b\":1\x7d]".toList "https://".toList ≠ -1
            ∨ Index "[\"a\",\x7b\"b\":1\x7d]".toList "magnet:".toList ≠ -1)) :=
  (ExecuteCurlCommand_returns_content none (.ok "[\"a\",\x7b\"b\":1\x7d]".toList)
    "[\"a\",\x7b\"b\":1\x7d]".toList rfl).1

/-! ## Claims about the CMCC payload encoding -/

theorem xorBytes_cancel : ∀ (b p : List Nat), b.length = p.length →
    xorBytes (xorBytes b p) p = b := by
  intro b
  induction b with
  | nil => intro p _; rfl
  | cons x b ih =>
    intro p h
    cases p with
    | nil => cases h
    | cons y p =>
      simp only [xorBytes, List.zipWith_cons_cons]
      have := ih p (by simpa using h)
      unfold xorBytes at this
      rw [this]
      congr 1
      exact Nat.xor_cancel_right y x

theorem xorBytes_length (a b : List Nat) (h : a.length = b.length) :
    (xorBytes a b).length = a.length := by
  unfold xorBytes
  rw [List.length_zipWith, h, Nat.min_self]

theorem cbcEncryptBlocks_length (lib : CryptoLib) (n : Nat) : ∀ (prev src : List Nat),
    prev.length = 16 → src.length = 16 * n →
    (cbcEncryptBlocks lib n prev src).length = 16 * n := by
  induction n with
  | zero => intro _ _ _ _; rfl
  | succ n ih =>
    intro prev src hp hs
    have ht : (src.take 16).length = 16 := by rw [List.length_take]; omega
    have hx : (xorBytes (src.take 16) prev).length = 16 := by
      rw [xorBytes_length _ _ (by rw [ht, hp]), ht]
    have hc := lib.aesEncrypt_length _ hx
    rw [cbcEncryptBlocks, List.length_append, hc,
      ih _ _ hc (by rw [List.length_drop]; omega)]
    omega

/-- CBC decryption undoes CBC encryption with the same IV. -/
theorem cbcDecrypt_encrypt (lib : CryptoLib) (n : Nat) : ∀ (prev src : List Nat),
    prev.length = 16 → src.length = 16 * n →
    cbcDecryptBlocks lib n prev (cbcEncryptBlocks lib n prev src) = src := by
  induction n with
  | zero =>
    intro _ src _ hs
    have : src = [] := List.length_eq_zero.1 (by omega)
    rw [this]
    rfl
  | succ n ih =>
    intro prev src hp hs
    have ht : (src.take 16).length = 16 := by rw [List.length_take]; omega
    have hx : (xorBytes (src.take 16) prev).length = 16 := by
      rw [xorBytes_length _ _ (by rw [ht, hp]), ht]
    have hc := lib.aesEncrypt_length _ hx
    rw [cbcEncryptBlocks, cbcDecryptBlocks]
    rw [List.take_left' hc, List.drop_left' hc, lib.aesDecrypt_encrypt _ hx,
      xorBytes_cancel _ _ (by rw [ht, hp]),
      ih _ _ hc (by rw [List.length_drop]; omega), List.take_append_drop]

theorem addPKCS7Padding_length (d : List Nat) :
    (addPKCS7Padding d 16).length = 16 * (d.length / 16 + 1) := by
  unfold addPKCS7Padding
  rw [List.length_append, List.length_replicate]
  omega

/-- Removing the padding just added gives the data back. -/
theorem removePKCS7Padding_add (d : List Nat) :
    removePKCS7Padding (addPKCS7Padding d 16) = .ok d := by
  have hlen := addPKCS7Padding_length d
  have hp1 : 0 < 16 - d.length % 16 := by omega
  have hp2 : 16 - d.length % 16 ≤ 16 := by omega
  have hmod : (16 - d.length % 16) % 256 = 16 - d.length % 16 := by omega
  have hform : addPKCS7Padding d 16
      = d ++ List.replicate (16 - d.length % 16) (16 - d.length % 16) := by
    show d ++ List.replicate (16 - d.length % 16) ((16 - d.length % 16) % 256) = _
    rw [hmod]
  have hlast : (addPKCS7Padding d 16).getLast?.getD 0 = 16 - d.length % 16 := by
    rw [hform]
    obtain ⟨k, hk⟩ : ∃ k, 16 - d.length % 16 = k + 1 := ⟨16 - d.length % 16 - 1, by omega⟩
    rw [hk, List.replicate_succ', ← List.append_assoc, List.getLast?_append]
    simp
  have hl2 : (addPKCS7Padding d 16).length = d.length + (16 - d.length % 16) := by
    rw [hform, List.length_append, List.length_replicate]
  unfold removePKCS7Padding
  rw [if_neg (by omega)]
  dsimp only
  rw [hlast, if_neg (by omega), hl2, Nat.add_sub_cancel, hmod, hform,
    List.drop_left, List.take_left]
  rw [if_neg]
  simp

/-- C28: for every text `s` and every IV of 16 bytes, `chinaMobileCloudEncrypt`
returns the base64 text of the IV followed by a ciphertext whose length is a
positive multiple of 16, `chinaMobileCloudDecrypt` of that text returns `s`
without error, and `removePKCS7Padding (addPKCS7Padding d 16) = d` for every
byte string `d`. -/
theorem chinaMobileCloud_round_trip (lib : CryptoLib) (s iv : List Nat)
    (hiv : iv.length = 16) :
    (∃ ciphertext,
      chinaMobileCloudEncrypt lib (.ok iv) s = .ok (lib.base64Encode (iv ++ ciphertext)) ∧
      0 < ciphertext.length ∧ ciphertext.length % 16 = 0) ∧
    (∀ encoded, chinaMobileCloudEncrypt lib (.ok iv) s = .ok encoded →
      chinaMobileCloudDecrypt lib encoded = .ok s) ∧
    (∀ d, removePKCS7Padding (addPKCS7Padding d 16) = .ok d) := by
  have hpl := addPKCS7Padding_length s
  have hdiv : (addPKCS7Padding s 16).length / 16 = s.length / 16 + 1 := by
    rw [hpl]; omega
  have hcl := cbcEncryptBlocks_length lib (s.length / 16 + 1) iv (addPKCS7Padding s 16) hiv hpl
  have henc : chinaMobileCloudEncrypt lib (.ok iv) s
      = .ok (lib.base64Encode (iv ++ cbcEncryptBlocks lib (s.length / 16 + 1) iv
          (addPKCS7Padding s 16))) := by
    unfold chinaMobileCloudEncrypt
    dsimp only
    rw [hdiv]
  refine ⟨⟨_, henc, by omega, by omega⟩, ?_, removePKCS7Padding_add⟩
  intro encoded he
  rw [henc] at he
  cases he
  unfold chinaMobileCloudDecrypt
  rw [lib.base64Decode_encode]
  dsimp only
  rw [if_neg (by rw [List.length_append]; omega), List.take_left' hiv, List.drop_left' hiv,
    if_neg (by omega), hcl]
  have h16 : 16 * (s.length / 16 + 1) / 16 = s.length / 16 + 1 := by omega
  rw [h16, cbcDecrypt_encrypt lib _ iv _ hiv hpl, removePKCS7Padding_add]

theorem chinaMobileCloud_round_trip_witness :
    chinaMobileCloudDecrypt toyCryptoLib
        (toyCryptoLib.base64Encode
          (List.replicate 16 7 ++ cbcEncryptBlocks toyCryptoLib 1 (List.replicate 16 7)
            (addPKCS7Padding [104, 105] 16)))
      = .ok [104, 105] :=
  (chinaMobileCloud_round_trip toyCryptoLib [104, 105] (List.replicate 16 7) rfl).2.1 _ rfl

/-! ## Claims about the share id of UC links -/

theorem matchesPlatform_yun_uc (q : Platform)
    (h : matchesPlatform (trimSpace "yun.uc.cn/s/abc123".toList) q = true) : q = PlatformUC := by
  cases q
  all_goals first
    | rfl
    | (exfalso; revert h; decide)

/-- C25 (the code at the failing input): the link `yun.uc.cn/s/abc123` is
classified as UC under every visiting order, with the canonical link
`https://yun.uc.cn/s/abc123`; the share-id extraction of the UC probe, whose
pattern is `https?://drive\.uc\.cn/s/([a-zA-Z0-9]+)`, fails on it and the probe
answers "链接格式无效: 无法从URL中提取share_id"; the same happens for the host `uc.cn`
and for `drive.uc.cn` written in capitals; on `https://drive.uc.cn/s/abc123`
the extraction returns `abc123`. -/
theorem UC_probe_rejects_alias_hosts (order : List Platform) (hperm : order.Perm AllPlatforms)
    (onResponse : Unit → CheckResult) :
    ParseLink order "yun.uc.cn/s/abc123".toList
      = { Link := "https://yun.uc.cn/s/abc123".toList, Platform := PlatformUC } ∧
    extractShareIDFromURL "https://yun.uc.cn/s/abc123".toList "uc"
      = .error "无法从URL中提取share_id" ∧
    UCChecker.Check (extractShareIDFromURL "https://yun.uc.cn/s/abc123".toList "uc") none
        (.ok ()) onResponse 3
      = { Valid := false, FailureReason := "链接格式无效: 无法从URL中提取share_id", Duration := 3,
          IsRateLimited := false } ∧
    (ParseLink AllPlatforms "https://uc.cn/s/abc123".toList).Platform = PlatformUC ∧
    extractShareIDFromURL "https://uc.cn/s/abc123".toList "uc"
      = .error "无法从URL中提取share_id" ∧
    (ParseLink AllPlatforms "https://DRIVE.UC.CN/s/abc123".toList).Platform = PlatformUC ∧
    extractShareIDFromURL "https://DRIVE.UC.CN/s/abc123".toList "uc"
      = .error "无法从URL中提取share_id" ∧
    extractShareIDFromURL "https://drive.uc.cn/s/abc123".toList "uc" = .ok "abc123" := by
  refine ⟨?_, by rfl, by rfl, by rfl, by rfl, by rfl, by rfl, by rfl⟩
  have hm : matchesPlatform (trimSpace "yun.uc.cn/s/abc123".toList) PlatformUC = true := by rfl
  obtain ⟨q, hq, hqm⟩ := find_isSome_of_match hperm hm
  rw [ParseLink_of_find hq, matchesPlatform_yun_uc q hqm]
  rfl

theorem UC_probe_rejects_alias_hosts_witness :
    ParseLink AllPlatforms.reverse "yun.uc.cn/s/abc123".toList
      = { Link := "https://yun.uc.cn/s/abc123".toList, Platform := PlatformUC } :=
  (UC_probe_rejects_alias_hosts AllPlatforms.reverse (List.reverse_perm _)
    (fun _ => { Valid := true, FailureReason := "", Duration := 0, IsRateLimited := false })).1

/-! ## Claims about the share code of Tianyi links -/

/-- C26 (the code at the failing input): for the link
`https://cloud.189.cn/t/abcDEF（访问码：xyz9）`, which `url.Parse` reads as a URL
with the path `/t/abcDEF（访问码：xyz9）` and no query, `extractCodeFromURL` returns
the access code `xyz9` and the code value `abcDEF（访问码：xyz9）` (the whole rest
of the path, not `abcDEF`), so the `shareCode` parameter built from them is
`abcDEF（访问码：xyz9）（访问码：xyz9）`, with the access code twice. -/
theorem extractCodeFromURL_keeps_access_text_in_code (lib : UrlLib)
    (hparse : lib.Parse tianyiLink = .ok tianyiURL)
    (hquery : lib.queryGet [] "code" = []) :
    extractCodeFromURL lib tianyiLink
      = .ok ("abcDEF（访问码：xyz9）".toList, "xyz9".toList, lib.urlString tianyiURL) ∧
    shareCodeParam "abcDEF（访问码：xyz9）".toList "xyz9".toList
      = "abcDEF（访问码：xyz9）（访问码：xyz9）".toList ∧
    shareCodeParam "abcDEF（访问码：xyz9）".toList "xyz9".toList
      ≠ "abcDEF（访问码：xyz9）".toList := by
  refine ⟨?_, by rfl, by decide⟩
  unfold extractCodeFromURL
  rw [hparse]
  dsimp only
  have hq : lib.queryGet tianyiURL.RawQuery "code" = [] := hquery
  rw [hq]
  rfl

theorem extractCodeFromURL_keeps_access_text_in_code_witness :
    extractCodeFromURL tianyiUrlLib tianyiLink
      = .ok ("abcDEF（访问码：xyz9）".toList, "xyz9".toList,
          ("https://cloud.189.cn/t/abcDEF%EF%BC%88%E8%AE%BF%E9%97%AE%E7%A0%81%EF%BC%9A"
            ++ "xyz9%EF%BC%89").toList) :=
  (extractCodeFromURL_keeps_access_text_in_code tianyiUrlLib rfl rfl).1

/-! ## Facts about the Xunlei probe -/

/-- The share id of the link `xunleiLink` is `abc`. -/
theorem extractShareID_xunleiLink : XunleiChecker.extractShareID xunleiLink = "abc".toList := by
  rfl

/-- A captcha-init answer that is read, has the status 200, parses, and has a
non-empty `url`, makes `getCaptchaToken` fail with the verification error. -/
theorem getCaptchaToken_verification (resp : XunleiChecker.TokenHttpResponse)
    (captchaToken url : String) (hread : resp.readErr = none) (hstatus : resp.StatusCode = 200)
    (htoken : resp.tokenResp = .ok (captchaToken, url)) (hurl : url ≠ "") :
    XunleiChecker.getCaptchaToken (.ok resp) = .error ("需要验证: " ++ url) := by
  simp [XunleiChecker.getCaptchaToken, hread, hstatus, htoken, hurl]

/-- When `getCaptchaToken` fails, the Xunlei probe is the probe of the share
request sent without a captcha token. -/
theorem Xunlei_Check_without_token (link : List Char) (passCode : Except String String)
    (tokenDo : Except String XunleiChecker.TokenHttpResponse) (newRequestErr : Option String)
    (apiDo : String → Except DoFailure XunleiChecker.ApiHttpResponse) (elapsed : Int) (e : String)
    (h : XunleiChecker.getCaptchaToken tokenDo = .error e) :
    XunleiChecker.Check link passCode tokenDo newRequestErr apiDo elapsed
      = XunleiChecker.Check link passCode (.error "") newRequestErr (fun _ => apiDo "")
          elapsed := by
  simp only [XunleiChecker.Check, h]

/-- The Xunlei probe answers valid exactly when the share id and the address
are read, the request is built, and the share request either ends on the
expired deadline or is answered with the status 200 and the share status
`OK`. -/
theorem Xunlei_Check_valid_iff (link : List Char) (passCode : Except String String)
    (newRequestErr : Option String)
    (apiDo : String → Except DoFailure XunleiChecker.ApiHttpResponse) (elapsed : Int) :
    (XunleiChecker.Check link passCode (.error "") newRequestErr apiDo elapsed).Valid = true
      ↔ XunleiChecker.extractShareID link ≠ [] ∧ (∃ p, passCode = .ok p)
        ∧ newRequestErr = none
        ∧ ((∃ f, apiDo "" = .error f ∧ f.DeadlineExceeded = true)
          ∨ ∃ api body, apiDo "" = .ok api ∧ api.readErr = none ∧ api.StatusCode = 200
              ∧ api.apiResp = .ok body ∧ body.share_status = some "OK") := by
  unfold XunleiChecker.Check
  simp only [XunleiChecker.getCaptchaToken]
  by_cases hs : XunleiChecker.extractShareID link = []
  · simp [hs]
  · rcases passCode with e | p
    · simp [hs]
    · rcases newRequestErr with _ | e
      · rcases hdo : apiDo "" with f | api
        · by_cases hf : f.DeadlineExceeded = true
          · simp [hs, hf]
          · simp [hs, hf]
        · rcases hr : api.readErr with _ | e
          · by_cases hst : api.StatusCode = 200
            · rcases hb : api.apiResp with e | body
              · simp [hs, hr, hst, hb]
              · rcases hss : body.share_status with _ | st
                · rcases he : body.error with _ | errMsg
                  · simp [hs, hr, hst, hb, hss, he]
                  · by_cases hm : errMsg = ""
                    · simp [hs, hr, hst, hb, hss, he, hm]
                    · simp [hs, hr, hst, hb, hss, he, hm]
                · by_cases hok : st = "OK"
                  · simp [hs, hr, hst, hb, hss, hok]
                  · simp [hs, hr, hst, hb, hss, hok]
            · simp [hs, hr, hst]
          · simp [hs, hr]
      · simp [hs]

/-! ## Claims about a required verification of the Xunlei probe -/

/-- C21 (counterexample): for the link `https://pan.xunlei.com/s/abc`, a
captcha-init answer whose `url` is `https://i.xunlei.com/captcha` makes
`getCaptchaToken` fail, and the probe answers valid=true when the share API
answers the request with the share status `OK`. -/
theorem Check_valid_although_verification_required :
    XunleiChecker.getCaptchaToken (.ok verificationRequired)
      = .error "需要验证: https://i.xunlei.com/captcha"
    ∧ XunleiChecker.Check xunleiLink (.ok "") (.ok verificationRequired) none
        (fun _ => .ok shareOK) 7
      = { Valid := true, FailureReason := "", Duration := 7, IsRateLimited := false } := by
  constructor <;> rfl

/-- C21 (amended): whenever the captcha-init answer is read with the status 200
and contains a non-empty `url`, `getCaptchaToken` fails with the error
`需要验证: <url>`, and `Check` goes on with an empty captcha token: its outcome
is the outcome of the probe whose share request carries no captcha token, so
it is valid exactly when the share id and the address are read, the request
is built, and that request ends on the expired deadline or is answered with
the status 200 and the share status `OK`. -/
theorem Check_verification_required (link : List Char) (passCode : Except String String)
    (resp : XunleiChecker.TokenHttpResponse) (captchaToken url : String)
    (newRequestErr : Option String)
    (apiDo : String → Except DoFailure XunleiChecker.ApiHttpResponse) (elapsed : Int)
    (hread : resp.readErr = none) (hstatus : resp.StatusCode = 200)
    (htoken : resp.tokenResp = .ok (captchaToken, url)) (hurl : url ≠ "") :
    XunleiChecker.getCaptchaToken (.ok resp) = .error ("需要验证: " ++ url)
    ∧ XunleiChecker.Check link passCode (.ok resp) newRequestErr apiDo elapsed
        = XunleiChecker.Check link passCode (.error "") newRequestErr (fun _ => apiDo "")
            elapsed
    ∧ ((XunleiChecker.Check link passCode (.ok resp) newRequestErr apiDo elapsed).Valid = true
        ↔ XunleiChecker.extractShareID link ≠ [] ∧ (∃ p, passCode = .ok p)
          ∧ newRequestErr = none
          ∧ ((∃ f, apiDo "" = .error f ∧ f.DeadlineExceeded = true)
            ∨ ∃ api body, apiDo "" = .ok api ∧ api.readErr = none ∧ api.StatusCode = 200
                ∧ api.apiResp = .ok body ∧ body.share_status = some "OK")) := by
  have h := getCaptchaToken_verification resp captchaToken url hread hstatus htoken hurl
  have h2 := Xunlei_Check_without_token link passCode (.ok resp) newRequestErr apiDo elapsed _ h
  refine ⟨h, h2, ?_⟩
  rw [h2]
  exact Xunlei_Check_valid_iff link passCode newRequestErr (fun _ => apiDo "") elapsed

/-- C21 (amended), at the link `https://pan.xunlei.com/s/abc` with a share API
that answers `OK`. -/
theorem Check_verification_required_witness :
    XunleiChecker.getCaptchaToken (.ok verificationRequired)
      = .error ("需要验证: " ++ "https://i.xunlei.com/captcha")
    ∧ XunleiChecker.Check xunleiLink (.ok "") (.ok verificationRequired) none
          (fun _ => .ok shareOK) 7
        = XunleiChecker.Check xunleiLink (.ok "") (.error "") none
            (fun _ => .ok shareOK) 7
    ∧ ((XunleiChecker.Check xunleiLink (.ok "") (.ok verificationRequired) none
          (fun _ => .ok shareOK) 7).Valid = true
        ↔ XunleiChecker.extractShareID xunleiLink ≠ []
          ∧ (∃ p, (Except.ok "" : Except String String) = .ok p)
          ∧ (none : Option String) = none
          ∧ ((∃ f, (Except.ok shareOK : Except DoFailure _) = .error f
                ∧ f.DeadlineExceeded = true)
            ∨ ∃ api body, (Except.ok shareOK : Except DoFailure _) = .ok api
                ∧ api.readErr = none ∧ api.StatusCode = 200
                ∧ api.apiResp = .ok body ∧ body.share_status = some "OK")) :=
  Check_verification_required xunleiLink (.ok "") verificationRequired ""
    "https://i.xunlei.com/captcha" none (fun _ => .ok shareOK) 7 rfl rfl rfl (by decide)

/-! ## Claims about the outcome of a probe whose deadline expired -/

/-- C22 (counterexample): when the share request of the Xunlei probe ends on the
expired deadline the outcome is valid=true with an empty reason, and when the
step-1 request of the Baidu probe does the reason is the wrapped error text,
not `请求超时`. -/
theorem Check_deadline_not_reported_as_timeout :
    XunleiChecker.Check xunleiLink (.ok "") (.error "") none (fun _ => .error deadlineFailure) 7
      = { Valid := true, FailureReason := "", Duration := 7, IsRateLimited := false }
    ∧ BaiduChecker.Check timedOutBaiduEnv "https://pan.baidu.com/s/1abc" 7
      = { Valid := false, FailureReason := "第一步请求失败: 请求失败: context deadline exceeded",
          Duration := 7, IsRateLimited := false } := by
  constructor <;> rfl

/-- C22 (amended): when `Do` fails and the deadline of the probe has expired,
the Tianyi, 115, Aliyun and CMCC probes (whose link parameters were read and
whose request was built) return the outcome valid=false with the reason
`请求超时`; the Xunlei probe returns valid=true with an empty reason; the Baidu
probe, whose step-1 request fails with the error text `e`, returns valid=false
with the reason `第一步请求失败: 请求失败: ` followed by `e`. -/
theorem Check_deadline_exceeded (f : DoFailure) (elapsed : Int)
    (params : List Char × List Char × List Char) (shareCode receiveCode : String)
    (aliShareID cmccShareID : String) (link : List Char) (passCode : String)
    (tokenDo : Except String XunleiChecker.TokenHttpResponse)
    (env : BaiduEnv) (baiduLink normalizedLink password e : String)
    (hf : f.DeadlineExceeded = true)
    (hshare : shareCode ≠ "") (hreceive : receiveCode ≠ "") (hcmcc : cmccShareID ≠ "")
    (hlink : XunleiChecker.extractShareID link ≠ [])
    (hnorm : env.normalizeBaiduURL baiduLink = .ok normalizedLink)
    (hpwd : env.queryPwd normalizedLink = .ok password)
    (hdo : env.doStep1 normalizedLink = .error e) :
    TianyiChecker.Check (.ok params) none (.error f) elapsed
      = { Valid := false, FailureReason := "请求超时", Duration := elapsed,
          IsRateLimited := false }
    ∧ Pan115Checker.Check (.ok (shareCode, receiveCode)) none (.error f) elapsed
      = { Valid := false, FailureReason := "请求超时", Duration := elapsed,
          IsRateLimited := false }
    ∧ AliyunChecker.Check (.ok aliShareID) none (.error f) elapsed
      = { Valid := false, FailureReason := "请求超时", Duration := elapsed,
          IsRateLimited := false }
    ∧ CMCCChecker.Check cmccShareID none none (.error f) elapsed
      = { Valid := false, FailureReason := "请求超时", Duration := elapsed,
          IsRateLimited := false }
    ∧ XunleiChecker.Check link (.ok passCode) tokenDo none (fun _ => .error f) elapsed
      = { Valid := true, FailureReason := "", Duration := elapsed, IsRateLimited := false }
    ∧ BaiduChecker.Check env baiduLink elapsed
      = { Valid := false, FailureReason := "第一步请求失败: 请求失败: " ++ e, Duration := elapsed,
          IsRateLimited := false } := by
  refine ⟨?_, ?_, ?_, ?_, ?_, ?_⟩
  · simp [TianyiChecker.Check, TianyiChecker.telecomRequest, hf]
  · simp [Pan115Checker.Check, Pan115Checker.pan115Request, hf, hshare, hreceive]
  · simp [AliyunChecker.Check, AliyunChecker.aliPanRequest, hf]
  · simp [CMCCChecker.Check, CMCCChecker.getShareInfo, hf, hcmcc]
  · simp [XunleiChecker.Check, hf, hlink]
  · simp only [BaiduChecker.Check, step1Request, hnorm, hpwd, hdo]
    rw [← String.append_assoc]
    rfl

/-- C22 (amended), at an expired deadline for one link of each probe. -/
theorem Check_deadline_exceeded_witness :
    TianyiChecker.Check (.ok ("abc".toList, [], [])) none (.error deadlineFailure) 7
      = { Valid := false, FailureReason := "请求超时", Duration := 7, IsRateLimited := false }
    ∧ Pan115Checker.Check (.ok ("sw1abc", "1234")) none (.error deadlineFailure) 7
      = { Valid := false, FailureReason := "请求超时", Duration := 7, IsRateLimited := false }
    ∧ AliyunChecker.Check (.ok "abc") none (.error deadlineFailure) 7
      = { Valid := false, FailureReason := "请求超时", Duration := 7, IsRateLimited := false }
    ∧ CMCCChecker.Check "abc" none none (.error deadlineFailure) 7
      = { Valid := false, FailureReason := "请求超时", Duration := 7, IsRateLimited := false }
    ∧ XunleiChecker.Check xunleiLink (.ok "") (.error "") none
        (fun _ => .error deadlineFailure) 7
      = { Valid := true, FailureReason := "", Duration := 7, IsRateLimited := false }
    ∧ BaiduChecker.Check timedOutBaiduEnv "https://pan.baidu.com/s/1abc" 7
      = { Valid := false,
          FailureReason := "第一步请求失败: 请求失败: " ++ "context deadline exceeded",
          Duration := 7, IsRateLimited := false } :=
  Check_deadline_exceeded deadlineFailure 7 ("abc".toList, [], []) "sw1abc" "1234" "abc" "abc"
    xunleiLink "" (.error "") timedOutBaiduEnv "https://pan.baidu.com/s/1abc"
    "https://pan.baidu.com/s/1abc" "1234" "context deadline exceeded" rfl (by decide)
    (by decide) (by decide) (by decide) rfl rfl rfl

/-! ## Facts about the expiration sweep -/

/-- An update that sets `expired` gives a row with the id of the task the
status `expired`. -/
theorem updateRow_expired (task row : ScheduledTask) (h : row.ID = task.ID) :
    (ScheduledTaskRepository.updateRow { task with Status := "expired" } row).Status
      = "expired" := by
  simp [ScheduledTaskRepository.updateRow, h]

/-- An update of another job leaves the row as it is. -/
theorem updateRow_other (task row : ScheduledTask) (h : row.ID ≠ task.ID) :
    ScheduledTaskRepository.updateRow { task with Status := "expired" } row = row := by
  simp [ScheduledTaskRepository.updateRow, h]

/-- With a database that answers every update, the loop of `CheckExpiredTasks`
reports no error and leaves no row that is expired at `now`, provided every
such row had its id among the tasks of the loop. -/
theorem expireTasks_none_expired (now : Int) (tasks : List ScheduledTask) :
    ∀ r : ScheduledTaskRepository, r.updateErr = none →
      (∀ row ∈ r.rows, ScheduledTaskRepository.isExpired now row = true
        → ∃ task ∈ tasks, row.ID = task.ID) →
      (ScheduledTaskService.expireTasks r tasks).2 = none
      ∧ (ScheduledTaskService.expireTasks r tasks).1.queryErr = r.queryErr
      ∧ ∀ row ∈ (ScheduledTaskService.expireTasks r tasks).1.rows,
          ScheduledTaskRepository.isExpired now row = false := by
  induction tasks with
  | nil =>
    intro r _ h
    refine ⟨rfl, rfl, ?_⟩
    intro row hrow
    cases hx : ScheduledTaskRepository.isExpired now row
    · rfl
    · obtain ⟨task, ht, _⟩ := h row hrow hx
      cases ht
  | cons task rest ih =>
    intro r hu h
    have hstep : ScheduledTaskService.expireTasks r (task :: rest)
        = ScheduledTaskService.expireTasks (r.Update { task with Status := "expired" }).1
            rest := by
      simp [ScheduledTaskService.expireTasks, ScheduledTaskRepository.Update, hu]
    have hupd : r.Update { task with Status := "expired" }
        = ({ r with rows := r.rows.map (ScheduledTaskRepository.updateRow
              { task with Status := "expired" }) }, none) := by
      simp [ScheduledTaskRepository.Update, hu]
    rw [hstep, hupd]
    refine ih _ hu ?_
    intro row hrow hx
    simp only [List.mem_map] at hrow
    obtain ⟨row0, hrow0, rfl⟩ := hrow
    by_cases hid : row0.ID = task.ID
    · have hs := updateRow_expired task row0 hid
      simp [ScheduledTaskRepository.isExpired, hs] at hx
    · rw [updateRow_other task row0 hid] at hx ⊢
      obtain ⟨t, ht, hti⟩ := h row0 hrow0 hx
      rcases List.mem_cons.1 ht with rfl | ht
      · exact absurd hti hid
      · exact ⟨t, ht, hti⟩

/-- With a database that answers every query and update, the pass of the sweep
whose two queries read the same instant removes no job from the scheduler: the
second query finds no expired job. -/
theorem checkExpiredTasks_keeps_entries (s : Scheduler) (now : Int)
    (hq : s.taskRepo.queryErr = none) (hu : s.taskRepo.updateErr = none) :
    (s.checkExpiredTasks now now).entries = s.entries
    ∧ (s.checkExpiredTasks now now).cron = s.cron
    ∧ ∀ row ∈ (s.checkExpiredTasks now now).taskRepo.rows,
        ScheduledTaskRepository.isExpired now row = false := by
  have h := expireTasks_none_expired now (s.taskRepo.rows.filter
      (ScheduledTaskRepository.isExpired now)) s.taskRepo hu
    (fun row hrow hx => ⟨row, List.mem_filter.2 ⟨hrow, hx⟩, rfl⟩)
  obtain ⟨_, hq1, hrows⟩ := h
  have hfilter : ((ScheduledTaskService.expireTasks s.taskRepo (s.taskRepo.rows.filter
      (ScheduledTaskRepository.isExpired now))).1.rows.filter
        (ScheduledTaskRepository.isExpired now)) = [] := by
    rw [List.filter_eq_nil_iff]
    intro row hrow
    simp [hrows row hrow]
  have hsweep : s.checkExpiredTasks now now
      = { s with taskRepo := (ScheduledTaskService.expireTasks s.taskRepo
            (s.taskRepo.rows.filter (ScheduledTaskRepository.isExpired now))).1 } := by
    simp only [Scheduler.checkExpiredTasks, ScheduledTaskService.CheckExpiredTasks,
      ScheduledTaskRepository.GetExpiredTasks, hq, hq1, hfilter, List.foldl_nil]
  rw [hsweep]
  exact ⟨rfl, rfl, hrows⟩

/-! ## Claims about the expiration sweep of the scheduler -/

/-- C23 (evaluation at the failing input): for the scheduler with the one active
job 1, due at the instant 5 and registered under the cron entry 7, the pass of
the sweep at the instant 10 sets the job to `expired` and leaves its cron
entry and its key in `entries`: the second query, for active jobs, no longer
returns it. -/
theorem checkExpiredTasks_leaves_expired_job_registered :
    (dueScheduler.checkExpiredTasks 10 10).taskRepo.rows
      = [{ ID := 1, Status := "expired", AutoDestroyAt := some 5,
           CurlCommand := "curl https://example.com/links",
           TransformScript := "return rawData;" }]
    ∧ (dueScheduler.checkExpiredTasks 10 10).entries = [(1, 7)]
    ∧ (dueScheduler.checkExpiredTasks 10 10).cron = [7]
    ∧ (dueScheduler.checkExpiredTasks 10 10).entries.lookup 1 = some 7
    ∧ (dueScheduler.removeTask 1).entries = [] := by
  refine ⟨?_, ?_, ?_, ?_, ?_⟩ <;> decide

/-! ## Facts about the run of a scheduled job -/

/-- Replacing by key in a table whose last row alone has the key replaces that
row. -/
theorem map_replace_last {α : Type} (key : α → Nat) (rows : List α) (x0 x : α)
    (hfresh : ∀ e ∈ rows, key e ≠ key x) (h0 : key x0 = key x) :
    (rows ++ [x0]).map (fun e => if key e = key x then x else e) = rows ++ [x] := by
  rw [List.map_append]
  congr 1
  · conv_rhs => rw [← List.map_id rows]
    apply List.map_congr_left
    intro e he
    simp [hfresh e he]
  · simp [h0]

/-- The CAS on a record that was just created: the record, the only row with
its key, goes from `pending` to `checking`. -/
theorem UpdateStatusToChecking_after_Create (r : SubmissionRepository)
    (record : SubmissionRecord) (hfresh : ∀ e ∈ r.rows, e.ID ≠ record.ID)
    (hp : record.Status = "pending") :
    ((r.Create record).UpdateStatusToChecking record.ID).2 = 1
    ∧ ((r.Create record).UpdateStatusToChecking record.ID).1
        = { r with rows := r.rows ++ [{ record with Status := "checking" }] } := by
  have hf : r.rows.filter (fun e => decide (e.ID = record.ID ∧ e.Status = "pending")) = [] := by
    rw [List.filter_eq_nil_iff]
    intro e he
    simp [hfresh e he]
  have hm : r.rows.map (fun e =>
      if e.ID = record.ID ∧ e.Status = "pending" then { e with Status := "checking" } else e)
      = r.rows := by
    conv_rhs => rw [← List.map_id r.rows]
    apply List.map_congr_left
    intro e he
    simp [hfresh e he]
  constructor
  · simp only [UpdateStatusToChecking, SubmissionRepository.Create, List.filter_append, hf]
    simp [hp]
  · simp only [UpdateStatusToChecking, SubmissionRepository.Create, List.map_append, hm]
    simp [hp]

/-- What an unfiltered dispatch returns when the CAS succeeds and the final
update goes through: the stored record with the valid links, no pending
link, the status `checked`, the duration and the instant of the check. -/
theorem CheckRealtime_ok (s : CheckerService) (order : List Char → List Platform)
    (visit : List Platform) (duration now : Int) (st : Stores) (submissionID : Nat)
    (links : List (List Char)) (record0 : SubmissionRecord)
    (hcas : (st.submissionRepo.UpdateStatusToChecking submissionID).2 ≠ 0)
    (hget : (st.submissionRepo.UpdateStatusToChecking submissionID).1.GetByID submissionID
      = .ok record0)
    (hupd : st.submissionRepo.updateErr st.submissionRepo.updates.length = none) :
    ∃ (st2 : Stores) (validLinks : List (List Char)),
      CheckRealtime s order visit duration now st submissionID links
        = (st2, .ok { record0 with
                      ValidLinks := validLinks
                      PendingLinks := []
                      Status := "checked"
                      TotalDuration := some duration
                      CheckedAt := some now })
      ∧ st2.submissionRepo
        = ((st.submissionRepo.UpdateStatusToChecking submissionID).1.Update
            { record0 with
              ValidLinks := validLinks
              PendingLinks := []
              Status := "checked"
              TotalDuration := some duration
              CheckedAt := some now }).1 := by
  have hupd2 : ((st.submissionRepo.UpdateStatusToChecking submissionID).1).updateErr
      ((st.submissionRepo.UpdateStatusToChecking submissionID).1).updates.length = none := hupd
  unfold CheckRealtime
  rw [if_neg hcas]
  dsimp only
  rw [hget]
  by_cases hl : (uniqueLinkInfos order links).length = 0
  · rw [if_pos hl]
    dsimp only
    rw [Update_success _ _ hupd2]
    exact ⟨_, [], rfl, rfl⟩
  · rw [if_neg hl]
    dsimp only
    rw [Update_success _ _ hupd2]
    exact ⟨_, _, rfl, rfl⟩
/-- When a link of the request is recognised, `CheckLinks` creates a pending
record with the key the database gives, the deduplicated links, the client
address and the selected platforms of the request. -/
theorem CheckLinks_created (order : List Char → List Platform) (rows : List InvalidLink)
    (newID : Nat) (req : CheckLinksRequest) (clientIP : String)
    (hrec : ParseLinks order (dedupLinks req.Links).uniqueLinks ≠ []) :
    ∃ (resp : CheckLinksResponse) (record : SubmissionRecord),
      LinkService.CheckLinks order rows newID req clientIP = (resp, some record)
      ∧ resp.SubmissionID = newID ∧ record.ID = newID ∧ record.Status = "pending"
      ∧ record.OriginalLinks = (dedupLinks req.Links).uniqueLinks
      ∧ record.ClientIP = clientIP ∧ record.SelectedPlatforms = req.SelectedPlatforms := by
  have hl : ¬ (ParseLinks order (dedupLinks req.Links).uniqueLinks).length = 0 := by
    intro h
    exact hrec (List.length_eq_zero.1 h)
  unfold LinkService.CheckLinks
  simp only
  rw [if_neg hl]
  exact ⟨_, _, rfl, rfl, rfl, rfl, rfl, rfl, rfl⟩

/-- Saving an execution whose row is the last of the table, and the only one
with its key, replaces that row. -/
theorem TaskExecution_Update_last (r : TaskExecutionRepository) (rows : List TaskExecution)
    (execution0 x : TaskExecution) (hrows : r.rows = rows ++ [execution0])
    (hsave : r.updateErr = none) (hfresh : ∀ e ∈ rows, e.ID ≠ x.ID)
    (h0 : execution0.ID = x.ID) :
    (r.Update x).1.rows = rows ++ [x] := by
  have hany : ((rows ++ [execution0]).any (fun existing => decide (existing.ID = x.ID)))
      = true := by
    simp [h0]
  simp only [TaskExecutionRepository.Update, hsave, hrows]
  rw [if_pos hany]
  exact map_replace_last (fun e => e.ID) rows execution0 x hfresh h0

/-- The deferred update of an execution that was just created, in a table
that takes the write: the row of the execution is replaced. -/
theorem finishExecution_rows (env : TaskEnv) (r : TaskExecutionRepository)
    (rows : List TaskExecution) (execution0 execution : TaskExecution) (err : Option String)
    (hrows : r.rows = rows ++ [execution0]) (hsave : r.updateErr = none)
    (hfresh : ∀ e ∈ rows, e.ID ≠ execution.ID) (h0 : execution0.ID = execution.ID) :
    ∃ finished : TaskExecution,
      (TaskSchedulerService.finishExecution env r execution err).rows = rows ++ [finished]
      ∧ finished.ID = execution.ID ∧ finished.TaskID = execution.TaskID
      ∧ finished.LinksCount = execution.LinksCount
      ∧ finished.CheckedCount = execution.CheckedCount
      ∧ finished.ValidCount = execution.ValidCount
      ∧ finished.InvalidCount = execution.InvalidCount
      ∧ finished.Status = (if err = none then "success" else "failed") := by
  cases err with
  | none =>
    exact ⟨_, TaskExecution_Update_last r rows execution0 _ hrows hsave hfresh h0,
      rfl, rfl, rfl, rfl, rfl, rfl, rfl⟩
  | some e =>
    exact ⟨_, TaskExecution_Update_last r rows execution0 _ hrows hsave hfresh h0,
      rfl, rfl, rfl, rfl, rfl, rfl, rfl⟩

/-! ## Claims about one run of a scheduled job -/
/-- C24 (counterexample): for the job whose command answers `["quark-link-1"]`
and whose transform returns the raw data, the one link is not recognised, so
no submission is created and the dispatch of the submission 0 is refused: the
execution row ends with the status `failed`, links_count 1 and
checked_count 0. -/
theorem ExecuteTask_unrecognised_link_fails :
    ((TaskSchedulerService.ExecuteTask quarkService
        (s6Env "[\"quark-link-1\"]" ["quark-link-1".toList]) emptyTaskState s6Task).1
      ).executionRepo.rows
      = [{ ID := 1, TaskID := 1, Status := "failed", StartedAt := 100, FinishedAt := some 120,
           ExecutionDuration := some 20,
           ErrorMessage
             := "link check execution failed: submission 0 is already being processed",
           LinksCount := 1, CheckedCount := 0, ValidCount := 0, InvalidCount := 0 }]
    ∧ ((TaskSchedulerService.ExecuteTask quarkService
        (s6Env "[\"quark-link-1\"]" ["quark-link-1".toList]) emptyTaskState s6Task).1
      ).stores.submissionRepo.rows = []
    ∧ (TaskSchedulerService.ExecuteTask quarkService
        (s6Env "[\"quark-link-1\"]" ["quark-link-1".toList]) emptyTaskState s6Task).2
      = some "link check execution failed: submission 0 is already being processed" := by
  refine ⟨?_, ?_, ?_⟩ <;> rfl

/-- C24 (amended): for every job whose stored command and transform produce a
list of n links of which at least one is recognised, in tables that take the
writes and give fresh keys, one run of `ExecuteTask` returns no error, creates
exactly one submission, with client_ip `system` and no platform filter, whose
original links are the distinct trimmed links, dispatches it (its status is
`checked`), and finishes the execution row with the status `success`,
links_count = n and checked_count = the number of distinct trimmed links. -/
theorem ExecuteTask_success (s : CheckerService) (env : TaskEnv) (st : TaskState)
    (task : ScheduledTask) (rawData : String) (links : List (List Char))
    (hcreate : st.executionRepo.createErr = none) (hsave : st.executionRepo.updateErr = none)
    (hexec : ∀ e ∈ st.executionRepo.rows, e.ID ≠ env.executionID)
    (hcurl : env.ExecuteCurlCommand task.CurlCommand = .ok rawData)
    (htrans : env.TransformData rawData task.TransformScript = .ok links)
    (hrec : ParseLinks env.parseOrder (dedupLinks links).uniqueLinks ≠ [])
    (hfresh : ∀ e ∈ st.stores.submissionRepo.rows, e.ID ≠ env.submissionID)
    (hupd : st.stores.submissionRepo.updateErr st.stores.submissionRepo.updates.length
      = none) :
    (TaskSchedulerService.ExecuteTask s env st task).2 = none
    ∧ ∃ (record : SubmissionRecord) (execution : TaskExecution),
        (TaskSchedulerService.ExecuteTask s env st task).1.stores.submissionRepo.rows
          = st.stores.submissionRepo.rows ++ [record]
        ∧ record.ID = env.submissionID ∧ record.ClientIP = "system"
        ∧ record.SelectedPlatforms = [] ∧ record.Status = "checked"
        ∧ record.PendingLinks = []
        ∧ record.OriginalLinks = (dedupLinks links).uniqueLinks
        ∧ (TaskSchedulerService.ExecuteTask s env st task).1.executionRepo.rows
          = st.executionRepo.rows ++ [execution]
        ∧ execution.ID = env.executionID ∧ execution.TaskID = task.ID
        ∧ execution.Status = "success" ∧ execution.LinksCount = links.length
        ∧ execution.CheckedCount = (dedupLinks links).uniqueLinks.length := by
  have hlen : ¬ links.length = 0 := by
    intro h
    apply hrec
    rw [List.length_eq_zero.1 h]
    rfl
  obtain ⟨resp, record0, hcl, hrid, h0id, h0st, h0orig, h0ip, h0sel⟩ :=
    CheckLinks_created env.parseOrder st.stores.world.invalidLinkRepo env.submissionID
      { Links := links, SelectedPlatforms := [] } "system" hrec
  have hfresh0 : ∀ e ∈ st.stores.submissionRepo.rows, e.ID ≠ record0.ID := by
    rw [h0id]; exact hfresh
  have hrid0 : resp.SubmissionID = record0.ID := hrid.trans h0id.symm
  obtain ⟨hcas2, hcas1⟩ :=
    UpdateStatusToChecking_after_Create st.stores.submissionRepo record0 hfresh0 h0st
  have hget : ((st.stores.submissionRepo.Create record0).UpdateStatusToChecking
      record0.ID).1.GetByID record0.ID = .ok { record0 with Status := "checking" } := by
    rw [hcas1]
    unfold GetByID
    dsimp only
    rw [find_append_new st.stores.submissionRepo.rows { record0 with Status := "checking" }
      hfresh0]
  obtain ⟨st2, validLinks, hrun, hrepo⟩ :=
    CheckRealtime_ok s env.order env.visit env.dispatchDuration env.dispatchNow
      { st.stores with submissionRepo := st.stores.submissionRepo.Create record0 }
      record0.ID resp.PendingLinks { record0 with Status := "checking" }
      (by rw [hcas2]; decide) hget hupd
  have hrows : st2.submissionRepo.rows = st.stores.submissionRepo.rows ++
      [{ record0 with
         ValidLinks := validLinks
         PendingLinks := []
         Status := "checked"
         TotalDuration := some env.dispatchDuration
         CheckedAt := some env.dispatchNow }] := by
    rw [hrepo, hcas1]
    simp only [Update, hupd]
    rw [if_pos (by simp)]
    exact map_replace_last SubmissionRecord.ID st.stores.submissionRepo.rows
      { record0 with Status := "checking" }
      { record0 with
        ValidLinks := validLinks
        PendingLinks := []
        Status := "checked"
        TotalDuration := some env.dispatchDuration
        CheckedAt := some env.dispatchNow } hfresh0 rfl
  unfold TaskSchedulerService.ExecuteTask
  simp only [TaskExecutionRepository.Create, hcreate, hcurl, htrans, if_neg hlen, hcl, hrid0,
    hrun]
  obtain ⟨finished, hfin, hfid, hftask, hflinks, hfchecked, _, _, hfstatus⟩ :=
    finishExecution_rows env
      { rows := st.executionRepo.rows ++
          [{ ID := env.executionID, TaskID := task.ID, Status := "running",
             StartedAt := env.started, FinishedAt := none, ExecutionDuration := none,
             ErrorMessage := "", LinksCount := 0, CheckedCount := 0, ValidCount := 0,
             InvalidCount := 0 }],
        createErr := none, updateErr := st.executionRepo.updateErr }
      st.executionRepo.rows _
      { ID := env.executionID, TaskID := task.ID, Status := "running",
        StartedAt := env.started, FinishedAt := none, ExecutionDuration := none,
        ErrorMessage := "", LinksCount := links.length,
        CheckedCount := (dedupLinks links).uniqueLinks.length,
        ValidCount := validLinks.length,
        InvalidCount :=
          (match CheckerService.GetInvalidLinksFromRecord st2 record0.ID with
           | .ok invalidLinks => invalidLinks
           | .error _ => []).length }
      none rfl hsave hexec rfl
  refine ⟨trivial, _, finished, hrows, h0id, h0ip, h0sel, rfl, rfl, h0orig, ?_, hfid, hftask,
    by simpa using hfstatus, hflinks, hfchecked⟩
  rw [← hfin]
  simp only [h0orig]

/-- C24 (amended), at the job whose command answers with the one Quark link
`https://pan.quark.cn/s/a1`: one submission with client_ip `system`, and the
execution row with the status `success`, links_count 1 and checked_count 1. -/
theorem ExecuteTask_success_witness :
    ((TaskSchedulerService.ExecuteTask quarkService
        (s6Env "[\"https://pan.quark.cn/s/a1\"]" [quarkLink]) emptyTaskState s6Task).2 = none
      ∧ ∃ (record : SubmissionRecord) (execution : TaskExecution),
        (TaskSchedulerService.ExecuteTask quarkService
          (s6Env "[\"https://pan.quark.cn/s/a1\"]" [quarkLink]) emptyTaskState
          s6Task).1.stores.submissionRepo.rows
          = emptyTaskState.stores.submissionRepo.rows ++ [record]
        ∧ record.ID = (s6Env "[\"https://pan.quark.cn/s/a1\"]" [quarkLink]).submissionID
        ∧ record.ClientIP = "system"
        ∧ record.SelectedPlatforms = [] ∧ record.Status = "checked"
        ∧ record.PendingLinks = []
        ∧ record.OriginalLinks = (dedupLinks [quarkLink]).uniqueLinks
        ∧ (TaskSchedulerService.ExecuteTask quarkService
          (s6Env "[\"https://pan.quark.cn/s/a1\"]" [quarkLink]) emptyTaskState
          s6Task).1.executionRepo.rows
          = emptyTaskState.executionRepo.rows ++ [execution]
        ∧ execution.ID = (s6Env "[\"https://pan.quark.cn/s/a1\"]" [quarkLink]).executionID
        ∧ execution.TaskID = s6Task.ID
        ∧ execution.Status = "success" ∧ execution.LinksCount = [quarkLink].length
        ∧ execution.CheckedCount = (dedupLinks [quarkLink]).uniqueLinks.length)
    ∧ ((TaskSchedulerService.ExecuteTask quarkService
          (s6Env "[\"https://pan.quark.cn/s/a1\"]" [quarkLink]) emptyTaskState
          s6Task).1.executionRepo.rows
        = [{ ID := 1, TaskID := 1, Status := "success", StartedAt := 100,
             FinishedAt := some 120, ExecutionDuration := some 20, ErrorMessage := "",
             LinksCount := 1, CheckedCount := 1, ValidCount := 1, InvalidCount := 0 }]) :=
  ⟨ExecuteTask_success quarkService (s6Env "[\"https://pan.quark.cn/s/a1\"]" [quarkLink])
    emptyTaskState s6Task "[\"https://pan.quark.cn/s/a1\"]" [quarkLink] rfl rfl
    (fun e he => nomatch he) rfl rfl (by decide) (fun e he => nomatch he) rfl, by rfl⟩

/-! ## Claims about the Baidu address found in a pasted text -/

/-- C27 (evaluation at the failing input): in the text `链接:
https://pan.baidu.com/s/1abc%23x?pwd=1234 提取码: 1234` the located substring
is `https://pan.baidu.com/s/1abc%23x?pwd=1234`, whose `pwd` is `1234`;
`normalizeBaiduURL` rebuilds it from the decoded path as
`https://pan.baidu.com/s/1abc#x?pwd=1234`, an address whose query is empty: the
`pwd` of the result is empty. -/
theorem normalizeBaiduURL_loses_pwd :
    TrimSpace (scanURL ((TrimSpace baiduPaste).drop
        (Index (TrimSpace baiduPaste) "https://pan.baidu.com/s/".toList).toNat))
      = "https://pan.baidu.com/s/1abc%23x?pwd=1234".toList
    ∧ queryPwd baiduUrlLib "https://pan.baidu.com/s/1abc%23x?pwd=1234".toList
      = .ok "1234".toList
    ∧ normalizeBaiduURL baiduUrlLib baiduPaste
      = .ok "https://pan.baidu.com/s/1abc#x?pwd=1234".toList
    ∧ queryPwd baiduUrlLib "https://pan.baidu.com/s/1abc#x?pwd=1234".toList = .ok [] := by
  refine ⟨?_, ?_, ?_, ?_⟩ <;> rfl

end PanCheck
